import Mathlib

/-!
# Trigger-based multi-user access: busy-tone arbitration and fairness credits

A shallow embedding of parts of the Wi-Fi HE model:

* `he-frame-exchange-manager.cc`: the station side of the busy-tone arbitration
  (`ReceiveMpdu` trigger branch, `SendBusyTone`, `ReceiveBasicTriggerAfterA`,
  `SendQosNullFramesInTbPpduAfterA`);
* `rr-multi-user-scheduler.cc`: `FinalizeTxVector` and `UpdateCredits`;
* `he-frame-exchange-manager.cc`: the initiator side of a frame exchange (`SendPsduMap`,
  `TbPpduTimeout`, `BlockAcksInTbPpduTimeout`, `SendMultiStaBlockAck`, `ReceiveMpdu`,
  `EndReceiveAmpdu`), and what `StartFrameExchange` does to the file-scope variables;
* `rr-multi-user-scheduler.cc`: the choice of the format (`DoInitialize`, `SelectTxFormat`,
  `GetTxVectorForUlMu`, `TrySendingBsrpTf`, `TrySendingBasicTf`, `TrySendingDlMuPpdu`) and
  the station lists over time (`NotifyStationAssociated`, `NotifyStationDeassociated`);
* `he-frame-exchange-manager.cc`: `SetTargetRssi`.

File-scope variables of the C++ translation unit (`m_staRuInfo`, `m_nConflict`, ...) are
shared by every station of the simulation and are collected in `Globals`; members of one
`HeFrameExchangeManager` instance are collected in `StaFem`.  Machine integers are `Nat`/`Int`
with an explicit `%` where a conversion narrows; `double` credits are exact rationals.
Dereferencing an end iterator, `vector::at` out of range and a failing `NS_ASSERT` make the
embedded function return `none`.

On the initiator side the calls made on collaborators are recorded in order in a call log
(`Effect`), and the methods of the parent classes, which are not part of these sources, are
functions on the inherited members (`BaseFem`) supplied by the environment (`ApEnv`).
The scheduler acts on `MuWorld` with the collaborators of `MuEnv`.
-/

set_option autoImplicit false

/-! ## Definitions: containers -/

/-- The `std::find_if` search: position and value of the first element satisfying `p`,
`none` when the end iterator is returned. -/
def findIf {α : Type} (p : α → Bool) : List α → Option (Nat × α)
  | [] => none
  | x :: xs => if p x then some (0, x) else (findIf p xs).map (fun r => (r.1 + 1, r.2))

/-- Write through an iterator: the element at position `n` is replaced by `f` of it. -/
def modifyAt {α : Type} (f : α → α) : Nat → List α → List α
  | _, [] => []
  | 0, x :: xs => f x :: xs
  | n + 1, x :: xs => x :: modifyAt f n xs

/-- The `find` of a `std::map` with integer keys, kept as an association list. -/
def mapFind {β : Type} (k : Nat) : List (Nat × β) → Option β
  | [] => none
  | (k1, v) :: m => if k1 = k then some v else mapFind k m

/-- Insert or overwrite in a `std::map` with integer keys (kept sorted by key). -/
def mapSet {β : Type} (k : Nat) (v : β) : List (Nat × β) → List (Nat × β)
  | [] => [(k, v)]
  | (k1, v1) :: m =>
    if k < k1 then (k, v) :: (k1, v1) :: m
    else if k = k1 then (k, v) :: m
    else (k1, v1) :: mapSet k v m

/-! ## Definitions: frames and arbitration state (he-frame-exchange-manager.cc) -/

/-- A MAC address. -/
abbrev Mac48Address := Nat

/-- A simulation time or duration, in nanoseconds. -/
abbrev Time := Int

/-- The `HeRu::RuSpec` record: size class, index and primary-80-MHz flag, compared field by
field by `operator==`. -/
structure RuSpec where
  ruType : Nat
  index : Nat
  primary80MHz : Bool
  deriving DecidableEq, Repr

/-- The variant of a trigger frame, as tested by `IsBasic`, `IsBsrp` and `IsMuBar`. -/
inductive TriggerType where
  | BASIC_TRIGGER
  | BSRP_TRIGGER
  | MU_BAR_TRIGGER
  | OTHER_TRIGGER
  deriving DecidableEq, Repr

/-- One User Info field of a trigger frame. -/
structure CtrlTriggerUserInfoField where
  aid12 : Nat
  ruAllocation : RuSpec
  preferredAc : Nat
  muBarTid : Nat
  muBarMultiTid : Bool
  deriving DecidableEq, Repr

/-- The fields of `CtrlTriggerHeader` read by the station side. -/
structure CtrlTriggerHeader where
  triggerType : TriggerType
  userInfoFields : List CtrlTriggerUserInfoField
  arbitrationSlots : Nat
  mbtaIndicator : Bool
  csRequired : Bool
  ulLength : Nat
  deriving DecidableEq, Repr

/-- The fields of `WifiMacHeader` read by the station side. -/
structure WifiMacHeader where
  addr1 : Mac48Address
  addr1IsBroadcast : Bool
  addr2 : Mac48Address
  duration : Time
  deriving DecidableEq, Repr

/-- The file-scope `struct BusyTone`. -/
structure BusyTone where
  staId : Nat
  arbitrationNum : Nat
  trigger : CtrlTriggerHeader
  hdr : WifiMacHeader
  isWin : Bool
  deriving DecidableEq, Repr

/-- The file-scope `struct HeRuMap`. -/
structure HeRuMap where
  ru : RuSpec
  bt : List BusyTone
  deriving DecidableEq, Repr

/-- The file-scope `struct CandidateInfo`. -/
structure CandidateInfo where
  addr : Mac48Address
  cCount : Int
  sCount : Int
  byte : Int
  bsrpTfReceiveCount : Int
  QosNullReceivedCount : Int
  deriving DecidableEq, Repr

/-- The file-scope variables of he-frame-exchange-manager.cc touched by the station side. -/
structure Globals where
  m_staRuInfo : List HeRuMap
  m_nConflict : Int
  m_wins : Int
  m_ruNum : Int
  m_isArbi : Bool
  m_successes : List CandidateInfo
  m_candidate : Int
  bsrpCand : Int
  m_slot : Int
  deriving DecidableEq, Repr

/-- A PSDU handed to `SendPsduMapWithProtection`: either frames taken from the station's
queues (identified by a handle) or an aggregate of QoS Null frames, one per listed TID. -/
inductive WifiPsdu where
  | queued (handle : Nat) (duration : Time)
  | qosNull (addr1 : Mac48Address) (addr2 : Mac48Address) (duration : Time) (tids : List Nat)
  deriving DecidableEq, Repr

/-- The `WifiTxParameters` of a pending transmission: the station id and RU of its TB TX
vector and the TIDs of the frames added so far. -/
structure WifiTxParameters where
  m_txVector : Option (Nat × RuSpec)
  mpduTids : List Nat
  deriving DecidableEq, Repr

/-- A callback posted with `Simulator::Schedule`. -/
inductive Scheduled where
  | SendBlockAck (sender : Mac48Address) (tid : Nat)
  | SendBusyTone (trigger : CtrlTriggerHeader) (hdr : WifiMacHeader) (staId : Nat) (ru : RuSpec)
      (isBasic : Bool)
  | ReceiveBasicTrigger (trigger : CtrlTriggerHeader) (hdr : WifiMacHeader)
  | SendQosNullFramesInTbPpdu (trigger : CtrlTriggerHeader) (hdr : WifiMacHeader)
  deriving DecidableEq, Repr

/-- The members of one station's `HeFrameExchangeManager` used by the trigger handling.
`staMac` is `none` for a null `m_staMac`, else (associated, association id).
`sendPsduMapCalls` counts the invocations of `SendPsduMapWithProtection`; `scheduled` lists
the callbacks posted by this instance with their delay. -/
structure StaFem where
  m_self : Mac48Address
  m_bssid : Mac48Address
  staMac : Option (Bool × Nat)
  m_txopHolder : Mac48Address
  m_navEnd : Time
  m_triggerFrameInAmpdu : Bool
  m_isbsrp : Bool
  m_psduMap : List (Nat × WifiPsdu)
  m_txParams : WifiTxParameters
  sendPsduMapCalls : Nat
  scheduled : List (Time × Scheduled)
  deriving DecidableEq, Repr

/-- The collaborators of the station: PHY constants, the random variable `m_rand`, the
queues and the size/time limit checks. -/
structure Env where
  now : Time
  sifs : Time
  randInteger : Nat → Nat → Nat
  getNRus : Nat → Nat → Int
  ppduDuration : CtrlTriggerHeader → Time
  hasAgreement : Mac48Address → Nat → Bool
  baAgreementEstablished : Mac48Address → Nat → Bool
  queuedPsdu : CtrlTriggerHeader → WifiMacHeader → Nat → Option (Nat × WifiTxParameters)
  isWithinSizeAndTimeLimits : WifiTxParameters → Nat → Bool

/-! ## Definitions: station-side trigger handling (he-frame-exchange-manager.cc) -/

/-- The lookup `CtrlTriggerHeader::FindUserInfoWithAid`. -/
def FindUserInfoWithAid (trigger : CtrlTriggerHeader) (aid : Nat) :
    Option CtrlTriggerUserInfoField :=
  (findIf (fun u => u.aid12 == aid) trigger.userInfoFields).map (fun r => r.2)

/-- The part of `GetHeTbTxVector` that decides the RU: the station id and the RU of the
station's User Info field.  The three `NS_ASSERT`s are failures. -/
def GetHeTbTxVector (self : StaFem) (trigger : CtrlTriggerHeader) (triggerSender : Mac48Address) :
    Option (Nat × RuSpec) :=
  if triggerSender = self.m_self then none
  else
    match self.staMac with
    | none => none
    | some (_, staId) =>
      match FindUserInfoWithAid trigger staId with
      | none => none
      | some userInfo => some (staId, userInfo.ruAllocation)

/-- The head of `SendPsduMapWithProtection`: the PSDU map and the TX parameters are stored
and the invocation is counted (the transmission itself is not unfolded). -/
def SendPsduMapWithProtection (psduMap : List (Nat × WifiPsdu)) (txParams : WifiTxParameters)
    (self : StaFem) : StaFem :=
  { self with
    m_psduMap := psduMap
    m_txParams := txParams
    sendPsduMapCalls := self.sendPsduMapCalls + 1 }

/-- The carrier-sense test shared by the trigger responders:
`trigger.GetCsRequired () && hdr.GetAddr2 () != m_txopHolder && m_navEnd > Simulator::Now ()`. -/
def csBusy (env : Env) (trigger : CtrlTriggerHeader) (hdr : WifiMacHeader) (self : StaFem) : Bool :=
  trigger.csRequired && (hdr.addr2 != self.m_txopHolder) && decide (self.m_navEnd > env.now)

/-- `NS_ASSERT (m_staMac && m_staMac->IsAssociated ())`. -/
def staAssociated (self : StaFem) : Bool :=
  match self.staMac with
  | some (true, _) => true
  | _ => false

/-- The `while` loop of `SendQosNullFramesInTbPpdu`: one QoS Null frame per TID with a Block
Ack agreement while the size and time limits hold.  At most eight iterations are possible. -/
def qosNullLoop (env : Env) (hdr : WifiMacHeader) :
    Nat → Nat → WifiTxParameters → List Nat → WifiTxParameters × List Nat
  | 0, _, txParams, mpduList => (txParams, mpduList)
  | fuel + 1, tid, txParams, mpduList =>
    if decide (tid < 8) && env.isWithinSizeAndTimeLimits txParams tid then
      if !env.baAgreementEstablished hdr.addr2 tid then
        qosNullLoop env hdr fuel (tid + 1) txParams mpduList
      else
        qosNullLoop env hdr fuel (tid + 1)
          { txParams with mpduTids := txParams.mpduTids ++ [tid] } (mpduList ++ [tid])
    else (txParams, mpduList)

/-- The `while` loop of `SendQosNullFramesInTbPpduAfterA`: one QoS Null frame per TID while
the size and time limits hold. -/
def qosNullLoopAfterA (env : Env) :
    Nat → Nat → WifiTxParameters → List Nat → WifiTxParameters × List Nat
  | 0, _, txParams, mpduList => (txParams, mpduList)
  | fuel + 1, tid, txParams, mpduList =>
    if decide (tid < 8) && env.isWithinSizeAndTimeLimits txParams tid then
      qosNullLoopAfterA env fuel (tid + 1)
        { txParams with mpduTids := txParams.mpduTids ++ [tid] } (mpduList ++ [tid])
    else (txParams, mpduList)

/-- The responder `HeFrameExchangeManager::SendQosNullFramesInTbPpdu`. -/
def SendQosNullFramesInTbPpdu (env : Env) (trigger : CtrlTriggerHeader) (hdr : WifiMacHeader)
    (self : StaFem) : Option StaFem :=
  if !(trigger.triggerType == TriggerType.BASIC_TRIGGER
        || trigger.triggerType == TriggerType.BSRP_TRIGGER) then none
  else if !staAssociated self then none
  else if csBusy env trigger hdr self then some self
  else
    match GetHeTbTxVector self trigger hdr.addr2 with
    | none => none
    | some txVector =>
      let txParams : WifiTxParameters := { m_txVector := some txVector, mpduTids := [] }
      let duration := hdr.duration - env.sifs - env.ppduDuration trigger
      let r := qosNullLoop env hdr 8 0 txParams []
      if r.2.isEmpty then some self
      else
        let psdu := WifiPsdu.qosNull hdr.addr2 self.m_self duration r.2
        some (SendPsduMapWithProtection [(txVector.1, psdu)] r.1 self)

/-- The responder `HeFrameExchangeManager::ReceiveBasicTriggerAfterA`.  The walk over the
TIDs of the station's queues is the collaborator `env.queuedPsdu`. -/
def ReceiveBasicTriggerAfterA (env : Env) (trigger : CtrlTriggerHeader) (hdr : WifiMacHeader)
    (staId : Nat) (ru : RuSpec) (g : Globals) (self : StaFem) : Option StaFem :=
  if !(trigger.triggerType == TriggerType.BASIC_TRIGGER) then none
  else if !staAssociated self then none
  else if csBusy env trigger hdr self then some self
  else
    match findIf (fun i => i.ru == ru) g.m_staRuInfo with
    | none => none
    | some ru_ptr =>
      match findIf (fun i => i.staId == staId) ru_ptr.2.bt with
      | none => none
      | some my_ptr =>
        if !my_ptr.2.isWin then some self
        else
          match FindUserInfoWithAid trigger staId, GetHeTbTxVector self trigger hdr.addr2 with
          | some _, some _ =>
            match env.queuedPsdu trigger hdr staId with
            | some (handle, txParams) =>
              let psdu := WifiPsdu.queued handle
                (hdr.duration - env.sifs - env.ppduDuration trigger)
              some (SendPsduMapWithProtection [(staId, psdu)] txParams self)
            | none => SendQosNullFramesInTbPpdu env trigger hdr self
          | _, _ => none

/-- The responder `HeFrameExchangeManager::SendQosNullFramesInTbPpduAfterA`. -/
def SendQosNullFramesInTbPpduAfterA (env : Env) (trigger : CtrlTriggerHeader)
    (hdr : WifiMacHeader) (staId : Nat) (ru : RuSpec) (g : Globals) (self : StaFem) :
    Option StaFem :=
  if !(trigger.triggerType == TriggerType.BASIC_TRIGGER
        || trigger.triggerType == TriggerType.BSRP_TRIGGER) then none
  else if !staAssociated self then none
  else if csBusy env trigger hdr self then some self
  else
    match findIf (fun i => i.ru == ru) g.m_staRuInfo with
    | none => none
    | some ru_ptr =>
      match findIf (fun i => i.staId == staId) ru_ptr.2.bt with
      | none => none
      | some my_ptr =>
        if !my_ptr.2.isWin then some self
        else
          match GetHeTbTxVector self trigger hdr.addr2 with
          | none => none
          | some txVector =>
            let txParams : WifiTxParameters := { m_txVector := some txVector, mpduTids := [] }
            let duration := hdr.duration - env.sifs - env.ppduDuration trigger
            let r := qosNullLoopAfterA env 8 0 txParams []
            if r.2.isEmpty then some self
            else
              let psdu := WifiPsdu.qosNull hdr.addr2 self.m_self duration r.2
              some (SendPsduMapWithProtection [(staId, psdu)] r.1 self)

/-- One step of the scan loop of `SendBusyTone` over the entries of the RU; the state is
`(max_arbi_num, same_max, staCount)`. -/
def scanStep (acc : Nat × Int × Int) (b : BusyTone) : Nat × Int × Int :=
  if acc.1 < b.arbitrationNum then (b.arbitrationNum, 1, acc.2.2 + 1)
  else if acc.1 = b.arbitrationNum then (acc.1, acc.2.1 + 1, acc.2.2 + 1)
  else (acc.1, acc.2.1, acc.2.2 + 1)

/-- The scan loop of `SendBusyTone`, started from `max_arbi_num = 0`, `same_max = 0`,
`staCount = 0`. -/
def scanBusyTones (bt : List BusyTone) : Nat × Int × Int :=
  bt.foldl scanStep (0, 0, 0)

/-- The arbitration `HeFrameExchangeManager::SendBusyTone`.  Its `staId` parameter is a
`uint8_t`, so the caller's station id is narrowed on entry. -/
def SendBusyTone (env : Env) (trigger : CtrlTriggerHeader) (hdr : WifiMacHeader)
    (staIdArg : Nat) (ru : RuSpec) (isBasic : Bool) (g : Globals) (self : StaFem) :
    Option (Globals × StaFem) :=
  let staId := staIdArg % 256
  match findIf (fun i => i.ru == ru) g.m_staRuInfo with
  | none => none
  | some ru_ptr =>
    if ru_ptr.2.bt.length ≤ 1 then
      match ru_ptr.2.bt with
      | [] => none
      | b :: rest =>
        let g1 : Globals :=
          { g with
            m_staRuInfo :=
              modifyAt (fun m => { m with bt := { b with isWin := true } :: rest })
                ru_ptr.1 g.m_staRuInfo
            m_wins := g.m_wins + 1 }
        (if isBasic then ReceiveBasicTriggerAfterA env trigger hdr staId ru g1 self
         else SendQosNullFramesInTbPpduAfterA env trigger hdr staId ru g1 self).map
          (fun s => (g1, s))
    else
      match findIf (fun i => i.staId == staId) ru_ptr.2.bt with
      | none => none
      | some my_ptr =>
        let scan := scanBusyTones ru_ptr.2.bt
        let g1 : Globals :=
          if scan.1 = my_ptr.2.arbitrationNum then
            { g with
              m_staRuInfo :=
                modifyAt
                  (fun m =>
                    { m with bt := (modifyAt (fun b => { b with isWin := true }) my_ptr.1 m.bt) })
                  ru_ptr.1 g.m_staRuInfo
              m_wins := g.m_wins + 1 }
          else g
        let g2 : Globals :=
          if scan.2.1 > 1 then { g1 with m_nConflict := g1.m_nConflict + 1 } else g1
        (if isBasic then ReceiveBasicTriggerAfterA env trigger hdr staId ru g2 self
         else SendQosNullFramesInTbPpduAfterA env trigger hdr staId ru g2 self).map
          (fun s => (g2, s))

/-- The accessor `HeFrameExchangeManager::GetNConflict`. -/
def GetNConflict (g : Globals) : Int := g.m_nConflict

/-- The statistics update `HeFrameExchangeManager::SetSuccesses`. -/
def SetSuccesses (addr : Mac48Address) (g : Globals) : Globals :=
  match findIf (fun ci => ci.addr == addr) g.m_successes with
  | none => { g with m_successes := g.m_successes ++ [⟨addr, 1, 0, 0, 0, 0⟩] }
  | some itr =>
    { g with m_successes :=
        (modifyAt (fun ci => { ci with cCount := ci.cCount + 1 }) itr.1 g.m_successes) }

/-- The statistics update `HeFrameExchangeManager::SetBsrpTfReceive`. -/
def SetBsrpTfReceive (addr : Mac48Address) (g : Globals) : Globals :=
  match findIf (fun ci => ci.addr == addr) g.m_successes with
  | none => { g with m_successes := g.m_successes ++ [⟨addr, 0, 0, 0, 1, 0⟩] }
  | some itr =>
    { g with m_successes :=
        (modifyAt (fun ci => { ci with bsrpTfReceiveCount := ci.bsrpTfReceiveCount + 1 })
          itr.1 g.m_successes) }

/-- Registration of an arbitration entry in `m_staRuInfo`: appended to the entry list of the
RU when the RU is already present, else a new `HeRuMap` is appended. -/
def registerBusyTone (ru : RuSpec) (busyTone : BusyTone) (staRuInfo : List HeRuMap) :
    List HeRuMap :=
  match findIf (fun i => i.ru == ru) staRuInfo with
  | none => staRuInfo ++ [{ ru := ru, bt := [busyTone] }]
  | some itr => modifyAt (fun m => { m with bt := m.bt ++ [busyTone] }) itr.1 staRuInfo

/-- The branch `hdr.IsTrigger ()` of `HeFrameExchangeManager::ReceiveMpdu`. -/
def ReceiveMpdu_trigger (env : Env) (hdr : WifiMacHeader) (trigger : CtrlTriggerHeader)
    (inAmpdu : Bool) (g : Globals) (self : StaFem) : Option (Globals × StaFem) :=
  match self.staMac with
  | none => some (g, self)
  | some (associated, aid) =>
    if inAmpdu then some (g, { self with m_triggerFrameInAmpdu := true })
    else if hdr.addr1 != self.m_self
        && (!hdr.addr1IsBroadcast || !associated || hdr.addr2 != self.m_bssid
            || (FindUserInfoWithAid trigger aid).isNone) then some (g, self)
    else if !associated then none
    else
      let staId := aid
      match trigger.triggerType with
      | TriggerType.MU_BAR_TRIGGER =>
        match FindUserInfoWithAid trigger staId with
        | none => none
        | some userInfo =>
          if userInfo.muBarMultiTid then none
          else if !env.hasAgreement hdr.addr2 userInfo.muBarTid then some (g, self)
          else
            some (g, { self with scheduled := self.scheduled ++
              [(env.sifs, Scheduled.SendBlockAck hdr.addr2 userInfo.muBarTid)] })
      | TriggerType.BASIC_TRIGGER =>
        match GetHeTbTxVector self trigger hdr.addr2 with
        | none => none
        | some tbTxVector =>
          let ru := tbTxVector.2
          let g1 := { SetSuccesses self.m_self g with m_ruNum := env.getNRus 80 ru.ruType }
          if decide (trigger.arbitrationSlots > 0) && trigger.mbtaIndicator then
            let g2 : Globals := { g1 with m_slot := trigger.arbitrationSlots }
            let arbitrationNum := env.randInteger 0 (2 ^ trigger.arbitrationSlots - 1) % 256
            let busyTone : BusyTone := ⟨staId, arbitrationNum, trigger, hdr, false⟩
            some ({ g2 with m_staRuInfo := registerBusyTone ru busyTone g2.m_staRuInfo },
                  { self with scheduled := self.scheduled ++
                      [(env.sifs, Scheduled.SendBusyTone trigger hdr staId ru true)] })
          else
            some (g1, { self with scheduled := self.scheduled ++
                      [(env.sifs, Scheduled.ReceiveBasicTrigger trigger hdr)] })
      | TriggerType.BSRP_TRIGGER =>
        match GetHeTbTxVector self trigger hdr.addr2 with
        | none => none
        | some tbTxVector =>
          let ru := tbTxVector.2
          let g1 : Globals :=
            SetBsrpTfReceive self.m_self
              { g with
                m_ruNum := env.getNRus 80 ru.ruType
                m_candidate := g.m_candidate + 1
                m_isArbi := false
                bsrpCand := g.bsrpCand + 1 }
          let self1 := { self with m_isbsrp := true }
          if trigger.arbitrationSlots > 0 then
            let g2 : Globals := { g1 with m_slot := trigger.arbitrationSlots }
            let arbitrationNum := env.randInteger 0 (2 ^ trigger.arbitrationSlots - 1) % 256
            let busyTone : BusyTone := ⟨staId, arbitrationNum, trigger, hdr, false⟩
            some ({ g2 with m_staRuInfo := registerBusyTone ru busyTone g2.m_staRuInfo },
                  { self1 with scheduled := self1.scheduled ++
                      [(env.sifs, Scheduled.SendBusyTone trigger hdr staId ru false)] })
          else
            some (g1, { self1 with scheduled := self1.scheduled ++
                      [(env.sifs, Scheduled.SendQosNullFramesInTbPpdu trigger hdr)] })
      | TriggerType.OTHER_TRIGGER => some (g, self)

/-- One pending `SendBusyTone` callback: the arguments bound by `Simulator::Schedule` and the
station instance it runs on. -/
structure BusyToneCall where
  env : Env
  trigger : CtrlTriggerHeader
  hdr : WifiMacHeader
  staId : Nat
  ru : RuSpec
  isBasic : Bool
  self : StaFem

/-- The simulator runs the pending `SendBusyTone` callbacks one after the other on the shared
file-scope variables. -/
def runBusyTones : List BusyToneCall → Globals → Option Globals
  | [], g => some g
  | c :: cs, g =>
    match SendBusyTone c.env c.trigger c.hdr c.staId c.ru c.isBasic g c.self with
    | none => none
    | some r => runBusyTones cs r.1

/-- Entries of the arbitration round of `ru`: the entry list of the first `HeRuMap` whose RU
is `ru` (the one every `std::find_if` of the source selects). -/
def roundEntries (ru : RuSpec) (g : Globals) : List BusyTone :=
  match findIf (fun i => i.ru == ru) g.m_staRuInfo with
  | none => []
  | some ru_ptr => ru_ptr.2.bt

/-! ## Concrete scenario: five stations on one RU with drawn numbers 1, 3, 3, 0, 2 -/

/-- A collaborator set with idle queues and no time limit pressure. -/
def exEnv : Env :=
  { now := 0
    sifs := 16000
    randInteger := fun lo _ => lo
    getNRus := fun _ _ => 1
    ppduDuration := fun _ => 100000
    hasAgreement := fun _ _ => true
    baAgreementEstablished := fun _ _ => true
    queuedPsdu := fun _ _ _ => none
    isWithinSizeAndTimeLimits := fun _ _ => true }

/-- The RU shared by the stations of the scenario. -/
def exRu : RuSpec := ⟨0, 1, true⟩

/-- A BSRP trigger with arbitration slot count 2 that gives the RU `exRu` to stations 1..5. -/
def exTrigger : CtrlTriggerHeader :=
  { triggerType := TriggerType.BSRP_TRIGGER
    userInfoFields := [1, 2, 3, 4, 5].map (fun a => ⟨a, exRu, 0, 0, false⟩)
    arbitrationSlots := 2
    mbtaIndicator := true
    csRequired := false
    ulLength := 100 }

/-- The MAC header of the trigger: broadcast, sent by the AP with address 100. -/
def exHdr : WifiMacHeader := ⟨0, true, 100, 500000⟩

/-- The station with association id `aid` (MAC address `aid`), associated with the AP. -/
def exSta (aid : Nat) : StaFem :=
  { m_self := aid
    m_bssid := 100
    staMac := some (true, aid)
    m_txopHolder := 100
    m_navEnd := 0
    m_triggerFrameInAmpdu := false
    m_isbsrp := false
    m_psduMap := []
    m_txParams := ⟨none, []⟩
    sendPsduMapCalls := 0
    scheduled := [] }

/-- The arbitration entry of station `aid` with drawn number `num`. -/
def exEntry (aid num : Nat) : BusyTone := ⟨aid, num, exTrigger, exHdr, false⟩

/-- The file-scope variables once the five stations registered 1, 3, 3, 0, 2. -/
def exGlobals : Globals :=
  { m_staRuInfo := [⟨exRu, [exEntry 1 1, exEntry 2 3, exEntry 3 3, exEntry 4 0, exEntry 5 2]⟩]
    m_nConflict := 0
    m_wins := 0
    m_ruNum := 1
    m_isArbi := false
    m_successes := []
    m_candidate := 0
    bsrpCand := 0
    m_slot := 2 }

/-- The pending `SendBusyTone` callback of station `aid` in the scenario. -/
def exCall (aid : Nat) : BusyToneCall := ⟨exEnv, exTrigger, exHdr, aid, exRu, false, exSta aid⟩

/-! ## Definitions: round-robin scheduler (rr-multi-user-scheduler.cc) -/

/-- The record `MasterInfo` of a station list: association id, address and fairness credit
(a `double` in the source, exact here). -/
structure MasterInfo where
  aid : Nat
  address : Mac48Address
  credits : ℚ
  deriving DecidableEq

/-- The record `HeMuUserInfo` of a TX vector. -/
structure HeMuUserInfo where
  ru : RuSpec
  mcs : Nat
  nss : Nat
  deriving DecidableEq, Repr

/-- The user-info map of a `WifiTxVector`, a `std::map` keyed by station id. -/
abbrev HeMuUserInfoMap := List (Nat × HeMuUserInfo)

/-- An element of `m_candidates`: the iterator into the station list (a position in the list
the candidates were collected from) and the handle of the peeked MPDU, if any. -/
structure Candidate where
  first : Nat
  second : Option Nat
  deriving DecidableEq, Repr

/-- The functions of `HeRu` used by the scheduler; they are defined outside the embedded
files and are parameters here.  `getEqualSizedRusForStations bw n` returns the RU type, the
updated station count and the number of central 26-tone RUs. -/
structure HeRuModel where
  getEqualSizedRusForStations : Nat → Nat → Nat × Nat × Nat
  getRusOfType : Nat → Nat → List RuSpec
  getCentral26TonesRus : Nat → Nat → List RuSpec
  getBandwidth : Nat → Nat

/-- The members of `RrMultiUserScheduler` read by `FinalizeTxVector` and `UpdateCredits`;
`m_maxCredits` is the attribute converted to microseconds. -/
structure RrMultiUserScheduler where
  m_allowedWidth : Nat
  m_useCentral26TonesRus : Bool
  m_maxCredits : ℚ
  m_candidates : List Candidate

/-- The loop of `FinalizeTxVector`.  Arguments: iterations left, loop index `i`, `candidateIt`,
`ruSetIt`, `central26TonesRusIt` (iterators are the remaining suffixes) and the TX vector
being filled.  Returns the TX vector and `candidateIt` at loop exit.  Every iteration
dereferences `ruSetIt` (the statement printing `*ruSetIt`), also the iterations that take a
central 26-tone RU. -/
def finalizeLoop (staList : List MasterInfo) (heMuUserInfoMap : HeMuUserInfoMap)
    (nRusAssigned : Nat) :
    Nat → Nat → List Candidate → List RuSpec → List RuSpec → HeMuUserInfoMap →
      Option (HeMuUserInfoMap × List Candidate)
  | 0, _, candidateIt, _, _, txVector => some (txVector, candidateIt)
  | n + 1, i, candidateIt, ruSetIt, central26TonesRusIt, txVector =>
    match candidateIt with
    | [] => none
    | c :: candidateNext =>
      match staList[c.first]? with
      | none => none
      | some sta =>
        match mapFind sta.aid heMuUserInfoMap with
        | none => none
        | some info =>
          match ruSetIt with
          | [] => none
          | ru :: ruSetNext =>
            if i < nRusAssigned then
              finalizeLoop staList heMuUserInfoMap nRusAssigned n (i + 1) candidateNext
                ruSetNext central26TonesRusIt (mapSet sta.aid ⟨ru, info.mcs, info.nss⟩ txVector)
            else
              match central26TonesRusIt with
              | [] => none
              | central :: centralNext =>
                finalizeLoop staList heMuUserInfoMap nRusAssigned n (i + 1) candidateNext
                  (ru :: ruSetNext) centralNext
                  (mapSet sta.aid ⟨central, info.mcs, info.nss⟩ txVector)

/-- The method `RrMultiUserScheduler::FinalizeTxVector (WifiTxVector&)`.  `staList` is the
station list the candidate iterators point into.  Returns the user-info map of the TX vector
and the candidate list after the `erase`. -/
def FinalizeTxVector (heRu : HeRuModel) (s : RrMultiUserScheduler) (staList : List MasterInfo)
    (txVector : HeMuUserInfoMap) : Option (HeMuUserInfoMap × List Candidate) :=
  if txVector.length ≠ s.m_candidates.length then none
  else
    let r := heRu.getEqualSizedRusForStations s.m_allowedWidth s.m_candidates.length
    let ruType := r.1
    let nRusAssigned := r.2.1
    let nCentral26TonesRus :=
      if !s.m_useCentral26TonesRus || s.m_candidates.length == nRusAssigned then 0
      else min ((s.m_candidates.length + 2 ^ 64 - nRusAssigned) % 2 ^ 64) r.2.2
    let ruSet := heRu.getRusOfType s.m_allowedWidth ruType
    let central26TonesRus := heRu.getCentral26TonesRus s.m_allowedWidth ruType
    match finalizeLoop staList txVector nRusAssigned (nRusAssigned + nCentral26TonesRus) 0
        s.m_candidates ruSet central26TonesRus [] with
    | none => none
    | some (txVectorOut, candidateIt) =>
      some (txVectorOut,
        s.m_candidates.take (s.m_candidates.length - candidateIt.length))

/-- The statement `ruMap.insert ({type, 0}).first->second++` on the `std::map` counting the
RUs of each type. -/
def ruMapCount (ruType : Nat) : List (Nat × Nat) → List (Nat × Nat)
  | [] => [(ruType, 1)]
  | (t, c) :: m =>
    if ruType < t then (ruType, 1) :: (t, c) :: m
    else if ruType = t then (t, c + 1) :: m
    else (t, c) :: ruMapCount ruType m

/-- The first loop of `UpdateCredits`: how many RUs of each type the TX vector allocates. -/
def buildRuMap (txVector : HeMuUserInfoMap) : List (Nat × Nat) :=
  txVector.foldl (fun m userInfo => ruMapCount userInfo.2.ru.ruType m) []

/-- Conversion of a 64-bit unsigned value to `int`. -/
def toInt32 (n : Nat) : Int :=
  if n % 2 ^ 32 < 2 ^ 31 then ((n % 2 ^ 32 : Nat) : Int) else ((n % 2 ^ 32 : Nat) : Int) - 2 ^ 32

/-- The `std::accumulate` of `UpdateCredits`: the accumulator is an `int`, the lambda takes
it as a `uint16_t` and returns a `size_t`. -/
def accumulateBandwidth (getBandwidth : Nat → Nat) (ruMap : List (Nat × Nat)) : Int :=
  ruMap.foldl
    (fun acc pair => toInt32 (((acc % 65536).toNat + pair.2 * getBandwidth pair.1) % 2 ^ 64)) 0

/-- The second loop of `UpdateCredits`: every candidate pays for the bandwidth of its RU. -/
def debitCandidates (getBandwidth : Nat → Nat) (debitsPerMhz : ℚ) (txVector : HeMuUserInfoMap) :
    List Candidate → List MasterInfo → Option (List MasterInfo)
  | [], staList => some staList
  | candidate :: rest, staList =>
    match staList[candidate.first]? with
    | none => none
    | some sta =>
      match mapFind sta.aid txVector with
      | none => none
      | some info =>
        debitCandidates getBandwidth debitsPerMhz txVector rest
          (modifyAt
            (fun m => { m with credits :=
              m.credits - debitsPerMhz * (getBandwidth info.ru.ruType : ℚ) })
            candidate.first staList)

/-- Stable insertion of `x` into a list ordered by `comp`: after every element that must
precede `x`, before the others. -/
def orderedInsertBy {α : Type} (comp : α → α → Bool) (x : α) : List α → List α
  | [] => [x]
  | y :: ys => if comp y x then y :: orderedInsertBy comp x ys else x :: y :: ys

/-- The stable sort `std::list::sort (comp)`. -/
def listSort {α : Type} (comp : α → α → Bool) : List α → List α
  | [] => []
  | x :: xs => orderedInsertBy comp x (listSort comp xs)

/-- The first assignment loop of `UpdateCredits`: every station earns `creditsPerSta`, up to
the ceiling. -/
def assignCredits (creditsPerSta maxCredits : ℚ) (staList : List MasterInfo) : List MasterInfo :=
  staList.map (fun sta => { sta with credits := min (sta.credits + creditsPerSta) maxCredits })

/-- The method `RrMultiUserScheduler::UpdateCredits`; `txDuration` is the duration in
microseconds. -/
def UpdateCredits (heRu : HeRuModel) (s : RrMultiUserScheduler) (staList : List MasterInfo)
    (txDuration : ℚ) (txVector : HeMuUserInfoMap) : Option (List MasterInfo) :=
  let ruMap := buildRuMap txVector
  let creditsPerSta := txDuration / (staList.length : ℚ)
  let debitsPerMhz := txDuration / ((accumulateBandwidth heRu.getBandwidth ruMap : Int) : ℚ)
  match debitCandidates heRu.getBandwidth debitsPerMhz txVector s.m_candidates
      (assignCredits creditsPerSta s.m_maxCredits staList) with
  | none => none
  | some debited => some (listSort (fun a b => decide (a.credits > b.credits)) debited)

/-- One round of a sequence of `UpdateCredits` calls: the duration, the TX vector and the
candidates served in the round. -/
structure CreditRound where
  txDuration : ℚ
  txVector : HeMuUserInfoMap
  candidates : List Candidate

/-- Successive `UpdateCredits` rounds on one station list. -/
def runCreditRounds (heRu : HeRuModel) (s : RrMultiUserScheduler) :
    List CreditRound → List MasterInfo → Option (List MasterInfo)
  | [], staList => some staList
  | r :: rs, staList =>
    match UpdateCredits heRu { s with m_candidates := r.candidates } staList r.txDuration
        r.txVector with
    | none => none
    | some next => runCreditRounds heRu s rs next

/-- Well-formedness of a pending `SendBusyTone` callback, as posted by `ReceiveMpdu`: the
station is associated, the trigger is of the variant the callback was bound for, it was not
sent by the station itself and it carries a User Info field for the station. -/
def callOk (c : BusyToneCall) : Bool :=
  staAssociated c.self
  && (if c.isBasic then c.trigger.triggerType == TriggerType.BASIC_TRIGGER
      else (c.trigger.triggerType == TriggerType.BASIC_TRIGGER
            || c.trigger.triggerType == TriggerType.BSRP_TRIGGER))
  && (GetHeTbTxVector c.self c.trigger c.hdr.addr2).isSome
  && (FindUserInfoWithAid c.trigger (c.staId % 256)).isSome

/-- The entry `b` after the stations listed in `done` have evaluated the round whose maximum
drawn number is `maxNum`: flagged when its station is in `done` and its number is `maxNum`. -/
def markWin (maxNum : Nat) (done : List Nat) (b : BusyTone) : BusyTone :=
  if b.staId ∈ done ∧ b.arbitrationNum = maxNum then { b with isWin := true } else b

/-- Number of entries of a round whose drawn number is maximal in the round. -/
def maxTies (bt : List BusyTone) : Nat :=
  (bt.filter (fun b => bt.all (fun x => decide (x.arbitrationNum ≤ b.arbitrationNum)))).length

/-- A Basic trigger with arbitration slot count 2 whose MBTA indicator is not set. -/
def exBasicNoMbta : CtrlTriggerHeader :=
  { exTrigger with triggerType := TriggerType.BASIC_TRIGGER, mbtaIndicator := false }

/-- The file-scope variables before any station registered an entry. -/
def exGlobals0 : Globals := { exGlobals with m_staRuInfo := [] }

/-- The file-scope variables once station 5 alone registered the number 0 on `exRu`. -/
def exGlobals1 : Globals := { exGlobals with m_staRuInfo := [⟨exRu, [exEntry 5 0]⟩] }

/-! ## Definitions: quantities named by the claims on the scheduler -/

/-- Sum of the bandwidths of all RUs allocated in the TX vector. -/
def totalBandwidth (heRu : HeRuModel) (txVector : HeMuUserInfoMap) : Nat :=
  (txVector.map (fun userInfo => heRu.getBandwidth userInfo.2.ru.ruType)).sum

/-- The candidates are iterators into `staList` and each has an entry in the TX vector (the
`NS_ASSERT` of the debit loop). -/
def candidatesValid (staList : List MasterInfo) (txVector : HeMuUserInfoMap)
    (candidates : List Candidate) : Bool :=
  candidates.all (fun c =>
    match staList[c.first]? with
    | none => false
    | some sta => (mapFind sta.aid txVector).isSome)

/-- The credit of the station at position `i` of the list after one round, as a closed
formula: the clamped grant, minus the bandwidth share when the station is a candidate. -/
def creditAfter (heRu : HeRuModel) (s : RrMultiUserScheduler) (n : Nat) (txDuration : ℚ)
    (txVector : HeMuUserInfoMap) (i : Nat) (sta : MasterInfo) : ℚ :=
  min (sta.credits + txDuration / (n : ℚ)) s.m_maxCredits
    - (if i ∈ s.m_candidates.map (fun c => c.first) then
        match mapFind sta.aid txVector with
        | some info =>
          txDuration * (heRu.getBandwidth info.ru.ruType : ℚ)
            / (totalBandwidth heRu txVector : ℚ)
        | none => 0
       else 0)

/-- Sum of the credits of a station list. -/
def sumCredits (staList : List MasterInfo) : ℚ := (staList.map (fun sta => sta.credits)).sum

/-- The debit charged to the station the candidate `c` points at, for a price
`debitsPerMhz`. -/
def debitOf (getBandwidth : Nat → Nat) (debitsPerMhz : ℚ) (txVector : HeMuUserInfoMap)
    (staList : List MasterInfo) (c : Candidate) : ℚ :=
  match staList[c.first]? with
  | none => 0
  | some sta =>
    match mapFind sta.aid txVector with
    | none => 0
    | some info => debitsPerMhz * (getBandwidth info.ru.ruType : ℚ)

/-- The debits charged in one round to the served candidates, summed. -/
def chargedDebits (heRu : HeRuModel) (r : CreditRound) (staList : List MasterInfo) : ℚ :=
  (r.candidates.map
    (debitOf heRu.getBandwidth
      (r.txDuration / ((accumulateBandwidth heRu.getBandwidth (buildRuMap r.txVector) : Int) : ℚ))
      r.txVector staList)).sum

/-- The debits charged over successive rounds, summed. -/
def totalDebits (heRu : HeRuModel) (s : RrMultiUserScheduler) :
    List CreditRound → List MasterInfo → ℚ
  | [], _ => 0
  | r :: rs, staList =>
    chargedDebits heRu r staList
      + (match UpdateCredits heRu { s with m_candidates := r.candidates } staList r.txDuration
            r.txVector with
         | none => 0
         | some next => totalDebits heRu s rs next)

/-- The grants of successive rounds on a list of `n` stations, summed: each round grants
`n` times `txDuration / n`. -/
def totalGrants (n : Nat) (rounds : List CreditRound) : ℚ :=
  (rounds.map (fun r => (n : ℚ) * (r.txDuration / (n : ℚ)))).sum

/-- In every round of the sequence the candidates are valid and no station reaches the
`MaxCredits` ceiling when it receives its grant. -/
def roundsUnclamped (heRu : HeRuModel) (s : RrMultiUserScheduler) :
    List CreditRound → List MasterInfo → Prop
  | [], _ => True
  | r :: rs, staList =>
    candidatesValid staList r.txVector r.candidates = true
    ∧ (∀ sta ∈ staList, sta.credits + r.txDuration / (staList.length : ℚ) ≤ s.m_maxCredits)
    ∧ (∀ next, UpdateCredits heRu { s with m_candidates := r.candidates } staList r.txDuration
          r.txVector = some next → roundsUnclamped heRu s rs next)

/-! ## Concrete scheduler scenarios -/

/-- An RU table of a 20 MHz channel with four 52-tone RUs (type tag 1, 4 MHz each) and one
central 26-tone RU (type tag 0, 2 MHz). -/
def exHeRu : HeRuModel :=
  { getEqualSizedRusForStations := fun _ n => (1, min n 4, 1)
    getRusOfType := fun _ t => [⟨t, 1, true⟩, ⟨t, 2, true⟩, ⟨t, 3, true⟩, ⟨t, 4, true⟩]
    getCentral26TonesRus := fun _ _ => [⟨0, 5, true⟩]
    getBandwidth := fun t => if t = 1 then 4 else 2 }

/-- A scheduler on 20 MHz with the default `MaxCredits` of one second and the given
candidates. -/
def exSched (candidates : List Candidate) : RrMultiUserScheduler :=
  { m_allowedWidth := 20
    m_useCentral26TonesRus := false
    m_maxCredits := 1000000
    m_candidates := candidates }

/-- Four associated stations with credit 0. -/
def exStaList : List MasterInfo := [⟨1, 11, 0⟩, ⟨2, 12, 0⟩, ⟨3, 13, 0⟩, ⟨4, 14, 0⟩]

/-- A TX vector serving stations 1 and 3 on two 52-tone RUs. -/
def exTxVector : HeMuUserInfoMap := [(1, ⟨⟨1, 1, true⟩, 7, 1⟩), (3, ⟨⟨1, 2, true⟩, 7, 1⟩)]

/-- The TX vector of four candidates before `FinalizeTxVector`: RUs still undefined. -/
def exTxVectorUndefined : HeMuUserInfoMap :=
  [(1, ⟨⟨0, 0, false⟩, 7, 1⟩), (2, ⟨⟨0, 0, false⟩, 7, 1⟩), (3, ⟨⟨0, 0, false⟩, 7, 1⟩),
   (4, ⟨⟨0, 0, false⟩, 7, 1⟩)]

/-- A round of 100 microseconds serving the first and third station of the list. -/
def exRound : CreditRound := ⟨100, exTxVector, [⟨0, none⟩, ⟨2, none⟩]⟩

/-- A round of 100 microseconds that serves no station. -/
def exIdleRound : CreditRound := ⟨100, [], []⟩

/-- One station whose credit is 10 microseconds below the ceiling. -/
def exNearCeiling : List MasterInfo := [⟨1, 11, 999990⟩]

/-! ## Definitions: the stations named by a candidate list -/

/-- The station ids (AIDs) of the stations a candidate list points at, in candidate order. -/
def candidateAids (staList : List MasterInfo) (cands : List Candidate) : List Nat :=
  cands.filterMap (fun c => (staList[c.first]?).map (fun sta => sta.aid))

/-- Five associated stations with credit 0. -/
def exStaList5 : List MasterInfo :=
  [⟨1, 11, 0⟩, ⟨2, 12, 0⟩, ⟨3, 13, 0⟩, ⟨4, 14, 0⟩, ⟨5, 15, 0⟩]

/-- The TX vector of five candidates before `FinalizeTxVector`: RUs still undefined. -/
def exTxVectorUndefined5 : HeMuUserInfoMap :=
  [(1, ⟨⟨0, 0, false⟩, 7, 1⟩), (2, ⟨⟨0, 0, false⟩, 7, 1⟩), (3, ⟨⟨0, 0, false⟩, 7, 1⟩),
   (4, ⟨⟨0, 0, false⟩, 7, 1⟩), (5, ⟨⟨0, 0, false⟩, 7, 1⟩)]

/-- The number of candidates `FinalizeTxVector` serves: the loop bound
`nRusAssigned + nCentral26TonesRus` of the method. -/
def nServed (heRu : HeRuModel) (s : RrMultiUserScheduler) : Nat :=
  let r := heRu.getEqualSizedRusForStations s.m_allowedWidth s.m_candidates.length
  r.2.1 +
    (if !s.m_useCentral26TonesRus || s.m_candidates.length == r.2.1 then 0
     else min ((s.m_candidates.length + 2 ^ 64 - r.2.1) % 2 ^ 64) r.2.2)

/-! ## Definitions: the initiator side of a frame exchange (he-frame-exchange-manager.cc) -/

/-- The station id `SU_STA_ID` under which a single-user PSDU is stored in a PSDU map. -/
def SU_STA_ID : Nat := 65535

/-- The enumeration `WifiTxTimer::Reason`. -/
inductive TimerReason where
  | NOT_RUNNING
  | WAIT_CTS
  | WAIT_NORMAL_ACK
  | WAIT_BLOCK_ACK
  | WAIT_NORMAL_ACK_AFTER_DL_MU_PPDU
  | WAIT_BLOCK_ACKS_IN_TB_PPDU
  | WAIT_TB_PPDU_AFTER_BASIC_TF
  | WAIT_QOS_NULL_AFTER_BSRP_TF
  | WAIT_BLOCK_ACK_AFTER_TB_PPDU
  deriving DecidableEq, Repr

/-- The timeout method bound by `m_txTimer.Set`.  `TbPpduTimeout` and
`BlockAcksInTbPpduTimeout` are bound with the addresses of `m_psduMap` and
`m_staExpectTbPpduFrom` (read when the timer fires) and with the size of the expected set at
the time of the call (`nSolicitedStations`, bound by value). -/
inductive TimeoutCallback where
  | NormalAckTimeout
  | BlockAckTimeout
  | BlockAcksInTbPpduTimeout (nSolicitedStations : Nat)
  | TbPpduTimeout (nSolicitedStations : Nat)
  | BlockAckAfterTbPpduTimeout
  | OtherTimeout
  deriving DecidableEq, Repr

/-- The member `m_txTimer`: whether it is running, and the reason, delay and callback given to
the last `Set`. -/
structure WifiTxTimer where
  running : Bool
  reason : TimerReason
  delay : Time
  callback : TimeoutCallback
  deriving DecidableEq, Repr

/-- The call `m_txTimer.Set (reason, delay, callback, ...)`. -/
def WifiTxTimer.Set (reason : TimerReason) (delay : Time) (callback : TimeoutCallback) :
    WifiTxTimer :=
  ⟨true, reason, delay, callback⟩

/-- The call `m_txTimer.Cancel ()`. -/
def WifiTxTimer.Cancel (t : WifiTxTimer) : WifiTxTimer :=
  { t with running := false }

/-- The enumeration `WifiAcknowledgment::Method`. -/
inductive AckMethod where
  | NONE
  | NORMAL_ACK
  | BLOCK_ACK
  | BAR_BLOCK_ACK
  | DL_MU_BAR_BA_SEQUENCE
  | DL_MU_TF_MU_BAR
  | DL_MU_AGGREGATE_TF
  | UL_MU_MULTI_STA_BA
  | ACK_AFTER_TB_PPDU
  deriving DecidableEq, Repr

/-- A `WifiTxVector` as far as the frame exchange manager looks into it: the UL MU flag, the
L-SIG length, the per-station user infos, the aggregation flag, and a tag standing for the
remaining fields. -/
structure TxVector where
  isUlMu : Bool
  length : Nat
  heMuUserInfoMap : HeMuUserInfoMap
  aggregation : Bool
  other : Nat
  deriving DecidableEq, Repr

/-- The contents of a MU-BAR Trigger Frame built by `PrepareMuBar`: UL length, CS Required,
the station ids of its User Info fields, and the receiver address (`none` for broadcast). -/
structure MuBarInfo where
  ulLength : Nat
  csRequired : Bool
  aids : List Nat
  rxAddress : Option Mac48Address
  deriving DecidableEq, Repr

/-- An MPDU of a PSDU being transmitted: the predicates of its header that the manager
tests, its TID, and its contents when it is a MU-BAR Trigger Frame. -/
structure TxMpdu where
  isTrigger : Bool
  isQosData : Bool
  hasData : Bool
  qosTid : Nat
  muBar : Option MuBarInfo
  deriving DecidableEq, Repr

/-- A PSDU being transmitted: receiver address, MPDUs, the TIDs of its QoS data frames
(`GetTids`), the Duration/ID field, and the results of `IsAggregate` and `IsSingle`. -/
structure TxPsdu where
  addr1 : Mac48Address
  mpdus : List TxMpdu
  tids : List Nat
  duration : Time
  isAggregate : Bool
  isSingle : Bool
  deriving DecidableEq, Repr

/-- The `WifiAcknowledgment` object pointed to by `m_txParams.m_acknowledgment`, with the
fields of all the subclasses the manager casts it to.  The station maps are kept in key
order; a station's value is its response TX vector (`ackTxVector`, `blockAckTxVector`).
`stationsReceivingMultiStaBa` maps (address, TID) to an index; `baTypeBitmapLen` is
`baType.m_bitmapLen`. -/
structure WifiAcknowledgment where
  method : AckMethod
  acknowledgmentTime : Time
  stationsReplyingWithNormalAck : List (Mac48Address × TxVector)
  stationsReplyingWithBlockAck : List (Mac48Address × TxVector)
  stationsSendBlockAckReqTo : List Mac48Address
  stationsReceivingMultiStaBa : List ((Mac48Address × Nat) × Nat)
  baTypeBitmapLen : List Nat
  ulLength : Nat
  tbPpduTxVector : TxVector
  muBarTxVector : TxVector
  multiStaBaTxVector : TxVector
  deriving DecidableEq, Repr

/-- The member `m_txParams` of a transmission: TX vector and acknowledgment (`none` for a
null pointer). -/
structure TxParameters where
  m_txVector : TxVector
  m_acknowledgment : Option WifiAcknowledgment
  deriving DecidableEq, Repr

/-- The values of `WifiMacType` the statistics code compares the frame type with. -/
inductive WifiMacType where
  | WIFI_MAC_QOSDATA
  | WIFI_MAC_QOSDATA_NULL
  | WIFI_MAC_OTHER
  deriving DecidableEq, Repr

/-- One Per AID TID Info subfield of a Multi-STA BlockAck: AID, TID, ack type, and whether
its bitmap has a nonzero byte. -/
structure PerAidTidInfo where
  aid11 : Nat
  tid : Nat
  ackType : Bool
  bitmapNonZero : Bool
  deriving DecidableEq, Repr

/-- A received MPDU with the reception parameters: header addresses, the header predicates
the manager tests (`IsCtl`, `IsCts`, ...), QoS fields, packet size, the SNR, and the
contents of the control header it carries (BlockAckReq, BlockAck, Trigger). -/
structure RxMpdu where
  hdr : WifiMacHeader
  addr1IsGroup : Bool
  macType : WifiMacType
  isCtl : Bool
  isCts : Bool
  isAck : Bool
  isBlockAck : Bool
  isBlockAckReq : Bool
  isTrigger : Bool
  isQosData : Bool
  hasData : Bool
  qosAckPolicyNormal : Bool
  qosTid : Nat
  qosQueueSize : Nat
  packetSize : Nat
  snr : Int
  barIsMultiTid : Bool
  barTidInfo : Nat
  baIsMultiSta : Bool
  baTidInfo : Nat
  baPerAidTidInfo : List PerAidTidInfo
  trigger : CtrlTriggerHeader
  deriving DecidableEq, Repr

/-- A received A-MPDU: transmitter address, its TIDs in increasing order, each with whether
the ack policy for the TID is Normal Ack, and the MPDUs. -/
structure RxPsdu where
  addr2 : Mac48Address
  tids : List (Nat × Bool)
  mpdus : List RxMpdu
  deriving DecidableEq, Repr

/-- One entry of the Multi-STA BlockAck built by `SendMultiStaBlockAck`. -/
structure MultiStaBaEntry where
  aid11 : Nat
  tidInfo : Nat
  ackType : Bool
  bitmapFilled : Bool
  deriving DecidableEq, Repr

/-- A callback posted with `Simulator::Schedule` by the initiator side. -/
inductive ApScheduled where
  | SendMultiStaBlockAck
  | SendPsduMap
  | TransmissionSucceeded
  | ClearPsduMap
  deriving DecidableEq, Repr

/-- The calls the manager makes on its collaborators (channel access, remote station
manager, block ack manager, PHY, simulator) and on the methods of its parent classes, in the
order they are made. -/
inductive Effect where
  | UpdateFailedCw
  | ResetCw
  | TransmissionFailed
  | TransmissionSucceeded
  | ReportDataFailed (psdu : TxPsdu)
  | MissedBlockAck (psdu : TxPsdu)
  | NotifyAckTimeoutStartNow (timeout : Time)
  | NotifyAckTimeoutResetNow
  | NotifyCtsTimeoutResetNow
  | ScheduleBar (receiver : Mac48Address) (tid : Nat)
  | ScheduleMuBar (muBar : TxMpdu)
  | ForwardTriggerDown (triggerFrame : TxMpdu) (duration : Time) (txVector : TxVector)
  | ForwardMultiStaBlockAck (addr1 : Option Mac48Address) (entries : List (Nat × MultiStaBaEntry))
      (duration : Time) (snrTag : List (Nat × Int)) (txVector : TxVector)
  | NotifyTxToEdca (psdu : TxPsdu)
  | PhySend (psduMap : List (Nat × TxPsdu)) (txVector : TxVector)
  | SetTrigVector (trigVector : TxVector) (delay : Time)
  | Schedule (delay : Time) (callback : ApScheduled)
  | ParentReceiveMpdu (mpdu : RxMpdu) (inAmpdu : Bool)
  | ParentEndReceiveAmpdu (psdu : RxPsdu)
  | ReceivedNormalAck (staId : Nat)
  | ReportRxOk (sender : Mac48Address)
  | ReportRtsOk
  | NotifyReceivedBar (sender : Mac48Address) (tid : Nat)
  | NotifyReceivedMpdu (sender : Mac48Address) (tid : Nat)
  | NotifyGotAck (staId : Nat)
  | NotifyGotBlockAck (sender : Mac48Address) (tid : Nat)
  | ReportAmpduTxStatus (sender : Mac48Address)
  | StartMuEdcaTimerNow (tid : Nat)
  deriving DecidableEq, Repr

/-- The members inherited from the parent frame exchange managers, which their methods
(`TransmissionSucceeded`, `VhtFrameExchangeManager::ReceiveMpdu`, ...) can change: the TX
timer, whether `m_edca` is set, the TXOP holder and the NAV end. -/
structure BaseFem where
  m_txTimer : WifiTxTimer
  m_edca : Bool
  m_txopHolder : Mac48Address
  m_navEnd : Time
  deriving DecidableEq, Repr

/-- The members of a `HeFrameExchangeManager`.  `sta` holds the members in the form used by
the trigger handling of a station (its fields `m_psduMap` and `m_txParams` are the PSDU map
and TX parameters as the response routines of a station build them).  The other fields are
the TX timer, the pointers `m_edca`, `m_apMac` and `m_muScheduler` (`true` when set), the PSDU
map and TX parameters in the form `SendPsduMap`, the timeouts and the reception code read
them, the set of stations expected to respond (in increasing order), whether
`m_multiStaBaEvent` is running, the pending MU-BAR, the TRIGVECTOR and the SNR tag. -/
structure HeFem where
  sta : StaFem
  m_txTimer : WifiTxTimer
  m_edca : Bool
  m_apMac : Bool
  m_muScheduler : Bool
  m_psduMap : List (Nat × TxPsdu)
  m_txParams : TxParameters
  m_staExpectTbPpduFrom : List Mac48Address
  m_multiStaBaEvent : Bool
  m_triggerFrame : Option TxMpdu
  m_trigVector : TxVector
  m_muSnrTag : List (Nat × Int)
  deriving DecidableEq, Repr

/-- The file-scope statistics written on the initiator side (`m_UlSuccessStas`,
`m_qosNullStas`, `m_BARu`, `bsrpSucc`), the file-scope maps `m_bsr` and `m_will_be_qos_null`
of rr-multi-user-scheduler.cc, and the arguments of the calls
`m_muScheduler->SetIsDoneUl (...)` in call order. -/
structure UlStats where
  m_UlSuccessStas : List (Mac48Address × Int)
  m_qosNullStas : List Mac48Address
  m_BARu : Int
  bsrpSucc : Int
  m_bsr : List (Nat × Int)
  m_will_be_qos_null : List (Nat × Bool)
  setIsDoneUl : List Bool
  deriving DecidableEq, Repr

/-- The state the methods of the manager act on: file-scope variables, the object, and the
calls made so far. -/
structure FemWorld where
  g : Globals
  ul : UlStats
  fem : HeFem
  effects : List Effect
  deriving DecidableEq, Repr

/-- The collaborators of the initiator side.  `sta` are those of the station side (its
`sifs` is `m_phy->GetSifs ()`, its `hasAgreement` the lookup in `m_agreements`).  Durations
are computed by the PHY; `staList` is `m_apMac->GetStaList ()`; `ulMuInfoTrigger` is
`m_muScheduler->GetUlMuInfo ().trigger`.  The methods of the parent classes are not part of
this file: they are functions on the inherited members, `missedBlockAck` also returning
its output parameter `resetCw`. -/
structure ApEnv where
  sta : Env
  slot : Time
  macPhySifs : Time
  calculateTxDuration : List (Nat × TxPsdu) → TxVector → Time
  calculateTriggerTxDuration : TxMpdu → TxVector → Time
  calculateBlockAckTxDuration : List Nat → TxVector → Time
  convertLSigLengthToHeTbPpduDuration : Nat → TxVector → Time
  calculatePhyPreambleAndHeaderDuration : TxVector → Time
  getPsduDurationId : Time → TxParameters → Time
  getAssociationId : Mac48Address → Nat
  staList : List (Nat × Mac48Address)
  ulMuInfoTrigger : CtrlTriggerHeader
  getTrigVector : CtrlTriggerHeader → TxVector
  triggerHeTbTxVector : CtrlTriggerHeader → Nat → TxVector
  getBlockAckTxVector : Mac48Address → TxVector → TxVector
  getBlockAckBitmapLen : Mac48Address → Nat → Option Nat
  missedBlockAck : TxPsdu → TxVector → BaseFem → Bool × BaseFem
  transmissionSucceeded : BaseFem → BaseFem
  transmissionFailed : BaseFem → BaseFem
  receivedNormalAck : TxMpdu → BaseFem → BaseFem
  parentReceiveMpdu : RxMpdu → TxVector → Bool → BaseFem → BaseFem
  parentEndReceiveAmpdu : RxPsdu → TxVector → List Bool → BaseFem → BaseFem

/-- The inherited members of the object. -/
def HeFem.base (fem : HeFem) : BaseFem :=
  ⟨fem.m_txTimer, fem.m_edca, fem.sta.m_txopHolder, fem.sta.m_navEnd⟩

/-- The object after a parent-class method has run on its inherited members. -/
def HeFem.applyBase (f : BaseFem → BaseFem) (fem : HeFem) : HeFem :=
  { fem with
    m_txTimer := (f fem.base).m_txTimer
    m_edca := (f fem.base).m_edca
    sta := { fem.sta with
      m_txopHolder := (f fem.base).m_txopHolder
      m_navEnd := (f fem.base).m_navEnd } }

/-- Record a call on a collaborator. -/
def FemWorld.log (e : Effect) (w : FemWorld) : FemWorld :=
  { w with effects := w.effects ++ [e] }

/-- A call of a parent-class method: recorded, and run on the inherited members. -/
def FemWorld.callParent (e : Effect) (f : BaseFem → BaseFem) (w : FemWorld) : FemWorld :=
  { w with effects := w.effects ++ [e], fem := w.fem.applyBase f }

/-- The `insert` of a `std::set<Mac48Address>`. -/
def setInsert (x : Mac48Address) : List Mac48Address → List Mac48Address
  | [] => [x]
  | y :: ys =>
    if x < y then x :: y :: ys
    else if x = y then y :: ys
    else y :: setInsert x ys

/-- The `erase (key)` of a `std::set<Mac48Address>`. -/
def setErase (x : Mac48Address) (s : List Mac48Address) : List Mac48Address :=
  s.filter (fun y => y != x)

/-- The `emplace` of `stationsReceivingMultiStaBa`, a `std::map` keyed by (address, TID):
nothing changes when the key is present, else the pair is inserted in key order. -/
def emplaceMultiStaBa (key : Mac48Address × Nat) (index : Nat) :
    List ((Mac48Address × Nat) × Nat) → List ((Mac48Address × Nat) × Nat)
  | [] => [(key, index)]
  | (k, v) :: m =>
    if key.1 < k.1 || (key.1 == k.1 && key.2 < k.2) then (key, index) :: (k, v) :: m
    else if key = k then (k, v) :: m
    else (k, v) :: emplaceMultiStaBa key index m

/-- The method `HeFrameExchangeManager::GetPsduTo`: `none` is the null pointer. -/
def GetPsduTo (to_ : Mac48Address) (psduMap : List (Nat × TxPsdu)) : Option TxPsdu :=
  (findIf (fun psdu => psdu.2.addr1 == to_) psduMap).map (fun it => it.2.2)

/-- The method `HeFrameExchangeManager::UpdateSuccesses`. -/
def UpdateSuccesses (addr : Mac48Address) (byte : Int) (g : Globals) : Globals :=
  match findIf (fun ci => ci.addr == addr) g.m_successes with
  | none => g
  | some itr =>
    { g with m_successes :=
        modifyAt (fun ci => { ci with byte := ci.byte + byte }) itr.1 g.m_successes }

/-- The method `HeFrameExchangeManager::SetQosNullReceived`. -/
def SetQosNullReceived (addr : Mac48Address) (g : Globals) : Globals :=
  match findIf (fun ci => ci.addr == addr) g.m_successes with
  | none => g
  | some itr =>
    { g with m_successes :=
        (modifyAt (fun ci => { ci with QosNullReceivedCount := ci.QosNullReceivedCount + 1 })
          itr.1 g.m_successes) }

/-- The method `HeFrameExchangeManager::SearchUlSuccessSta`. -/
def SearchUlSuccessSta (addr : Mac48Address) (ul : UlStats) : UlStats :=
  match findIf (fun pair => pair.1 == addr) ul.m_UlSuccessStas with
  | none => { ul with m_UlSuccessStas := ul.m_UlSuccessStas ++ [(addr, 0)] }
  | some _ => ul

/-- The method `HeFrameExchangeManager::AddUlSuccessStaSize`. -/
def AddUlSuccessStaSize (addr : Mac48Address) (byte : Int) (ul : UlStats) : UlStats :=
  match findIf (fun pair => pair.1 == addr) ul.m_UlSuccessStas with
  | none => { ul with m_UlSuccessStas := ul.m_UlSuccessStas ++ [(addr, byte)] }
  | some itr =>
    { ul with m_UlSuccessStas :=
        modifyAt (fun pair => (pair.1, pair.2 + byte)) itr.1 ul.m_UlSuccessStas }

/-- The method `RrMultiUserScheduler::UpdateBsr`.  `m_bsr[staId]` inserts a zero entry when
the key is absent. -/
def UpdateBsr (staId : Nat) (byte : Int) (ul : UlStats) : UlStats :=
  if byte < 0 then
    let cur := (mapFind staId ul.m_bsr).getD 0
    let ul1 := { ul with m_bsr := mapSet staId cur ul.m_bsr }
    if cur > 0 then
      let ul2 := { ul1 with m_bsr := mapSet staId (cur + byte) ul1.m_bsr }
      if cur + byte ≤ 0 then
        { ul2 with m_will_be_qos_null := mapSet staId true ul2.m_will_be_qos_null }
      else ul2
    else ul1
  else
    { ul with
      m_bsr := mapSet staId byte ul.m_bsr
      m_will_be_qos_null := mapSet staId false ul.m_will_be_qos_null }

/-! ## Definitions: timeouts and the Multi-STA BlockAck (he-frame-exchange-manager.cc) -/

/-- The method `HeFrameExchangeManager::TbPpduTimeout`.  `psduMap` is `none` for a null
pointer; a failing `NS_ASSERT` is `none`. -/
def TbPpduTimeout (env : ApEnv) (psduMap : Option (List (Nat × TxPsdu)))
    (staMissedTbPpduFrom : List Mac48Address) (nSolicitedStations : Nat) (w : FemWorld) :
    Option FemWorld :=
  match psduMap with
  | none => none
  | some pm =>
    match pm with
    | [(staId, psdu)] =>
      match psdu.mpdus with
      | [] => none
      | header0 :: _ =>
        if staId ≠ SU_STA_ID ∨ header0.isTrigger = false then none
        else if staMissedTbPpduFrom.isEmpty then none
        else if w.fem.m_edca = false then none
        else
          let w1 :=
            if staMissedTbPpduFrom.length = nSolicitedStations then
              (w.log Effect.UpdateFailedCw).callParent Effect.TransmissionFailed
                env.transmissionFailed
            else if !w.fem.m_multiStaBaEvent then
              (w.log Effect.ResetCw).callParent Effect.TransmissionSucceeded
                env.transmissionSucceeded
            else w
          some { w1 with fem := { w1.fem with m_psduMap := [] } }
    | _ => none

/-- The loop of `BlockAcksInTbPpduTimeout` over the stations that missed their BlockAck:
`MissedBlockAck` for the PSDU of each, accumulating `resetCw`. -/
def missedBlockAckLoop (env : ApEnv) (psduMap : List (Nat × TxPsdu)) :
    List Mac48Address → Bool → FemWorld → Option (Bool × FemWorld)
  | [], resetCw, w => some (resetCw, w)
  | sta :: rest, resetCw, w =>
    match GetPsduTo sta psduMap with
    | none => none
    | some psdu =>
      let psduResetCw := (env.missedBlockAck psdu w.fem.m_txParams.m_txVector w.fem.base).1
      let w1 := w.callParent (Effect.MissedBlockAck psdu)
        (fun b => (env.missedBlockAck psdu w.fem.m_txParams.m_txVector b).2)
      missedBlockAckLoop env psduMap rest (resetCw || psduResetCw) w1

/-- The first step of `BlockAcksInTbPpduTimeout`: when no station replied,
`ReportDataFailed` is called for the first MPDU of the first PSDU and `resetCw` starts as
false; else `resetCw` starts as true. -/
def blockAcksTimeoutFirstStep (psduMap : List (Nat × TxPsdu))
    (staMissedBlockAckFrom : List Mac48Address) (nSolicitedStations : Nat) (w : FemWorld) :
    Option (Bool × FemWorld) :=
  if staMissedBlockAckFrom.length = nSolicitedStations then
    match psduMap with
    | [] => none
    | (_, psdu) :: _ =>
      match psdu.mpdus with
      | [] => none
      | _ :: _ => some (false, w.log (Effect.ReportDataFailed psdu))
  else some (true, w)

/-- The method `HeFrameExchangeManager::BlockAcksInTbPpduTimeout`. -/
def BlockAcksInTbPpduTimeout (env : ApEnv) (psduMap : Option (List (Nat × TxPsdu)))
    (staMissedBlockAckFrom : List Mac48Address) (nSolicitedStations : Nat) (w : FemWorld) :
    Option FemWorld :=
  match psduMap with
  | none => none
  | some pm =>
    match w.fem.m_txParams.m_acknowledgment with
    | none => none
    | some acknowledgment =>
      if acknowledgment.method ≠ AckMethod.DL_MU_AGGREGATE_TF
          ∧ acknowledgment.method ≠ AckMethod.DL_MU_TF_MU_BAR then none
      else if staMissedBlockAckFrom.isEmpty then none
      else
        match blockAcksTimeoutFirstStep pm staMissedBlockAckFrom nSolicitedStations w with
        | none => none
        | some (resetCw0, w1) =>
          let w2 := { w1 with fem := { w1.fem with m_triggerFrame := none } }
          match missedBlockAckLoop env pm staMissedBlockAckFrom resetCw0 w2 with
          | none => none
          | some (resetCw, w3) =>
            if w3.fem.m_edca = false then none
            else
              let w4 := if resetCw then w3.log Effect.ResetCw else w3.log Effect.UpdateFailedCw
              let w5 :=
                if staMissedBlockAckFrom.length = nSolicitedStations then
                  w4.callParent Effect.TransmissionFailed env.transmissionFailed
                else
                  w4.callParent Effect.TransmissionSucceeded env.transmissionSucceeded
              some { w5 with fem := { w5.fem with m_psduMap := [] } }

/-- A setter of `CtrlBAckResponseHeader` on the Per AID TID Info subfield at `index`. -/
def setBaEntry (f : MultiStaBaEntry → MultiStaBaEntry) (index : Nat)
    (blockAck : List (Nat × MultiStaBaEntry)) : List (Nat × MultiStaBaEntry) :=
  mapSet index (f ((mapFind index blockAck).getD ⟨0, 0, false, false⟩)) blockAck

/-- The loop of `SendMultiStaBlockAck` over `stationsReceivingMultiStaBa`: fills the
BlockAck and keeps the last receiver.  `m_bitmapLen.at (index)` out of range and a missing
agreement are failures. -/
def multiStaBaLoop (env : ApEnv) (acknowledgment : WifiAcknowledgment) :
    List ((Mac48Address × Nat) × Nat) → List (Nat × MultiStaBaEntry) → Mac48Address →
      Option (List (Nat × MultiStaBaEntry) × Mac48Address)
  | [], blockAck, receiver => some (blockAck, receiver)
  | ((receiver, tid), index) :: rest, blockAck, _ =>
    let blockAck1 :=
      setBaEntry (fun e => { e with tidInfo := tid }) index
        (setBaEntry (fun e => { e with aid11 := env.getAssociationId receiver }) index blockAck)
    if tid = 14 then
      multiStaBaLoop env acknowledgment rest
        (setBaEntry (fun e => { e with ackType := true }) index blockAck1) receiver
    else
      match acknowledgment.baTypeBitmapLen[index]? with
      | none => none
      | some bitmapLen =>
        if bitmapLen = 0 then
          multiStaBaLoop env acknowledgment rest
            (setBaEntry (fun e => { e with ackType := true }) index blockAck1) receiver
        else if env.sta.hasAgreement receiver tid = false then none
        else
          multiStaBaLoop env acknowledgment rest
            (setBaEntry (fun e => { e with bitmapFilled := true }) index
              (setBaEntry (fun e => { e with ackType := false }) index blockAck1)) receiver

/-- The `WifiTxParameters` with a `WifiNoAck` acknowledgment that `SendMultiStaBlockAck`
creates to compute the Duration/ID. -/
def noAckParams : TxParameters :=
  { m_txVector := ⟨false, 0, [], false, 0⟩
    m_acknowledgment := some
      { method := AckMethod.NONE
        acknowledgmentTime := 0
        stationsReplyingWithNormalAck := []
        stationsReplyingWithBlockAck := []
        stationsSendBlockAckReqTo := []
        stationsReceivingMultiStaBa := []
        baTypeBitmapLen := []
        ulLength := 0
        tbPpduTxVector := ⟨false, 0, [], false, 0⟩
        muBarTxVector := ⟨false, 0, [], false, 0⟩
        multiStaBaTxVector := ⟨false, 0, [], false, 0⟩ } }

/-- The method `HeFrameExchangeManager::SendMultiStaBlockAck`.  The receiver address of the
frame is `none` for the broadcast address. -/
def SendMultiStaBlockAck (env : ApEnv) (txParams : TxParameters) (w : FemWorld) :
    Option FemWorld :=
  if w.fem.m_apMac = false then none
  else
    match txParams.m_acknowledgment with
    | none => none
    | some acknowledgment =>
      if acknowledgment.method ≠ AckMethod.UL_MU_MULTI_STA_BA then none
      else if acknowledgment.stationsReceivingMultiStaBa.isEmpty then none
      else
        match multiStaBaLoop env acknowledgment acknowledgment.stationsReceivingMultiStaBa [] 0
          with
        | none => none
        | some (blockAck, receiver) =>
          let addr1 :=
            if acknowledgment.stationsReceivingMultiStaBa.length = 1 then some receiver else none
          let txDuration :=
            env.calculateBlockAckTxDuration acknowledgment.baTypeBitmapLen
              acknowledgment.multiStaBaTxVector
          let w1 := w.log (Effect.ForwardMultiStaBlockAck addr1 blockAck
            (env.getPsduDurationId txDuration noAckParams) w.fem.m_muSnrTag
            acknowledgment.multiStaBaTxVector)
          if w1.fem.m_edca = false then none
          else
            let w2 := { w1 with fem := { w1.fem with m_psduMap := [] } }
            let w3 := w2.log Effect.ResetCw
            let w4 := { w3 with fem := { w3.fem with m_muSnrTag := [] } }
            some (w4.log (Effect.Schedule txDuration ApScheduled.TransmissionSucceeded))

/-! ## Definitions: sending the PSDU map (he-frame-exchange-manager.cc) -/

/-- The method `HeFrameExchangeManager::PrepareMuBar`, given the station ids of the
recipients in increasing order. -/
def PrepareMuBar (env : ApEnv) (fem : HeFem) (responseTxVector : TxVector)
    (recipients : List Nat) : Option TxMpdu :=
  if responseTxVector.heMuUserInfoMap.length ≠ recipients.length then none
  else if recipients.isEmpty then none
  else if responseTxVector.heMuUserInfoMap.any (fun userInfo => !recipients.contains userInfo.1)
    then none
  else
    let muBar (rxAddress : Option Mac48Address) : TxMpdu :=
      { isTrigger := true, isQosData := false, hasData := false, qosTid := 0
        muBar := some
          { ulLength := responseTxVector.length
            csRequired := decide (responseTxVector.length > 418)
            aids := responseTxVector.heMuUserInfoMap.map (fun userInfo => userInfo.1)
            rxAddress := rxAddress } }
    if responseTxVector.heMuUserInfoMap.length > 1 then some (muBar none)
    else if fem.m_apMac = false then none
    else
      match recipients.head? with
      | none => none
      | some aid =>
        match mapFind aid env.staList with
        | none => none
        | some rxAddress => some (muBar (some rxAddress))

/-- The method `HeFrameExchangeManager::ForwardPsduMapDown`: `NotifyTxToEdca` for every
PSDU, the aggregation flag of the TX vector, and the PHY transmission.  Returns the TX
vector, which is passed by reference. -/
def ForwardPsduMapDown (psduMap : List (Nat × TxPsdu)) (txVector : TxVector) (w : FemWorld) :
    Option (TxVector × FemWorld) :=
  match psduMap with
  | [] => none
  | first :: _ =>
    let w1 : FemWorld :=
      { w with effects := w.effects ++ psduMap.map (fun psdu => Effect.NotifyTxToEdca psdu.2) }
    let txVector1 : TxVector :=
      if psduMap.length > 1 || first.2.isAggregate || first.2.isSingle then
        { txVector with aggregation := true }
      else txVector
    some (txVector1, w1.log (Effect.PhySend psduMap txVector1))

/-- The local variables of `SendPsduMap` set by the branch of the acknowledgment method:
the timer type, the response TX vector and the MPDU or PSDU the timeout is bound to (`none`
for a null pointer). -/
structure TimerSetup where
  timerType : TimerReason
  responseTxVector : Option TxVector
  mpdu : Option TxMpdu
  psdu : Option TxPsdu
  deriving DecidableEq, Repr

/-- The loop of the `DL_MU_BAR_BA_SEQUENCE` branch scheduling the BlockAckReq frames. -/
def scheduleBarLoop (stationsSendBlockAckReqTo : List Mac48Address) :
    List (Nat × TxPsdu) → FemWorld → Option FemWorld
  | [], w => some w
  | psdu :: rest, w =>
    if stationsSendBlockAckReqTo.contains psdu.2.addr1 then
      if psdu.2.tids.length > 1 then none
      else
        match psdu.2.tids.head? with
        | none => none
        | some tid =>
          if w.fem.m_edca = false then none
          else scheduleBarLoop stationsSendBlockAckReqTo rest
            (w.log (Effect.ScheduleBar psdu.2.addr1 tid))
    else scheduleBarLoop stationsSendBlockAckReqTo rest w

/-- The branch `DL_MU_BAR_BA_SEQUENCE` of `SendPsduMap`. -/
def sendPsduMapBarBaSequence (acknowledgment : WifiAcknowledgment) (w : FemWorld) :
    Option (TimerSetup × FemWorld) :=
  match scheduleBarLoop acknowledgment.stationsSendBlockAckReqTo w.fem.m_psduMap w with
  | none => none
  | some w1 =>
    match acknowledgment.stationsReplyingWithNormalAck.head? with
    | some station =>
      match GetPsduTo station.1 w1.fem.m_psduMap with
      | none => none
      | some psdu =>
        match psdu.mpdus with
        | [mpdu] =>
          some (⟨TimerReason.WAIT_NORMAL_ACK_AFTER_DL_MU_PPDU, some station.2, some mpdu,
            some psdu⟩, w1)
        | _ => none
    | none =>
      match acknowledgment.stationsReplyingWithBlockAck.head? with
      | some station =>
        some (⟨TimerReason.WAIT_BLOCK_ACK, some station.2, none,
          GetPsduTo station.1 w1.fem.m_psduMap⟩, w1)
      | none => some (⟨TimerReason.NOT_RUNNING, none, none, none⟩, w1)

/-- The loop of the `DL_MU_TF_MU_BAR` branch merging the BlockAck TX vectors into the
TRIGVECTOR and collecting the recipients of the MU-BAR. -/
def mergeTrigVectorLoop (env : ApEnv) (fem : HeFem) :
    List (Mac48Address × TxVector) → TxVector → List Nat → Option (TxVector × List Nat)
  | [], trigVector, recipients => some (trigVector, recipients)
  | sta :: rest, trigVector, recipients =>
    if fem.m_apMac = false then none
    else
      let staId := env.getAssociationId sta.1
      match mapFind staId sta.2.heMuUserInfoMap with
      | none => none
      | some userInfo =>
        mergeTrigVectorLoop env fem rest
          { trigVector with heMuUserInfoMap := mapSet staId userInfo trigVector.heMuUserInfoMap }
          (setInsert staId recipients)

/-- How a branch of `SendPsduMap` ends: with a `return`, or with the local variables set for
the common part of the method. -/
inductive BranchResult where
  | returned (w : FemWorld)
  | proceed (setup : TimerSetup) (w : FemWorld)
  deriving DecidableEq, Repr

/-- The branch `DL_MU_TF_MU_BAR` of `SendPsduMap`: without a pending MU-BAR the TRIGVECTOR is
built and the MU-BAR scheduled; with one, the MU-BAR is sent and the timer armed. -/
def sendPsduMapTfMuBar (env : ApEnv) (acknowledgment : WifiAcknowledgment) (w : FemWorld) :
    Option BranchResult :=
  match w.fem.m_triggerFrame with
  | none =>
    match acknowledgment.stationsReplyingWithBlockAck with
    | [] => none
    | staIt :: _ =>
      match mergeTrigVectorLoop env w.fem acknowledgment.stationsReplyingWithBlockAck
          staIt.2 [] with
      | none => none
      | some (trigVector, recipients) =>
        let trigVector1 : TxVector := { trigVector with length := acknowledgment.ulLength }
        let w1 : FemWorld := { w with fem := { w.fem with m_trigVector := trigVector1 } }
        if w1.fem.m_edca = false then none
        else
          match PrepareMuBar env w1.fem trigVector1 recipients with
          | none => none
          | some muBar =>
            some (BranchResult.proceed ⟨TimerReason.NOT_RUNNING, none, none, none⟩
              (w1.log (Effect.ScheduleMuBar muBar)))
  | some triggerFrame =>
    let expected :=
      acknowledgment.stationsReplyingWithBlockAck.foldl (fun s station => setInsert station.1 s)
        []
    let txDuration := env.calculateTriggerTxDuration triggerFrame acknowledgment.muBarTxVector
    let acknowledgment1 : WifiAcknowledgment :=
      { acknowledgment with
        acknowledgmentTime := acknowledgment.acknowledgmentTime - (env.sta.sifs + txDuration) }
    let txParams1 : TxParameters :=
      { w.fem.m_txParams with m_acknowledgment := some acknowledgment1 }
    let duration := env.getPsduDurationId txDuration txParams1
    match acknowledgment.stationsReplyingWithBlockAck.head? with
    | none => none
    | some station =>
      let timeout := txDuration + env.sta.sifs + env.slot
        + env.calculatePhyPreambleAndHeaderDuration station.2
      let w1 : FemWorld :=
        { w with fem :=
            { w.fem with
              m_staExpectTbPpduFrom := expected
              m_txParams := txParams1
              m_txTimer := WifiTxTimer.Set TimerReason.WAIT_BLOCK_ACKS_IN_TB_PPDU timeout
                (TimeoutCallback.BlockAcksInTbPpduTimeout expected.length) } }
      some (BranchResult.returned
        (((w1.log (Effect.NotifyAckTimeoutStartNow timeout)).log
            (Effect.ForwardTriggerDown triggerFrame duration acknowledgment.muBarTxVector)).log
          (Effect.SetTrigVector w1.fem.m_trigVector timeout)))

/-- The state of the loop of the `DL_MU_AGGREGATE_TF` branch: the stations already visited
(with their BlockAck TX vectors after `SetLength`), the expected set, the PSDU map and
the TRIGVECTOR. -/
structure AggregateTfState where
  stations : List (Mac48Address × TxVector)
  expected : List Mac48Address
  psduMap : List (Nat × TxPsdu)
  trigVector : TxVector
  deriving DecidableEq, Repr

/-- The loop of the `DL_MU_AGGREGATE_TF` branch: each station is recorded as expected and a
MU-BAR is appended to the PSDU addressed to it. -/
def aggregateTfLoop (env : ApEnv) (fem : HeFem) (ulLength : Nat) :
    List (Mac48Address × TxVector) → AggregateTfState → Option AggregateTfState
  | [], st => some st
  | station :: rest, st =>
    match findIf (fun psdu => psdu.2.addr1 == station.1) st.psduMap with
    | none => none
    | some psduMapIt =>
      let blockAckTxVector : TxVector := { station.2 with length := ulLength }
      match PrepareMuBar env fem blockAckTxVector [psduMapIt.2.1] with
      | none => none
      | some muBar =>
        match mapFind psduMapIt.2.1 blockAckTxVector.heMuUserInfoMap with
        | none => none
        | some userInfo =>
          aggregateTfLoop env fem ulLength rest
            { stations := st.stations ++ [(station.1, blockAckTxVector)]
              expected := setInsert station.1 st.expected
              psduMap :=
                (modifyAt (fun p => (p.1, { p.2 with mpdus := p.2.mpdus ++ [muBar] }))
                  psduMapIt.1 st.psduMap)
              trigVector :=
                { st.trigVector with
                  heMuUserInfoMap :=
                    mapSet psduMapIt.2.1 userInfo st.trigVector.heMuUserInfoMap } }

/-- The branch `DL_MU_AGGREGATE_TF` of `SendPsduMap`. -/
def sendPsduMapAggregateTf (env : ApEnv) (acknowledgment : WifiAcknowledgment) (w : FemWorld) :
    Option (TimerSetup × FemWorld) :=
  match acknowledgment.stationsReplyingWithBlockAck.head? with
  | none => none
  | some first =>
    match aggregateTfLoop env w.fem acknowledgment.ulLength
        acknowledgment.stationsReplyingWithBlockAck ⟨[], [], w.fem.m_psduMap, first.2⟩ with
    | none => none
    | some st =>
      match st.stations.head? with
      | none => none
      | some station =>
        some (⟨TimerReason.WAIT_BLOCK_ACKS_IN_TB_PPDU, some station.2, none, none⟩,
          { w with fem :=
              { w.fem with
                m_staExpectTbPpduFrom := st.expected
                m_psduMap := st.psduMap
                m_trigVector := { st.trigVector with length := acknowledgment.ulLength }
                m_txParams :=
                  { w.fem.m_txParams with
                    m_acknowledgment := some
                      { acknowledgment with stationsReplyingWithBlockAck := st.stations } } } })

/-- The test of `SendPsduMap` that the PSDU map holds one single-user PSDU starting with a
Trigger Frame; returns the first MPDU.  A PSDU without MPDUs fails the test. -/
def suTriggerPsdu (psduMap : List (Nat × TxPsdu)) : Option TxMpdu :=
  match psduMap with
  | [(staId, psdu)] =>
    match psdu.mpdus with
    | mpdu :: _ => if staId = SU_STA_ID ∧ mpdu.isTrigger = true then some mpdu else none
    | [] => none
  | _ => none

/-- The branch `UL_MU_MULTI_STA_BA` of `SendPsduMap` (Basic Trigger Frame). -/
def sendPsduMapBasicTf (env : ApEnv) (acknowledgment : WifiAcknowledgment) (w : FemWorld) :
    Option (TimerSetup × FemWorld) :=
  match suTriggerPsdu w.fem.m_psduMap with
  | none => none
  | some mpdu =>
    let expected :=
      acknowledgment.stationsReceivingMultiStaBa.foldl
        (fun s station => setInsert station.1.1 s) []
    if w.fem.m_muScheduler = false then none
    else
      let tbPpduDuration :=
        env.convertLSigLengthToHeTbPpduDuration env.ulMuInfoTrigger.ulLength
          acknowledgment.tbPpduTxVector
      let acknowledgment1 : WifiAcknowledgment :=
        { acknowledgment with
          stationsReceivingMultiStaBa := []
          baTypeBitmapLen := []
          acknowledgmentTime :=
            acknowledgment.acknowledgmentTime + (env.macPhySifs + tbPpduDuration) }
      some (⟨TimerReason.WAIT_TB_PPDU_AFTER_BASIC_TF, some acknowledgment.tbPpduTxVector,
          some mpdu, none⟩,
        { w with
          ul := { w.ul with m_BARu := 0, m_qosNullStas := [], m_UlSuccessStas := [] }
          fem :=
            { w.fem with
              m_staExpectTbPpduFrom := expected
              m_trigVector := env.getTrigVector env.ulMuInfoTrigger
              m_txParams := { w.fem.m_txParams with m_acknowledgment := some acknowledgment1 } } })

/-- The loop of the BSRP branch: the address of every station addressed by the trigger is
looked up in the station list and recorded as expected. -/
def bsrpExpectedLoop (env : ApEnv) :
    List CtrlTriggerUserInfoField → List Mac48Address → Option (List Mac48Address)
  | [], expected => some expected
  | userInfo :: rest, expected =>
    match mapFind userInfo.aid12 env.staList with
    | none => none
    | some addr => bsrpExpectedLoop env rest (setInsert addr expected)

/-- The branch of `SendPsduMap` for a BSRP Trigger Frame. -/
def sendPsduMapBsrpTf (env : ApEnv) (acknowledgment : WifiAcknowledgment) (w : FemWorld) :
    Option (TimerSetup × FemWorld) :=
  if w.fem.m_muScheduler = false then none
  else
    let trigger := env.ulMuInfoTrigger
    if trigger.triggerType ≠ TriggerType.BSRP_TRIGGER then none
    else if w.fem.m_apMac = false then none
    else
      match bsrpExpectedLoop env trigger.userInfoFields [] with
      | none => none
      | some expected =>
        match trigger.userInfoFields.head? with
        | none => none
        | some firstUser =>
          let txVector := env.triggerHeTbTxVector trigger firstUser.aid12
          let acknowledgment1 : WifiAcknowledgment :=
            { acknowledgment with
              acknowledgmentTime := acknowledgment.acknowledgmentTime
                + (env.macPhySifs
                    + env.convertLSigLengthToHeTbPpduDuration trigger.ulLength txVector) }
          some (⟨TimerReason.WAIT_QOS_NULL_AFTER_BSRP_TF, some txVector, none, none⟩,
            { w with fem :=
                { w.fem with
                  sta := { w.fem.sta with m_isbsrp := false }
                  m_staExpectTbPpduFrom := expected
                  m_trigVector := env.getTrigVector trigger
                  m_txParams :=
                    { w.fem.m_txParams with m_acknowledgment := some acknowledgment1 } } })

/-- The part of `SendPsduMap` arming the TX timer for the timer type chosen by the branch:
the timeout is notified to the channel access manager and the timer set with the timeout
method of the type. -/
def sendPsduMapArmTimer (env : ApEnv) (setup : TimerSetup) (txDuration : Time) (w : FemWorld) :
    Option FemWorld :=
  match setup.responseTxVector with
  | none => none
  | some responseTxVector =>
    let timeout := txDuration + env.sta.sifs + env.slot
      + env.calculatePhyPreambleAndHeaderDuration responseTxVector
    let w1 := w.log (Effect.NotifyAckTimeoutStartNow timeout)
    let callback : Option TimeoutCallback :=
      match setup.timerType with
      | TimerReason.WAIT_NORMAL_ACK_AFTER_DL_MU_PPDU =>
        if setup.mpdu.isSome then some TimeoutCallback.NormalAckTimeout else none
      | TimerReason.WAIT_BLOCK_ACK =>
        if setup.psdu.isSome then some TimeoutCallback.BlockAckTimeout else none
      | TimerReason.WAIT_BLOCK_ACKS_IN_TB_PPDU =>
        some (TimeoutCallback.BlockAcksInTbPpduTimeout w1.fem.m_staExpectTbPpduFrom.length)
      | TimerReason.WAIT_TB_PPDU_AFTER_BASIC_TF =>
        some (TimeoutCallback.TbPpduTimeout w1.fem.m_staExpectTbPpduFrom.length)
      | TimerReason.WAIT_QOS_NULL_AFTER_BSRP_TF =>
        some (TimeoutCallback.TbPpduTimeout w1.fem.m_staExpectTbPpduFrom.length)
      | TimerReason.WAIT_BLOCK_ACK_AFTER_TB_PPDU =>
        if w1.fem.m_psduMap.isEmpty then none
        else some TimeoutCallback.BlockAckAfterTbPpduTimeout
      | _ => none
    match callback with
    | none => none
    | some cb =>
      some { w1 with fem :=
        { w1.fem with m_txTimer := WifiTxTimer.Set setup.timerType timeout cb } }

/-- The common part of `SendPsduMap` after the branch on the acknowledgment method: the
duration of the transmission, the Duration/ID fields, the timer, the transmission of the
PSDU map and the TRIGVECTOR. -/
def sendPsduMapTail (env : ApEnv) (setup : TimerSetup) (w : FemWorld) : Option FemWorld :=
  let isUlMu := w.fem.m_txParams.m_txVector.isUlMu
  let txDuration :=
    if isUlMu then
      env.convertLSigLengthToHeTbPpduDuration w.fem.m_txParams.m_txVector.length
        w.fem.m_txParams.m_txVector
    else env.calculateTxDuration w.fem.m_psduMap w.fem.m_txParams.m_txVector
  let w1 : FemWorld :=
    if isUlMu then w
    else
      { w with fem :=
        { w.fem with m_psduMap :=
            w.fem.m_psduMap.map (fun psdu =>
              (psdu.1, { psdu.2 with
                duration := env.getPsduDurationId txDuration w.fem.m_txParams })) } }
  let armed : Option FemWorld :=
    if setup.timerType = TimerReason.NOT_RUNNING then
      if !isUlMu then
        some (w1.log (Effect.Schedule txDuration ApScheduled.TransmissionSucceeded))
      else some w1
    else sendPsduMapArmTimer env setup txDuration w1
  match armed with
  | none => none
  | some w2 =>
    match ForwardPsduMapDown w2.fem.m_psduMap w2.fem.m_txParams.m_txVector w2 with
    | none => none
    | some (txVector1, w3) =>
      let w4 : FemWorld :=
        { w3 with fem :=
          { w3.fem with m_txParams := { w3.fem.m_txParams with m_txVector := txVector1 } } }
      if setup.timerType = TimerReason.WAIT_BLOCK_ACKS_IN_TB_PPDU
          ∨ setup.timerType = TimerReason.WAIT_TB_PPDU_AFTER_BASIC_TF
          ∨ setup.timerType = TimerReason.WAIT_QOS_NULL_AFTER_BSRP_TF then
        some (w4.log (Effect.SetTrigVector w4.fem.m_trigVector w4.fem.m_txTimer.delay))
      else if setup.timerType = TimerReason.NOT_RUNNING ∧ isUlMu = true then
        some (w4.log (Effect.Schedule txDuration ApScheduled.ClearPsduMap))
      else some w4

/-- The branch of `SendPsduMap` on the acknowledgment method. -/
def sendPsduMapBranch (env : ApEnv) (acknowledgment : WifiAcknowledgment) (w : FemWorld) :
    Option BranchResult :=
  let proceed (r : Option (TimerSetup × FemWorld)) : Option BranchResult :=
    r.map (fun p => BranchResult.proceed p.1 p.2)
  let isUlMu := w.fem.m_txParams.m_txVector.isUlMu
  if acknowledgment.method = AckMethod.DL_MU_BAR_BA_SEQUENCE then
    proceed (sendPsduMapBarBaSequence acknowledgment w)
  else if acknowledgment.method = AckMethod.DL_MU_TF_MU_BAR then
    sendPsduMapTfMuBar env acknowledgment w
  else if acknowledgment.method = AckMethod.DL_MU_AGGREGATE_TF then
    proceed (sendPsduMapAggregateTf env acknowledgment w)
  else if acknowledgment.method = AckMethod.UL_MU_MULTI_STA_BA then
    proceed (sendPsduMapBasicTf env acknowledgment w)
  else if acknowledgment.method = AckMethod.NONE ∧ isUlMu = false
      ∧ (suTriggerPsdu w.fem.m_psduMap).isSome = true then
    proceed (sendPsduMapBsrpTf env acknowledgment w)
  else if isUlMu = true ∧ acknowledgment.method = AckMethod.ACK_AFTER_TB_PPDU then
    match w.fem.m_psduMap with
    | [psdu] =>
      match w.fem.sta.staMac with
      | some (true, _) =>
        some (BranchResult.proceed
          ⟨TimerReason.WAIT_BLOCK_ACK_AFTER_TB_PPDU,
            some (env.getBlockAckTxVector psdu.2.addr1 w.fem.m_txParams.m_txVector), none, none⟩
          w)
      | _ => none
    | _ => none
  else if isUlMu = true ∧ acknowledgment.method = AckMethod.NONE then
    some (BranchResult.proceed ⟨TimerReason.NOT_RUNNING, none, none, none⟩ w)
  else none

/-- The method `HeFrameExchangeManager::SendPsduMap`. -/
def SendPsduMap (env : ApEnv) (w : FemWorld) : Option FemWorld :=
  match w.fem.m_txParams.m_acknowledgment with
  | none => none
  | some acknowledgment =>
    if w.fem.m_txTimer.running = true then none
    else
      match sendPsduMapBranch env acknowledgment w with
      | none => none
      | some (BranchResult.returned w1) => some w1
      | some (BranchResult.proceed setup w1) => sendPsduMapTail env setup w1

/-! ## Definitions: reception on the initiator side (he-frame-exchange-manager.cc) -/

/-- The statistics code at the start of `HeFrameExchangeManager::ReceiveMpdu`, run while the
TX timer is running.  The station id is the first key of the user-info map of the TX
vector; an empty map and a null `m_muScheduler` are failures. -/
def receiveMpduStats (mpdu : RxMpdu) (txVector : TxVector) (w : FemWorld) : Option FemWorld :=
  if w.fem.m_txTimer.running = true then
    if w.fem.m_txTimer.reason = TimerReason.WAIT_TB_PPDU_AFTER_BASIC_TF then
      match mpdu.macType with
      | WifiMacType.WIFI_MAC_QOSDATA =>
        match txVector.heMuUserInfoMap.head? with
        | none => none
        | some first =>
          let staId := first.1
          let sender := mpdu.hdr.addr2
          let g1 := UpdateSuccesses sender (toInt32 mpdu.packetSize) w.g
          let ul1 :=
            AddUlSuccessStaSize sender (toInt32 mpdu.packetSize) (SearchUlSuccessSta sender w.ul)
          if w.fem.m_muScheduler = false then none
          else
            let ul2 : UlStats := { ul1 with setIsDoneUl := ul1.setIsDoneUl ++ [true] }
            let queueSize : Int := ((mpdu.packetSize + 255) / 256 : Nat)
            some { w with g := g1, ul := UpdateBsr staId (-1 * queueSize) ul2 }
      | WifiMacType.WIFI_MAC_QOSDATA_NULL =>
        match txVector.heMuUserInfoMap.head? with
        | none => none
        | some first =>
          let staId := first.1
          let ul1 : UlStats := { w.ul with m_qosNullStas := w.ul.m_qosNullStas ++ [mpdu.hdr.addr2] }
          if w.fem.m_muScheduler = false then none
          else some { w with ul := UpdateBsr staId (mpdu.qosQueueSize : Nat) ul1 }
      | WifiMacType.WIFI_MAC_OTHER =>
        some { w with ul := { w.ul with m_BARu := w.ul.m_BARu + 1 } }
    else if w.fem.m_txTimer.reason = TimerReason.WAIT_QOS_NULL_AFTER_BSRP_TF
        ∧ mpdu.macType = WifiMacType.WIFI_MAC_QOSDATA_NULL then
      match txVector.heMuUserInfoMap.head? with
      | none => none
      | some first =>
        let staId := first.1
        let g1 := SetQosNullReceived mpdu.hdr.addr2 w.g
        if w.fem.m_muScheduler = false then none
        else
          let ul1 := UpdateBsr staId (mpdu.qosQueueSize : Nat) w.ul
          some { w with g := g1, ul := { ul1 with bsrpSucc := ul1.bsrpSucc + 1 } }
    else some w
  else some w

/-- Replace the acknowledgment object of `m_txParams`. -/
def FemWorld.setAck (acknowledgment : WifiAcknowledgment) (w : FemWorld) : FemWorld :=
  { w with fem :=
    { w.fem with m_txParams := { w.fem.m_txParams with m_acknowledgment := some acknowledgment } } }

/-- The end of the handling of a TB PPDU solicited by a Basic Trigger Frame, common to
`ReceiveMpdu` and `EndReceiveAmpdu`: the Multi-STA BlockAck is scheduled if needed, the sender
is removed from the expected set and, when the set is empty, the timer is cancelled and the
exchange completed unless a Multi-STA BlockAck is pending. -/
def basicTfResponseProcessed (env : ApEnv) (sender : Mac48Address) (w : FemWorld) :
    Option FemWorld :=
  match w.fem.m_txParams.m_acknowledgment with
  | none => none
  | some acknowledgment =>
    let w1 : FemWorld :=
      if !acknowledgment.stationsReceivingMultiStaBa.isEmpty && !w.fem.m_multiStaBaEvent then
        { (w.log (Effect.Schedule env.sta.sifs ApScheduled.SendMultiStaBlockAck)) with
          fem := { w.fem with m_multiStaBaEvent := true } }
      else w
    let w2 : FemWorld :=
      { w1 with fem :=
        { w1.fem with m_staExpectTbPpduFrom := setErase sender w1.fem.m_staExpectTbPpduFrom } }
    if w2.fem.m_staExpectTbPpduFrom.isEmpty then
      let w3 : FemWorld :=
        { (w2.log Effect.NotifyAckTimeoutResetNow) with
          fem := { w2.fem with m_txTimer := w2.fem.m_txTimer.Cancel } }
      if !w3.fem.m_multiStaBaEvent then
        if w3.fem.m_edca = false then none
        else
          let w4 : FemWorld := { w3 with fem := { w3.fem with m_psduMap := [] } }
          some ((w4.log Effect.ResetCw).callParent Effect.TransmissionSucceeded
            env.transmissionSucceeded)
      else some w3
    else some w2

/-- The end of the handling of a TB PPDU solicited by a BSRP Trigger Frame, common to
`ReceiveMpdu` and `EndReceiveAmpdu`: the sender is removed from the expected set and, when
the set is empty, the timer is cancelled and the exchange completed. -/
def bsrpTfResponseProcessed (env : ApEnv) (sender : Mac48Address) (w : FemWorld) :
    Option FemWorld :=
  let w1 : FemWorld :=
    { w with fem :=
      { w.fem with m_staExpectTbPpduFrom := setErase sender w.fem.m_staExpectTbPpduFrom } }
  if w1.fem.m_staExpectTbPpduFrom.isEmpty then
    let w2 : FemWorld :=
      { (w1.log Effect.NotifyAckTimeoutResetNow) with
        fem := { w1.fem with m_txTimer := w1.fem.m_txTimer.Cancel } }
    if w2.fem.m_edca = false then none
    else
      let w3 : FemWorld := { w2 with fem := { w2.fem with m_psduMap := [] } }
      some ((w3.log Effect.ResetCw).callParent Effect.TransmissionSucceeded
        env.transmissionSucceeded)
  else some w1

/-- The branch of `ReceiveMpdu` for a frame in a TB PPDU while the timer waits for the
responses to a Basic Trigger Frame. -/
def receiveMpduBasicTf (env : ApEnv) (mpdu : RxMpdu) (txVector : TxVector) (inAmpdu : Bool)
    (w : FemWorld) : Option FemWorld :=
  let sender := mpdu.hdr.addr2
  match w.fem.m_txParams.m_acknowledgment with
  | none => none
  | some acknowledgment =>
    if acknowledgment.method ≠ AckMethod.UL_MU_MULTI_STA_BA then none
    else
      let index := acknowledgment.baTypeBitmapLen.length
      if !w.fem.m_staExpectTbPpduFrom.contains sender then some w
      else if mpdu.isBlockAckReq then
        if mpdu.barIsMultiTid then none
        else
          let tid := mpdu.barTidInfo
          if env.sta.hasAgreement sender tid = false then none
          else
            match env.getBlockAckBitmapLen sender tid with
            | none => none
            | some bitmapLen =>
              match txVector.heMuUserInfoMap.head? with
              | none => none
              | some first =>
                let w1 := (w.log (Effect.NotifyReceivedBar sender tid)).setAck
                  { acknowledgment with
                    stationsReceivingMultiStaBa :=
                      emplaceMultiStaBa (sender, tid) index
                        acknowledgment.stationsReceivingMultiStaBa
                    baTypeBitmapLen := acknowledgment.baTypeBitmapLen ++ [bitmapLen] }
                basicTfResponseProcessed env sender
                  { w1 with fem :=
                    { w1.fem with m_muSnrTag := mapSet first.1 mpdu.snr w1.fem.m_muSnrTag } }
      else if mpdu.isQosData && !inAmpdu && mpdu.qosAckPolicyNormal then
        let tid := mpdu.qosTid
        if env.sta.hasAgreement sender tid = false then none
        else
          match txVector.heMuUserInfoMap.head? with
          | none => none
          | some first =>
            let w1 := (w.log (Effect.NotifyReceivedMpdu sender tid)).setAck
              { acknowledgment with
                stationsReceivingMultiStaBa :=
                  emplaceMultiStaBa (sender, tid) index
                    acknowledgment.stationsReceivingMultiStaBa
                baTypeBitmapLen := acknowledgment.baTypeBitmapLen ++ [0] }
            basicTfResponseProcessed env sender
              { w1 with fem :=
                { w1.fem with m_muSnrTag := mapSet first.1 mpdu.snr w1.fem.m_muSnrTag } }
      else if !(mpdu.isQosData && !mpdu.hasData && !inAmpdu) then
        some (w.callParent (Effect.ParentReceiveMpdu mpdu inAmpdu)
          (env.parentReceiveMpdu mpdu txVector inAmpdu))
      else basicTfResponseProcessed env sender w

/-- The branch of `ReceiveMpdu` for a frame (not in an A-MPDU) in a TB PPDU while the timer
waits for the QoS Null frames solicited by a BSRP Trigger Frame. -/
def receiveMpduBsrpTf (env : ApEnv) (mpdu : RxMpdu) (w : FemWorld) : Option FemWorld :=
  let sender := mpdu.hdr.addr2
  if !w.fem.m_staExpectTbPpduFrom.contains sender then some w
  else if !(mpdu.isQosData && !mpdu.hasData) then some w
  else bsrpTfResponseProcessed env sender w

/-- The first part of the body of the loop of `ReceiveMpdu` over the Per AID TID Info
subfields of a Multi-STA BlockAck addressed to this station (`nIndices` of them in all): the
Block Ack Manager is notified of the Ack, or of the BlockAck for the TID (the TID of the PSDU
for an All-ack).  Returns the TID.  The `NS_ABORT`s and the `NS_ASSERT` are failures. -/
def multiStaBlockAckNotify (sender : Mac48Address) (staId : Nat) (nIndices : Nat)
    (info : PerAidTidInfo) (w : FemWorld) : Option (Nat × FemWorld) :=
  let ownPsduFirst : Bool :=
    match w.fem.m_psduMap.head? with
    | none => false
    | some first => first.1 == staId
  if info.ackType && decide (info.tid < 8) then
    if !ownPsduFirst then none
    else
      match mapFind staId w.fem.m_psduMap with
      | none => none
      | some psdu =>
        if psdu.mpdus.isEmpty then none
        else some (info.tid, w.log (Effect.NotifyGotAck staId))
  else
    let tid : Option Nat :=
      if info.ackType && info.tid == 14 then
        if nIndices ≠ 1 then none
        else if !ownPsduFirst then none
        else
          match mapFind staId w.fem.m_psduMap with
          | none => none
          | some psdu => if psdu.tids.length > 1 then none else psdu.tids.head?
      else some info.tid
    match tid with
    | none => none
    | some t =>
      some (t, (w.log (Effect.NotifyGotBlockAck sender t)).log (Effect.ReportAmpduTxStatus sender))

/-- The loop of `ReceiveMpdu` over the Per AID TID Info subfields of a Multi-STA BlockAck
addressed to this station: after the notification, the MU EDCA timer is started when a QoS
data frame was acknowledged.  `m_psduMap.at (staId)` on a missing key and the `NS_ASSERT`s
are failures. -/
def multiStaBlockAckLoop (sender : Mac48Address) (staId : Nat) (nIndices : Nat) :
    List PerAidTidInfo → FemWorld → Option FemWorld
  | [], w => some w
  | info :: rest, w =>
    match multiStaBlockAckNotify sender staId nIndices info w with
    | none => none
    | some (tid, w1) =>
      match mapFind staId w1.fem.m_psduMap with
      | none => none
      | some psdu =>
        match psdu.mpdus.head? with
        | none => none
        | some header0 =>
          if header0.isQosData && (info.ackType || info.bitmapNonZero) then
            if header0.hasData = false ∨ header0.qosTid ≠ tid then none
            else
              multiStaBlockAckLoop sender staId nIndices rest
                (w1.log (Effect.StartMuEdcaTimerNow tid))
          else multiStaBlockAckLoop sender staId nIndices rest w1

/-- The branch `hdr.IsCtl ()` of `ReceiveMpdu`.  The handling of a Trigger Frame is
`ReceiveMpdu_trigger`. -/
def receiveMpduCtl (env : ApEnv) (mpdu : RxMpdu) (txVector : TxVector) (inAmpdu : Bool)
    (w : FemWorld) : Option FemWorld :=
  let timer := w.fem.m_txTimer
  if mpdu.isCts && timer.running && timer.reason == TimerReason.WAIT_CTS
      && w.fem.m_psduMap.length == 1 then
    if inAmpdu then none
    else if mpdu.hdr.addr1 ≠ w.fem.sta.m_self then none
    else
      match w.fem.m_psduMap.head? with
      | none => none
      | some first =>
        if first.2.mpdus.isEmpty then none
        else
          let w1 := (w.log (Effect.ReportRxOk first.2.addr1)).log Effect.ReportRtsOk
          let w2 : FemWorld :=
            { w1 with fem := { w1.fem with m_txTimer := w1.fem.m_txTimer.Cancel } }
          some ((w2.log Effect.NotifyCtsTimeoutResetNow).log
            (Effect.Schedule env.sta.sifs ApScheduled.SendPsduMap))
  else if mpdu.isAck && timer.running
      && timer.reason == TimerReason.WAIT_NORMAL_ACK_AFTER_DL_MU_PPDU then
    if mpdu.hdr.addr1 ≠ w.fem.sta.m_self then none
    else
      match w.fem.m_txParams.m_acknowledgment with
      | none => none
      | some acknowledgment =>
        if acknowledgment.method ≠ AckMethod.DL_MU_BAR_BA_SEQUENCE then none
        else
          match acknowledgment.stationsReplyingWithNormalAck with
          | [station] =>
            if w.fem.m_apMac = false then none
            else
              let staId := env.getAssociationId station.1
              match mapFind staId w.fem.m_psduMap with
              | none => none
              | some psdu =>
                if psdu.addr1 ≠ station.1 then none
                else
                  match psdu.mpdus.head? with
                  | none => none
                  | some first =>
                    let w1 := w.callParent (Effect.ReceivedNormalAck staId)
                      (env.receivedNormalAck first)
                    some { w1 with fem := { w1.fem with m_psduMap := [] } }
          | _ => none
  else if mpdu.isBlockAck && txVector.isUlMu && timer.running
      && timer.reason == TimerReason.WAIT_BLOCK_ACKS_IN_TB_PPDU then
    let sender := mpdu.hdr.addr2
    let w1 := (w.log (Effect.NotifyGotBlockAck sender mpdu.baTidInfo)).log
      (Effect.ReportAmpduTxStatus sender)
    if !w1.fem.m_staExpectTbPpduFrom.contains sender then some w1
    else
      let w2 : FemWorld :=
        { w1 with fem :=
          { w1.fem with m_staExpectTbPpduFrom := setErase sender w1.fem.m_staExpectTbPpduFrom } }
      if w2.fem.m_staExpectTbPpduFrom.isEmpty then
        let w3 : FemWorld :=
          { (w2.log Effect.NotifyAckTimeoutResetNow) with
            fem := { w2.fem with m_txTimer := w2.fem.m_txTimer.Cancel, m_triggerFrame := none } }
        if w3.fem.m_edca = false then none
        else
          let w4 := w3.log Effect.ResetCw
          let w5 : FemWorld := { w4 with fem := { w4.fem with m_psduMap := [] } }
          some (w5.callParent Effect.TransmissionSucceeded env.transmissionSucceeded)
      else some w2
  else if mpdu.isBlockAck && timer.running
      && timer.reason == TimerReason.WAIT_BLOCK_ACK_AFTER_TB_PPDU then
    if !mpdu.baIsMultiSta then none
    else
      match w.fem.sta.staMac with
      | some (true, staId) =>
        if mpdu.hdr.addr2 ≠ w.fem.sta.m_bssid then some w
        else
          let indices := mpdu.baPerAidTidInfo.filter (fun info => info.aid11 == staId)
          if indices.isEmpty then some w
          else
            match multiStaBlockAckLoop mpdu.hdr.addr2 staId indices.length indices w with
            | none => none
            | some w1 =>
              let w2 : FemWorld :=
                { w1 with fem := { w1.fem with m_txTimer := w1.fem.m_txTimer.Cancel } }
              let w3 := w2.log Effect.NotifyAckTimeoutResetNow
              some { w3 with fem := { w3.fem with m_psduMap := [] } }
      | _ => none
  else if mpdu.isBlockAck && timer.running && timer.reason == TimerReason.WAIT_BLOCK_ACK then
    let w1 : FemWorld := { w with fem := { w.fem with m_psduMap := [] } }
    some (w1.callParent (Effect.ParentReceiveMpdu mpdu inAmpdu)
      (env.parentReceiveMpdu mpdu txVector inAmpdu))
  else if mpdu.isTrigger then
    match ReceiveMpdu_trigger env.sta mpdu.hdr mpdu.trigger inAmpdu w.g w.fem.sta with
    | none => none
    | some (g1, sta1) => some { w with g := g1, fem := { w.fem with sta := sta1 } }
  else
    some (w.callParent (Effect.ParentReceiveMpdu mpdu inAmpdu)
      (env.parentReceiveMpdu mpdu txVector inAmpdu))

/-- The method `HeFrameExchangeManager::ReceiveMpdu`. -/
def ReceiveMpdu (env : ApEnv) (mpdu : RxMpdu) (txVector : TxVector) (inAmpdu : Bool)
    (w : FemWorld) : Option FemWorld :=
  match receiveMpduStats mpdu txVector w with
  | none => none
  | some w0 =>
    if !(mpdu.addr1IsGroup || mpdu.hdr.addr1 == w0.fem.sta.m_self) then none
    else if txVector.isUlMu && w0.fem.m_txTimer.running
        && w0.fem.m_txTimer.reason == TimerReason.WAIT_TB_PPDU_AFTER_BASIC_TF then
      receiveMpduBasicTf env mpdu txVector inAmpdu w0
    else if txVector.isUlMu && w0.fem.m_txTimer.running
        && w0.fem.m_txTimer.reason == TimerReason.WAIT_QOS_NULL_AFTER_BSRP_TF && !inAmpdu then
      receiveMpduBsrpTf env mpdu w0
    else if mpdu.isCtl then receiveMpduCtl env mpdu txVector inAmpdu w0
    else
      some (w0.callParent (Effect.ParentReceiveMpdu mpdu inAmpdu)
        (env.parentReceiveMpdu mpdu txVector inAmpdu))

/-- The loop of `EndReceiveAmpdu` recording one Multi-STA BlockAck recipient per TID of the
A-MPDU, at consecutive indices. -/
def recordBlockAckTids (env : ApEnv) (sender : Mac48Address) (index : Nat) :
    List (Nat × Bool) → Nat → WifiAcknowledgment → Option WifiAcknowledgment
  | [], _, acknowledgment => some acknowledgment
  | tid :: rest, i, acknowledgment =>
    match env.getBlockAckBitmapLen sender tid.1 with
    | none => none
    | some bitmapLen =>
      recordBlockAckTids env sender index rest (i + 1)
        { acknowledgment with
          stationsReceivingMultiStaBa :=
            emplaceMultiStaBa (sender, tid.1) (index + i)
              acknowledgment.stationsReceivingMultiStaBa
          baTypeBitmapLen := acknowledgment.baTypeBitmapLen ++ [bitmapLen] }

/-- The loop of `EndReceiveAmpdu` handing the Trigger Frames of the A-MPDU to
`ReceiveMpdu`. -/
def receiveTriggersInAmpdu (env : ApEnv) (txVector : TxVector) :
    List RxMpdu → FemWorld → Option FemWorld
  | [], w => some w
  | mpdu :: rest, w =>
    if mpdu.isTrigger then
      match ReceiveMpdu env mpdu txVector false w with
      | none => none
      | some w1 => receiveTriggersInAmpdu env txVector rest w1
    else receiveTriggersInAmpdu env txVector rest w

/-- The method `HeFrameExchangeManager::EndReceiveAmpdu`. -/
def EndReceiveAmpdu (env : ApEnv) (psdu : RxPsdu) (snr : Int) (txVector : TxVector)
    (perMpduStatus : List Bool) (w : FemWorld) : Option FemWorld :=
  let timer := w.fem.m_txTimer
  if txVector.isUlMu && timer.running
      && timer.reason == TimerReason.WAIT_TB_PPDU_AFTER_BASIC_TF then
    let sender := psdu.addr2
    match w.fem.m_txParams.m_acknowledgment with
    | none => none
    | some acknowledgment =>
      if acknowledgment.method ≠ AckMethod.UL_MU_MULTI_STA_BA then none
      else
        let index := acknowledgment.baTypeBitmapLen.length
        if !w.fem.m_staExpectTbPpduFrom.contains sender then some w
        else if psdu.tids.any (fun tid => tid.2) then
          let recorded : Option WifiAcknowledgment :=
            if perMpduStatus.all (fun v => v) then
              some { acknowledgment with
                stationsReceivingMultiStaBa :=
                  emplaceMultiStaBa (sender, 14) index acknowledgment.stationsReceivingMultiStaBa
                baTypeBitmapLen := acknowledgment.baTypeBitmapLen ++ [0] }
            else recordBlockAckTids env sender index psdu.tids 0 acknowledgment
          match recorded with
          | none => none
          | some acknowledgment1 =>
            match txVector.heMuUserInfoMap.head? with
            | none => none
            | some first =>
              let w1 := w.setAck acknowledgment1
              basicTfResponseProcessed env sender
                { w1 with fem :=
                  { w1.fem with m_muSnrTag := mapSet first.1 snr w1.fem.m_muSnrTag } }
        else basicTfResponseProcessed env sender w
  else if txVector.isUlMu && timer.running
      && timer.reason == TimerReason.WAIT_QOS_NULL_AFTER_BSRP_TF then
    let sender := psdu.addr2
    if !w.fem.m_staExpectTbPpduFrom.contains sender then some w
    else if !psdu.mpdus.any (fun mpdu => mpdu.isQosData && !mpdu.hasData) then some w
    else bsrpTfResponseProcessed env sender w
  else if w.fem.sta.m_triggerFrameInAmpdu then
    match receiveTriggersInAmpdu env txVector psdu.mpdus w with
    | none => none
    | some w1 =>
      some { w1 with fem :=
        { w1.fem with sta := { w1.fem.sta with m_triggerFrameInAmpdu := false } } }
  else
    some (w.callParent (Effect.ParentEndReceiveAmpdu psdu)
      (env.parentEndReceiveAmpdu psdu txVector perMpduStatus))

/-! ## Definitions: quantities named by the claims on the frame exchange -/

/-- Whether a call on a collaborator reports a transmission failure towards the station
`sta` (a call that moves the retry counters of the frames addressed to it). -/
def reportsFailureFor (sta : Mac48Address) : Effect → Bool
  | Effect.MissedBlockAck psdu => psdu.addr1 == sta
  | Effect.ReportDataFailed psdu => psdu.addr1 == sta
  | _ => false

/-- The recipients recorded for a Multi-STA BlockAck can be served by
`SendMultiStaBlockAck`: every entry other than an All-ack has its index within
`baType.m_bitmapLen` and, for a nonzero bitmap length, a Block Ack agreement. -/
def multiStaBaWellFormed (env : ApEnv) (acknowledgment : WifiAcknowledgment) : Bool :=
  acknowledgment.stationsReceivingMultiStaBa.all (fun staInfo =>
    staInfo.1.2 == 14 ||
      match acknowledgment.baTypeBitmapLen[staInfo.2]? with
      | none => false
      | some bitmapLen => bitmapLen == 0 || env.sta.hasAgreement staInfo.1.1 staInfo.1.2)

/-- A call of one of the methods that run between two solicitations. -/
inductive FemCall where
  | ReceiveMpdu (mpdu : RxMpdu) (txVector : TxVector) (inAmpdu : Bool)
  | EndReceiveAmpdu (psdu : RxPsdu) (snr : Int) (txVector : TxVector) (perMpduStatus : List Bool)
  | TbPpduTimeout (psduMap : Option (List (Nat × TxPsdu)))
      (staMissedTbPpduFrom : List Mac48Address) (nSolicitedStations : Nat)
  | BlockAcksInTbPpduTimeout (psduMap : Option (List (Nat × TxPsdu)))
      (staMissedBlockAckFrom : List Mac48Address) (nSolicitedStations : Nat)
  deriving DecidableEq, Repr

/-- Run one call. -/
def runCall (env : ApEnv) (call : FemCall) (w : FemWorld) : Option FemWorld :=
  match call with
  | FemCall.ReceiveMpdu mpdu txVector inAmpdu => ReceiveMpdu env mpdu txVector inAmpdu w
  | FemCall.EndReceiveAmpdu psdu snr txVector perMpduStatus =>
    EndReceiveAmpdu env psdu snr txVector perMpduStatus w
  | FemCall.TbPpduTimeout psduMap missed n => TbPpduTimeout env psduMap missed n w
  | FemCall.BlockAcksInTbPpduTimeout psduMap missed n =>
    BlockAcksInTbPpduTimeout env psduMap missed n w

/-- Run a sequence of calls, stopping at the first failure. -/
def runCalls (env : ApEnv) : List FemCall → FemWorld → Option FemWorld
  | [], w => some w
  | call :: rest, w =>
    match runCall env call w with
    | none => none
    | some w1 => runCalls env rest w1

/-! ## Definitions: a scenario of an AP soliciting three stations -/

/-- The collaborators of the AP of the scenario: stations with association ids 1, 2, 3 and
addresses 11, 12, 13; fixed durations; `MissedBlockAck` reporting `resetCw` as given;
`TransmissionSucceeded` and `TransmissionFailed` releasing the channel (`m_edca` reset). -/
def exApEnv (psduResetCw : Bool) : ApEnv :=
  { sta := exEnv
    slot := 9000
    macPhySifs := 16000
    calculateTxDuration := fun _ _ => 100000
    calculateTriggerTxDuration := fun _ _ => 50000
    calculateBlockAckTxDuration := fun _ _ => 40000
    convertLSigLengthToHeTbPpduDuration := fun _ _ => 200000
    calculatePhyPreambleAndHeaderDuration := fun _ => 20000
    getPsduDurationId := fun txDuration _ => txDuration
    getAssociationId := fun addr => addr - 10
    staList := [(1, 11), (2, 12), (3, 13)]
    ulMuInfoTrigger :=
      { exTrigger with userInfoFields := [1, 2, 3].map (fun a => ⟨a, exRu, 0, 0, false⟩) }
    getTrigVector := fun trigger => ⟨true, trigger.ulLength, [], false, 0⟩
    triggerHeTbTxVector := fun trigger _ => ⟨true, trigger.ulLength, [], false, 0⟩
    getBlockAckTxVector := fun _ txVector => txVector
    getBlockAckBitmapLen := fun _ _ => some 32
    missedBlockAck := fun _ _ b => (psduResetCw, b)
    transmissionSucceeded := fun b => { b with m_edca := false }
    transmissionFailed := fun b => { b with m_edca := false }
    receivedNormalAck := fun _ b => b
    parentReceiveMpdu := fun _ _ _ b => b
    parentEndReceiveAmpdu := fun _ _ _ b => b }

/-- A single-user PSDU holding a Trigger Frame (broadcast, address 0). -/
def exTriggerPsdu : TxPsdu := ⟨0, [⟨true, false, false, 0, none⟩], [], 0, false, false⟩

/-- A PSDU for the station with address `addr`, holding one QoS data frame of TID 0. -/
def exDataPsdu (addr : Mac48Address) : TxPsdu :=
  ⟨addr, [⟨false, true, true, 0, none⟩], [0], 0, false, true⟩

/-- The TX vector of a TB PPDU sent by the station with id `staId`. -/
def exTbTxVector (staId : Nat) : TxVector := ⟨true, 100, [(staId, ⟨exRu, 7, 1⟩)], false, 0⟩

/-- An acknowledgment object of the given method with no station recorded. -/
def exAck (method : AckMethod) : WifiAcknowledgment :=
  { method := method
    acknowledgmentTime := 0
    stationsReplyingWithNormalAck := []
    stationsReplyingWithBlockAck := []
    stationsSendBlockAckReqTo := []
    stationsReceivingMultiStaBa := []
    baTypeBitmapLen := []
    ulLength := 100
    tbPpduTxVector := ⟨true, 100, [], false, 0⟩
    muBarTxVector := ⟨false, 0, [], false, 0⟩
    multiStaBaTxVector := ⟨false, 0, [], false, 0⟩ }

/-- The AP (address 100) after `SendPsduMap`: the timer runs for `reason`, the PSDU map is
`psduMap`, the acknowledgment has the given method, and the stations of `expected` are
expected to respond. -/
def exApFem (method : AckMethod) (reason : TimerReason) (psduMap : List (Nat × TxPsdu))
    (expected : List Mac48Address) : HeFem :=
  { sta := { exSta 100 with staMac := none }
    m_txTimer := ⟨true, reason, 345000, TimeoutCallback.TbPpduTimeout 3⟩
    m_edca := true
    m_apMac := true
    m_muScheduler := true
    m_psduMap := psduMap
    m_txParams := ⟨⟨false, 0, [], false, 0⟩, some (exAck method)⟩
    m_staExpectTbPpduFrom := expected
    m_multiStaBaEvent := false
    m_triggerFrame := none
    m_trigVector := ⟨true, 100, [], false, 0⟩
    m_muSnrTag := [] }

/-- The state of the scenario: no statistics, no call made yet. -/
def exApWorld (method : AckMethod) (reason : TimerReason) (psduMap : List (Nat × TxPsdu))
    (expected : List Mac48Address) : FemWorld :=
  { g := exGlobals0
    ul := ⟨[], [], 0, 0, [], [], []⟩
    fem := exApFem method reason psduMap expected
    effects := [] }

/-- The AP waiting for the TB PPDUs solicited by a Basic Trigger Frame. -/
def exBasicWorld (expected : List Mac48Address) : FemWorld :=
  exApWorld AckMethod.UL_MU_MULTI_STA_BA TimerReason.WAIT_TB_PPDU_AFTER_BASIC_TF
    [(SU_STA_ID, exTriggerPsdu)] expected

/-- The AP waiting for the QoS Null frames solicited by a BSRP Trigger Frame. -/
def exBsrpWorld (expected : List Mac48Address) : FemWorld :=
  exApWorld AckMethod.NONE TimerReason.WAIT_QOS_NULL_AFTER_BSRP_TF
    [(SU_STA_ID, exTriggerPsdu)] expected

/-- A QoS Null frame sent to the AP by the station with address `addr`, queue size 4. -/
def exQosNull (addr : Mac48Address) : RxMpdu :=
  { hdr := ⟨100, false, addr, 0⟩
    addr1IsGroup := false
    macType := WifiMacType.WIFI_MAC_QOSDATA_NULL
    isCtl := false, isCts := false, isAck := false, isBlockAck := false
    isBlockAckReq := false, isTrigger := false
    isQosData := true, hasData := false
    qosAckPolicyNormal := false
    qosTid := 0, qosQueueSize := 4, packetSize := 30, snr := 20
    barIsMultiTid := false, barTidInfo := 0
    baIsMultiSta := false, baTidInfo := 0, baPerAidTidInfo := []
    trigger := exTrigger }

/-- The AP waiting for the BlockAcks of stations 11 and 12 in TB PPDUs, solicited by MU-BAR
Trigger Frames aggregated to the PSDUs of a DL MU PPDU. -/
def exBlockAckWorld : FemWorld :=
  exApWorld AckMethod.DL_MU_AGGREGATE_TF TimerReason.WAIT_BLOCK_ACKS_IN_TB_PPDU
    [(1, exDataPsdu 11), (2, exDataPsdu 12)] [11, 12]

/-- The AP of the scenario about to send a BSRP Trigger Frame: the TX timer is idle. -/
def exIdleBsrpWorld : FemWorld :=
  { exBsrpWorld [] with
    fem :=
      { (exBsrpWorld []).fem with
        m_txTimer := ⟨false, TimerReason.NOT_RUNNING, 0, TimeoutCallback.OtherTimeout⟩ } }

/-- The transmission duration computed by the common part of `SendPsduMap`: after the
L-SIG length for a TB PPDU, and of the PSDU map otherwise. -/
def psduMapTxDuration (env : ApEnv) (w : FemWorld) : Time :=
  if w.fem.m_txParams.m_txVector.isUlMu then
    env.convertLSigLengthToHeTbPpduDuration w.fem.m_txParams.m_txVector.length
      w.fem.m_txParams.m_txVector
  else env.calculateTxDuration w.fem.m_psduMap w.fem.m_txParams.m_txVector

/-! ## Definitions: the state of the scheduler (rr-multi-user-scheduler.cc) -/

/-- The enumeration `MultiUserScheduler::TxFormat`. -/
inductive TxFormat where
  | NO_TX
  | SU_TX
  | DL_MU_TX
  | UL_MU_TX
  deriving DecidableEq, Repr

/-- The values of `i` in `for (int i = 1; i <= m_nStations; i++)`. -/
def aidRange (n : Nat) : List Nat := (List.range n).map (fun i => i + 1)

/-- The `operator[]` of a `std::map` with integer keys: the value under the key and the map,
in which a default value has been inserted when the key was absent. -/
def mapIndex {β : Type} (k : Nat) (dflt : β) (m : List (Nat × β)) : β × List (Nat × β) :=
  match mapFind k m with
  | some v => (v, m)
  | none => (dflt, mapSet k dflt m)

/-- A queued MPDU as far as the scheduler looks into it: receiver address, whether it is a
QoS data frame, its TID, and a handle identifying the frame. -/
structure QueuedMpdu where
  addr1 : Mac48Address
  isQosData : Bool
  qosTid : Nat
  id : Nat
  deriving DecidableEq, Repr

/-- A frame passed to `TryAddMpdu`: the Trigger Frame built by `GetTriggerFrame` (its
trigger header and MAC header) or a queued data frame. -/
inductive MuItem where
  | trigger (trigger : CtrlTriggerHeader) (hdr : WifiMacHeader)
  | data (mpdu : QueuedMpdu)
  deriving DecidableEq, Repr

/-- The object `m_txParams` of the scheduler as far as the scheduler reads it: the TX vector,
the protection time and the acknowledgment time (`none` for a null `m_protection` or
`m_acknowledgment`), the duration `m_txDuration`, and the frames added so far. -/
structure MuTxParameters where
  m_txVector : TxVector
  m_protection : Option Time
  m_acknowledgment : Option Time
  m_txDuration : Time
  items : List MuItem
  deriving DecidableEq, Repr

/-- An entry of the table `wifiAcList`: the higher-priority TID of the access category and
the function `GetOtherTid`. -/
structure WifiAc where
  highTid : Nat
  getOtherTid : Nat → Nat

/-- The object `RrMultiUserScheduler` with the members of its parent class read by the
methods embedded here (`m_apMac` as whether the pointer is set, `m_lastTxFormat`,
`m_availableTime`, `m_initialFrame`).  `base` holds the members read by `FinalizeTxVector`
and `UpdateCredits`; the station lists hold the stations in list order, and a candidate is
a position in the list it was collected from. -/
structure RrScheduler where
  base : RrMultiUserScheduler
  m_apMac : Bool
  m_nStations : Nat
  m_enableTxopSharing : Bool
  m_forceDlOfdma : Bool
  m_enableUlOfdma : Bool
  m_enableBsrp : Bool
  m_ulPsduSize : Nat
  m_staListDl : List (Nat × List MasterInfo)
  m_staListUl : List MasterInfo
  m_trigger : CtrlTriggerHeader
  m_triggerMacHdr : WifiMacHeader
  m_txParams : MuTxParameters
  m_isDoneUl : Bool
  m_isNotAfterBsrp : Bool
  m_lastTxFormat : TxFormat
  m_availableTime : Time
  m_initialFrame : Bool

/-- The state the methods of the scheduler act on: the file-scope maps `m_bsr` and
`m_will_be_qos_null` and the list `m_qosNullStas` returned by `GetQosNullStas` (in `ul`),
the file-scope vectors `m_bsrpList` and `m_zerobsr`, and the object. -/
structure MuWorld where
  ul : UlStats
  m_bsrpList : List Nat
  m_zerobsr : List Nat
  s : RrScheduler

/-- The collaborators of the scheduler: the `HeRu` functions and the default-constructed
`HeRu::RuSpec ()`, the value `Time::Min ()` (which `m_availableTime` holds when there is
no time limit), the PHY (`sifs`, durations, L-SIG conversion), the queue of the primary access category and the per-AC queues, the
remote station manager, the frame exchange manager (`baAgreementEstablished`,
`tryAddMpdu`), the AP MAC (`getMaxBufferStatus`, `getStaList`, whether it has an HE
configuration), the constructors of the Trigger Frame, `WifiTxParameters::Clear`, the table
`wifiAcList`, the RU type `RU_26_TONE`, the functions `Time::IsNegative` and
`Time::ToDouble (Time::US)`, and `MultiUserScheduler::DoInitialize`, which acts on the
members of the parent class. -/
structure MuEnv where
  heRu : HeRuModel
  undefinedRu : RuSpec
  timeMin : Time
  sifs : Time
  heConfiguration : Bool
  peekNextMpdu : Option QueuedMpdu
  getAccessCategory : Nat
  getHeSupported : Mac48Address → Bool
  baAgreementEstablished : Mac48Address → Nat → Bool
  getDataTxVector : Mac48Address → Nat → Nat × Nat
  getRtsTxVector : Mac48Address → TxVector
  makeTrigger : TriggerType → HeMuUserInfoMap → CtrlTriggerHeader
  getTriggerFrame : CtrlTriggerHeader → WifiMacHeader
  clear : MuTxParameters → MuTxParameters
  tryAddMpdu : MuItem → MuTxParameters → Time → Bool × MuTxParameters
  getMaxSizeOfQosNullAmpdu : CtrlTriggerHeader → Nat
  calculateTxDuration : Nat → HeMuUserInfoMap → Nat → Time
  getHeTbTxVector : CtrlTriggerHeader → Nat → HeMuUserInfoMap
  convertHeTbPpduDurationToLSigLength : Time → HeMuUserInfoMap → Nat × Time
  getPpduMaxTime : Time
  getMaxBufferStatus : Mac48Address → Nat
  getStaList : List (Nat × Mac48Address)
  wifiAcList : List (Nat × WifiAc)
  mapTidToAc : Nat → Nat
  qosTxopBaAgreementEstablished : Nat → Mac48Address → Nat → Bool
  qosTxopPeekNextMpdu : Nat → Nat → Mac48Address → Option QueuedMpdu
  dlMuTxVector : TxVector → Nat → TxVector
  ru26Tone : Nat
  isNegative : Time → Bool
  toDoubleUs : Time → ℚ
  parentDoInitialize : RrScheduler → RrScheduler

/-- The method `RrMultiUserScheduler::DoInitialize`: the assertion on `m_apMac`, an empty
downlink list for every access category not yet in `m_staListDl`, the initial entries of
`m_will_be_qos_null` and `m_bsr`, and the parent's method. -/
def DoInitialize (env : MuEnv) (w : MuWorld) : Option MuWorld :=
  if w.s.m_apMac = false then none
  else
    let staListDl :=
      env.wifiAcList.foldl
        (fun m ac => if (mapFind ac.1 m).isSome then m else mapSet ac.1 [] m) w.s.m_staListDl
    let ul :=
      (aidRange w.s.m_nStations).foldl
        (fun (ul : UlStats) i =>
          { ul with
            m_will_be_qos_null := mapSet i false ul.m_will_be_qos_null
            m_bsr := mapSet i 0 ul.m_bsr })
        w.ul
    some { w with ul := ul, s := env.parentDoInitialize { w.s with m_staListDl := staListDl } }

/-- The method `RrMultiUserScheduler::NotifyStationAssociated`. -/
def NotifyStationAssociated (env : MuEnv) (aid : Nat) (address : Mac48Address)
    (s : RrScheduler) : RrScheduler :=
  if env.getHeSupported address then
    { s with
      m_staListDl := s.m_staListDl.map (fun staList => (staList.1, staList.2 ++ [⟨aid, address, 0⟩]))
      m_staListUl := s.m_staListUl ++ [⟨aid, address, 0⟩] }
  else s

/-! ## Definitions: soliciting stations (rr-multi-user-scheduler.cc) -/

/-- The loop of `GetTxVectorForUlMu` over `m_staListUl`: a station passing `canbeSolicited`
and having a Block Ack agreement for some TID below 8 gets a user info with an undefined RU
and becomes a candidate.  `pos` is the position of `staIt`, `limit` the bound on the size of
the user-info map. -/
def ulCandidateLoop (env : MuEnv) (allowedWidth : Nat) (canbeSolicited : MasterInfo → Bool)
    (limit : Nat) :
    List MasterInfo → Nat → HeMuUserInfoMap → List Candidate → HeMuUserInfoMap × List Candidate
  | [], _, txVector, candidates => (txVector, candidates)
  | sta :: rest, pos, txVector, candidates =>
    if txVector.length < limit then
      if !canbeSolicited sta then
        ulCandidateLoop env allowedWidth canbeSolicited limit rest (pos + 1) txVector candidates
      else if (List.range 8).all (fun tid => !env.baAgreementEstablished sta.address tid) then
        ulCandidateLoop env allowedWidth canbeSolicited limit rest (pos + 1) txVector candidates
      else
        let suTxVector := env.getDataTxVector sta.address allowedWidth
        ulCandidateLoop env allowedWidth canbeSolicited limit rest (pos + 1)
          (mapSet sta.aid ⟨env.undefinedRu, suTxVector.1, suTxVector.2⟩ txVector)
          (candidates ++ [⟨pos, none⟩])
    else (txVector, candidates)

/-- The method `RrMultiUserScheduler::GetTxVectorForUlMu (Func canbeSolicited)`.  Returns
the user-info map of the TX vector; `m_candidates` is rebuilt. -/
def GetTxVectorForUlMu (env : MuEnv) (canbeSolicited : MasterInfo → Bool) (s : RrScheduler) :
    Option (HeMuUserInfoMap × RrScheduler) :=
  let r := env.heRu.getEqualSizedRusForStations s.base.m_allowedWidth
    (min s.m_nStations s.m_staListUl.length)
  let count := r.2.1
  if count < 1 then none
  else
    let nCentral26TonesRus := if s.base.m_useCentral26TonesRus then r.2.2 else 0
    if s.m_apMac = false ∨ env.heConfiguration = false then none
    else
      let collected :=
        ulCandidateLoop env s.base.m_allowedWidth canbeSolicited
          (min s.m_nStations ((count + nCentral26TonesRus) % 2 ^ 64)) s.m_staListUl 0 [] []
      let s1 : RrScheduler := { s with base := { s.base with m_candidates := collected.2 } }
      if collected.1.isEmpty then some (collected.1, s1)
      else
        match FinalizeTxVector env.heRu s1.base s1.m_staListUl collected.1 with
        | none => none
        | some (txVector, candidates) =>
          some (txVector, { s1 with base := { s1.base with m_candidates := candidates } })

/-- One iteration of the loop of `UpdateWillBeQosNull`: `m_bsr[i]` is read for the log,
the station with association id `i` is looked up in `m_staListUl` (the end iterator is
dereferenced when there is none) and the flag of `i` is set when the station sent a QoS
Null frame, and reset when `i` is in `m_zerobsr`. -/
def updateWillBeQosNullStep (staListUl : List MasterInfo) (zerobsr : List Nat) (i : Nat)
    (ul : UlStats) : Option UlStats :=
  let ul1 : UlStats := { ul with m_bsr := (mapIndex i 0 ul.m_bsr).2 }
  match findIf (fun sta => sta.aid == i) staListUl with
  | none => none
  | some addr_ptr =>
    if ul1.m_qosNullStas.contains addr_ptr.2.address then
      some { ul1 with m_will_be_qos_null := mapSet i true ul1.m_will_be_qos_null }
    else if zerobsr.contains i then
      some { ul1 with m_will_be_qos_null := mapSet i false ul1.m_will_be_qos_null }
    else some ul1

/-- The method `RrMultiUserScheduler::UpdateWillBeQosNull`. -/
def UpdateWillBeQosNull (w : MuWorld) : Option MuWorld :=
  match (aidRange w.s.m_nStations).foldlM
      (fun ul i => updateWillBeQosNullStep w.s.m_staListUl w.m_zerobsr i ul) w.ul with
  | none => none
  | some ul => some { w with ul := ul }

/-- One iteration of the loop of `TrySendingBsrpTf` run when `m_isDoneUl` is set: `i` is
appended to `m_zerobsr` when `m_bsr[0]` is 0, and to `m_bsrpList` when
`m_will_be_qos_null[i]` is set. -/
def bsrpListStep (w : MuWorld) (i : Nat) : MuWorld :=
  let bsr := mapIndex 0 0 w.ul.m_bsr
  let w1 : MuWorld :=
    { w with
      ul := { w.ul with m_bsr := bsr.2 }
      m_zerobsr := if bsr.1 = 0 then w.m_zerobsr ++ [i] else w.m_zerobsr }
  let flag := mapIndex i false w1.ul.m_will_be_qos_null
  { w1 with
    ul := { w1.ul with m_will_be_qos_null := flag.2 }
    m_bsrpList := if flag.1 then w1.m_bsrpList ++ [i] else w1.m_bsrpList }

/-- The part of `TrySendingBsrpTf` before the TX vector is built: `m_bsrpList` is cleared
and, when `m_isDoneUl` is set, the flags and the two lists are updated. -/
def bsrpLists (w : MuWorld) : Option MuWorld :=
  let w0 : MuWorld := { w with m_bsrpList := [] }
  if w0.s.m_isDoneUl then
    match UpdateWillBeQosNull w0 with
    | none => none
    | some w1 =>
      some ((aidRange w1.s.m_nStations).foldl bsrpListStep { w1 with m_zerobsr := [] })
  else some w0

/-- The loops of the form `duration = Max (duration, CalculateTxDuration (size, txVector,
band, userInfo.GetAid12 ()))` over the User Info fields of the trigger, from zero. -/
def maxTxDuration (env : MuEnv) (size : Nat) (txVector : HeMuUserInfoMap)
    (trigger : CtrlTriggerHeader) : Time :=
  trigger.userInfoFields.foldl
    (fun acc userInfo => max acc (env.calculateTxDuration size txVector userInfo.aid12)) 0

/-- The statements by which both attempts add the Trigger Frame to the TX parameters: the
frame is built for the TX vector, the TX parameters are cleared and given the TX vector of
an RTS to the receiver of the frame, and `TryAddMpdu` is called with the available time.
Returns the result of `TryAddMpdu` and the TX parameters after the call. -/
def addTriggerFrame (env : MuEnv) (triggerType : TriggerType) (txVector : HeMuUserInfoMap)
    (s : RrScheduler) : Bool × MuTxParameters :=
  let trigger := env.makeTrigger triggerType txVector
  let hdr := env.getTriggerFrame trigger
  env.tryAddMpdu (MuItem.trigger trigger hdr)
    { env.clear s.m_txParams with m_txVector := env.getRtsTxVector hdr.addr1 } s.m_availableTime

/-- The part of `TrySendingBsrpTf` after the TX vector is found to solicit some station:
the Trigger Frame is built and added to the TX parameters, the longest QoS Null response is
computed and compared with the available time, and the UL length is set. -/
def bsrpTrigger (env : MuEnv) (txVector : HeMuUserInfoMap) (w : MuWorld) :
    Option (TxFormat × MuWorld) :=
  let trigger := env.makeTrigger TriggerType.BSRP_TRIGGER txVector
  let hdr := env.getTriggerFrame trigger
  let added := addTriggerFrame env TriggerType.BSRP_TRIGGER txVector w.s
  let w1 : MuWorld :=
    { w with s := { w.s with m_trigger := trigger, m_triggerMacHdr := hdr, m_txParams := added.2 } }
  if added.1 = false then some (TxFormat.NO_TX, w1)
  else
    let qosNullTxDuration :=
      maxTxDuration env (env.getMaxSizeOfQosNullAmpdu trigger) txVector trigger
    let checked : Option Bool :=
      if w1.s.m_availableTime ≠ env.timeMin then
        match added.2.m_protection, added.2.m_acknowledgment with
        | some protectionTime, some acknowledgmentTime =>
          if protectionTime = env.timeMin ∨ acknowledgmentTime ≠ 0
              ∨ added.2.m_txDuration = env.timeMin then none
          else
            some (decide (protectionTime + added.2.m_txDuration + env.sifs + qosNullTxDuration
              > w1.s.m_availableTime))
        | _, _ => none
      else some false
    match checked with
    | none => none
    | some true => some (TxFormat.NO_TX, w1)
    | some false =>
      match trigger.userInfoFields.head? with
      | none => none
      | some firstUser =>
        let converted :=
          env.convertHeTbPpduDurationToLSigLength qosNullTxDuration
            (env.getHeTbTxVector trigger firstUser.aid12)
        some (TxFormat.UL_MU_TX,
          { w1 with s :=
            { w1.s with
              m_trigger := { trigger with ulLength := converted.1 }
              m_isNotAfterBsrp := false } })

/-- The method `RrMultiUserScheduler::TrySendingBsrpTf`. -/
def TrySendingBsrpTf (env : MuEnv) (w : MuWorld) : Option (TxFormat × MuWorld) :=
  if w.s.m_staListUl.isEmpty then some (TxFormat.SU_TX, w)
  else
    match bsrpLists w with
    | none => none
    | some w1 =>
      match GetTxVectorForUlMu env (fun _ => true) w1.s with
      | none => none
      | some (txVector, s1) =>
        let w2 : MuWorld := { w1 with s := s1 }
        if txVector.isEmpty then some (TxFormat.DL_MU_TX, w2)
        else bsrpTrigger env txVector w2

/-- The function object passed to `GetTxVectorForUlMu` by `TrySendingBasicTf`:
`m_apMac->GetMaxBufferStatus (info.address) > 0`. -/
def basicCanBeSolicited (env : MuEnv) (info : MasterInfo) : Bool :=
  decide (env.getMaxBufferStatus info.address % 256 > 0)

/-- The function `f` of the specification of `maxBufferSize`, by its words: `UlPsduSize`
for 255, `0xffffffff` for 254, and 256 times the queue size otherwise. -/
def specBufferSize (ulPsduSize queueSize : Nat) : Nat :=
  if queueSize = 255 then ulPsduSize
  else if queueSize = 254 then 0xffffffff
  else queueSize * 256

/-- The queue size reported by the station with the given station id: the buffer status
of the address the station list of the AP gives for the id (0 when it gives none). -/
def reportedQueueSize (env : MuEnv) (staId : Nat) : Nat :=
  match mapFind staId env.getStaList with
  | some address => env.getMaxBufferStatus address % 256
  | none => 0

/-- One iteration of the loop of `TrySendingBasicTf` computing `maxBufferSize`: the station
of the user info is looked up in the station list of the AP (an assertion), and the queue
size it reported raises the maximum, or sets it to `0xffffffff` for 254. -/
def maxBufferSizeStep (env : MuEnv) (ulPsduSize : Nat) (maxBufferSize : Nat)
    (candidate : Nat × HeMuUserInfo) : Option Nat :=
  match mapFind candidate.1 env.getStaList with
  | none => none
  | some address =>
    let queueSize := env.getMaxBufferStatus address % 256
    if queueSize = 255 then some (max maxBufferSize ulPsduSize)
    else if queueSize = 254 then some 0xffffffff
    else some (max maxBufferSize (queueSize * 256))

/-- The loop of `TrySendingBasicTf` computing `minDuration`: the first duration, or any
duration following a zero, replaces the value; the others lower it. -/
def minTxDuration (env : MuEnv) (size : Nat) (txVector : HeMuUserInfoMap)
    (trigger : CtrlTriggerHeader) : Time :=
  trigger.userInfoFields.foldl
    (fun minDuration userInfo =>
      let duration := env.calculateTxDuration size txVector userInfo.aid12
      if minDuration = 0 then duration else min minDuration duration) 0

/-- The positions of the nodes of the station list after the `sort` of `UpdateCredits`:
the candidates are list iterators, which keep pointing to their nodes. -/
def candidatesAfterSort (heRu : HeRuModel) (s : RrMultiUserScheduler)
    (staList : List MasterInfo) (txDuration : ℚ) (txVector : HeMuUserInfoMap) :
    Option (List Candidate) :=
  match debitCandidates heRu.getBandwidth
      (txDuration / ((accumulateBandwidth heRu.getBandwidth (buildRuMap txVector) : Int) : ℚ))
      txVector s.m_candidates
      (assignCredits (txDuration / (staList.length : ℚ)) s.m_maxCredits staList) with
  | none => none
  | some debited =>
    let order :=
      (listSort (fun a b => decide (a.2.credits > b.2.credits)) debited.enum).map Prod.fst
    some (s.m_candidates.map (fun c => { c with first := order.indexOf c.first }))

/-- The duration granted by `TrySendingBasicTf`, given the allowed duration `maxDuration`:
the time needed for the largest buffer when it is shorter than the allowed duration, and
otherwise the allowed duration unless it is shorter than `minDuration` (`none`, for which
the method returns `NO_TX`). -/
def grantedDuration (env : MuEnv) (ulPsduSize maxBufferSize : Nat) (txVector : HeMuUserInfoMap)
    (trigger : CtrlTriggerHeader) (maxDuration : Time) : Option Time :=
  if maxTxDuration env maxBufferSize txVector trigger < maxDuration then
    some (maxTxDuration env maxBufferSize txVector trigger)
  else if maxDuration < minTxDuration env ulPsduSize txVector trigger then none
  else some maxDuration

/-- The allowed duration of `TrySendingBasicTf` after the block run when there is a time
limit: the maximum PPDU duration, lowered to what the available time leaves after the
protection, the Trigger Frame, a SIFS and the acknowledgment.  An assertion of the block
failing is `none`. -/
def allowedDuration (env : MuEnv) (txParams : MuTxParameters) (availableTime : Time) :
    Option Time :=
  if availableTime ≠ env.timeMin then
    match txParams.m_protection, txParams.m_acknowledgment with
    | some protectionTime, some acknowledgmentTime =>
      if protectionTime = env.timeMin ∨ acknowledgmentTime = env.timeMin
          ∨ txParams.m_txDuration = env.timeMin then none
      else
        some (min env.getPpduMaxTime
          (availableTime - protectionTime - txParams.m_txDuration - env.sifs
            - acknowledgmentTime))
    | _, _ => none
  else some env.getPpduMaxTime

/-- The end of `TrySendingBasicTf`, reached with the duration to grant: the UL length and
the preferred AC are set in the trigger and the credits updated. -/
def basicFinish (env : MuEnv) (txVector : HeMuUserInfoMap) (trigger : CtrlTriggerHeader)
    (duration : Time) (w : MuWorld) : Option (TxFormat × MuWorld) :=
  let converted := env.convertHeTbPpduDurationToLSigLength duration txVector
  let trigger1 : CtrlTriggerHeader :=
    { trigger with
      ulLength := converted.1
      userInfoFields :=
        trigger.userInfoFields.map
          (fun userInfo => { userInfo with preferredAc := env.getAccessCategory }) }
  match UpdateCredits env.heRu w.s.base w.s.m_staListUl (env.toDoubleUs converted.2) txVector,
      candidatesAfterSort env.heRu w.s.base w.s.m_staListUl (env.toDoubleUs converted.2)
        txVector with
  | some staListUl, some candidates =>
    some (TxFormat.UL_MU_TX,
      { w with s :=
        { w.s with
          m_trigger := trigger1
          m_staListUl := staListUl
          base := { w.s.base with m_candidates := candidates } } })
  | _, _ => none

/-- The part of `TrySendingBasicTf` after `maxBufferSize` is found to be positive: the
Trigger Frame is built and added to the TX parameters, the allowed duration computed, and
the duration granted. -/
def basicTrigger (env : MuEnv) (txVector : HeMuUserInfoMap) (maxBufferSize : Nat) (w : MuWorld) :
    Option (TxFormat × MuWorld) :=
  let trigger := env.makeTrigger TriggerType.BASIC_TRIGGER txVector
  let hdr := env.getTriggerFrame trigger
  let added := addTriggerFrame env TriggerType.BASIC_TRIGGER txVector w.s
  let w1 : MuWorld :=
    { w with s := { w.s with m_trigger := trigger, m_triggerMacHdr := hdr, m_txParams := added.2 } }
  if added.1 = false then some (TxFormat.NO_TX, w1)
  else
    match allowedDuration env added.2 w1.s.m_availableTime with
    | none => none
    | some maxDuration =>
      if w1.s.m_availableTime ≠ env.timeMin ∧ env.isNegative maxDuration = true then
        some (TxFormat.NO_TX, w1)
      else
        match grantedDuration env w1.s.m_ulPsduSize maxBufferSize txVector trigger
            maxDuration with
        | none => some (TxFormat.NO_TX, w1)
        | some duration => basicFinish env txVector trigger duration w1

/-- The method `RrMultiUserScheduler::TrySendingBasicTf`.  The loop writing the buffer
status of the stations with association ids 1 to `m_nStations` to a file dereferences the
end iterator when `m_staListUl` has no station of some id. -/
def TrySendingBasicTf (env : MuEnv) (w : MuWorld) : Option (TxFormat × MuWorld) :=
  if w.s.m_staListUl.isEmpty then some (TxFormat.SU_TX, w)
  else if w.s.m_ulPsduSize = 0 then none
  else if (aidRange w.s.m_nStations).any
      (fun i => (findIf (fun sta => sta.aid == i) w.s.m_staListUl).isNone) then none
  else
    match GetTxVectorForUlMu env (basicCanBeSolicited env) w.s with
    | none => none
    | some (txVector, s1) =>
      let w1 : MuWorld :=
        { w with m_bsrpList := [], s := { s1 with m_isNotAfterBsrp := true } }
      if txVector.isEmpty then some (TxFormat.DL_MU_TX, w1)
      else
        match txVector.foldlM (maxBufferSizeStep env w1.s.m_ulPsduSize) 0 with
        | none => none
        | some maxBufferSize =>
          if maxBufferSize = 0 then some (TxFormat.DL_MU_TX, w1)
          else basicTrigger env txVector maxBufferSize w1

/-! ## Definitions: the DL MU PPDU and the choice of the format (rr-multi-user-scheduler.cc) -/

/-- The loop of `TrySendingDlMuPpdu` over the TIDs for the station at position `pos`: the
first TID with a Block Ack agreement and a queued frame that `TryAddMpdu` accepts makes the
station a candidate; a rejected frame restores the TX vector. -/
def dlTidLoop (env : MuEnv) (allowedWidth primaryAc : Nat) (sta : MasterInfo) (pos : Nat)
    (currRuType : Nat) (actualAvailableTime : Time) :
    List Nat → MuTxParameters → Option (MuTxParameters × Option Candidate)
  | [], txParams => some (txParams, none)
  | tid :: rest, txParams =>
    let ac := env.mapTidToAc tid
    if ac < primaryAc then none
    else if env.qosTxopBaAgreementEstablished ac sta.address tid then
      match env.qosTxopPeekNextMpdu ac tid sta.address with
      | some mpdu =>
        let suTxVector := env.getDataTxVector mpdu.addr1 allowedWidth
        let txParams1 : MuTxParameters :=
          { txParams with
            m_txVector :=
              { txParams.m_txVector with
                heMuUserInfoMap :=
                  mapSet sta.aid ⟨⟨currRuType, 1, false⟩, suTxVector.1, suTxVector.2⟩
                    txParams.m_txVector.heMuUserInfoMap } }
        let added := env.tryAddMpdu (MuItem.data mpdu) txParams1 actualAvailableTime
        if added.1 = false then
          dlTidLoop env allowedWidth primaryAc sta pos currRuType actualAvailableTime rest
            { added.2 with m_txVector := txParams.m_txVector }
        else some (added.2, some ⟨pos, some mpdu.id⟩)
      | none =>
        dlTidLoop env allowedWidth primaryAc sta pos currRuType actualAvailableTime rest txParams
    else
      dlTidLoop env allowedWidth primaryAc sta pos currRuType actualAvailableTime rest txParams

/-- The loop of `TrySendingDlMuPpdu` over the stations of the primary access category. -/
def dlStaLoop (env : MuEnv) (allowedWidth primaryAc ruType count limit : Nat) (tids : List Nat)
    (actualAvailableTime : Time) :
    List MasterInfo → Nat → List Candidate → MuTxParameters →
      Option (List Candidate × MuTxParameters)
  | [], _, candidates, txParams => some (candidates, txParams)
  | sta :: rest, pos, candidates, txParams =>
    if candidates.length < limit then
      let currRuType := if candidates.length < count then ruType else env.ru26Tone
      match dlTidLoop env allowedWidth primaryAc sta pos currRuType actualAvailableTime tids
          txParams with
      | none => none
      | some (txParams1, none) =>
        dlStaLoop env allowedWidth primaryAc ruType count limit tids actualAvailableTime rest
          (pos + 1) candidates txParams1
      | some (txParams1, some candidate) =>
        dlStaLoop env allowedWidth primaryAc ruType count limit tids actualAvailableTime rest
          (pos + 1) (candidates ++ [candidate]) txParams1
    else some (candidates, txParams)

/-- The TIDs `TrySendingDlMuPpdu` looks at: with TXOP sharing, two TIDs for the primary
access category and for every one following it in `wifiAcList`; else the current TID. -/
def dlTids (env : MuEnv) (enableTxopSharing : Bool) (primaryAc currTid : Nat) : List Nat :=
  if enableTxopSharing then
    (env.wifiAcList.dropWhile (fun ac => ac.1 != primaryAc)).flatMap
      (fun ac =>
        let firstTid := if ac.1 = primaryAc then currTid else ac.2.highTid
        [firstTid, ac.2.getOtherTid firstTid])
  else [currTid]

/-- The method `RrMultiUserScheduler::TrySendingDlMuPpdu`. -/
def TrySendingDlMuPpdu (env : MuEnv) (w : MuWorld) : Option (TxFormat × MuWorld) :=
  let primaryAc := env.getAccessCategory
  let staList := mapIndex primaryAc [] w.s.m_staListDl
  let w0 : MuWorld := { w with s := { w.s with m_staListDl := staList.2 } }
  if staList.1.isEmpty then some (TxFormat.SU_TX, w0)
  else
    let r := env.heRu.getEqualSizedRusForStations w0.s.base.m_allowedWidth
      (min w0.s.m_nStations staList.1.length)
    let count := r.2.1
    if count < 1 then none
    else
      let nCentral26TonesRus := if w0.s.base.m_useCentral26TonesRus then r.2.2 else 0
      match mapFind primaryAc env.wifiAcList with
      | none => none
      | some ac =>
        let currTid :=
          match env.peekNextMpdu with
          | some mpdu => if mpdu.isQosData then mpdu.qosTid else ac.highTid
          | none => ac.highTid
        let tids := dlTids env w0.s.m_enableTxopSharing primaryAc currTid
        if w0.s.m_apMac = false ∨ env.heConfiguration = false then none
        else
          let cleared := env.clear w0.s.m_txParams
          let txParams : MuTxParameters :=
            { cleared with
              m_txVector := env.dlMuTxVector cleared.m_txVector w0.s.base.m_allowedWidth }
          let actualAvailableTime :=
            if w0.s.m_initialFrame then env.timeMin else w0.s.m_availableTime
          match dlStaLoop env w0.s.base.m_allowedWidth primaryAc r.1 count
              (min w0.s.m_nStations ((count + nCentral26TonesRus) % 2 ^ 64)) tids
              actualAvailableTime staList.1 0 [] txParams with
          | none => none
          | some (candidates, txParams1) =>
            let w1 : MuWorld :=
              { w0 with s :=
                { w0.s with
                  m_txParams := txParams1
                  base := { w0.s.base with m_candidates := candidates } } }
            if candidates.isEmpty then
              if w1.s.m_forceDlOfdma then some (TxFormat.NO_TX, w1)
              else some (TxFormat.SU_TX, w1)
            else some (TxFormat.DL_MU_TX, w1)

/-- The method `RrMultiUserScheduler::SelectTxFormat`. -/
def SelectTxFormat (env : MuEnv) (w : MuWorld) : Option (TxFormat × MuWorld) :=
  let mpdu := env.peekNextMpdu
  if (match mpdu with
      | some m => !env.getHeSupported m.addr1
      | none => false) then
    some (TxFormat.SU_TX, w)
  else if w.s.m_enableUlOfdma && w.s.m_enableBsrp
      && (w.s.m_lastTxFormat == TxFormat.DL_MU_TX || mpdu.isNone) then
    match TrySendingBsrpTf env w with
    | none => none
    | some (txFormat, w1) =>
      if txFormat ≠ TxFormat.DL_MU_TX then some (txFormat, w1)
      else TrySendingDlMuPpdu env w1
  else if w.s.m_enableUlOfdma
      && (w.s.m_lastTxFormat == TxFormat.DL_MU_TX
          || w.s.m_trigger.triggerType == TriggerType.BSRP_TRIGGER || mpdu.isNone) then
    match TrySendingBasicTf env w with
    | none => none
    | some (txFormat, w1) =>
      if txFormat ≠ TxFormat.DL_MU_TX then some (txFormat, w1)
      else TrySendingDlMuPpdu env w1
  else TrySendingDlMuPpdu env w

/-! ## Definitions: the start of a frame exchange (he-frame-exchange-manager.cc) -/

/-- The method `HeFrameExchangeManager::SetUlSuccesses`. -/
def SetUlSuccesses (addr : Mac48Address) (g : Globals) : Globals :=
  match findIf (fun ci => ci.addr == addr) g.m_successes with
  | none => g
  | some itr =>
    { g with m_successes :=
        modifyAt (fun ci => { ci with sCount := ci.sCount + 1 }) itr.1 g.m_successes }

/-- How `HeFrameExchangeManager::StartFrameExchange` ends: with the call of the parent's
method, with `return false`, or with `SendPsduMapWithProtection` for the DL MU PPDU or for
the Trigger Frame of the scheduler, whose MBTA indicator and arbitration slot count have
been set. -/
inductive FrameExchangeStart where
  | parentStart
  | notStarted
  | dlMuPpdu
  | triggerFrame (trigger : CtrlTriggerHeader) (macHdr : WifiMacHeader)
  deriving DecidableEq, Repr

/-- The method `HeFrameExchangeManager::StartFrameExchange` as far as it acts on the
file-scope variables.  `txFormat` is the format the method works with (the one returned by
`NotifyAccessGranted`, or `SU_TX` when the scheduler is not consulted), `dlPsduMapEmpty`
tells whether the PSDU map of the DL MU information is empty, `trigger` and `macHdr` are
the UL MU information.  The transmission is recorded in the result, not unfolded; the
counters written only to files are left out. -/
def StartFrameExchange (txFormat : TxFormat) (dlPsduMapEmpty : Bool)
    (trigger : CtrlTriggerHeader) (macHdr : WifiMacHeader) (g : Globals) (ul : UlStats) :
    FrameExchangeStart × Globals × UlStats :=
  match txFormat with
  | TxFormat.SU_TX => (FrameExchangeStart.parentStart, g, ul)
  | TxFormat.DL_MU_TX =>
    let g1 : Globals := { g with m_candidate := 0, m_staRuInfo := [], bsrpCand := 0 }
    let ul1 : UlStats := { ul with bsrpSucc := 0 }
    let g2 := ul1.m_UlSuccessStas.foldl (fun acc s => SetUlSuccesses s.1 acc) g1
    let g3 : Globals := { g2 with m_isArbi := true }
    if dlPsduMapEmpty then (FrameExchangeStart.notStarted, g3, ul1)
    else (FrameExchangeStart.dlMuPpdu, g3, ul1)
  | TxFormat.UL_MU_TX =>
    (FrameExchangeStart.triggerFrame
        { trigger with mbtaIndicator := g.m_isArbi, arbitrationSlots := g.m_slot.toNat } macHdr,
      g, { ul with setIsDoneUl := ul.setIsDoneUl ++ [false] })
  | TxFormat.NO_TX => (FrameExchangeStart.notStarted, g, ul)

/-- Station 1 is solicited twice by BSRP Trigger Frames with no DL MU PPDU in between: it
registers and runs the arbitration for the first trigger, the AP starts the second exchange
with the format `UL_MU_TX`, and the station registers for the second trigger.  Returns the
file-scope variables after the second registration. -/
def exTwoSolicitations : Option Globals :=
  match ReceiveMpdu_trigger exEnv exHdr exTrigger false exGlobals0 (exSta 1) with
  | none => none
  | some (g1, sta1) =>
    match SendBusyTone exEnv exTrigger exHdr 1 exRu false g1 sta1 with
    | none => none
    | some (g2, sta2) =>
      match StartFrameExchange TxFormat.UL_MU_TX true exTrigger exHdr g2
          ⟨[], [], 0, 0, [], [], []⟩ with
      | (FrameExchangeStart.triggerFrame trigger macHdr, g3, _) =>
        (ReceiveMpdu_trigger exEnv macHdr trigger false g3 sta2).map Prod.fst
      | _ => none

/-! ## Concrete scenario: an AP scheduling four HE stations -/

/-- The access category of the scenario: TIDs 0 and 3. -/
def exWifiAc : WifiAc := ⟨3, fun tid => if tid = 3 then 0 else 3⟩

/-- The value of `Time::Min ()` in the scenario. -/
def exTimeMin : Time := -(2 ^ 63)

/-- Cleared TX parameters. -/
def exClearedTxParams : MuTxParameters :=
  ⟨⟨false, 0, [], false, 0⟩, none, none, exTimeMin, []⟩

/-- The collaborators of the scheduler of the scenario.  `head` is the frame at the head
of the queue of the primary access category, `agreement` tells which stations have a Block
Ack agreement (for TID 0), `status` is the buffer status the stations reported.  Stations
with an address below 20 support HE; the stations with association ids 1 to 4 have the
addresses 11 to 14; sending `n` bytes takes 40000 + 8 `n`; `TryAddMpdu` accepts the
Trigger Frame, which takes 50000, with no protection and no acknowledgment time. -/
def exMuEnv (head : Option QueuedMpdu) (agreement : Mac48Address → Bool)
    (status : Mac48Address → Nat) : MuEnv :=
  { heRu := exHeRu
    undefinedRu := ⟨0, 0, false⟩
    timeMin := exTimeMin
    sifs := 16000
    heConfiguration := true
    peekNextMpdu := head
    getAccessCategory := 0
    getHeSupported := fun address => decide (address < 20)
    baAgreementEstablished := fun address tid => agreement address && decide (tid = 0)
    getDataTxVector := fun _ _ => (7, 1)
    getRtsTxVector := fun _ => ⟨false, 0, [], false, 0⟩
    makeTrigger := fun triggerType txVector =>
      { triggerType := triggerType
        userInfoFields := txVector.map (fun userInfo => ⟨userInfo.1, userInfo.2.ru, 0, 0, false⟩)
        arbitrationSlots := 0
        mbtaIndicator := false
        csRequired := false
        ulLength := 0 }
    getTriggerFrame := fun _ => ⟨0, true, 100, 0⟩
    clear := fun _ => exClearedTxParams
    tryAddMpdu := fun item txParams _ =>
      (true,
        { txParams with
          m_protection := some 0
          m_acknowledgment := some 0
          m_txDuration := 50000
          items := txParams.items ++ [item] })
    getMaxSizeOfQosNullAmpdu := fun _ => 30
    calculateTxDuration := fun size _ _ => 40000 + 8 * (size : Int)
    getHeTbTxVector := fun _ _ => []
    convertHeTbPpduDurationToLSigLength := fun duration _ => ((duration / 4000).toNat, duration)
    getPpduMaxTime := 5484000
    getMaxBufferStatus := status
    getStaList := [(1, 11), (2, 12), (3, 13), (4, 14)]
    wifiAcList := [(0, exWifiAc)]
    mapTidToAc := fun _ => 0
    qosTxopBaAgreementEstablished := fun _ address tid => agreement address && decide (tid = 0)
    qosTxopPeekNextMpdu := fun _ _ _ => none
    dlMuTxVector := fun txVector _ => txVector
    ru26Tone := 0
    isNegative := fun t => decide (t ≤ 0)
    toDoubleUs := fun t => (t : ℚ) / 1000
    parentDoInitialize := fun s => s }

/-- The scheduler of the scenario: up to four stations per round, UL OFDMA and BSRP
enabled, the stations of `exStaList` associated, the last format `DL_MU_TX`, with the given
`UlPsduSize` and available time. -/
def exScheduler (ulPsduSize : Nat) (availableTime : Time) : RrScheduler :=
  { base := exSched []
    m_apMac := true
    m_nStations := 4
    m_enableTxopSharing := false
    m_forceDlOfdma := false
    m_enableUlOfdma := true
    m_enableBsrp := true
    m_ulPsduSize := ulPsduSize
    m_staListDl := [(0, exStaList)]
    m_staListUl := exStaList
    m_trigger := exTrigger
    m_triggerMacHdr := exHdr
    m_txParams := exClearedTxParams
    m_isDoneUl := false
    m_isNotAfterBsrp := true
    m_lastTxFormat := TxFormat.DL_MU_TX
    m_availableTime := availableTime
    m_initialFrame := true }

/-- The state of the scenario: no buffer status recorded yet. -/
def exMuWorld (ulPsduSize : Nat) (availableTime : Time) : MuWorld :=
  { ul := ⟨[], [], 0, 0, [], [], []⟩
    m_bsrpList := []
    m_zerobsr := []
    s := exScheduler ulPsduSize availableTime }

/-- A queued QoS data frame of TID 0 for the receiver `addr1`. -/
def exQueued (addr1 : Mac48Address) : QueuedMpdu := ⟨addr1, true, 0, 1⟩

/-- The scheduler of the scenario before its initialisation: no station associated yet,
BSRP disabled, with the given `UlPsduSize`. -/
def exFreshWorld (ulPsduSize : Nat) : MuWorld :=
  { exMuWorld ulPsduSize exTimeMin with
    s :=
      { exScheduler ulPsduSize exTimeMin with
        m_staListDl := []
        m_staListUl := []
        m_enableBsrp := false } }

/-- The association of the stations 11 and 12 with the association ids 1 and 2. -/
def exAssociate (env : MuEnv) (w : MuWorld) : MuWorld :=
  { w with s := NotifyStationAssociated env 2 12 (NotifyStationAssociated env 1 11 w.s) }

/-! ## Definitions: the station list over time (rr-multi-user-scheduler.cc) -/

/-- The method `RrMultiUserScheduler::NotifyStationDeassociated`. -/
def NotifyStationDeassociated (env : MuEnv) (aid : Nat) (address : Mac48Address)
    (s : RrScheduler) : RrScheduler :=
  if env.getHeSupported address then
    { s with
      m_staListDl :=
        s.m_staListDl.map (fun staList =>
          (staList.1,
            staList.2.filter (fun info => !(info.aid == aid && info.address == address))))
      m_staListUl :=
        s.m_staListUl.filter (fun info => !(info.aid == aid && info.address == address)) }
  else s

/-- What changes the UL station list: the association and the deassociation of a station,
and an `UpdateCredits` round on the list. -/
inductive SchedulerEvent where
  | associated (aid : Nat) (address : Mac48Address)
  | deassociated (aid : Nat) (address : Mac48Address)
  | round (r : CreditRound)

/-- The scheduler after one event; a round is the call `UpdateCredits (m_staListUl,
txDuration, txVector)` made with the candidates of the round. -/
def runSchedulerEvent (env : MuEnv) (s : RrScheduler) : SchedulerEvent → Option RrScheduler
  | SchedulerEvent.associated aid address => some (NotifyStationAssociated env aid address s)
  | SchedulerEvent.deassociated aid address =>
    some (NotifyStationDeassociated env aid address s)
  | SchedulerEvent.round r =>
    (UpdateCredits env.heRu { s.base with m_candidates := r.candidates } s.m_staListUl
        r.txDuration r.txVector).map
      (fun staListUl => { s with m_staListUl := staListUl })

/-- The scheduler after a sequence of events. -/
def runSchedulerEvents (env : MuEnv) : List SchedulerEvent → RrScheduler → Option RrScheduler
  | [], s => some s
  | e :: rest, s =>
    match runSchedulerEvent env s e with
    | none => none
    | some s1 => runSchedulerEvents env rest s1

/-- The credits of the stations of the candidate list, in the order of the list. -/
def candidateCredits (staList : List MasterInfo) (candidates : List Candidate) : List ℚ :=
  candidates.filterMap (fun c => (staList[c.first]?).map (fun sta => sta.credits))

/-- The events of the scenario: the stations 11 and 12 associate, a round of 100
microseconds serves the second of them on a 52-tone RU, and the station 13 associates. -/
def exEvents : List SchedulerEvent :=
  [SchedulerEvent.associated 1 11, SchedulerEvent.associated 2 12,
   SchedulerEvent.round ⟨100, [(2, ⟨⟨1, 1, true⟩, 7, 1⟩)], [⟨1, none⟩]⟩,
   SchedulerEvent.associated 3 13]

/-- The credits, in candidate order, of the candidate list `GetTxVectorForUlMu` builds
after the events, starting from the scheduler `s`. -/
def creditsOfCandidatesAfter (env : MuEnv) (canbeSolicited : MasterInfo → Bool)
    (events : List SchedulerEvent) (s : RrScheduler) : Option (List ℚ) :=
  (runSchedulerEvents env events s).bind
    (fun s1 =>
      (GetTxVectorForUlMu env canbeSolicited s1).map
        (fun r => candidateCredits s1.m_staListUl r.2.base.m_candidates))

/-! ## Concrete scenario: a winner with a Block Ack agreement for one TID -/

/-- The collaborators of the scenario with a Block Ack agreement for TID 0 only. -/
def exEnvOneAgreement : Env :=
  { exEnv with baAgreementEstablished := fun _ tid => decide (tid = 0) }

/-- The file-scope variables once station 1, alone on `exRu`, has been declared winner. -/
def exWinnerGlobals : Globals :=
  { exGlobals with m_staRuInfo := [⟨exRu, [{ exEntry 1 1 with isWin := true }]⟩] }

/-- A BlockAck frame for TID 0 sent to the AP by the station with address `addr`. -/
def exBlockAck (addr : Mac48Address) : RxMpdu :=
  { exQosNull addr with
    macType := WifiMacType.WIFI_MAC_OTHER
    isCtl := true, isBlockAck := true, isQosData := false }

/-- The indices recorded in `stationsReceivingMultiStaBa` are pairwise distinct and each is
smaller than the length of `baType.m_bitmapLen`. -/
def multiStaBaIndicesValid (acknowledgment : WifiAcknowledgment) : Prop :=
  (acknowledgment.stationsReceivingMultiStaBa.map (fun staInfo => staInfo.2)).Nodup
    ∧ ∀ staInfo ∈ acknowledgment.stationsReceivingMultiStaBa,
        staInfo.2 < acknowledgment.baTypeBitmapLen.length

instance multiStaBaIndicesValid.decidable (acknowledgment : WifiAcknowledgment) :
    Decidable (multiStaBaIndicesValid acknowledgment) := by
  unfold multiStaBaIndicesValid
  exact inferInstance

/-- The AP of the scenario about to send a Basic Trigger Frame soliciting the stations 11
and 12: the TX timer is idle and the acknowledgment object lists the two recipients as the
scheduler prepared them. -/
def exIdleBasicWorld : FemWorld :=
  { exBasicWorld [] with
    fem :=
      { (exBasicWorld []).fem with
        m_txTimer := ⟨false, TimerReason.NOT_RUNNING, 0, TimeoutCallback.OtherTimeout⟩
        m_txParams :=
          ⟨⟨false, 0, [], false, 0⟩,
            some
              { exAck AckMethod.UL_MU_MULTI_STA_BA with
                stationsReceivingMultiStaBa := [((11, 0), 0), ((12, 0), 1)]
                baTypeBitmapLen := [32, 32] }⟩ } }

/-- The responses of the scenario: an S-MPDU of TID 0 from station 11, then an A-MPDU of the
TIDs 0 and 1 from station 12 of which one MPDU was not received. -/
def exResponses : List FemCall :=
  [FemCall.ReceiveMpdu
      { exQosNull 11 with
        macType := WifiMacType.WIFI_MAC_QOSDATA, hasData := true
        qosAckPolicyNormal := true, packetSize := 600 }
      (exTbTxVector 1) false,
    FemCall.EndReceiveAmpdu ⟨12, [(0, true), (1, true)], []⟩ 20 (exTbTxVector 2) [true, false]]

/-! ## Definitions: the target RSSI of a trigger frame (he-frame-exchange-manager.cc) -/

/-- Conversion to `int8_t`: the value modulo 2^8, in the range -128..127. -/
def toInt8 (x : Int) : Int :=
  (x + 128) % 256 - 128

/-- The collaborators of `SetTargetRssi`.  The remote station manager and the PHY report
powers as `double`; the fields give their integral parts, which is what the conversion to
`int8_t` starts from. -/
structure PowerEnv where
  defaultTxPowerDbm : Int
  getMostRecentRssi : Mac48Address → Int

/-- The fields of a trigger frame written by `SetTargetRssi`: the AP TX power and the UL
Target RSSI of every User Info field, in the order of the fields. -/
structure TriggerPower where
  apTxPower : Int
  ulTargetRssi : List Int
  deriving DecidableEq, Repr

/-- The loop of `SetTargetRssi` over the User Info fields.  A station id missing from the
station list fails the `NS_ASSERT`. -/
def targetRssiLoop (env : ApEnv) (power : PowerEnv) :
    List CtrlTriggerUserInfoField → Option (List Int)
  | [] => some []
  | userInfo :: rest =>
    match mapFind userInfo.aid12 env.staList with
    | none => none
    | some addr =>
      let rssi := toInt8 (power.getMostRecentRssi addr)
      let rssi1 := if rssi ≥ -20 then -20 else (if rssi ≤ -110 then -110 else rssi)
      match targetRssiLoop env power rest with
      | none => none
      | some targets => some (rssi1 :: targets)

/-- The method `HeFrameExchangeManager::SetTargetRssi`. -/
def SetTargetRssi (env : ApEnv) (power : PowerEnv) (fem : HeFem)
    (trigger : CtrlTriggerHeader) : Option TriggerPower :=
  if fem.m_apMac = false then none
  else
    match targetRssiLoop env power trigger.userInfoFields with
    | none => none
    | some targets => some ⟨toInt8 power.defaultTxPowerDbm, targets⟩

/-- A power environment: default TX power 20 dBm; station 11 is heard at -10 dBm, station
12 at -60 dBm and every other station at -120 dBm. -/
def exPowerEnv : PowerEnv :=
  { defaultTxPowerDbm := 20
    getMostRecentRssi := fun addr => if addr = 11 then -10 else if addr = 12 then -60 else -120 }

/-- A BSRP trigger like `exTrigger` that gives the RU `exRu` to the stations with
association ids 44, 300 and 301. -/
def exTriggerWide : CtrlTriggerHeader :=
  { exTrigger with userInfoFields := [44, 300, 301].map (fun a => ⟨a, exRu, 0, 0, false⟩) }

/-- The file-scope variables once the stations with association ids 300 and 301 registered
the numbers 1 and 3 on the RU of the scenario. -/
def exGlobalsWide : Globals :=
  { exGlobals with
    m_staRuInfo :=
      [⟨exRu, [⟨300, 1, exTriggerWide, exHdr, false⟩, ⟨301, 3, exTriggerWide, exHdr, false⟩]⟩] }

/-- The file-scope variables once the stations with association ids 44 and 300 registered
the numbers 3 and 1 on the RU of the scenario. -/
def exGlobalsAlias : Globals :=
  { exGlobals with
    m_staRuInfo :=
      [⟨exRu, [⟨44, 3, exTriggerWide, exHdr, false⟩, ⟨300, 1, exTriggerWide, exHdr, false⟩]⟩] }

/-! ## Lemmas: containers -/

theorem findIf_modifyAt {α : Type} (p : α → Bool) (f : α → α) (hf : ∀ x, p (f x) = p x)
    (n : Nat) (l : List α) :
    findIf p (modifyAt f n l)
      = (findIf p l).map (fun r => (r.1, if r.1 = n then f r.2 else r.2)) := by
  induction l generalizing n with
  | nil => cases n <;> simp [findIf, modifyAt]
  | cons x xs ih =>
    cases n with
    | zero =>
      by_cases hx : p x = true
      · simp [findIf, modifyAt, hf, hx]
      · simp [findIf, modifyAt, hf, hx]
        cases findIf p xs <;> simp
    | succ k =>
      by_cases hx : p x = true
      · simp [findIf, modifyAt, hx]
      · simp [findIf, modifyAt, hx, ih k]
        cases findIf p xs <;> simp

theorem findIf_some_mem {α : Type} (p : α → Bool) (l : List α) (r : Nat × α)
    (h : findIf p l = some r) : r.2 ∈ l ∧ p r.2 = true ∧ l[r.1]? = some r.2 := by
  induction l generalizing r with
  | nil => simp [findIf] at h
  | cons x xs ih =>
    by_cases hx : p x = true
    · simp [findIf, hx] at h
      subst h
      simp [hx]
    · simp [findIf, hx] at h
      obtain ⟨a, b, hab, rfl⟩ := h
      have := ih (a, b) hab
      simp at this
      simp [this]

theorem findIf_isSome_of_mem {α : Type} (p : α → Bool) (l : List α) (x : α) (hx : x ∈ l)
    (hp : p x = true) : ∃ r, findIf p l = some r := by
  induction l with
  | nil => simp at hx
  | cons y ys ih =>
    by_cases hy : p y = true
    · exact ⟨(0, y), by simp [findIf, hy]⟩
    · rcases List.mem_cons.1 hx with h | h
      · subst h; exact absurd hp hy
      · obtain ⟨r, hr⟩ := ih h
        exact ⟨(r.1 + 1, r.2), by simp [findIf, hy, hr]⟩

theorem length_modifyAt {α : Type} (f : α → α) (n : Nat) (l : List α) :
    (modifyAt f n l).length = l.length := by
  induction l generalizing n with
  | nil => cases n <;> simp [modifyAt]
  | cons x xs ih => cases n <;> simp [modifyAt, ih]

theorem map_modifyAt {α β : Type} (k : α → β) (f : α → α) (hf : ∀ x, k (f x) = k x)
    (n : Nat) (l : List α) : (modifyAt f n l).map k = l.map k := by
  induction l generalizing n with
  | nil => cases n <;> simp [modifyAt]
  | cons x xs ih => cases n <;> simp [modifyAt, ih, hf]

theorem modifyAt_eq_map_of_nodup (l : List BusyTone) (f : BusyTone → BusyTone) (s i : Nat)
    (x : BusyTone) (hnd : (l.map (fun b => b.staId)).Nodup)
    (hfind : findIf (fun b => b.staId == s) l = some (i, x)) :
    modifyAt f i l = l.map (fun b => if b.staId = s then f b else b) := by
  induction l generalizing i with
  | nil => simp [findIf] at hfind
  | cons y ys ih =>
    simp only [List.map_cons, List.nodup_cons, List.mem_map, not_exists, not_and] at hnd
    by_cases hy : y.staId = s
    · simp [findIf, hy] at hfind
      obtain ⟨rfl, rfl⟩ := hfind
      have hys : ys.map (fun b => if b.staId = s then f b else b) = ys := by
        conv_rhs => rw [← List.map_id ys]
        apply List.map_congr_left
        intro b hb
        have := hnd.1 b hb
        simp [hy ▸ this]
      simp [modifyAt, hy, hys]
    · simp [findIf, hy] at hfind
      obtain ⟨a, hab, rfl⟩ := hfind
      simp [modifyAt, hy, ih a hnd.2 hab]

/-! ## Lemmas: the scan loop of `SendBusyTone` -/

theorem scanBusyTones_append (l : List BusyTone) (b : BusyTone) :
    scanBusyTones (l ++ [b]) = scanStep (scanBusyTones l) b := by
  simp [scanBusyTones, List.foldl_append]

theorem scanBusyTones_spec (l : List BusyTone) :
    (∀ b ∈ l, b.arbitrationNum ≤ (scanBusyTones l).1)
    ∧ ((scanBusyTones l).1 = 0 ∨ ∃ b ∈ l, b.arbitrationNum = (scanBusyTones l).1)
    ∧ (scanBusyTones l).2.1
        = ((l.filter (fun b => b.arbitrationNum == (scanBusyTones l).1)).length : Int)
    ∧ (scanBusyTones l).2.2 = (l.length : Int) := by
  induction l using List.reverseRecOn with
  | nil => simp [scanBusyTones]
  | append_singleton l b ih =>
    obtain ⟨hub, hmem, hcnt, hlen⟩ := ih
    rw [scanBusyTones_append]
    generalize scanBusyTones l = acc at hub hmem hcnt hlen
    obtain ⟨m, sm, c⟩ := acc
    simp only at hub hmem hcnt hlen
    unfold scanStep
    simp only
    by_cases h1 : m < b.arbitrationNum
    · simp only [h1, if_true]
      refine ⟨?_, ?_, ?_, ?_⟩
      · intro x hx
        rcases List.mem_append.1 hx with hx | hx
        · exact le_of_lt (lt_of_le_of_lt (hub x hx) h1)
        · simp at hx; subst hx; exact le_refl _
      · right; exact ⟨b, by simp, rfl⟩
      · have hnil : l.filter (fun x => x.arbitrationNum == b.arbitrationNum) = [] := by
          rw [List.filter_eq_nil_iff]
          intro x hx
          have := hub x hx
          simp
          omega
        simp [List.filter_append, hnil]
      · simp [hlen]
    · by_cases h2 : m = b.arbitrationNum
      · subst h2
        simp only [lt_irrefl, if_false, if_true]
        refine ⟨?_, ?_, ?_, ?_⟩
        · intro x hx
          rcases List.mem_append.1 hx with hx | hx
          · exact hub x hx
          · simp at hx; subst hx; exact le_refl _
        · right; exact ⟨b, by simp, rfl⟩
        · simp [List.filter_append, hcnt]
        · simp [hlen]
      · simp only [h1, h2, if_false]
        refine ⟨?_, ?_, ?_, ?_⟩
        · intro x hx
          rcases List.mem_append.1 hx with hx | hx
          · exact hub x hx
          · simp at hx; subst hx; omega
        · rcases hmem with h0 | ⟨x, hx, hxm⟩
          · left; exact h0
          · right; exact ⟨x, by simp [hx], hxm⟩
        · have hb : (b.arbitrationNum == m) = false := by
            simp; omega
          simp [List.filter_append, hcnt, hb]
        · simp [hlen]

theorem scanBusyTones_congr (l l' : List BusyTone)
    (h : l.map (fun b => b.arbitrationNum) = l'.map (fun b => b.arbitrationNum)) :
    scanBusyTones l = scanBusyTones l' := by
  have key : ∀ (l : List BusyTone) (acc : Nat × Int × Int),
      l.foldl scanStep acc
        = (l.map (fun b => b.arbitrationNum)).foldl
            (fun a n =>
              if a.1 < n then (n, 1, a.2.2 + 1)
              else if a.1 = n then (a.1, a.2.1 + 1, a.2.2 + 1)
              else (a.1, a.2.1, a.2.2 + 1)) acc := by
    intro l
    induction l with
    | nil => intro acc; rfl
    | cons x xs ih => intro acc; simp [List.foldl, ih, scanStep]
  unfold scanBusyTones
  rw [key l, key l', h]

/-- The scan finds the maximum: for an entry of the list, its number equals `max_arbi_num`
exactly when no entry has a larger number. -/
theorem scan_max_iff (l : List BusyTone) (b : BusyTone) (hb : b ∈ l) :
    (scanBusyTones l).1 = b.arbitrationNum ↔ ∀ x ∈ l, x.arbitrationNum ≤ b.arbitrationNum := by
  obtain ⟨hub, hmem, _, _⟩ := scanBusyTones_spec l
  constructor
  · intro h x hx
    rw [← h]; exact hub x hx
  · intro h
    apply le_antisymm
    · rcases hmem with h0 | ⟨x, hx, hxm⟩
      · omega
      · rw [← hxm]; exact h x hx
    · exact hub b hb

/-! ## Lemmas: the trigger responders -/

theorem SendQosNullFramesInTbPpdu_isSome (env : Env) (trigger : CtrlTriggerHeader)
    (hdr : WifiMacHeader) (self : StaFem)
    (ht : trigger.triggerType = TriggerType.BASIC_TRIGGER
          ∨ trigger.triggerType = TriggerType.BSRP_TRIGGER)
    (ha : staAssociated self = true)
    (hv : (GetHeTbTxVector self trigger hdr.addr2).isSome = true) :
    ∃ s, SendQosNullFramesInTbPpdu env trigger hdr self = some s := by
  obtain ⟨v, hv⟩ := Option.isSome_iff_exists.1 hv
  unfold SendQosNullFramesInTbPpdu
  have ht2 : (trigger.triggerType == TriggerType.BASIC_TRIGGER
        || trigger.triggerType == TriggerType.BSRP_TRIGGER) = true := by
    rcases ht with h | h <;> simp [h]
  simp only [ht2, ha, hv, Bool.not_true, Bool.false_eq_true, if_false]
  by_cases hcs : csBusy env trigger hdr self = true
  · simp [hcs]
  · simp only [hcs, if_false]
    split_ifs <;> exact ⟨_, rfl⟩

theorem ReceiveBasicTriggerAfterA_isSome (env : Env) (trigger : CtrlTriggerHeader)
    (hdr : WifiMacHeader) (staId : Nat) (ru : RuSpec) (g : Globals) (self : StaFem)
    (rp : Nat × HeRuMap) (mp : Nat × BusyTone)
    (ht : trigger.triggerType = TriggerType.BASIC_TRIGGER)
    (ha : staAssociated self = true)
    (hru : findIf (fun i => i.ru == ru) g.m_staRuInfo = some rp)
    (hmy : findIf (fun i => i.staId == staId) rp.2.bt = some mp)
    (hu : (FindUserInfoWithAid trigger staId).isSome = true)
    (hv : (GetHeTbTxVector self trigger hdr.addr2).isSome = true) :
    ∃ s, ReceiveBasicTriggerAfterA env trigger hdr staId ru g self = some s := by
  obtain ⟨s0, hs0⟩ := SendQosNullFramesInTbPpdu_isSome env trigger hdr self (Or.inl ht) ha hv
  obtain ⟨v, hv⟩ := Option.isSome_iff_exists.1 hv
  obtain ⟨u, hu⟩ := Option.isSome_iff_exists.1 hu
  unfold ReceiveBasicTriggerAfterA
  simp only [ht, ha, hru, hmy, hu, hv, beq_self_eq_true, Bool.not_true, Bool.false_eq_true,
    if_false]
  by_cases hcs : csBusy env trigger hdr self = true
  · simp [hcs]
  · simp only [hcs, if_false]
    by_cases hw : mp.2.isWin = true
    · simp only [hw, Bool.not_true, Bool.false_eq_true, if_false]
      cases hq : env.queuedPsdu trigger hdr staId with
      | none => simp [hs0]
      | some q => simp
    · simp [hw]

theorem SendQosNullFramesInTbPpduAfterA_isSome (env : Env) (trigger : CtrlTriggerHeader)
    (hdr : WifiMacHeader) (staId : Nat) (ru : RuSpec) (g : Globals) (self : StaFem)
    (rp : Nat × HeRuMap) (mp : Nat × BusyTone)
    (ht : trigger.triggerType = TriggerType.BASIC_TRIGGER
          ∨ trigger.triggerType = TriggerType.BSRP_TRIGGER)
    (ha : staAssociated self = true)
    (hru : findIf (fun i => i.ru == ru) g.m_staRuInfo = some rp)
    (hmy : findIf (fun i => i.staId == staId) rp.2.bt = some mp)
    (hv : (GetHeTbTxVector self trigger hdr.addr2).isSome = true) :
    ∃ s, SendQosNullFramesInTbPpduAfterA env trigger hdr staId ru g self = some s := by
  obtain ⟨v, hv⟩ := Option.isSome_iff_exists.1 hv
  unfold SendQosNullFramesInTbPpduAfterA
  have ht2 : (trigger.triggerType == TriggerType.BASIC_TRIGGER
        || trigger.triggerType == TriggerType.BSRP_TRIGGER) = true := by
    rcases ht with h | h <;> simp [h]
  simp only [ht2, ha, hru, hmy, hv, Bool.not_true, Bool.false_eq_true, if_false]
  by_cases hcs : csBusy env trigger hdr self = true
  · simp [hcs]
  · simp only [hcs, if_false]
    by_cases hw : mp.2.isWin = true
    · simp only [hw, Bool.not_true, Bool.false_eq_true, if_false]
      split_ifs <;> exact ⟨_, rfl⟩
    · simp [hw]

/-- Either responder called at the end of `SendBusyTone` returns when the callback is well
formed and the station's entry is found. -/
theorem afterA_isSome (c : BusyToneCall) (g : Globals) (rp : Nat × HeRuMap) (mp : Nat × BusyTone)
    (hok : callOk c = true)
    (hru : findIf (fun i => i.ru == c.ru) g.m_staRuInfo = some rp)
    (hmy : findIf (fun i => i.staId == c.staId % 256) rp.2.bt = some mp) :
    ∃ s, (if c.isBasic then
            ReceiveBasicTriggerAfterA c.env c.trigger c.hdr (c.staId % 256) c.ru g c.self
          else
            SendQosNullFramesInTbPpduAfterA c.env c.trigger c.hdr (c.staId % 256) c.ru g c.self)
          = some s := by
  unfold callOk at hok
  simp only [Bool.and_eq_true] at hok
  obtain ⟨⟨⟨ha, ht⟩, hv⟩, hu⟩ := hok
  by_cases hb : c.isBasic = true
  · simp only [hb, if_true] at ht ⊢
    exact ReceiveBasicTriggerAfterA_isSome c.env c.trigger c.hdr _ c.ru g c.self rp mp
      (by simpa using ht) ha hru hmy hu hv
  · simp only [hb, if_false] at ht ⊢
    exact SendQosNullFramesInTbPpduAfterA_isSome c.env c.trigger c.hdr _ c.ru g c.self rp mp
      (by simpa using ht) ha hru hmy hv

/-! ## Lemmas: one `SendBusyTone` evaluation -/

theorem roundEntries_of_findIf (ru : RuSpec) (g : Globals) (rp : Nat × HeRuMap)
    (h : findIf (fun i => i.ru == ru) g.m_staRuInfo = some rp) : roundEntries ru g = rp.2.bt := by
  simp [roundEntries, h]

theorem findIf_of_roundEntries_ne_nil (ru : RuSpec) (g : Globals) (h : roundEntries ru g ≠ []) :
    ∃ rp, findIf (fun i => i.ru == ru) g.m_staRuInfo = some rp ∧ rp.2.bt = roundEntries ru g := by
  unfold roundEntries at h ⊢
  cases hf : findIf (fun i => i.ru == ru) g.m_staRuInfo with
  | none => simp [hf] at h
  | some rp => exact ⟨rp, rfl, rfl⟩

/-- Effect of one evaluation of `SendBusyTone` on a round with at least two entries. -/
theorem SendBusyTone_multi (c : BusyToneCall) (g : Globals) (rp : Nat × HeRuMap)
    (mp : Nat × BusyTone) (hok : callOk c = true)
    (hru : findIf (fun i => i.ru == c.ru) g.m_staRuInfo = some rp)
    (hlen : 2 ≤ rp.2.bt.length)
    (hmy : findIf (fun i => i.staId == c.staId % 256) rp.2.bt = some mp) :
    ∃ g' s', SendBusyTone c.env c.trigger c.hdr c.staId c.ru c.isBasic g c.self = some (g', s')
      ∧ roundEntries c.ru g'
          = (if (scanBusyTones rp.2.bt).1 = mp.2.arbitrationNum then
              modifyAt (fun b => { b with isWin := true }) mp.1 rp.2.bt
             else rp.2.bt)
      ∧ g'.m_nConflict
          = g.m_nConflict + (if (scanBusyTones rp.2.bt).2.1 > 1 then 1 else 0) := by
  have hnle : ¬ rp.2.bt.length ≤ 1 := by omega
  unfold SendBusyTone
  simp only [hru, hnle, if_false, hmy]
  -- the state after the flag and counter updates
  generalize hg1 : (if (scanBusyTones rp.2.bt).1 = mp.2.arbitrationNum then
      ({ g with
          m_staRuInfo :=
            modifyAt
              (fun m =>
                { m with bt := (modifyAt (fun b => { b with isWin := true }) mp.1 m.bt) })
              rp.1 g.m_staRuInfo
          m_wins := g.m_wins + 1 } : Globals)
    else g) = g1
  generalize hg2 : (if (scanBusyTones rp.2.bt).2.1 > 1 then
      ({ g1 with m_nConflict := g1.m_nConflict + 1 } : Globals) else g1) = g2
  have h1 : g1.m_nConflict = g.m_nConflict
      ∧ ∃ rp1, findIf (fun i => i.ru == c.ru) g1.m_staRuInfo = some rp1
        ∧ rp1.2.bt = (if (scanBusyTones rp.2.bt).1 = mp.2.arbitrationNum then
              modifyAt (fun b => { b with isWin := true }) mp.1 rp.2.bt
             else rp.2.bt) := by
    subst hg1
    by_cases hw : (scanBusyTones rp.2.bt).1 = mp.2.arbitrationNum
    · simp only [hw, if_true, true_and]
      rw [findIf_modifyAt (fun i : HeRuMap => i.ru == c.ru)
        (fun m : HeRuMap =>
          { m with bt := (modifyAt (fun b => { b with isWin := true }) mp.1 m.bt) })
        (fun x => rfl), hru]
      exact ⟨_, rfl, by simp⟩
    · simp only [hw, if_false, true_and]
      exact ⟨rp, hru, rfl⟩
  obtain ⟨hc1, rp1, hru1, hbt1⟩ := h1
  have h2 : g2.m_staRuInfo = g1.m_staRuInfo
      ∧ g2.m_nConflict = g.m_nConflict + (if (scanBusyTones rp.2.bt).2.1 > 1 then 1 else 0) := by
    subst hg2
    by_cases hcf : (scanBusyTones rp.2.bt).2.1 > 1
    · simp [hcf, hc1]
    · simp [hcf, hc1]
  obtain ⟨hinfo2, hc2⟩ := h2
  have hru2 : findIf (fun i => i.ru == c.ru) g2.m_staRuInfo = some rp1 := by
    rw [hinfo2]; exact hru1
  have hmy2 : ∃ mp2, findIf (fun i => i.staId == c.staId % 256) rp1.2.bt = some mp2 := by
    rw [hbt1]
    by_cases hw : (scanBusyTones rp.2.bt).1 = mp.2.arbitrationNum
    · simp only [hw, if_true]
      rw [findIf_modifyAt (fun i : BusyTone => i.staId == c.staId % 256)
        (fun b : BusyTone => { b with isWin := true }) (fun x => rfl), hmy]
      exact ⟨_, rfl⟩
    · simp only [hw, if_false]
      exact ⟨mp, hmy⟩
  obtain ⟨mp2, hmy2⟩ := hmy2
  obtain ⟨s, hs⟩ := afterA_isSome c g2 rp1 mp2 hok hru2 hmy2
  refine ⟨g2, s, ?_, ?_, hc2⟩
  · rw [hs]; rfl
  · rw [roundEntries_of_findIf _ _ _ hru2, hbt1]

/-! ## Lemmas: a whole arbitration round -/

theorem markWin_staId (m : Nat) (d : List Nat) (b : BusyTone) :
    (markWin m d b).staId = b.staId := by
  unfold markWin; split <;> rfl

theorem markWin_arbitrationNum (m : Nat) (d : List Nat) (b : BusyTone) :
    (markWin m d b).arbitrationNum = b.arbitrationNum := by
  unfold markWin; split <;> rfl

theorem markWin_nil (m : Nat) (l : List BusyTone) : l.map (markWin m []) = l := by
  conv_rhs => rw [← List.map_id l]
  apply List.map_congr_left
  intro b _
  simp [markWin]

/-- Invariant of a round with pairwise distinct station ids: after the stations in `done`
have run `SendBusyTone`, the entries are the registered ones marked by `markWin`. -/
theorem runBusyTones_marks (ru : RuSpec) (orig : List BusyTone) (hlen : 2 ≤ orig.length)
    (hnd : (orig.map (fun b => b.staId)).Nodup) (h8 : ∀ b ∈ orig, b.staId < 256) :
    ∀ (calls : List BusyToneCall) (done : List Nat) (g : Globals),
      roundEntries ru g = orig.map (markWin (scanBusyTones orig).1 done) →
      (∀ c ∈ calls, c.ru = ru ∧ callOk c = true ∧ c.staId ∈ orig.map (fun b => b.staId)) →
      ∃ g', runBusyTones calls g = some g'
        ∧ roundEntries ru g'
            = orig.map (markWin (scanBusyTones orig).1
                ((calls.map (fun c => c.staId)).reverse ++ done)) := by
  intro calls
  induction calls with
  | nil => intro done g hg _; exact ⟨g, rfl, by simpa using hg⟩
  | cons c cs ih =>
    intro done g hg hcalls
    obtain ⟨hcru, hcok, hcmem⟩ := hcalls c (List.mem_cons_self _ _)
    subst hcru
    -- the station id is not narrowed
    obtain ⟨b0, hb0, hb0s⟩ := List.mem_map.1 hcmem
    have hlt : c.staId < 256 := by rw [← hb0s]; exact h8 b0 hb0
    have hmod : c.staId % 256 = c.staId := Nat.mod_eq_of_lt hlt
    set M := (scanBusyTones orig).1 with hM
    set cur := orig.map (markWin M done) with hcur
    have hcurne : roundEntries c.ru g ≠ [] := by
      rw [hg]; intro h
      have hl := congrArg List.length h
      rw [hcur, List.length_map] at hl
      simp only [List.length_nil] at hl
      omega
    obtain ⟨rp, hru, hbt⟩ := findIf_of_roundEntries_ne_nil c.ru g hcurne
    rw [hg] at hbt
    have hcurids : cur.map (fun b => b.staId) = orig.map (fun b => b.staId) := by
      simp [hcur, List.map_map, Function.comp_def, markWin_staId]
    have hcurnums : cur.map (fun b => b.arbitrationNum) = orig.map (fun b => b.arbitrationNum) := by
      simp [hcur, List.map_map, Function.comp_def, markWin_arbitrationNum]
    have hx0 : markWin M done b0 ∈ cur := List.mem_map.2 ⟨b0, hb0, rfl⟩
    obtain ⟨mp, hmy⟩ := findIf_isSome_of_mem (fun i : BusyTone => i.staId == c.staId % 256) cur
      (markWin M done b0) hx0 (by simp [markWin_staId, hb0s, hmod])
    have hmpmem := findIf_some_mem _ _ _ hmy
    obtain ⟨hmp1, hmp2, _⟩ := hmpmem
    have hmps : mp.2.staId = c.staId := by simpa [hmod] using hmp2
    obtain ⟨b1, hb1, hb1x⟩ := List.mem_map.1 hmp1
    have hb1s : b1.staId = c.staId := by rw [← hmps, ← hb1x, markWin_staId]
    have hmpnum : mp.2.arbitrationNum = b1.arbitrationNum := by
      rw [← hb1x, markWin_arbitrationNum]
    have hscan : scanBusyTones cur = scanBusyTones orig := scanBusyTones_congr _ _ hcurnums
    have hlen2 : 2 ≤ rp.2.bt.length := by rw [hbt]; simpa [hcur] using hlen
    rw [← hbt] at hmy
    obtain ⟨g1, s1, hsend, hent, _⟩ := SendBusyTone_multi c g rp mp hcok hru hlen2 hmy
    rw [hbt, hscan] at hent
    rw [hbt] at hmy
    -- the entries after this evaluation
    have hent2 : roundEntries c.ru g1 = orig.map (markWin M (c.staId :: done)) := by
      rw [hent]
      have huniq : ∀ b ∈ orig, b.staId = c.staId → b = b1 := by
        intro b hb hbs
        exact List.inj_on_of_nodup_map hnd hb hb1 (by simp [hbs, hb1s])
      by_cases hw : (scanBusyTones orig).1 = mp.2.arbitrationNum
      · rw [if_pos hw]
        rw [modifyAt_eq_map_of_nodup cur _ (c.staId % 256) mp.1 mp.2 (by rw [hcurids]; exact hnd) hmy]
        rw [hcur, List.map_map]
        apply List.map_congr_left
        intro b hb
        simp only [Function.comp, markWin_staId, hmod]
        by_cases hbs : b.staId = c.staId
        · have hbb := huniq b hb hbs
          have hnum : b.arbitrationNum = M := by rw [hbb, ← hmpnum, ← hw]
          by_cases hd : b.staId ∈ done
          · simp [markWin, hbs, hnum, hd, hbs ▸ hd]
          · simp [markWin, hbs, hnum, hd, hbs ▸ hd]
        · simp [markWin, hbs]
      · rw [if_neg hw]
        rw [hcur]
        apply List.map_congr_left
        intro b hb
        by_cases hbs : b.staId = c.staId
        · have hbb := huniq b hb hbs
          have hnum : ¬ b.arbitrationNum = M := by
            rw [hbb, ← hmpnum]; exact fun h => hw h.symm
          simp [markWin, hnum]
        · simp [markWin, hbs]
    obtain ⟨g', hrun, hres⟩ := ih (c.staId :: done) g1 hent2
      (fun c' hc' => hcalls c' (List.mem_cons_of_mem _ hc'))
    refine ⟨g', ?_, ?_⟩
    · simp [runBusyTones, hsend, hrun]
    · rw [hres]; simp [List.reverse_cons, List.append_assoc]

/-- Every evaluation of a round with at least two entries keeps the station ids and drawn
numbers and adds one to the conflict counter when `same_max > 1`. -/
theorem runBusyTones_conflicts (ru : RuSpec) (orig : List BusyTone) (hlen : 2 ≤ orig.length) :
    ∀ (calls : List BusyToneCall) (g : Globals),
      (roundEntries ru g).map (fun b => (b.staId, b.arbitrationNum))
        = orig.map (fun b => (b.staId, b.arbitrationNum)) →
      (∀ c ∈ calls, c.ru = ru ∧ callOk c = true
        ∧ c.staId % 256 ∈ orig.map (fun b => b.staId)) →
      ∃ g', runBusyTones calls g = some g'
        ∧ (roundEntries ru g').map (fun b => (b.staId, b.arbitrationNum))
            = orig.map (fun b => (b.staId, b.arbitrationNum))
        ∧ g'.m_nConflict
            = g.m_nConflict
              + (calls.length : Int) * (if (scanBusyTones orig).2.1 > 1 then 1 else 0) := by
  intro calls
  induction calls with
  | nil => intro g hg _; exact ⟨g, rfl, hg, by simp⟩
  | cons c cs ih =>
    intro g hg hcalls
    obtain ⟨hcru, hcok, hcmem⟩ := hcalls c (List.mem_cons_self _ _)
    subst hcru
    have hids : (roundEntries c.ru g).map (fun b => b.staId) = orig.map (fun b => b.staId) := by
      have := congrArg (List.map Prod.fst) hg
      simpa [List.map_map, Function.comp_def] using this
    have hnums : (roundEntries c.ru g).map (fun b => b.arbitrationNum)
        = orig.map (fun b => b.arbitrationNum) := by
      have := congrArg (List.map Prod.snd) hg
      simpa [List.map_map, Function.comp_def] using this
    have hl : (roundEntries c.ru g).length = orig.length := by
      have := congrArg List.length hids
      simpa using this
    have hne : roundEntries c.ru g ≠ [] := by
      intro h; rw [h] at hl; simp at hl; omega
    obtain ⟨rp, hru, hbt⟩ := findIf_of_roundEntries_ne_nil c.ru g hne
    rw [← hids] at hcmem
    obtain ⟨b0, hb0, hb0s⟩ := List.mem_map.1 hcmem
    obtain ⟨mp, hmy⟩ := findIf_isSome_of_mem (fun i : BusyTone => i.staId == c.staId % 256)
      (roundEntries c.ru g) b0 hb0 (by simp [hb0s])
    rw [← hbt] at hmy
    obtain ⟨g1, s1, hsend, hent, hcnt⟩ :=
      SendBusyTone_multi c g rp mp hcok hru (by rw [hbt, hl]; exact hlen) hmy
    have hscan : scanBusyTones rp.2.bt = scanBusyTones orig :=
      scanBusyTones_congr _ _ (by rw [hbt]; exact hnums)
    rw [hscan] at hcnt
    have hent2 : (roundEntries c.ru g1).map (fun b => (b.staId, b.arbitrationNum))
        = orig.map (fun b => (b.staId, b.arbitrationNum)) := by
      rw [hent, ← hg, ← hbt]
      split
      · exact map_modifyAt (fun b : BusyTone => (b.staId, b.arbitrationNum))
          (fun b : BusyTone => { b with isWin := true }) (fun x => rfl) _ _
      · rfl
    obtain ⟨g', hrun, hkeys, hres⟩ := ih g1 hent2
      (fun c' hc' => hcalls c' (List.mem_cons_of_mem _ hc'))
    refine ⟨g', ?_, hkeys, ?_⟩
    · simp [runBusyTones, hsend, hrun]
    · rw [hres, hcnt]
      simp only [List.length_cons]
      push_cast
      ring

theorem maxTies_eq_scan (l : List BusyTone) : (scanBusyTones l).2.1 = (maxTies l : Int) := by
  obtain ⟨_, _, hcnt, _⟩ := scanBusyTones_spec l
  rw [hcnt, maxTies]
  congr 2
  apply List.filter_congr
  intro b hb
  have := scan_max_iff l b hb
  by_cases h : (scanBusyTones l).1 = b.arbitrationNum
  · have h2 := this.1 h
    simp only [h.symm, beq_self_eq_true]
    symm
    rw [List.all_eq_true]
    intro x hx
    simpa [h] using h2 x hx
  · have h3 : (b.arbitrationNum == (scanBusyTones l).1) = false := by
      simp; exact fun e => h e.symm
    rw [h3]
    symm
    rw [Bool.eq_false_iff]
    intro hall
    apply h
    apply this.2
    intro x hx
    have := (List.all_eq_true.1 hall) x hx
    simpa using this

/-! ## Claims on the collision arbitration -/

/-- C1: in a round on one RU with at least two entries, pairwise distinct station ids below
256 and no win flag set, once `SendBusyTone` has run once for every registered station (in
any order) the round holds the same stations and drawn numbers, and an entry is flagged as
winner if and only if no entry of the round has a larger drawn number. -/
theorem C1_winner_iff_maximum (calls : List BusyToneCall) (g : Globals) (ru : RuSpec)
    (hlen : 2 ≤ (roundEntries ru g).length)
    (hnd : ((roundEntries ru g).map (fun b => b.staId)).Nodup)
    (h8 : ∀ b ∈ roundEntries ru g, b.staId < 256)
    (hfalse : ∀ b ∈ roundEntries ru g, b.isWin = false)
    (hperm : (calls.map (fun c => c.staId)).Perm ((roundEntries ru g).map (fun b => b.staId)))
    (hru : ∀ c ∈ calls, c.ru = ru)
    (hok : ∀ c ∈ calls, callOk c = true) :
    ∃ g', runBusyTones calls g = some g'
      ∧ (roundEntries ru g').map (fun b => (b.staId, b.arbitrationNum))
          = (roundEntries ru g).map (fun b => (b.staId, b.arbitrationNum))
      ∧ ∀ b ∈ roundEntries ru g',
          (b.isWin = true ↔ ∀ x ∈ roundEntries ru g', x.arbitrationNum ≤ b.arbitrationNum) := by
  obtain ⟨g', hrun, hres⟩ := runBusyTones_marks ru (roundEntries ru g) hlen hnd h8 calls [] g
    (markWin_nil _ _).symm
    (fun c hc => ⟨hru c hc, hok c hc, hperm.subset (List.mem_map.2 ⟨c, hc, rfl⟩)⟩)
  refine ⟨g', hrun, ?_, ?_⟩
  · rw [hres, List.map_map]
    apply List.map_congr_left
    intro b _
    simp [markWin_staId, markWin_arbitrationNum]
  · intro b hb
    rw [hres] at hb ⊢
    obtain ⟨b0, hb0, rfl⟩ := List.mem_map.1 hb
    have hdone : b0.staId ∈ (calls.map (fun c => c.staId)).reverse ++ [] := by
      simp only [List.append_nil, List.mem_reverse]
      exact hperm.symm.subset (List.mem_map.2 ⟨b0, hb0, rfl⟩)
    have hmax := scan_max_iff (roundEntries ru g) b0 hb0
    have hf := hfalse b0 hb0
    constructor
    · intro hwin x hx
      obtain ⟨x0, hx0, rfl⟩ := List.mem_map.1 hx
      rw [markWin_arbitrationNum, markWin_arbitrationNum]
      have hnum : b0.arbitrationNum = (scanBusyTones (roundEntries ru g)).1 := by
        by_contra hne
        simp [markWin, hne, hf] at hwin
      exact hmax.1 hnum.symm x0 hx0
    · intro hall
      have hnum : (scanBusyTones (roundEntries ru g)).1 = b0.arbitrationNum := by
        apply hmax.2
        intro x hx
        have := hall _ (List.mem_map.2 ⟨x, hx, rfl⟩)
        simpa [markWin_arbitrationNum] using this
      have hd : b0.staId ∈ (calls.map (fun c => c.staId)).reverse ++ [] := hdone
      simp only [markWin, hd, hnum.symm, and_self, if_true]

/-- C1 at the scenario: with drawn numbers 1, 3, 3, 0, 2 the winners are the entries of
maximal number. -/
theorem C1_winner_iff_maximum_witness :
    ∃ g', runBusyTones ([1, 2, 3, 4, 5].map exCall) exGlobals = some g'
      ∧ (roundEntries exRu g').map (fun b => (b.staId, b.arbitrationNum))
          = (roundEntries exRu exGlobals).map (fun b => (b.staId, b.arbitrationNum))
      ∧ ∀ b ∈ roundEntries exRu g',
          (b.isWin = true ↔ ∀ x ∈ roundEntries exRu g', x.arbitrationNum ≤ b.arbitrationNum) :=
  C1_winner_iff_maximum ([1, 2, 3, 4, 5].map exCall) exGlobals exRu (by decide) (by decide)
    (by decide) (by decide) (by decide) (by decide) (by decide)

/-- C2: when the entry list of the RU holds exactly one entry, registered by the station
that runs `SendBusyTone`, the evaluation returns, that entry is flagged as winner whatever
its drawn number is, and the conflict counter is unchanged. -/
theorem C2_single_entry_wins (c : BusyToneCall) (g : Globals) (b : BusyTone)
    (hone : roundEntries c.ru g = [b]) (hown : b.staId = c.staId % 256)
    (hok : callOk c = true) :
    ∃ g' s', SendBusyTone c.env c.trigger c.hdr c.staId c.ru c.isBasic g c.self = some (g', s')
      ∧ roundEntries c.ru g' = [{ b with isWin := true }]
      ∧ GetNConflict g' = GetNConflict g := by
  obtain ⟨rp, hru, hbt⟩ := findIf_of_roundEntries_ne_nil c.ru g (by simp [hone])
  rw [hone] at hbt
  unfold SendBusyTone
  simp only [hru, hbt, List.length_singleton, le_refl, if_true]
  generalize hg1 : ({ g with
      m_staRuInfo :=
        modifyAt (fun m => ({ m with bt := { b with isWin := true } :: [] } : HeRuMap))
          rp.1 g.m_staRuInfo
      m_wins := g.m_wins + 1 } : Globals) = g1
  have hru1 : findIf (fun i => i.ru == c.ru) g1.m_staRuInfo
      = some (rp.1, { rp.2 with bt := [{ b with isWin := true }] }) := by
    subst hg1
    simp only
    rw [findIf_modifyAt (fun i : HeRuMap => i.ru == c.ru)
      (fun m : HeRuMap => ({ m with bt := { b with isWin := true } :: [] } : HeRuMap))
      (fun x => rfl), hru]
    simp
  have hmy1 : findIf (fun i : BusyTone => i.staId == c.staId % 256)
      [({ b with isWin := true } : BusyTone)] = some (0, { b with isWin := true }) := by
    simp [findIf, hown]
  obtain ⟨s, hs⟩ := afterA_isSome c g1 _ _ hok hru1 hmy1
  refine ⟨g1, s, ?_, ?_, ?_⟩
  · rw [hs]; rfl
  · rw [roundEntries_of_findIf _ _ _ hru1]
  · subst hg1; rfl

/-- C2 at a round holding the single entry of station 5, with drawn number 0. -/
theorem C2_single_entry_wins_witness :
    ∃ g' s', SendBusyTone exEnv exTrigger exHdr 5 exRu false exGlobals1 (exSta 5) = some (g', s')
      ∧ roundEntries exRu g' = [{ exEntry 5 0 with isWin := true }]
      ∧ GetNConflict g' = GetNConflict exGlobals1 :=
  C2_single_entry_wins (exCall 5) exGlobals1 (exEntry 5 0) (by decide) (by decide) (by decide)

/-- C3 (as stated) fails: in the scenario with drawn numbers 1, 3, 3, 0, 2 the five
evaluations raise the conflict counter by 5, not by 1. -/
theorem C3_conflict_counter_counterexample :
    (runBusyTones ([1, 2, 3, 4, 5].map exCall) exGlobals).map GetNConflict
        = some (GetNConflict exGlobals + 5)
      ∧ (runBusyTones ([1, 2, 3, 4, 5].map exCall) exGlobals).map GetNConflict
        ≠ some (GetNConflict exGlobals + 1) := by
  decide

/-- C3 (amended): in a round on one RU in which two or more entries tie at the maximum drawn
number, every evaluation of `SendBusyTone` adds one to the conflict counter, so once every
registered station has run its evaluation the counter returned by `GetNConflict` has grown by
the number of registered stations. -/
theorem C3_conflict_counter_per_station (calls : List BusyToneCall) (g : Globals) (ru : RuSpec)
    (hties : 2 ≤ maxTies (roundEntries ru g))
    (h8 : ∀ b ∈ roundEntries ru g, b.staId < 256)
    (hperm : (calls.map (fun c => c.staId)).Perm ((roundEntries ru g).map (fun b => b.staId)))
    (hru : ∀ c ∈ calls, c.ru = ru)
    (hok : ∀ c ∈ calls, callOk c = true) :
    ∃ g', runBusyTones calls g = some g'
      ∧ GetNConflict g' = GetNConflict g + ((roundEntries ru g).length : Int) := by
  have hlen : 2 ≤ (roundEntries ru g).length :=
    le_trans hties (by unfold maxTies; exact List.length_filter_le _ _)
  have hmem : ∀ c ∈ calls, c.staId % 256 ∈ (roundEntries ru g).map (fun b => b.staId) := by
    intro c hc
    have h1 : c.staId ∈ (roundEntries ru g).map (fun b => b.staId) :=
      hperm.subset (List.mem_map.2 ⟨c, hc, rfl⟩)
    obtain ⟨b, hb, hbs⟩ := List.mem_map.1 h1
    have hlt : c.staId < 256 := by rw [← hbs]; exact h8 b hb
    rw [Nat.mod_eq_of_lt hlt]; exact h1
  obtain ⟨g', hrun, _, hcnt⟩ := runBusyTones_conflicts ru (roundEntries ru g) hlen calls g rfl
    (fun c hc => ⟨hru c hc, hok c hc, hmem c hc⟩)
  refine ⟨g', hrun, ?_⟩
  have hsame : (scanBusyTones (roundEntries ru g)).2.1 > 1 := by
    rw [maxTies_eq_scan]
    exact_mod_cast hties
  have hl : calls.length = (roundEntries ru g).length := by
    have := hperm.length_eq
    simpa using this
  unfold GetNConflict
  rw [hcnt, if_pos hsame, hl]
  ring

/-- C3 (amended) at the scenario: five registered stations, two tied at 3. -/
theorem C3_conflict_counter_per_station_witness :
    ∃ g', runBusyTones ([1, 2, 3, 4, 5].map exCall) exGlobals = some g'
      ∧ GetNConflict g' = GetNConflict exGlobals + ((roundEntries exRu exGlobals).length : Int) :=
  C3_conflict_counter_per_station ([1, 2, 3, 4, 5].map exCall) exGlobals exRu (by decide)
    (by decide) (by decide) (by decide) (by decide)

/-- C4: for a station whose arbitration entry for the RU is not flagged as winner, both
`ReceiveBasicTriggerAfterA` (on a Basic trigger) and `SendQosNullFramesInTbPpduAfterA` (on a
Basic or BSRP trigger) return with the station state unchanged: the PSDU map, the TX
parameters and the count of `SendPsduMapWithProtection` invocations are as before. -/
theorem C4_non_winner_is_silent (env : Env) (trigger : CtrlTriggerHeader) (hdr : WifiMacHeader)
    (staId : Nat) (ru : RuSpec) (g : Globals) (self : StaFem) (rp : Nat × HeRuMap)
    (mp : Nat × BusyTone)
    (ha : staAssociated self = true)
    (hru : findIf (fun i => i.ru == ru) g.m_staRuInfo = some rp)
    (hmy : findIf (fun i => i.staId == staId) rp.2.bt = some mp)
    (hlose : mp.2.isWin = false) :
    (trigger.triggerType = TriggerType.BASIC_TRIGGER →
        ReceiveBasicTriggerAfterA env trigger hdr staId ru g self = some self)
    ∧ (trigger.triggerType = TriggerType.BASIC_TRIGGER
        ∨ trigger.triggerType = TriggerType.BSRP_TRIGGER →
        SendQosNullFramesInTbPpduAfterA env trigger hdr staId ru g self = some self) := by
  constructor
  · intro ht
    unfold ReceiveBasicTriggerAfterA
    simp only [ht, ha, hru, hmy, hlose, beq_self_eq_true, Bool.not_true, Bool.false_eq_true,
      if_false, Bool.not_false, if_true]
    split <;> rfl
  · intro ht
    have ht2 : (trigger.triggerType == TriggerType.BASIC_TRIGGER
        || trigger.triggerType == TriggerType.BSRP_TRIGGER) = true := by
      rcases ht with h | h <;> simp [h]
    unfold SendQosNullFramesInTbPpduAfterA
    simp only [ht2, ha, hru, hmy, hlose, Bool.not_true, Bool.false_eq_true,
      if_false, Bool.not_false, if_true]
    split <;> rfl

/-- C4 at the scenario: station 1 drew 1 and lost against 3. -/
theorem C4_non_winner_is_silent_witness :
    (exBasicNoMbta.triggerType = TriggerType.BASIC_TRIGGER →
        ReceiveBasicTriggerAfterA exEnv exBasicNoMbta exHdr 1 exRu exGlobals (exSta 1)
          = some (exSta 1))
    ∧ (exBasicNoMbta.triggerType = TriggerType.BASIC_TRIGGER
        ∨ exBasicNoMbta.triggerType = TriggerType.BSRP_TRIGGER →
        SendQosNullFramesInTbPpduAfterA exEnv exBasicNoMbta exHdr 1 exRu exGlobals (exSta 1)
          = some (exSta 1)) :=
  C4_non_winner_is_silent exEnv exBasicNoMbta exHdr 1 exRu exGlobals (exSta 1)
    (0, ⟨exRu, [exEntry 1 1, exEntry 2 3, exEntry 3 3, exEntry 4 0, exEntry 5 2]⟩)
    (0, exEntry 1 1) (by decide) (by decide) (by decide) (by decide)

/-! ## Claims on the reception of a trigger frame -/

theorem findIf_append_of_none {α : Type} (p : α → Bool) (l : List α) (x : α)
    (h : findIf p l = none) (hx : p x = true) : findIf p (l ++ [x]) = some (l.length, x) := by
  induction l with
  | nil => simp [findIf, hx]
  | cons y ys ih =>
    by_cases hy : p y = true
    · simp [findIf, hy] at h
    · simp only [findIf, hy, if_false, Bool.false_eq_true] at h
      have hn : findIf p ys = none := by
        cases hf : findIf p ys with
        | none => rfl
        | some r => simp [hf] at h
      simp [findIf, hy, ih hn]

/-- Registration appends the new entry to the round of its RU. -/
theorem roundEntries_register (ru : RuSpec) (b : BusyTone) (g g' : Globals)
    (hg' : g'.m_staRuInfo = registerBusyTone ru b g.m_staRuInfo) :
    roundEntries ru g' = roundEntries ru g ++ [b] := by
  unfold roundEntries registerBusyTone at *
  rw [hg']
  cases hf : findIf (fun i => i.ru == ru) g.m_staRuInfo with
  | none =>
    simp only
    rw [findIf_append_of_none _ _ _ hf (by simp)]
    simp
  | some itr =>
    simp only
    rw [findIf_modifyAt (fun i : HeRuMap => i.ru == ru)
      (fun m : HeRuMap => { m with bt := m.bt ++ [b] }) (fun x => rfl), hf]
    simp

theorem SetSuccesses_staRuInfo (addr : Mac48Address) (g : Globals) :
    (SetSuccesses addr g).m_staRuInfo = g.m_staRuInfo := by
  unfold SetSuccesses; split <;> rfl

theorem SetBsrpTfReceive_staRuInfo (addr : Mac48Address) (g : Globals) :
    (SetBsrpTfReceive addr g).m_staRuInfo = g.m_staRuInfo := by
  unfold SetBsrpTfReceive; split <;> rfl

/-- C5 (as stated) fails: a Basic trigger with arbitration slot count 2 but without the MBTA
indicator schedules the immediate response `ReceiveBasicTrigger` and registers no entry; and
a trigger received inside an A-MPDU registers and schedules nothing in that call. -/
theorem C5_arbitration_deferred_counterexample :
    (0 < exBasicNoMbta.arbitrationSlots
      ∧ (ReceiveMpdu_trigger exEnv exHdr exBasicNoMbta false exGlobals0 (exSta 1)).map
          (fun r => (roundEntries exRu r.1, r.2.scheduled))
        = some ([], [(exEnv.sifs, Scheduled.ReceiveBasicTrigger exBasicNoMbta exHdr)]))
    ∧ (0 < exTrigger.arbitrationSlots
      ∧ (ReceiveMpdu_trigger exEnv exHdr exTrigger true exGlobals0 (exSta 1)).map
          (fun r => (roundEntries exRu r.1, r.2.scheduled))
        = some ([], [])) := by
  decide

/-- C5 (amended): for a trigger received outside an A-MPDU by an associated station that has
a User Info field in it, with arbitration slot count greater than 0, that is either a BSRP
trigger or a Basic trigger with the MBTA indicator set, `ReceiveMpdu` appends an entry of the
station (win flag false, a number below 256) to the round of the station's assigned RU and
schedules exactly `SendBusyTone` after SIFS, not the immediate response. -/
theorem C5_arbitration_deferred (env : Env) (hdr : WifiMacHeader) (trigger : CtrlTriggerHeader)
    (g : Globals) (self : StaFem) (aid : Nat) (u : CtrlTriggerUserInfoField)
    (hsta : self.staMac = some (true, aid))
    (huser : FindUserInfoWithAid trigger aid = some u)
    (hsender : hdr.addr2 ≠ self.m_self)
    (haddr : hdr.addr1 = self.m_self
      ∨ (hdr.addr1IsBroadcast = true ∧ hdr.addr2 = self.m_bssid))
    (hslots : 0 < trigger.arbitrationSlots)
    (htype : (trigger.triggerType = TriggerType.BASIC_TRIGGER ∧ trigger.mbtaIndicator = true)
      ∨ trigger.triggerType = TriggerType.BSRP_TRIGGER) :
    ∃ g' self' num, ReceiveMpdu_trigger env hdr trigger false g self = some (g', self')
      ∧ num < 256
      ∧ roundEntries u.ruAllocation g'
          = roundEntries u.ruAllocation g ++ [⟨aid, num, trigger, hdr, false⟩]
      ∧ self'.scheduled
          = self.scheduled ++ [(env.sifs, Scheduled.SendBusyTone trigger hdr aid u.ruAllocation
              (decide (trigger.triggerType = TriggerType.BASIC_TRIGGER)))] := by
  have hv : GetHeTbTxVector self trigger hdr.addr2 = some (aid, u.ruAllocation) := by
    simp [GetHeTbTxVector, hsender, hsta, huser]
  have hnot : (hdr.addr1 != self.m_self
        && (!hdr.addr1IsBroadcast || false || hdr.addr2 != self.m_bssid
            || (FindUserInfoWithAid trigger aid).isNone)) = false := by
    rcases haddr with h | ⟨h1, h2⟩
    · simp [h]
    · simp [h1, h2, huser]
  unfold ReceiveMpdu_trigger
  simp only [hsta]
  simp only [hnot, hv, Bool.false_eq_true, if_false, Bool.not_true]
  rcases htype with ⟨ht, hm⟩ | ht
  · simp only [ht, hm, hslots, gt_iff_lt, decide_True, Bool.and_self, if_true]
    refine ⟨_, _, env.randInteger 0 (2 ^ trigger.arbitrationSlots - 1) % 256, rfl,
      Nat.mod_lt _ (by norm_num), ?_, ?_⟩
    · apply roundEntries_register
      simp only [SetSuccesses_staRuInfo]
    · simp
  · simp only [ht, hslots, gt_iff_lt, if_true]
    refine ⟨_, _, env.randInteger 0 (2 ^ trigger.arbitrationSlots - 1) % 256, rfl,
      Nat.mod_lt _ (by norm_num), ?_, ?_⟩
    · apply roundEntries_register
      simp only [SetBsrpTfReceive_staRuInfo]
    · simp

/-! ## Lemmas: the stable sort -/

theorem orderedInsertBy_perm {α : Type} (comp : α → α → Bool) (x : α) (l : List α) :
    (orderedInsertBy comp x l).Perm (x :: l) := by
  induction l with
  | nil => exact List.Perm.refl _
  | cons y ys ih =>
    unfold orderedInsertBy
    split
    · exact (List.Perm.cons y ih).trans (List.Perm.swap x y ys)
    · exact List.Perm.refl _

theorem listSort_perm {α : Type} (comp : α → α → Bool) (l : List α) :
    (listSort comp l).Perm l := by
  induction l with
  | nil => exact List.Perm.refl _
  | cons x xs ih =>
    exact (orderedInsertBy_perm comp x (listSort comp xs)).trans (List.Perm.cons x ih)

theorem orderedInsertBy_sorted {α : Type} (k : α → ℚ) (x : α) (l : List α)
    (h : l.Pairwise (fun a b => k b ≤ k a)) :
    (orderedInsertBy (fun a b => decide (k a > k b)) x l).Pairwise (fun a b => k b ≤ k a) := by
  induction l with
  | nil => simp [orderedInsertBy]
  | cons y ys ih =>
    rw [List.pairwise_cons] at h
    unfold orderedInsertBy
    by_cases hc : k y > k x
    · simp only [hc, decide_True, if_true]
      rw [List.pairwise_cons]
      refine ⟨?_, ih h.2⟩
      intro z hz
      rcases (List.mem_cons.1 ((orderedInsertBy_perm _ x ys).subset hz)) with hzx | hzy
      · subst hzx; exact le_of_lt hc
      · exact h.1 z hzy
    · simp only [hc, decide_False, if_false, Bool.false_eq_true]
      rw [List.pairwise_cons]
      refine ⟨?_, List.pairwise_cons.2 h⟩
      intro z hz
      rcases List.mem_cons.1 hz with hzy | hzy
      · subst hzy; exact not_lt.1 hc
      · exact le_trans (h.1 z hzy) (not_lt.1 hc)

theorem listSort_sorted {α : Type} (k : α → ℚ) (l : List α) :
    (listSort (fun a b => decide (k a > k b)) l).Pairwise (fun a b => k b ≤ k a) := by
  induction l with
  | nil => simp [listSort]
  | cons x xs ih => exact orderedInsertBy_sorted k x _ ih

theorem orderedInsertBy_filter {α : Type} (k : α → ℚ) (c : ℚ) (x : α) (l : List α) :
    (orderedInsertBy (fun a b => decide (k a > k b)) x l).filter (fun a => decide (k a = c))
      = (x :: l).filter (fun a => decide (k a = c)) := by
  induction l with
  | nil => simp [orderedInsertBy]
  | cons y ys ih =>
    unfold orderedInsertBy
    by_cases hc : k y > k x
    · simp only [hc, decide_True, if_true]
      rw [List.filter_cons, ih]
      by_cases hy : k y = c
      · have hx : ¬ k x = c := by intro hx; rw [hx, hy] at hc; exact lt_irrefl _ hc
        simp [List.filter_cons, hy, hx]
      · simp [List.filter_cons, hy]
    · simp only [hc, decide_False, if_false, Bool.false_eq_true]

/-- The sort is stable: the elements of any one key keep their order. -/
theorem listSort_filter {α : Type} (k : α → ℚ) (c : ℚ) (l : List α) :
    (listSort (fun a b => decide (k a > k b)) l).filter (fun a => decide (k a = c))
      = l.filter (fun a => decide (k a = c)) := by
  induction l with
  | nil => simp [listSort]
  | cons x xs ih =>
    unfold listSort
    rw [orderedInsertBy_filter, List.filter_cons, List.filter_cons, ih]

/-! ## Lemmas: `UpdateCredits` -/

theorem getElem?_modifyAt {α : Type} (f : α → α) (n i : Nat) (l : List α) :
    (modifyAt f n l)[i]? = if i = n then (l[i]?).map f else l[i]? := by
  induction l generalizing n i with
  | nil => cases n <;> simp [modifyAt]
  | cons x xs ih =>
    cases n with
    | zero => cases i <;> simp [modifyAt]
    | succ m =>
      cases i with
      | zero => simp [modifyAt]
      | succ j => simp [modifyAt, ih m j]

theorem candidatesValid_cons (staList : List MasterInfo) (txVector : HeMuUserInfoMap)
    (c : Candidate) (cs : List Candidate)
    (h : candidatesValid staList txVector (c :: cs) = true) :
    (∃ sta info, staList[c.first]? = some sta ∧ mapFind sta.aid txVector = some info)
      ∧ candidatesValid staList txVector cs = true := by
  unfold candidatesValid at h ⊢
  simp only [List.all_cons, Bool.and_eq_true] at h
  refine ⟨?_, h.2⟩
  have h1 := h.1
  cases hs : staList[c.first]? with
  | none => simp [hs] at h1
  | some sta =>
    simp only [hs] at h1
    obtain ⟨info, hinfo⟩ := Option.isSome_iff_exists.1 h1
    exact ⟨sta, info, rfl, hinfo⟩

theorem candidatesValid_modifyAt (staList : List MasterInfo) (txVector : HeMuUserInfoMap)
    (cs : List Candidate) (f : MasterInfo → MasterInfo) (hf : ∀ m, (f m).aid = m.aid) (n : Nat)
    (h : candidatesValid staList txVector cs = true) :
    candidatesValid (modifyAt f n staList) txVector cs = true := by
  unfold candidatesValid at h ⊢
  rw [List.all_eq_true] at h ⊢
  intro c hc
  have := h c hc
  rw [getElem?_modifyAt]
  cases hs : staList[c.first]? with
  | none => simp [hs] at this
  | some sta =>
    simp only [hs] at this
    by_cases hn : c.first = n
    · simp [hn ▸ hs, hn, hf, this]
    · simp [hn, hs, this]

/-- The debit loop returns, keeps every station in place with its identity, and charges the
station at each position once per candidate pointing at it. -/
theorem debitCandidates_spec (gb : Nat → Nat) (dpm : ℚ) (txVector : HeMuUserInfoMap) :
    ∀ (cs : List Candidate) (staList : List MasterInfo),
      candidatesValid staList txVector cs = true →
      ∃ out, debitCandidates gb dpm txVector cs staList = some out
        ∧ out.length = staList.length
        ∧ ∀ i sta, staList[i]? = some sta →
            ∃ sta', out[i]? = some sta' ∧ sta'.aid = sta.aid ∧ sta'.address = sta.address
              ∧ sta'.credits = sta.credits
                  - ((cs.filter (fun c => decide (c.first = i))).length : ℚ)
                    * (match mapFind sta.aid txVector with
                       | some info => dpm * (gb info.ru.ruType : ℚ)
                       | none => 0) := by
  intro cs
  induction cs with
  | nil =>
    intro staList _
    exact ⟨staList, rfl, rfl, fun i sta h => ⟨sta, h, rfl, rfl, by simp⟩⟩
  | cons c rest ih =>
    intro staList hv
    obtain ⟨⟨sta0, info0, hs0, hi0⟩, hrest⟩ := candidatesValid_cons _ _ _ _ hv
    have hv1 := candidatesValid_modifyAt staList txVector rest
      (fun m => { m with credits := m.credits - dpm * (gb info0.ru.ruType : ℚ) })
      (fun m => rfl) c.first hrest
    obtain ⟨out, hout, hlen, hpt⟩ := ih _ hv1
    refine ⟨out, ?_, ?_, ?_⟩
    · simp only [debitCandidates, hs0, hi0]
      exact hout
    · rw [hlen, length_modifyAt]
    · intro i sta hsta
      by_cases hi : i = c.first
      · subst hi
        rw [hs0] at hsta
        cases hsta
        obtain ⟨sta', h1, h2, h3, h4⟩ := hpt c.first
          { sta0 with credits := sta0.credits - dpm * (gb info0.ru.ruType : ℚ) }
          (by rw [getElem?_modifyAt]; simp [hs0])
        refine ⟨sta', h1, h2, h3, ?_⟩
        rw [h4]
        simp only [hi0, List.filter_cons, decide_True, if_true, List.length_cons]
        push_cast
        ring
      · obtain ⟨sta', h1, h2, h3, h4⟩ := hpt i sta
          (by rw [getElem?_modifyAt]; simp [hi, hsta])
        refine ⟨sta', h1, h2, h3, ?_⟩
        rw [h4]
        have hne : ¬ c.first = i := fun h => hi h.symm
        simp [List.filter_cons, hne]

/-! ### The accumulated bandwidth -/

theorem ruMapCount_sum (gb : Nat → Nat) (t : Nat) (m : List (Nat × Nat)) :
    ((ruMapCount t m).map (fun p => p.2 * gb p.1)).sum
      = (m.map (fun p => p.2 * gb p.1)).sum + gb t := by
  induction m with
  | nil => simp [ruMapCount]
  | cons p ps ih =>
    obtain ⟨t1, c1⟩ := p
    unfold ruMapCount
    by_cases h1 : t < t1
    · simp [h1]; ring
    · by_cases h2 : t = t1
      · subst h2; simp; ring
      · simp [h1, h2, ih]; ring

theorem buildRuMap_sum (heRu : HeRuModel) (txVector : HeMuUserInfoMap) :
    ((buildRuMap txVector).map (fun p => p.2 * heRu.getBandwidth p.1)).sum
      = totalBandwidth heRu txVector := by
  have key : ∀ (tv : HeMuUserInfoMap) (m : List (Nat × Nat)),
      ((tv.foldl (fun m userInfo => ruMapCount userInfo.2.ru.ruType m) m).map
          (fun p => p.2 * heRu.getBandwidth p.1)).sum
        = (m.map (fun p => p.2 * heRu.getBandwidth p.1)).sum + totalBandwidth heRu tv := by
    intro tv
    induction tv with
    | nil => intro m; simp [totalBandwidth]
    | cons u us ih =>
      intro m
      simp only [List.foldl_cons]
      rw [ih, ruMapCount_sum]
      simp [totalBandwidth]
      ring
  have := key txVector []
  simpa [buildRuMap] using this

theorem accumulateBandwidth_exact (gb : Nat → Nat) (ruMap : List (Nat × Nat))
    (h : (ruMap.map (fun p => p.2 * gb p.1)).sum < 65536) :
    accumulateBandwidth gb ruMap = (((ruMap.map (fun p => p.2 * gb p.1)).sum : Nat) : Int) := by
  have key : ∀ (m : List (Nat × Nat)) (a : Nat),
      a + (m.map (fun p => p.2 * gb p.1)).sum < 65536 →
      m.foldl (fun acc pair =>
          toInt32 (((acc % 65536).toNat + pair.2 * gb pair.1) % 2 ^ 64)) (a : Int)
        = ((a + (m.map (fun p => p.2 * gb p.1)).sum : Nat) : Int) := by
    intro m
    induction m with
    | nil => intro a _; simp
    | cons p ps ih =>
      intro a ha
      simp only [List.map_cons, List.sum_cons] at ha
      simp only [List.foldl_cons, List.map_cons, List.sum_cons]
      have hstep : toInt32 ((((a : Int) % 65536).toNat + p.2 * gb p.1) % 2 ^ 64)
          = ((a + p.2 * gb p.1 : Nat) : Int) := by
        have ha1 : ((a : Int) % 65536).toNat = a := by
          have : (a : Int) % 65536 = (a : Int) := Int.emod_eq_of_lt (by omega) (by omega)
          rw [this]; simp
        rw [ha1]
        have hlt : a + p.2 * gb p.1 < 65536 := by omega
        unfold toInt32
        have h64 : (a + p.2 * gb p.1) % 2 ^ 64 = a + p.2 * gb p.1 :=
          Nat.mod_eq_of_lt (by omega)
        have h32 : (a + p.2 * gb p.1) % 2 ^ 32 = a + p.2 * gb p.1 :=
          Nat.mod_eq_of_lt (by omega)
        rw [h64, h32]
        rw [if_pos (by omega)]
      rw [hstep, ih (a + p.2 * gb p.1) (by omega)]
      congr 1
      omega
  have := key ruMap 0 (by simpa using h)
  simpa [accumulateBandwidth] using this

theorem candidatesValid_assignCredits (cps mx : ℚ) (staList : List MasterInfo)
    (txVector : HeMuUserInfoMap) (cs : List Candidate)
    (h : candidatesValid staList txVector cs = true) :
    candidatesValid (assignCredits cps mx staList) txVector cs = true := by
  unfold candidatesValid at h ⊢
  rw [List.all_eq_true] at h ⊢
  intro c hc
  have := h c hc
  unfold assignCredits
  rw [List.getElem?_map]
  cases hs : staList[c.first]? with
  | none => simp [hs] at this
  | some sta => simpa [hs] using this

/-- The shape of the result of `UpdateCredits`: the stable sort of a list that keeps every
station at its position and holds the clamped grant minus the debits charged. -/
theorem UpdateCredits_spec (heRu : HeRuModel) (s : RrMultiUserScheduler)
    (staList : List MasterInfo) (d : ℚ) (txVector : HeMuUserInfoMap)
    (hvalid : candidatesValid staList txVector s.m_candidates = true) :
    ∃ debited, UpdateCredits heRu s staList d txVector
        = some (listSort (fun a b => decide (a.credits > b.credits)) debited)
      ∧ debited.length = staList.length
      ∧ ∀ i sta, staList[i]? = some sta →
          ∃ sta', debited[i]? = some sta' ∧ sta'.aid = sta.aid ∧ sta'.address = sta.address
            ∧ sta'.credits
                = min (sta.credits + d / (staList.length : ℚ)) s.m_maxCredits
                  - ((s.m_candidates.filter (fun c => decide (c.first = i))).length : ℚ)
                    * (match mapFind sta.aid txVector with
                       | some info =>
                         d / ((accumulateBandwidth heRu.getBandwidth (buildRuMap txVector)
                                : Int) : ℚ)
                           * (heRu.getBandwidth info.ru.ruType : ℚ)
                       | none => 0) := by
  obtain ⟨out, hout, hlen, hpt⟩ := debitCandidates_spec heRu.getBandwidth
    (d / ((accumulateBandwidth heRu.getBandwidth (buildRuMap txVector) : Int) : ℚ)) txVector
    s.m_candidates (assignCredits (d / (staList.length : ℚ)) s.m_maxCredits staList)
    (candidatesValid_assignCredits _ _ _ _ _ hvalid)
  refine ⟨out, ?_, ?_, ?_⟩
  · simp only [UpdateCredits, hout]
  · rw [hlen]; simp [assignCredits]
  · intro i sta hsta
    obtain ⟨sta', h1, h2, h3, h4⟩ := hpt i
      { sta with credits := min (sta.credits + d / (staList.length : ℚ)) s.m_maxCredits }
      (by simp [assignCredits, List.getElem?_map, hsta])
    exact ⟨sta', h1, h2, h3, h4⟩

theorem filter_first_length_of_nodup (cs : List Candidate) (i : Nat)
    (h : (cs.map (fun c => c.first)).Nodup) :
    (cs.filter (fun c => decide (c.first = i))).length
      = if i ∈ cs.map (fun c => c.first) then 1 else 0 := by
  induction cs with
  | nil => simp
  | cons c rest ih =>
    simp only [List.map_cons, List.nodup_cons] at h
    by_cases hc : c.first = i
    · subst hc
      have hnot : ¬ c.first ∈ rest.map (fun c => c.first) := h.1
      have := ih h.2
      rw [if_neg hnot] at this
      simp [List.filter_cons, this]
    · have hne : ¬ i = c.first := fun e => hc e.symm
      simp [List.filter_cons, hc, hne, ih h.2]

/-! ## Claims on the fairness credits -/

/-- C6: for every station of the list passed to `UpdateCredits` (size n, duration d), the
list after the call holds that station with the credit min(credit_before + d/n, MaxCredits),
minus d * bandwidth(own RU) / (sum of the bandwidths of all RUs of the TX vector) exactly
when the station is one of the served candidates.  The candidates are distinct stations of
the list with an entry in the TX vector and the bandwidth sum fits 16 bits. -/
theorem C6_credit_after_round (heRu : HeRuModel) (s : RrMultiUserScheduler)
    (staList : List MasterInfo) (d : ℚ) (txVector : HeMuUserInfoMap)
    (hvalid : candidatesValid staList txVector s.m_candidates = true)
    (hdistinct : (s.m_candidates.map (fun c => c.first)).Nodup)
    (hbw : totalBandwidth heRu txVector < 65536) :
    ∃ out, UpdateCredits heRu s staList d txVector = some out
      ∧ out.length = staList.length
      ∧ ∀ i sta, staList[i]? = some sta →
          ∃ sta' ∈ out, sta'.aid = sta.aid ∧ sta'.address = sta.address
            ∧ sta'.credits = creditAfter heRu s staList.length d txVector i sta := by
  obtain ⟨debited, hres, hlen, hpt⟩ := UpdateCredits_spec heRu s staList d txVector hvalid
  refine ⟨_, hres, ?_, ?_⟩
  · rw [(listSort_perm _ debited).length_eq, hlen]
  · intro i sta hsta
    obtain ⟨sta', h1, h2, h3, h4⟩ := hpt i sta hsta
    refine ⟨sta', (listSort_perm _ debited).symm.subset (List.getElem?_mem h1), h2, h3, ?_⟩
    rw [h4, filter_first_length_of_nodup _ _ hdistinct]
    have hacc : accumulateBandwidth heRu.getBandwidth (buildRuMap txVector)
        = ((totalBandwidth heRu txVector : Nat) : Int) := by
      rw [accumulateBandwidth_exact _ _ (by rw [buildRuMap_sum]; exact hbw), buildRuMap_sum]
    unfold creditAfter
    rw [hacc]
    by_cases hi : i ∈ s.m_candidates.map (fun c => c.first)
    · simp only [hi, if_true]
      cases mapFind sta.aid txVector with
      | none => simp
      | some info =>
        simp only
        push_cast
        ring
    · simp [hi]

/-- C7: after a call of `UpdateCredits` with a non-negative duration, every station of the
updated list has a credit of at most `MaxCredits`. -/
theorem C7_credit_ceiling (heRu : HeRuModel) (s : RrMultiUserScheduler)
    (staList : List MasterInfo) (d : ℚ) (txVector : HeMuUserInfoMap)
    (hd : 0 ≤ d)
    (hvalid : candidatesValid staList txVector s.m_candidates = true)
    (hbw : totalBandwidth heRu txVector < 65536) :
    ∃ out, UpdateCredits heRu s staList d txVector = some out
      ∧ ∀ sta ∈ out, sta.credits ≤ s.m_maxCredits := by
  obtain ⟨debited, hres, hlen, hpt⟩ := UpdateCredits_spec heRu s staList d txVector hvalid
  refine ⟨_, hres, ?_⟩
  intro sta' hmem
  have hmem2 : sta' ∈ debited := (listSort_perm _ debited).subset hmem
  obtain ⟨i, hi, hget⟩ := List.getElem_of_mem hmem2
  have hi2 : i < staList.length := by rw [← hlen]; exact hi
  obtain ⟨sta'', h1, _, _, h4⟩ := hpt i staList[i] (List.getElem?_eq_getElem hi2)
  have heq : sta'' = sta' := by
    rw [List.getElem?_eq_getElem hi] at h1
    rw [← hget]; exact (Option.some.inj h1).symm
  subst heq
  rw [h4]
  have hacc : accumulateBandwidth heRu.getBandwidth (buildRuMap txVector)
      = ((totalBandwidth heRu txVector : Nat) : Int) := by
    rw [accumulateBandwidth_exact _ _ (by rw [buildRuMap_sum]; exact hbw), buildRuMap_sum]
  have hnonneg : 0 ≤ ((s.m_candidates.filter (fun c => decide (c.first = i))).length : ℚ)
      * (match mapFind staList[i].aid txVector with
         | some info =>
           d / ((accumulateBandwidth heRu.getBandwidth (buildRuMap txVector) : Int) : ℚ)
             * (heRu.getBandwidth info.ru.ruType : ℚ)
         | none => 0) := by
    apply mul_nonneg (Nat.cast_nonneg _)
    cases mapFind staList[i].aid txVector with
    | none => exact le_refl _
    | some info =>
      simp only
      rw [hacc]
      apply mul_nonneg _ (Nat.cast_nonneg _)
      apply div_nonneg hd
      exact_mod_cast Nat.zero_le _
  have hmin : min (staList[i].credits + d / (staList.length : ℚ)) s.m_maxCredits
      ≤ s.m_maxCredits := min_le_right _ _
  linarith

/-- C8: after a call of `UpdateCredits` the list holds the same stations (association id and
address) as before, is ordered by non-increasing credit, and the stations of any one credit
value appear in the order they had before the call. -/
theorem C8_sorted_stable_permutation (heRu : HeRuModel) (s : RrMultiUserScheduler)
    (staList : List MasterInfo) (d : ℚ) (txVector : HeMuUserInfoMap)
    (hvalid : candidatesValid staList txVector s.m_candidates = true) :
    ∃ out, UpdateCredits heRu s staList d txVector = some out
      ∧ (out.map (fun m => (m.aid, m.address))).Perm (staList.map (fun m => (m.aid, m.address)))
      ∧ out.Pairwise (fun a b => b.credits ≤ a.credits)
      ∧ ∀ c : ℚ, ((out.filter (fun m => decide (m.credits = c))).map
            (fun m => (m.aid, m.address))).Sublist
          (staList.map (fun m => (m.aid, m.address))) := by
  obtain ⟨debited, hres, hlen, hpt⟩ := UpdateCredits_spec heRu s staList d txVector hvalid
  have hident : debited.map (fun m => (m.aid, m.address))
      = staList.map (fun m => (m.aid, m.address)) := by
    apply List.ext_getElem?
    intro i
    rw [List.getElem?_map, List.getElem?_map]
    by_cases hi : i < staList.length
    · obtain ⟨sta', h1, h2, h3, _⟩ := hpt i staList[i] (List.getElem?_eq_getElem hi)
      rw [h1, List.getElem?_eq_getElem hi]
      simp [h2, h3]
    · have h1 : staList[i]? = none := List.getElem?_eq_none (by omega)
      have h2 : debited[i]? = none := List.getElem?_eq_none (by omega)
      rw [h1, h2]
  refine ⟨_, hres, ?_, ?_, ?_⟩
  · rw [← hident]
    exact (listSort_perm _ debited).map _
  · exact listSort_sorted (fun m : MasterInfo => m.credits) debited
  · intro c
    rw [listSort_filter (fun m : MasterInfo => m.credits) c debited, ← hident]
    exact (List.filter_sublist debited).map _

/-! ## Claims on the conservation of credits -/

theorem sumCredits_modifyAt (x : ℚ) (i : Nat) (l : List MasterInfo) (sta : MasterInfo)
    (h : l[i]? = some sta) :
    sumCredits (modifyAt (fun m => { m with credits := m.credits - x }) i l)
      = sumCredits l - x := by
  induction l generalizing i with
  | nil => simp at h
  | cons y ys ih =>
    cases i with
    | zero => simp [modifyAt, sumCredits]; ring
    | succ j =>
      have hj : ys[j]? = some sta := by simpa using h
      have := ih j hj
      simp only [sumCredits, modifyAt, List.map_cons, List.sum_cons] at this ⊢
      rw [this]; ring

theorem debitOf_modifyAt (gb : Nat → Nat) (dpm : ℚ) (txVector : HeMuUserInfoMap)
    (staList : List MasterInfo) (f : MasterInfo → MasterInfo) (hf : ∀ m, (f m).aid = m.aid)
    (n : Nat) (c : Candidate) :
    debitOf gb dpm txVector (modifyAt f n staList) c = debitOf gb dpm txVector staList c := by
  unfold debitOf
  rw [getElem?_modifyAt]
  by_cases hc : c.first = n
  · rw [if_pos hc]
    cases staList[c.first]? with
    | none => rfl
    | some sta => simp [hf]
  · rw [if_neg hc]

theorem debitOf_assignCredits (gb : Nat → Nat) (dpm : ℚ) (txVector : HeMuUserInfoMap)
    (staList : List MasterInfo) (g mx : ℚ) (c : Candidate) :
    debitOf gb dpm txVector (assignCredits g mx staList) c
      = debitOf gb dpm txVector staList c := by
  unfold debitOf assignCredits
  rw [List.getElem?_map]
  cases staList[c.first]? with
  | none => rfl
  | some sta => rfl

/-- The debit loop lowers the sum of the credits by the debits charged. -/
theorem debitCandidates_sum (gb : Nat → Nat) (dpm : ℚ) (txVector : HeMuUserInfoMap) :
    ∀ (cs : List Candidate) (staList : List MasterInfo),
      candidatesValid staList txVector cs = true →
      ∃ out, debitCandidates gb dpm txVector cs staList = some out
        ∧ sumCredits out
            = sumCredits staList - (cs.map (debitOf gb dpm txVector staList)).sum := by
  intro cs
  induction cs with
  | nil => intro staList _; exact ⟨staList, rfl, by simp⟩
  | cons c rest ih =>
    intro staList hv
    obtain ⟨⟨sta0, info0, hs0, hi0⟩, hrest⟩ := candidatesValid_cons _ _ _ _ hv
    have hv1 := candidatesValid_modifyAt staList txVector rest
      (fun m => { m with credits := m.credits - dpm * (gb info0.ru.ruType : ℚ) })
      (fun m => rfl) c.first hrest
    obtain ⟨out, hout, hsum⟩ := ih _ hv1
    refine ⟨out, ?_, ?_⟩
    · simp only [debitCandidates, hs0, hi0]
      exact hout
    · rw [hsum, sumCredits_modifyAt _ _ _ _ hs0]
      have hsame : rest.map (debitOf gb dpm txVector
            (modifyAt (fun m : MasterInfo =>
                { m with credits := m.credits - dpm * (gb info0.ru.ruType : ℚ) })
                c.first staList))
          = rest.map (debitOf gb dpm txVector staList) := by
        apply List.map_congr_left
        intro c' _
        exact debitOf_modifyAt gb dpm txVector staList
          (fun m : MasterInfo =>
            { m with credits := m.credits - dpm * (gb info0.ru.ruType : ℚ) })
          (fun m => rfl) c.first c'
      have hc : debitOf gb dpm txVector staList c = dpm * (gb info0.ru.ruType : ℚ) := by
        simp [debitOf, hs0, hi0]
      rw [hsame, List.map_cons, List.sum_cons, hc]
      ring

theorem sumCredits_assignCredits (g mx : ℚ) (l : List MasterInfo)
    (h : ∀ sta ∈ l, sta.credits + g ≤ mx) :
    sumCredits (assignCredits g mx l) = sumCredits l + (l.length : ℚ) * g := by
  induction l with
  | nil => simp [sumCredits, assignCredits]
  | cons y ys ih =>
    have hy := h y (List.mem_cons_self _ _)
    have := ih (fun sta hs => h sta (List.mem_cons_of_mem _ hs))
    simp only [sumCredits, assignCredits, List.map_cons, List.sum_cons, List.length_cons] at this ⊢
    rw [this, min_eq_left hy]
    push_cast
    ring

/-- One round without clamping: the sum of the credits grows by the grants and shrinks by
the debits charged. -/
theorem UpdateCredits_sum (heRu : HeRuModel) (s : RrMultiUserScheduler) (r : CreditRound)
    (staList : List MasterInfo)
    (hvalid : candidatesValid staList r.txVector r.candidates = true)
    (hunclamped : ∀ sta ∈ staList,
      sta.credits + r.txDuration / (staList.length : ℚ) ≤ s.m_maxCredits) :
    ∃ next, UpdateCredits heRu { s with m_candidates := r.candidates } staList r.txDuration
        r.txVector = some next
      ∧ next.length = staList.length
      ∧ sumCredits next = sumCredits staList
          + (staList.length : ℚ) * (r.txDuration / (staList.length : ℚ))
          - chargedDebits heRu r staList := by
  obtain ⟨out, hout, hsum⟩ := debitCandidates_sum heRu.getBandwidth
    (r.txDuration / ((accumulateBandwidth heRu.getBandwidth (buildRuMap r.txVector) : Int) : ℚ))
    r.txVector r.candidates
    (assignCredits (r.txDuration / (staList.length : ℚ)) s.m_maxCredits staList)
    (candidatesValid_assignCredits _ _ _ _ _ hvalid)
  obtain ⟨out2, hout2, hlen2, _⟩ := debitCandidates_spec heRu.getBandwidth
    (r.txDuration / ((accumulateBandwidth heRu.getBandwidth (buildRuMap r.txVector) : Int) : ℚ))
    r.txVector r.candidates
    (assignCredits (r.txDuration / (staList.length : ℚ)) s.m_maxCredits staList)
    (candidatesValid_assignCredits _ _ _ _ _ hvalid)
  have hoo : out2 = out := by
    rw [hout] at hout2; exact (Option.some.inj hout2).symm
  subst hoo
  have hupd : UpdateCredits heRu { s with m_candidates := r.candidates } staList r.txDuration
      r.txVector = some (listSort (fun a b => decide (a.credits > b.credits)) out2) := by
    unfold UpdateCredits
    dsimp only
    rw [hout]
  refine ⟨_, hupd, ?_, ?_⟩
  · rw [(listSort_perm _ out2).length_eq, hlen2]; simp [assignCredits]
  · have hperm : sumCredits (listSort (fun a b => decide (a.credits > b.credits)) out2)
        = sumCredits out2 := by
      unfold sumCredits
      exact ((listSort_perm _ out2).map (fun sta : MasterInfo => sta.credits)).sum_eq
    rw [hperm, hsum, sumCredits_assignCredits _ _ _ hunclamped]
    unfold chargedDebits
    congr 1
    apply congrArg List.sum
    apply List.map_congr_left
    intro c _
    exact debitOf_assignCredits _ _ _ _ _ _ c

/-- C9 (as stated) fails: a station 10 microseconds below the ceiling that is granted 100
microseconds is clamped, so the sum after the round (1000000) is not the initial sum plus
the grant minus the debits (1000090). -/
theorem C9_credit_conservation_counterexample :
    (runCreditRounds exHeRu (exSched []) [exIdleRound] exNearCeiling).map sumCredits
        = some 1000000
      ∧ sumCredits exNearCeiling + totalGrants exNearCeiling.length [exIdleRound]
          - totalDebits exHeRu (exSched []) [exIdleRound] exNearCeiling = 1000090
      ∧ (runCreditRounds exHeRu (exSched []) [exIdleRound] exNearCeiling).map sumCredits
        ≠ some (sumCredits exNearCeiling + totalGrants exNearCeiling.length [exIdleRound]
            - totalDebits exHeRu (exSched []) [exIdleRound] exNearCeiling) := by
  have h1 : (runCreditRounds exHeRu (exSched []) [exIdleRound] exNearCeiling).map sumCredits
      = some 1000000 := by
    simp [runCreditRounds, UpdateCredits, exIdleRound, exNearCeiling, exSched, debitCandidates,
      assignCredits, listSort, orderedInsertBy, sumCredits]
    norm_num
  have h2 : sumCredits exNearCeiling + totalGrants exNearCeiling.length [exIdleRound]
      - totalDebits exHeRu (exSched []) [exIdleRound] exNearCeiling = 1000090 := by
    have hz : totalDebits exHeRu (exSched []) [exIdleRound] exNearCeiling = 0 := by
      unfold totalDebits
      split <;> simp [chargedDebits, exIdleRound, totalDebits]
    rw [hz]
    simp [totalGrants, exIdleRound, exNearCeiling, sumCredits]
    norm_num
  refine ⟨h1, h2, ?_⟩
  rw [h1, h2]
  intro h
  have h3 := Option.some.inj h
  norm_num at h3

/-- C9 (amended): over N successive `UpdateCredits` rounds on one station list in which the
candidates are valid and no station reaches the `MaxCredits` ceiling, the sum of the
credits after the rounds is the initial sum plus the grants of the rounds (list size times
duration / list size) minus the debits charged to the served stations. -/
theorem C9_credit_conservation_unclamped (heRu : HeRuModel) (s : RrMultiUserScheduler)
    (rounds : List CreditRound) (staList : List MasterInfo)
    (h : roundsUnclamped heRu s rounds staList) :
    ∃ out, runCreditRounds heRu s rounds staList = some out
      ∧ sumCredits out = sumCredits staList + totalGrants staList.length rounds
          - totalDebits heRu s rounds staList := by
  induction rounds generalizing staList with
  | nil => exact ⟨staList, rfl, by simp [totalGrants, totalDebits]⟩
  | cons r rs ih =>
    obtain ⟨hvalid, hunclamped, hnext⟩ := h
    obtain ⟨next, hupd, hlen, hsum⟩ := UpdateCredits_sum heRu s r staList hvalid hunclamped
    obtain ⟨out, hrun, hres⟩ := ih next (hnext next hupd)
    refine ⟨out, ?_, ?_⟩
    · simp only [runCreditRounds, hupd]
      exact hrun
    · rw [hres, hsum, hlen]
      simp only [totalGrants, totalDebits, hupd, List.map_cons, List.sum_cons]
      ring

/-! ## Claims on the RU assignment -/

theorem mapFind_mapSet {β : Type} (k k' : Nat) (v : β) (m : List (Nat × β)) :
    mapFind k (mapSet k' v m) = if k = k' then some v else mapFind k m := by
  induction m with
  | nil =>
    by_cases h : k = k'
    · simp [mapSet, mapFind, h]
    · have h' : ¬ k' = k := fun e => h e.symm
      simp [mapSet, mapFind, h, h']
  | cons p ps ih =>
    obtain ⟨k1, v1⟩ := p
    unfold mapSet
    by_cases h1 : k' < k1
    · simp only [h1, if_true]
      by_cases h : k = k'
      · simp [mapFind, h]
      · have h' : ¬ k' = k := fun e => h e.symm
        simp [mapFind, h, h']
    · simp only [h1, if_false]
      by_cases h2 : k' = k1
      · subst h2
        simp only [if_true]
        by_cases h : k = k'
        · simp [mapFind, h]
        · have h' : ¬ k' = k := fun e => h e.symm
          simp [mapFind, h, h']
      · simp only [h2, if_false]
        by_cases h : k = k'
        · subst h
          have h3 : ¬ k1 = k := fun e => h2 e.symm
          simp [mapFind, h3, ih]
        · simp only [mapFind, ih, h, if_false]

/-- C5 (amended) at the scenario: station 1 receives the BSRP trigger with slot count 2. -/
theorem C5_arbitration_deferred_witness :
    ∃ g' self' num, ReceiveMpdu_trigger exEnv exHdr exTrigger false exGlobals0 (exSta 1)
        = some (g', self')
      ∧ num < 256
      ∧ roundEntries exRu g' = roundEntries exRu exGlobals0 ++ [⟨1, num, exTrigger, exHdr, false⟩]
      ∧ self'.scheduled
          = (exSta 1).scheduled ++ [(exEnv.sifs, Scheduled.SendBusyTone exTrigger exHdr 1 exRu
              (decide (exTrigger.triggerType = TriggerType.BASIC_TRIGGER)))] :=
  C5_arbitration_deferred exEnv exHdr exTrigger exGlobals0 (exSta 1) 1 ⟨1, exRu, 0, 0, false⟩
    (by decide) (by decide) (by decide) (by decide) (by decide) (by decide)

/-- C6 at the scenario: four stations with credit 0, a round of 100 microseconds serving the
first and the third on 4 MHz each. -/
theorem C6_credit_after_round_witness :
    ∃ out, UpdateCredits exHeRu (exSched exRound.candidates) exStaList 100 exTxVector = some out
      ∧ out.length = exStaList.length
      ∧ ∀ i sta, exStaList[i]? = some sta →
          ∃ sta' ∈ out, sta'.aid = sta.aid ∧ sta'.address = sta.address
            ∧ sta'.credits
                = creditAfter exHeRu (exSched exRound.candidates) exStaList.length 100
                    exTxVector i sta :=
  C6_credit_after_round exHeRu (exSched exRound.candidates) exStaList 100 exTxVector
    (by decide) (by decide) (by decide)

/-- C7 at the same scenario. -/
theorem C7_credit_ceiling_witness :
    ∃ out, UpdateCredits exHeRu (exSched exRound.candidates) exStaList 100 exTxVector = some out
      ∧ ∀ sta ∈ out, sta.credits ≤ (exSched exRound.candidates).m_maxCredits :=
  C7_credit_ceiling exHeRu (exSched exRound.candidates) exStaList 100 exTxVector
    (by norm_num) (by decide) (by decide)

/-- C8 at the same scenario. -/
theorem C8_sorted_stable_permutation_witness :
    ∃ out, UpdateCredits exHeRu (exSched exRound.candidates) exStaList 100 exTxVector = some out
      ∧ (out.map (fun m => (m.aid, m.address))).Perm
          (exStaList.map (fun m => (m.aid, m.address)))
      ∧ out.Pairwise (fun a b => b.credits ≤ a.credits)
      ∧ ∀ c : ℚ, ((out.filter (fun m => decide (m.credits = c))).map
            (fun m => (m.aid, m.address))).Sublist
          (exStaList.map (fun m => (m.aid, m.address))) :=
  C8_sorted_stable_permutation exHeRu (exSched exRound.candidates) exStaList 100 exTxVector
    (by decide)

/-- C9 (amended) at the same scenario, one round. -/
theorem C9_credit_conservation_unclamped_witness :
    ∃ out, runCreditRounds exHeRu (exSched []) [exRound] exStaList = some out
      ∧ sumCredits out = sumCredits exStaList + totalGrants exStaList.length [exRound]
          - totalDebits exHeRu (exSched []) [exRound] exStaList :=
  C9_credit_conservation_unclamped exHeRu (exSched []) [exRound] exStaList
    ⟨by decide,
     by
      intro sta hsta
      simp only [exStaList, List.mem_cons, List.mem_singleton, List.not_mem_nil, or_false] at hsta
      have hl : ((exStaList.length : Nat) : ℚ) = 4 := by simp [exStaList]
      rw [hl]
      rcases hsta with h | h | h | h <;> subst h <;> simp [exRound, exSched] <;> norm_num,
     fun _ _ => trivial⟩

/-! ## Lemmas: the keys of the user-info map -/

theorem mapFind_eq_none_iff {β : Type} (k : Nat) (m : List (Nat × β)) :
    mapFind k m = none ↔ k ∉ m.map Prod.fst := by
  induction m with
  | nil => simp [mapFind]
  | cons p ps ih =>
    obtain ⟨k1, v1⟩ := p
    unfold mapFind
    by_cases h : k1 = k
    · simp [h]
    · have h' : ¬ k = k1 := fun e => h e.symm
      simp [h, h', ih]

theorem mapSet_keys_perm {β : Type} (k : Nat) (v : β) (m : List (Nat × β))
    (h : mapFind k m = none) :
    ((mapSet k v m).map Prod.fst).Perm (k :: m.map Prod.fst) := by
  induction m with
  | nil => simp [mapSet]
  | cons p ps ih =>
    obtain ⟨k1, v1⟩ := p
    unfold mapFind at h
    by_cases h1 : k1 = k
    · simp [h1] at h
    · simp only [h1, if_false] at h
      unfold mapSet
      by_cases h2 : k < k1
      · simp [h2]
      · have h3 : ¬ k = k1 := fun e => h1 e.symm
        simp only [h2, h3, if_false, List.map_cons]
        exact ((ih h).cons k1).trans (List.Perm.swap k k1 _)

theorem candidateAids_cons (staList : List MasterInfo) (c : Candidate) (cs : List Candidate)
    (sta : MasterInfo) (hs : staList[c.first]? = some sta) :
    candidateAids staList (c :: cs) = sta.aid :: candidateAids staList cs := by
  simp [candidateAids, List.filterMap_cons, hs]

theorem candidateAids_append (staList : List MasterInfo) (xs ys : List Candidate) :
    candidateAids staList (xs ++ ys) = candidateAids staList xs ++ candidateAids staList ys := by
  simp [candidateAids, List.filterMap_append]

theorem candidateAids_length (staList : List MasterInfo) (hmap : HeMuUserInfoMap) :
    ∀ cands : List Candidate, candidatesValid staList hmap cands = true →
      (candidateAids staList cands).length = cands.length := by
  intro cands
  induction cands with
  | nil => intro _; rfl
  | cons c cs ih =>
    intro hvalid
    obtain ⟨⟨sta, info, hs, hi⟩, hvrest⟩ := candidatesValid_cons _ _ _ _ hvalid
    rw [candidateAids_cons _ _ _ _ hs]
    simp [ih hvrest]

/-- The assignment loop of `FinalizeTxVector` over candidates with pairwise distinct station
ids that are not yet in the map: it returns, consumes exactly `n` candidates, adds exactly
their station ids as keys, leaves other keys alone, and gives the candidate at offset `j` the
RU at offset `j` of the RU set while RUs of the set are being assigned.  `ruSetIt` is
dereferenced in every iteration, so one more RU of the set must remain when central 26-tone
RUs are handed out. -/
theorem finalizeLoop_spec (staList : List MasterInfo) (hmap : HeMuUserInfoMap) (nRus : Nat) :
    ∀ (n i : Nat) (cands : List Candidate) (ruIt cIt : List RuSpec) (tv : HeMuUserInfoMap),
      n ≤ cands.length →
      candidatesValid staList hmap cands = true →
      min n (nRus - i + 1) ≤ ruIt.length →
      n - (nRus - i) ≤ cIt.length →
      (candidateAids staList (cands.take n)).Nodup →
      (∀ a ∈ candidateAids staList (cands.take n), mapFind a tv = none) →
      ∃ tv', finalizeLoop staList hmap nRus n i cands ruIt cIt tv = some (tv', cands.drop n)
        ∧ (tv'.map Prod.fst).Perm (candidateAids staList (cands.take n) ++ tv.map Prod.fst)
        ∧ (∀ a, a ∉ candidateAids staList (cands.take n) → mapFind a tv' = mapFind a tv)
        ∧ (∀ j c sta info, i + j < nRus → j < n → cands[j]? = some c →
            staList[c.first]? = some sta → mapFind sta.aid hmap = some info →
            ∃ ru, ruIt[j]? = some ru ∧ mapFind sta.aid tv' = some ⟨ru, info.mcs, info.nss⟩) := by
  intro n
  induction n with
  | zero =>
    intro i cands ruIt cIt tv _ _ _ _ _ _
    refine ⟨tv, rfl, by simp [candidateAids], fun _ _ => rfl, ?_⟩
    intro j c sta info _ hj
    omega
  | succ n ih =>
    intro i cands ruIt cIt tv hn hvalid hru hc hnd hfresh
    cases cands with
    | nil => simp at hn
    | cons c cs =>
      obtain ⟨⟨sta, info, hs, hi⟩, hvrest⟩ := candidatesValid_cons _ _ _ _ hvalid
      have hn' : n ≤ cs.length := by simpa using hn
      rw [List.take_succ_cons, candidateAids_cons _ _ _ _ hs] at hnd hfresh
      rw [List.take_succ_cons, candidateAids_cons _ _ _ _ hs, List.drop_succ_cons]
      obtain ⟨hnotin, hnd'⟩ := List.nodup_cons.1 hnd
      have hnone : mapFind sta.aid tv = none := hfresh _ (List.mem_cons_self _ _)
      have key : ∀ (ru : RuSpec) (ruIt' cIt' : List RuSpec),
          min n (nRus - (i + 1) + 1) ≤ ruIt'.length → n - (nRus - (i + 1)) ≤ cIt'.length →
          ∃ tv', finalizeLoop staList hmap nRus n (i + 1) cs ruIt' cIt'
                (mapSet sta.aid ⟨ru, info.mcs, info.nss⟩ tv) = some (tv', cs.drop n)
            ∧ (tv'.map Prod.fst).Perm
                (sta.aid :: candidateAids staList (cs.take n) ++ tv.map Prod.fst)
            ∧ (∀ a, a ∉ sta.aid :: candidateAids staList (cs.take n) →
                mapFind a tv' = mapFind a tv)
            ∧ mapFind sta.aid tv' = some ⟨ru, info.mcs, info.nss⟩
            ∧ (∀ j c sta info, i + 1 + j < nRus → j < n → cs[j]? = some c →
                staList[c.first]? = some sta → mapFind sta.aid hmap = some info →
                ∃ ru, ruIt'[j]? = some ru
                  ∧ mapFind sta.aid tv' = some ⟨ru, info.mcs, info.nss⟩) := by
        intro ru ruIt' cIt' h1 h2
        obtain ⟨tv', hloop, hperm, hkeep, hassign⟩ := ih (i + 1) cs ruIt' cIt'
          (mapSet sta.aid ⟨ru, info.mcs, info.nss⟩ tv) hn' hvrest h1 h2 hnd'
          (by
            intro a ha
            rw [mapFind_mapSet]
            have hne : a ≠ sta.aid := fun e => hnotin (e ▸ ha)
            rw [if_neg hne]
            exact hfresh a (List.mem_cons_of_mem _ ha))
        refine ⟨tv', hloop, ?_, ?_, ?_, hassign⟩
        · refine hperm.trans ?_
          refine ((mapSet_keys_perm sta.aid _ tv hnone).append_left _).trans ?_
          rw [List.cons_append]
          exact List.perm_middle
        · intro a ha
          simp only [List.mem_cons, not_or] at ha
          rw [hkeep a ha.2, mapFind_mapSet, if_neg ha.1]
        · rw [hkeep _ hnotin, mapFind_mapSet, if_pos rfl]
      by_cases hlt : i < nRus
      · cases ruIt with
        | nil => simp only [List.length_nil] at hru; omega
        | cons ru rus =>
          obtain ⟨tv', hloop, hperm, hkeep, hown, hassign⟩ := key ru rus cIt
            (by simp only [List.length_cons] at hru; omega) (by omega)
          refine ⟨tv', ?_, hperm, hkeep, ?_⟩
          · simp only [finalizeLoop, hs, hi, hlt, if_true]
            exact hloop
          · intro j c1 sta1 info1 hij hj hc1 hs1 hi1
            cases j with
            | zero =>
              simp only [List.getElem?_cons_zero, Option.some.injEq] at hc1
              subst hc1
              rw [hs] at hs1
              cases hs1
              rw [hi] at hi1
              cases hi1
              exact ⟨ru, by simp, hown⟩
            | succ j =>
              simp only [List.getElem?_cons_succ] at hc1 ⊢
              exact hassign j c1 sta1 info1 (by omega) (by omega) hc1 hs1 hi1
      · cases cIt with
        | nil =>
          have : nRus - i = 0 := by omega
          rw [this] at hc
          simp at hc
        | cons ru crest =>
          have hone : 1 ≤ ruIt.length := by
            have h1 : nRus - i = 0 := by omega
            rw [h1] at hru
            omega
          obtain ⟨tv', hloop, hperm, hkeep, hown, hassign⟩ := key ru ruIt crest
            (by
              have h1 : nRus - (i + 1) = 0 := by omega
              rw [h1]
              omega)
            (by simp at hc; omega)
          refine ⟨tv', ?_, hperm, hkeep, ?_⟩
          · cases ruIt with
            | nil => simp at hone
            | cons first others =>
              simp only [finalizeLoop, hs, hi, hlt, if_false]
              exact hloop
          · intro j c1 sta1 info1 hij
            omega

theorem nServed_le (heRu : HeRuModel) (s : RrMultiUserScheduler)
    (hn : (heRu.getEqualSizedRusForStations s.m_allowedWidth s.m_candidates.length).2.1
      ≤ s.m_candidates.length) :
    (heRu.getEqualSizedRusForStations s.m_allowedWidth s.m_candidates.length).2.1
        ≤ nServed heRu s
      ∧ nServed heRu s ≤ s.m_candidates.length := by
  unfold nServed
  simp only
  generalize heRu.getEqualSizedRusForStations s.m_allowedWidth s.m_candidates.length = r at hn ⊢
  split_ifs with hz
  · omega
  · have h1 : (s.m_candidates.length + 2 ^ 64 - r.2.1) % 2 ^ 64
        = (s.m_candidates.length - r.2.1) % 2 ^ 64 := by
      have : s.m_candidates.length + 2 ^ 64 - r.2.1
          = (s.m_candidates.length - r.2.1) + 2 ^ 64 := by omega
      rw [this, Nat.add_mod_right]
    rw [h1]
    have h2 : min ((s.m_candidates.length - r.2.1) % 2 ^ 64) r.2.2
        ≤ s.m_candidates.length - r.2.1 :=
      le_trans (min_le_left _ _) (Nat.mod_le _ _)
    omega

/-- What `FinalizeTxVector` returns when the candidates name pairwise distinct stations:
the first `nServed` candidates are kept, the keys of the TX vector are their station ids, and
the first `nRusAssigned` of them hold the RUs of the RU set in order.  `hspare` keeps the
iterator printed in every iteration away from the end of the RU set. -/
theorem FinalizeTxVector_spec (heRu : HeRuModel) (s : RrMultiUserScheduler)
    (staList : List MasterInfo) (txVector : HeMuUserInfoMap)
    (hsize : txVector.length = s.m_candidates.length)
    (hvalid : candidatesValid staList txVector s.m_candidates = true)
    (hlen : (heRu.getEqualSizedRusForStations s.m_allowedWidth s.m_candidates.length).2.1
      ≤ (heRu.getRusOfType s.m_allowedWidth
          (heRu.getEqualSizedRusForStations s.m_allowedWidth s.m_candidates.length).1).length)
    (hn : (heRu.getEqualSizedRusForStations s.m_allowedWidth s.m_candidates.length).2.1
      ≤ s.m_candidates.length)
    (hcentral : s.m_useCentral26TonesRus = true →
      s.m_candidates.length
        ≠ (heRu.getEqualSizedRusForStations s.m_allowedWidth s.m_candidates.length).2.1 →
      (heRu.getEqualSizedRusForStations s.m_allowedWidth s.m_candidates.length).2.2
          ≤ (heRu.getCentral26TonesRus s.m_allowedWidth
              (heRu.getEqualSizedRusForStations s.m_allowedWidth
                s.m_candidates.length).1).length)
    (hspare : (heRu.getEqualSizedRusForStations s.m_allowedWidth s.m_candidates.length).2.1
        < nServed heRu s →
      (heRu.getEqualSizedRusForStations s.m_allowedWidth s.m_candidates.length).2.1
        < (heRu.getRusOfType s.m_allowedWidth
            (heRu.getEqualSizedRusForStations s.m_allowedWidth s.m_candidates.length).1).length)
    (hdistinct : (candidateAids staList s.m_candidates).Nodup) :
    ∃ tv', FinalizeTxVector heRu s staList txVector
          = some (tv', s.m_candidates.take (nServed heRu s))
      ∧ (tv'.map Prod.fst).Perm (candidateAids staList (s.m_candidates.take (nServed heRu s)))
      ∧ (∀ j c sta info,
          j < (heRu.getEqualSizedRusForStations s.m_allowedWidth s.m_candidates.length).2.1 →
          s.m_candidates[j]? = some c → staList[c.first]? = some sta →
          mapFind sta.aid txVector = some info →
          ∃ ru, (heRu.getRusOfType s.m_allowedWidth
              (heRu.getEqualSizedRusForStations s.m_allowedWidth
                s.m_candidates.length).1)[j]? = some ru
            ∧ mapFind sta.aid tv' = some ⟨ru, info.mcs, info.nss⟩) := by
  obtain ⟨hge, hle⟩ := nServed_le heRu s hn
  have hnd : (candidateAids staList (s.m_candidates.take (nServed heRu s))).Nodup := by
    have h := hdistinct
    rw [← List.take_append_drop (nServed heRu s) s.m_candidates, candidateAids_append] at h
    exact (List.nodup_append.1 h).1
  have hcen : nServed heRu s
        - ((heRu.getEqualSizedRusForStations s.m_allowedWidth s.m_candidates.length).2.1 - 0)
      ≤ (heRu.getCentral26TonesRus s.m_allowedWidth
          (heRu.getEqualSizedRusForStations s.m_allowedWidth s.m_candidates.length).1).length := by
    unfold nServed
    simp only
    by_cases hz : (!s.m_useCentral26TonesRus || s.m_candidates.length ==
        (heRu.getEqualSizedRusForStations s.m_allowedWidth s.m_candidates.length).2.1) = true
    · simp only [hz, if_true]
      omega
    · simp only [hz, if_false, Bool.false_eq_true]
      simp only [Bool.or_eq_true, Bool.not_eq_true', beq_iff_eq, not_or, Bool.not_eq_false] at hz
      have h3 := hcentral hz.1 hz.2
      have h4 := min_le_right ((s.m_candidates.length + 2 ^ 64 -
        (heRu.getEqualSizedRusForStations s.m_allowedWidth s.m_candidates.length).2.1) % 2 ^ 64)
        (heRu.getEqualSizedRusForStations s.m_allowedWidth s.m_candidates.length).2.2
      omega
  obtain ⟨tv', hloop, hperm, _, hassign⟩ := finalizeLoop_spec staList txVector
    (heRu.getEqualSizedRusForStations s.m_allowedWidth s.m_candidates.length).2.1
    (nServed heRu s) 0 s.m_candidates
    (heRu.getRusOfType s.m_allowedWidth
      (heRu.getEqualSizedRusForStations s.m_allowedWidth s.m_candidates.length).1)
    (heRu.getCentral26TonesRus s.m_allowedWidth
      (heRu.getEqualSizedRusForStations s.m_allowedWidth s.m_candidates.length).1)
    [] hle hvalid
    (by
      simp only [Nat.sub_zero]
      by_cases hmore : (heRu.getEqualSizedRusForStations s.m_allowedWidth
          s.m_candidates.length).2.1 < nServed heRu s
      · exact le_trans (min_le_right _ _) (hspare hmore)
      · exact le_trans (min_le_left _ _) (le_trans (by omega) hlen))
    hcen hnd (by intro a _; rfl)
  refine ⟨tv', ?_, by simpa using hperm, ?_⟩
  · unfold FinalizeTxVector
    simp only [hsize, ne_eq, not_true_eq_false, if_false]
    have hloop' := hloop
    unfold nServed at hloop'
    simp only at hloop'
    rw [hloop']
    simp only [List.length_drop]
    have : s.m_candidates.length - (s.m_candidates.length - nServed heRu s)
        = nServed heRu s := by omega
    unfold nServed at this
    simp only at this
    rw [this]
    rfl
  · intro j c sta info hj hc hs hi
    exact hassign j c sta info (by omega) (by omega) hc hs hi

/-- C11: when the candidates name pairwise distinct stations, `FinalizeTxVector` returns and,
for every index `i` below the number `nRusAssigned` of RUs assigned, the station of the
`i`-th candidate holds the `i`-th RU of the RU set of the selected type in the returned TX
vector, with the MCS and NSS it had before.  (The RU set lists at least `nRusAssigned` RUs,
`nRusAssigned` does not exceed the number of candidates, and central 26-tone RUs, where
they are used, are at least as many as announced.  Every iteration prints `*ruSetIt`: when
more than `nRusAssigned` candidates are served, the RU set lists more than `nRusAssigned`
RUs, so that the iterator is never dereferenced at the end of the set.) -/
theorem C11_ith_candidate_ith_ru (heRu : HeRuModel) (s : RrMultiUserScheduler)
    (staList : List MasterInfo) (txVector : HeMuUserInfoMap)
    (hsize : txVector.length = s.m_candidates.length)
    (hvalid : candidatesValid staList txVector s.m_candidates = true)
    (hlen : (heRu.getEqualSizedRusForStations s.m_allowedWidth s.m_candidates.length).2.1
      ≤ (heRu.getRusOfType s.m_allowedWidth
          (heRu.getEqualSizedRusForStations s.m_allowedWidth s.m_candidates.length).1).length)
    (hn : (heRu.getEqualSizedRusForStations s.m_allowedWidth s.m_candidates.length).2.1
      ≤ s.m_candidates.length)
    (hcentral : s.m_useCentral26TonesRus = true →
      s.m_candidates.length
        ≠ (heRu.getEqualSizedRusForStations s.m_allowedWidth s.m_candidates.length).2.1 →
      (heRu.getEqualSizedRusForStations s.m_allowedWidth s.m_candidates.length).2.2
          ≤ (heRu.getCentral26TonesRus s.m_allowedWidth
              (heRu.getEqualSizedRusForStations s.m_allowedWidth
                s.m_candidates.length).1).length)
    (hspare : (heRu.getEqualSizedRusForStations s.m_allowedWidth s.m_candidates.length).2.1
        < nServed heRu s →
      (heRu.getEqualSizedRusForStations s.m_allowedWidth s.m_candidates.length).2.1
        < (heRu.getRusOfType s.m_allowedWidth
            (heRu.getEqualSizedRusForStations s.m_allowedWidth s.m_candidates.length).1).length)
    (hdistinct : (candidateAids staList s.m_candidates).Nodup) :
    ∃ tv' cands', FinalizeTxVector heRu s staList txVector = some (tv', cands')
      ∧ ∀ i c sta info,
          i < (heRu.getEqualSizedRusForStations s.m_allowedWidth s.m_candidates.length).2.1 →
          s.m_candidates[i]? = some c → staList[c.first]? = some sta →
          mapFind sta.aid txVector = some info →
          ∃ ru, (heRu.getRusOfType s.m_allowedWidth
              (heRu.getEqualSizedRusForStations s.m_allowedWidth
                s.m_candidates.length).1)[i]? = some ru
            ∧ mapFind sta.aid tv' = some ⟨ru, info.mcs, info.nss⟩ := by
  obtain ⟨tv', hfin, _, hassign⟩ :=
    FinalizeTxVector_spec heRu s staList txVector hsize hvalid hlen hn hcentral hspare
      hdistinct
  exact ⟨tv', _, hfin, hassign⟩

/-- C11 at the scenario: four candidates and four 52-tone RUs, station `k` gets RU `k`. -/
theorem C11_ith_candidate_ith_ru_witness :
    ∃ tv' cands',
      FinalizeTxVector exHeRu (exSched [⟨0, none⟩, ⟨1, none⟩, ⟨2, none⟩, ⟨3, none⟩]) exStaList
        exTxVectorUndefined = some (tv', cands')
      ∧ ∀ i c sta info,
          i < (exHeRu.getEqualSizedRusForStations
                (exSched [⟨0, none⟩, ⟨1, none⟩, ⟨2, none⟩, ⟨3, none⟩]).m_allowedWidth
                (exSched [⟨0, none⟩, ⟨1, none⟩, ⟨2, none⟩, ⟨3, none⟩]).m_candidates.length).2.1 →
          (exSched [⟨0, none⟩, ⟨1, none⟩, ⟨2, none⟩, ⟨3, none⟩]).m_candidates[i]? = some c →
          exStaList[c.first]? = some sta →
          mapFind sta.aid exTxVectorUndefined = some info →
          ∃ ru, (exHeRu.getRusOfType
              (exSched [⟨0, none⟩, ⟨1, none⟩, ⟨2, none⟩, ⟨3, none⟩]).m_allowedWidth
              (exHeRu.getEqualSizedRusForStations
                (exSched [⟨0, none⟩, ⟨1, none⟩, ⟨2, none⟩, ⟨3, none⟩]).m_allowedWidth
                (exSched [⟨0, none⟩, ⟨1, none⟩, ⟨2, none⟩, ⟨3, none⟩]).m_candidates.length).1)[i]?
              = some ru
            ∧ mapFind sta.aid tv' = some ⟨ru, info.mcs, info.nss⟩ :=
  C11_ith_candidate_ith_ru exHeRu (exSched [⟨0, none⟩, ⟨1, none⟩, ⟨2, none⟩, ⟨3, none⟩])
    exStaList exTxVectorUndefined (by decide) (by decide) (by decide) (by decide)
    (by intro h; exact absurd h (by decide)) (by decide) (by decide)

/-- C12: when the candidates name pairwise distinct stations, `FinalizeTxVector` returns the
first `nServed` candidates and a TX vector whose station ids are exactly the station ids of
these remaining candidates, one entry per candidate (same ids, same count); the dropped
candidates are removed from the list and their stations have no entry.  (The hypotheses are
those under which the method runs to its end: the size assertion, valid candidates, enough
RUs of the set and central 26-tone RUs and, because every iteration prints `*ruSetIt`, an RU
of the set left over when more than `nRusAssigned` candidates are served.) -/
theorem C12_entries_match_candidates (heRu : HeRuModel) (s : RrMultiUserScheduler)
    (staList : List MasterInfo) (txVector : HeMuUserInfoMap)
    (hsize : txVector.length = s.m_candidates.length)
    (hvalid : candidatesValid staList txVector s.m_candidates = true)
    (hlen : (heRu.getEqualSizedRusForStations s.m_allowedWidth s.m_candidates.length).2.1
      ≤ (heRu.getRusOfType s.m_allowedWidth
          (heRu.getEqualSizedRusForStations s.m_allowedWidth s.m_candidates.length).1).length)
    (hn : (heRu.getEqualSizedRusForStations s.m_allowedWidth s.m_candidates.length).2.1
      ≤ s.m_candidates.length)
    (hcentral : s.m_useCentral26TonesRus = true →
      s.m_candidates.length
        ≠ (heRu.getEqualSizedRusForStations s.m_allowedWidth s.m_candidates.length).2.1 →
      (heRu.getEqualSizedRusForStations s.m_allowedWidth s.m_candidates.length).2.2
          ≤ (heRu.getCentral26TonesRus s.m_allowedWidth
              (heRu.getEqualSizedRusForStations s.m_allowedWidth
                s.m_candidates.length).1).length)
    (hspare : (heRu.getEqualSizedRusForStations s.m_allowedWidth s.m_candidates.length).2.1
        < nServed heRu s →
      (heRu.getEqualSizedRusForStations s.m_allowedWidth s.m_candidates.length).2.1
        < (heRu.getRusOfType s.m_allowedWidth
            (heRu.getEqualSizedRusForStations s.m_allowedWidth s.m_candidates.length).1).length)
    (hdistinct : (candidateAids staList s.m_candidates).Nodup) :
    ∃ tv' cands', FinalizeTxVector heRu s staList txVector = some (tv', cands')
      ∧ s.m_candidates = cands' ++ s.m_candidates.drop (nServed heRu s)
      ∧ cands'.length = nServed heRu s
      ∧ (tv'.map Prod.fst).Perm (candidateAids staList cands')
      ∧ tv'.length = cands'.length
      ∧ (∀ a, (mapFind a tv').isSome ↔ a ∈ candidateAids staList cands')
      ∧ ∀ a ∈ candidateAids staList (s.m_candidates.drop (nServed heRu s)),
          mapFind a tv' = none := by
  obtain ⟨tv', hfin, hperm, _⟩ :=
    FinalizeTxVector_spec heRu s staList txVector hsize hvalid hlen hn hcentral hspare
      hdistinct
  obtain ⟨_, hle⟩ := nServed_le heRu s hn
  have hvt : candidatesValid staList txVector (s.m_candidates.take (nServed heRu s)) = true := by
    unfold candidatesValid at hvalid ⊢
    rw [List.all_eq_true] at hvalid ⊢
    intro c hc
    exact hvalid c (List.mem_of_mem_take hc)
  have hiff : ∀ a, (mapFind a tv').isSome
      ↔ a ∈ candidateAids staList (s.m_candidates.take (nServed heRu s)) := by
    intro a
    rw [← hperm.mem_iff]
    constructor
    · intro h
      by_contra hna
      rw [(mapFind_eq_none_iff a tv').2 hna] at h
      simp at h
    · intro h
      cases hf : mapFind a tv' with
      | none => exact absurd h ((mapFind_eq_none_iff a tv').1 hf)
      | some v => rfl
  refine ⟨tv', _, hfin, (List.take_append_drop _ _).symm, ?_, hperm, ?_, hiff, ?_⟩
  · rw [List.length_take]; omega
  · have := hperm.length_eq
    rw [List.length_map, candidateAids_length staList txVector _ hvt] at this
    exact this
  · intro a ha
    have h := hdistinct
    rw [← List.take_append_drop (nServed heRu s) s.m_candidates, candidateAids_append] at h
    have hna : a ∉ candidateAids staList (s.m_candidates.take (nServed heRu s)) :=
      fun hin => (List.nodup_append.1 h).2.2 hin ha
    cases hf : mapFind a tv' with
    | none => rfl
    | some v =>
      have : (mapFind a tv').isSome = true := by rw [hf]; rfl
      exact absurd ((hiff a).1 this) hna

/-- C12 at a scenario: five candidates and four 52-tone RUs, the fifth candidate is dropped. -/
theorem C12_entries_match_candidates_witness :
    ∃ tv' cands',
      FinalizeTxVector exHeRu
          (exSched [⟨0, none⟩, ⟨1, none⟩, ⟨2, none⟩, ⟨3, none⟩, ⟨4, none⟩]) exStaList5
          exTxVectorUndefined5 = some (tv', cands')
      ∧ (exSched [⟨0, none⟩, ⟨1, none⟩, ⟨2, none⟩, ⟨3, none⟩, ⟨4, none⟩]).m_candidates
          = cands' ++ (exSched [⟨0, none⟩, ⟨1, none⟩, ⟨2, none⟩, ⟨3, none⟩,
              ⟨4, none⟩]).m_candidates.drop
            (nServed exHeRu (exSched [⟨0, none⟩, ⟨1, none⟩, ⟨2, none⟩, ⟨3, none⟩, ⟨4, none⟩]))
      ∧ cands'.length
          = nServed exHeRu (exSched [⟨0, none⟩, ⟨1, none⟩, ⟨2, none⟩, ⟨3, none⟩, ⟨4, none⟩])
      ∧ (tv'.map Prod.fst).Perm (candidateAids exStaList5 cands')
      ∧ tv'.length = cands'.length
      ∧ (∀ a, (mapFind a tv').isSome ↔ a ∈ candidateAids exStaList5 cands')
      ∧ ∀ a ∈ candidateAids exStaList5
            ((exSched [⟨0, none⟩, ⟨1, none⟩, ⟨2, none⟩, ⟨3, none⟩, ⟨4, none⟩]).m_candidates.drop
              (nServed exHeRu
                (exSched [⟨0, none⟩, ⟨1, none⟩, ⟨2, none⟩, ⟨3, none⟩, ⟨4, none⟩]))),
          mapFind a tv' = none :=
  C12_entries_match_candidates exHeRu
    (exSched [⟨0, none⟩, ⟨1, none⟩, ⟨2, none⟩, ⟨3, none⟩, ⟨4, none⟩]) exStaList5
    exTxVectorUndefined5 (by decide) (by decide) (by decide) (by decide)
    (by intro h; exact absurd h (by decide)) (by decide) (by decide)

/-- With `UseCentral26TonesRus` set, five candidates and the four 52-tone RUs of the
scenario, the fifth iteration prints `*ruSetIt` with the iterator at the end of the RU set:
the method does not return. -/
theorem FinalizeTxVector_central_at_end :
    FinalizeTxVector exHeRu
        { exSched [⟨0, none⟩, ⟨1, none⟩, ⟨2, none⟩, ⟨3, none⟩, ⟨4, none⟩] with
          m_useCentral26TonesRus := true } exStaList5 exTxVectorUndefined5 = none := by
  decide

/-! ## Lemmas: the effect log and the inherited members -/

theorem log_effects (e : Effect) (w : FemWorld) :
    (w.log e).effects = w.effects ++ [e] := rfl

theorem log_fem (e : Effect) (w : FemWorld) : (w.log e).fem = w.fem := rfl

theorem log_g (e : Effect) (w : FemWorld) : (w.log e).g = w.g := rfl

theorem log_ul (e : Effect) (w : FemWorld) : (w.log e).ul = w.ul := rfl

theorem callParent_effects (e : Effect) (f : BaseFem → BaseFem) (w : FemWorld) :
    (w.callParent e f).effects = w.effects ++ [e] := rfl

theorem callParent_fem (e : Effect) (f : BaseFem → BaseFem) (w : FemWorld) :
    (w.callParent e f).fem = w.fem.applyBase f := rfl

theorem callParent_g (e : Effect) (f : BaseFem → BaseFem) (w : FemWorld) :
    (w.callParent e f).g = w.g := rfl

theorem callParent_ul (e : Effect) (f : BaseFem → BaseFem) (w : FemWorld) :
    (w.callParent e f).ul = w.ul := rfl

theorem applyBase_expected (f : BaseFem → BaseFem) (fem : HeFem) :
    (fem.applyBase f).m_staExpectTbPpduFrom = fem.m_staExpectTbPpduFrom := rfl

theorem applyBase_psduMap (f : BaseFem → BaseFem) (fem : HeFem) :
    (fem.applyBase f).m_psduMap = fem.m_psduMap := rfl

theorem applyBase_txParams (f : BaseFem → BaseFem) (fem : HeFem) :
    (fem.applyBase f).m_txParams = fem.m_txParams := rfl

theorem applyBase_multiStaBaEvent (f : BaseFem → BaseFem) (fem : HeFem) :
    (fem.applyBase f).m_multiStaBaEvent = fem.m_multiStaBaEvent := rfl

theorem applyBase_edca (f : BaseFem → BaseFem) (fem : HeFem) :
    (fem.applyBase f).m_edca = (f fem.base).m_edca := rfl

theorem applyBase_txTimer (f : BaseFem → BaseFem) (fem : HeFem) :
    (fem.applyBase f).m_txTimer = (f fem.base).m_txTimer := rfl

theorem setAck_effects (a : WifiAcknowledgment) (w : FemWorld) :
    (w.setAck a).effects = w.effects := rfl

theorem setAck_expected (a : WifiAcknowledgment) (w : FemWorld) :
    (w.setAck a).fem.m_staExpectTbPpduFrom = w.fem.m_staExpectTbPpduFrom := rfl

theorem setErase_subset (x : Mac48Address) (s : List Mac48Address) : setErase x s ⊆ s := by
  intro y hy
  exact List.mem_of_mem_filter hy

theorem setErase_eq_self (x : Mac48Address) (s : List Mac48Address) (h : x ∉ s) :
    setErase x s = s := by
  unfold setErase
  rw [List.filter_eq_self]
  intro y hy
  have : y ≠ x := fun e => h (e ▸ hy)
  simpa using this

/-! ## Lemmas: the timeout after a Basic or BSRP Trigger Frame -/

/-- The result of `TbPpduTimeout` when its assertions hold. -/
theorem TbPpduTimeout_eq (env : ApEnv) (psdu : TxPsdu) (header0 : TxMpdu) (rest : List TxMpdu)
    (missed : List Mac48Address) (n : Nat) (w : FemWorld)
    (hmpdus : psdu.mpdus = header0 :: rest) (htrigger : header0.isTrigger = true)
    (hmissed : missed ≠ []) (hedca : w.fem.m_edca = true) :
    TbPpduTimeout env (some [(SU_STA_ID, psdu)]) missed n w
      = some
        (if missed.length = n then
          { w with
            effects := w.effects ++ [Effect.UpdateFailedCw, Effect.TransmissionFailed]
            fem := { w.fem.applyBase env.transmissionFailed with m_psduMap := [] } }
        else if w.fem.m_multiStaBaEvent = false then
          { w with
            effects := w.effects ++ [Effect.ResetCw, Effect.TransmissionSucceeded]
            fem := { w.fem.applyBase env.transmissionSucceeded with m_psduMap := [] } }
        else { w with fem := { w.fem with m_psduMap := [] } }) := by
  have hne : missed.isEmpty = false := by
    cases missed with
    | nil => exact absurd rfl hmissed
    | cons a as => rfl
  unfold TbPpduTimeout
  simp only [hmpdus, htrigger, hne, hedca, ne_eq, not_true_eq_false, or_self, if_false,
    Bool.false_eq_true, Bool.true_eq_false]
  by_cases hlen : missed.length = n
  · simp [hlen, FemWorld.log, FemWorld.callParent]
  · by_cases hev : w.fem.m_multiStaBaEvent = false
    · simp [hlen, hev, FemWorld.log, FemWorld.callParent]
    · have hev' : w.fem.m_multiStaBaEvent = true := by simpa using hev
      simp [hlen, hev', hedca]

/-- The loop of `SendMultiStaBlockAck` returns on well-formed recipients. -/
theorem multiStaBaLoop_isSome (env : ApEnv) (acknowledgment : WifiAcknowledgment) :
    ∀ (stations : List ((Mac48Address × Nat) × Nat)) (blockAck : List (Nat × MultiStaBaEntry))
      (receiver : Mac48Address),
      (stations.all (fun staInfo =>
        staInfo.1.2 == 14 ||
          match acknowledgment.baTypeBitmapLen[staInfo.2]? with
          | none => false
          | some bitmapLen =>
            bitmapLen == 0 || env.sta.hasAgreement staInfo.1.1 staInfo.1.2)) = true →
      ∃ r, multiStaBaLoop env acknowledgment stations blockAck receiver = some r := by
  intro stations
  induction stations with
  | nil => intro blockAck receiver _; exact ⟨_, rfl⟩
  | cons s rest ih =>
    intro blockAck receiver h
    obtain ⟨⟨addr, tid⟩, index⟩ := s
    rw [List.all_cons, Bool.and_eq_true] at h
    obtain ⟨h1, h2⟩ := h
    unfold multiStaBaLoop
    simp only
    by_cases ht : tid = 14
    · simp only [ht, if_true]
      exact ih _ _ h2
    · simp only [ht, if_false]
      have ht' : (tid == 14) = false := by simpa using ht
      simp only [ht', Bool.false_or] at h1
      cases hl : acknowledgment.baTypeBitmapLen[index]? with
      | none => simp [hl] at h1
      | some len =>
        simp only [hl] at h1
        simp only
        by_cases hz : len = 0
        · simp only [hz, if_true]
          exact ih _ _ h2
        · have hz' : (len == 0) = false := by simpa using hz
          simp only [hz', Bool.false_or] at h1
          simp only [hz, if_false, h1, Bool.true_eq_false]
          exact ih _ _ h2

/-- The calls made by `SendMultiStaBlockAck` on well-formed recipients: the frame is
forwarded, the contention window reset and the success notification scheduled. -/
theorem SendMultiStaBlockAck_effects (env : ApEnv) (txVector : TxVector)
    (acknowledgment : WifiAcknowledgment) (w : FemWorld)
    (hap : w.fem.m_apMac = true) (hedca : w.fem.m_edca = true)
    (hmethod : acknowledgment.method = AckMethod.UL_MU_MULTI_STA_BA)
    (hne : acknowledgment.stationsReceivingMultiStaBa ≠ [])
    (hwf : multiStaBaWellFormed env acknowledgment = true) :
    ∃ w' forwarded, SendMultiStaBlockAck env ⟨txVector, some acknowledgment⟩ w = some w'
      ∧ w'.effects = w.effects ++ [forwarded, Effect.ResetCw,
          Effect.Schedule (env.calculateBlockAckTxDuration acknowledgment.baTypeBitmapLen
            acknowledgment.multiStaBaTxVector) ApScheduled.TransmissionSucceeded]
      ∧ w'.fem.m_psduMap = [] := by
  obtain ⟨r, hr⟩ := multiStaBaLoop_isSome env acknowledgment
    acknowledgment.stationsReceivingMultiStaBa [] 0 hwf
  have hemp : acknowledgment.stationsReceivingMultiStaBa.isEmpty = false := by
    cases hs : acknowledgment.stationsReceivingMultiStaBa with
    | nil => exact absurd hs hne
    | cons a as => rfl
  unfold SendMultiStaBlockAck
  simp only [hap, hmethod, hemp, hr, hedca, ne_eq, not_true_eq_false, if_false,
    Bool.false_eq_true, Bool.true_eq_false, log_fem]
  refine ⟨_, Effect.ForwardMultiStaBlockAck
    (if acknowledgment.stationsReceivingMultiStaBa.length = 1 then some r.2 else none) r.1
    (env.getPsduDurationId (env.calculateBlockAckTxDuration acknowledgment.baTypeBitmapLen
      acknowledgment.multiStaBaTxVector) noAckParams)
    w.fem.m_muSnrTag acknowledgment.multiStaBaTxVector, rfl, ?_, rfl⟩
  simp [FemWorld.log]

/-! ## Claims on `SendPsduMap` and on the timeout after a Trigger Frame -/

/-- C13: `SendPsduMap` invoked while the TX timer of a previous exchange is still running
fails on its assertion: no state results, so no timer is armed and no frame is forwarded to
the PHY. -/
theorem C13_send_psdu_map_rejected_while_timer_running (env : ApEnv) (w : FemWorld)
    (hrunning : w.fem.m_txTimer.running = true) : SendPsduMap env w = none := by
  unfold SendPsduMap
  cases w.fem.m_txParams.m_acknowledgment with
  | none => rfl
  | some acknowledgment => simp [hrunning]

/-- C13 at the scenario: the AP is still waiting for the QoS Null frames of stations 11, 12
and 13. -/
theorem C13_send_psdu_map_rejected_while_timer_running_witness :
    SendPsduMap (exApEnv false) (exBsrpWorld [11, 12, 13]) = none :=
  C13_send_psdu_map_rejected_while_timer_running (exApEnv false) (exBsrpWorld [11, 12, 13]) rfl

/-- C14: when its assertions hold (the PSDU map holds one single-user Trigger Frame, some
station is missing, `m_edca` is set), `TbPpduTimeout` returns, and the calls it adds are
`UpdateFailedCw` followed by `TransmissionFailed` if and only if the missed set has the size
of the solicited set; in that case `ResetCw` is not called. -/
theorem C14_tb_ppdu_timeout_failed_iff_none_replied (env : ApEnv) (psdu : TxPsdu)
    (header0 : TxMpdu) (rest : List TxMpdu) (missed : List Mac48Address) (n : Nat)
    (w : FemWorld)
    (hmpdus : psdu.mpdus = header0 :: rest) (htrigger : header0.isTrigger = true)
    (hmissed : missed ≠ []) (hedca : w.fem.m_edca = true) :
    ∃ w' added, TbPpduTimeout env (some [(SU_STA_ID, psdu)]) missed n w = some w'
      ∧ w'.effects = w.effects ++ added
      ∧ (added = [Effect.UpdateFailedCw, Effect.TransmissionFailed] ↔ missed.length = n)
      ∧ (Effect.UpdateFailedCw ∈ added ↔ missed.length = n)
      ∧ (Effect.TransmissionFailed ∈ added ↔ missed.length = n)
      ∧ (missed.length = n → Effect.ResetCw ∉ added) := by
  rw [TbPpduTimeout_eq env psdu header0 rest missed n w hmpdus htrigger hmissed hedca]
  by_cases hlen : missed.length = n
  · refine ⟨_, [Effect.UpdateFailedCw, Effect.TransmissionFailed], rfl, ?_, ?_, ?_, ?_, ?_⟩
    · simp [hlen]
    · simp [hlen]
    · simp [hlen]
    · simp [hlen]
    · intro _; simp
  · by_cases hev : w.fem.m_multiStaBaEvent = false
    · refine ⟨_, [Effect.ResetCw, Effect.TransmissionSucceeded], rfl, ?_, ?_, ?_, ?_, ?_⟩
      · simp [hlen, hev]
      · simp [hlen]
      · simp [hlen]
      · simp [hlen]
      · intro h; exact absurd h hlen
    · refine ⟨_, [], rfl, ?_, ?_, ?_, ?_, ?_⟩
      · simp [hlen, hev]
      · simp [hlen]
      · simp [hlen]
      · simp [hlen]
      · intro h; exact absurd h hlen

/-- C14 at the scenario: three stations solicited by a Basic Trigger Frame, none replied. -/
theorem C14_tb_ppdu_timeout_failed_iff_none_replied_witness :
    ∃ w' added,
      TbPpduTimeout (exApEnv false) (some [(SU_STA_ID, exTriggerPsdu)]) [11, 12, 13] 3
        (exBasicWorld [11, 12, 13]) = some w'
      ∧ w'.effects = (exBasicWorld [11, 12, 13]).effects ++ added
      ∧ (added = [Effect.UpdateFailedCw, Effect.TransmissionFailed]
          ↔ [11, 12, 13].length = 3)
      ∧ (Effect.UpdateFailedCw ∈ added ↔ [11, 12, 13].length = 3)
      ∧ (Effect.TransmissionFailed ∈ added ↔ [11, 12, 13].length = 3)
      ∧ ([11, 12, 13].length = 3 → Effect.ResetCw ∉ added) :=
  C14_tb_ppdu_timeout_failed_iff_none_replied (exApEnv false) exTriggerPsdu
    ⟨true, false, false, 0, none⟩ [] [11, 12, 13] 3 (exBasicWorld [11, 12, 13]) rfl rfl
    (by decide) rfl

/-- C15: when at least one but not all of the solicited stations replied, `TbPpduTimeout`
returns without calling `UpdateFailedCw` or `TransmissionFailed`.  With no Multi-STA
BlockAck pending it calls `ResetCw` and `TransmissionSucceeded` itself; with one pending it
makes no call, and `SendMultiStaBlockAck`, run on well-formed recipients, forwards the
frame, calls `ResetCw` and schedules `TransmissionSucceeded`. -/
theorem C15_partial_response_succeeds (env : ApEnv) (psdu : TxPsdu) (header0 : TxMpdu)
    (rest : List TxMpdu) (missed : List Mac48Address) (n : Nat) (w : FemWorld)
    (hmpdus : psdu.mpdus = header0 :: rest) (htrigger : header0.isTrigger = true)
    (hmissed : missed ≠ []) (hfewer : missed.length < n) (hedca : w.fem.m_edca = true) :
    ∃ w' added, TbPpduTimeout env (some [(SU_STA_ID, psdu)]) missed n w = some w'
      ∧ w'.effects = w.effects ++ added
      ∧ Effect.UpdateFailedCw ∉ added ∧ Effect.TransmissionFailed ∉ added
      ∧ (w.fem.m_multiStaBaEvent = false →
          added = [Effect.ResetCw, Effect.TransmissionSucceeded])
      ∧ (w.fem.m_multiStaBaEvent = true →
          added = [] ∧
          ∀ (txVector : TxVector) (acknowledgment : WifiAcknowledgment) (w2 : FemWorld),
            w2.fem.m_apMac = true → w2.fem.m_edca = true →
            acknowledgment.method = AckMethod.UL_MU_MULTI_STA_BA →
            acknowledgment.stationsReceivingMultiStaBa ≠ [] →
            multiStaBaWellFormed env acknowledgment = true →
            ∃ w3 forwarded,
              SendMultiStaBlockAck env ⟨txVector, some acknowledgment⟩ w2 = some w3
              ∧ w3.effects = w2.effects ++ [forwarded, Effect.ResetCw,
                  Effect.Schedule
                    (env.calculateBlockAckTxDuration acknowledgment.baTypeBitmapLen
                      acknowledgment.multiStaBaTxVector) ApScheduled.TransmissionSucceeded]) := by
  have hlen : missed.length ≠ n := by omega
  rw [TbPpduTimeout_eq env psdu header0 rest missed n w hmpdus htrigger hmissed hedca]
  by_cases hev : w.fem.m_multiStaBaEvent = false
  · refine ⟨_, [Effect.ResetCw, Effect.TransmissionSucceeded], rfl, ?_, ?_, ?_, ?_, ?_⟩
    · simp [hlen, hev]
    · simp
    · simp
    · intro _; rfl
    · intro h; rw [hev] at h; exact absurd h (by simp)
  · have hev' : w.fem.m_multiStaBaEvent = true := by simpa using hev
    refine ⟨_, [], rfl, ?_, ?_, ?_, ?_, ?_⟩
    · simp [hlen, hev']
    · simp
    · simp
    · intro h; exact absurd h hev
    · intro _
      refine ⟨rfl, ?_⟩
      intro txVector acknowledgment w2 hap hed hmethod hne hwf
      obtain ⟨w3, forwarded, h1, h2, _⟩ :=
        SendMultiStaBlockAck_effects env txVector acknowledgment w2 hap hed hmethod hne hwf
      exact ⟨w3, forwarded, h1, h2⟩

/-- C15 at the scenario: three stations solicited by a Basic Trigger Frame, stations 11 and
12 replied, station 13 is silent. -/
theorem C15_partial_response_succeeds_witness :
    ∃ w' added,
      TbPpduTimeout (exApEnv false) (some [(SU_STA_ID, exTriggerPsdu)]) [13] 3
        (exBasicWorld [13]) = some w'
      ∧ w'.effects = (exBasicWorld [13]).effects ++ added
      ∧ Effect.UpdateFailedCw ∉ added ∧ Effect.TransmissionFailed ∉ added
      ∧ ((exBasicWorld [13]).fem.m_multiStaBaEvent = false →
          added = [Effect.ResetCw, Effect.TransmissionSucceeded])
      ∧ ((exBasicWorld [13]).fem.m_multiStaBaEvent = true →
          added = [] ∧
          ∀ (txVector : TxVector) (acknowledgment : WifiAcknowledgment) (w2 : FemWorld),
            w2.fem.m_apMac = true → w2.fem.m_edca = true →
            acknowledgment.method = AckMethod.UL_MU_MULTI_STA_BA →
            acknowledgment.stationsReceivingMultiStaBa ≠ [] →
            multiStaBaWellFormed (exApEnv false) acknowledgment = true →
            ∃ w3 forwarded,
              SendMultiStaBlockAck (exApEnv false) ⟨txVector, some acknowledgment⟩ w2 = some w3
              ∧ w3.effects = w2.effects ++ [forwarded, Effect.ResetCw,
                  Effect.Schedule
                    ((exApEnv false).calculateBlockAckTxDuration acknowledgment.baTypeBitmapLen
                      acknowledgment.multiStaBaTxVector) ApScheduled.TransmissionSucceeded]) :=
  C15_partial_response_succeeds (exApEnv false) exTriggerPsdu ⟨true, false, false, 0, none⟩ []
    [13] 3 (exBasicWorld [13]) rfl rfl (by decide) (by decide) rfl

/-- C16 (as stated) fails: with three stations solicited and station 13 silent,
`TbPpduTimeout` calls `ResetCw` and `TransmissionSucceeded` only; no failure is reported for
station 13. -/
theorem C16_retry_counter_counterexample :
    (TbPpduTimeout (exApEnv false) (some [(SU_STA_ID, exTriggerPsdu)]) [13] 3
        (exBasicWorld [13])).map (fun w => w.effects)
      = some [Effect.ResetCw, Effect.TransmissionSucceeded]
    ∧ ¬ ∃ e ∈ [Effect.ResetCw, Effect.TransmissionSucceeded], reportsFailureFor 13 e = true := by
  constructor
  · rfl
  · decide

/-- C16 (amended): `TbPpduTimeout` reports no failure for any station.  When its assertions
hold it returns, none of the calls it adds is a failure report, and the result depends on
the missed set only through its size. -/
theorem C16_tb_ppdu_timeout_reports_no_station (env : ApEnv) (psdu : TxPsdu)
    (header0 : TxMpdu) (rest : List TxMpdu) (missed : List Mac48Address) (n : Nat)
    (w : FemWorld)
    (hmpdus : psdu.mpdus = header0 :: rest) (htrigger : header0.isTrigger = true)
    (hmissed : missed ≠ []) (hedca : w.fem.m_edca = true) :
    ∃ w' added, TbPpduTimeout env (some [(SU_STA_ID, psdu)]) missed n w = some w'
      ∧ w'.effects = w.effects ++ added
      ∧ (∀ sta, ∀ e ∈ added, reportsFailureFor sta e = false)
      ∧ ∀ missed2 : List Mac48Address, missed2.length = missed.length →
          TbPpduTimeout env (some [(SU_STA_ID, psdu)]) missed2 n w = some w' := by
  have hsame : ∀ missed2 : List Mac48Address, missed2.length = missed.length →
      TbPpduTimeout env (some [(SU_STA_ID, psdu)]) missed2 n w
        = TbPpduTimeout env (some [(SU_STA_ID, psdu)]) missed n w := by
    intro missed2 h2
    have hne2 : missed2 ≠ [] := by
      intro e
      rw [e] at h2
      exact hmissed (List.length_eq_zero.1 h2.symm)
    rw [TbPpduTimeout_eq env psdu header0 rest missed2 n w hmpdus htrigger hne2 hedca,
      TbPpduTimeout_eq env psdu header0 rest missed n w hmpdus htrigger hmissed hedca, h2]
  rw [TbPpduTimeout_eq env psdu header0 rest missed n w hmpdus htrigger hmissed hedca] at hsame ⊢
  by_cases hlen : missed.length = n
  · refine ⟨_, [Effect.UpdateFailedCw, Effect.TransmissionFailed], rfl, ?_, ?_, hsame⟩
    · simp [hlen]
    · intro sta e he
      simp only [List.mem_cons, List.mem_singleton, List.not_mem_nil, or_false] at he
      rcases he with rfl | rfl <;> rfl
  · by_cases hev : w.fem.m_multiStaBaEvent = false
    · refine ⟨_, [Effect.ResetCw, Effect.TransmissionSucceeded], rfl, ?_, ?_, hsame⟩
      · simp [hlen, hev]
      · intro sta e he
        simp only [List.mem_cons, List.mem_singleton, List.not_mem_nil, or_false] at he
        rcases he with rfl | rfl <;> rfl
    · refine ⟨_, [], rfl, ?_, ?_, hsame⟩
      · simp [hlen, hev]
      · intro sta e he
        simp at he

/-- C16 (amended) at the scenario: station 13 is silent, stations 11 and 12 replied. -/
theorem C16_tb_ppdu_timeout_reports_no_station_witness :
    ∃ w' added,
      TbPpduTimeout (exApEnv false) (some [(SU_STA_ID, exTriggerPsdu)]) [13] 3
        (exBasicWorld [13]) = some w'
      ∧ w'.effects = (exBasicWorld [13]).effects ++ added
      ∧ (∀ sta, ∀ e ∈ added, reportsFailureFor sta e = false)
      ∧ ∀ missed2 : List Mac48Address, missed2.length = [13].length →
          TbPpduTimeout (exApEnv false) (some [(SU_STA_ID, exTriggerPsdu)]) missed2 3
            (exBasicWorld [13]) = some w' :=
  C16_tb_ppdu_timeout_reports_no_station (exApEnv false) exTriggerPsdu
    ⟨true, false, false, 0, none⟩ [] [13] 3 (exBasicWorld [13]) rfl rfl (by decide) rfl

/-! ## Lemmas: the timeout of the BlockAcks in TB PPDUs -/

/-- The loop over the stations that missed their BlockAck, when each has a PSDU in the map:
it returns, adds one `MissedBlockAck` call per station, and its `resetCw` output is the
disjunction of the input and of the per-station outcomes. -/
theorem missedBlockAckLoop_spec (env : ApEnv) (pm : List (Nat × TxPsdu)) :
    ∀ (missed : List Mac48Address) (resetCw : Bool) (w : FemWorld),
      (∀ sta ∈ missed, (GetPsduTo sta pm).isSome = true) →
      ∃ r w' added, missedBlockAckLoop env pm missed resetCw w = some (r, w')
        ∧ w'.effects = w.effects ++ added
        ∧ (∀ e ∈ added, ∃ psdu, e = Effect.MissedBlockAck psdu)
        ∧ ((∀ psdu tv b, ((env.missedBlockAck psdu tv b).2).m_edca = b.m_edca) →
            w'.fem.m_edca = w.fem.m_edca)
        ∧ ((∀ psdu tv b, (env.missedBlockAck psdu tv b).1 = false) → r = resetCw)
        ∧ ((∀ psdu tv b, (env.missedBlockAck psdu tv b).1 = true) → missed ≠ [] → r = true)
        ∧ (resetCw = true → r = true) := by
  intro missed
  induction missed with
  | nil =>
    intro resetCw w _
    exact ⟨resetCw, w, [], rfl, by simp, by simp, fun _ => rfl, fun _ => rfl,
      fun _ h => absurd rfl h, fun h => h⟩
  | cons sta rest ih =>
    intro resetCw w hpsdu
    have hsta := hpsdu sta (List.mem_cons_self _ _)
    cases hg : GetPsduTo sta pm with
    | none => rw [hg] at hsta; simp at hsta
    | some psdu =>
      obtain ⟨r, w', added, hloop, heff, hadded, hedca, hquiet, hloud, hmono⟩ :=
        ih (resetCw || (env.missedBlockAck psdu w.fem.m_txParams.m_txVector w.fem.base).1)
          (w.callParent (Effect.MissedBlockAck psdu)
            (fun b => (env.missedBlockAck psdu w.fem.m_txParams.m_txVector b).2))
          (fun s hs => hpsdu s (List.mem_cons_of_mem _ hs))
      refine ⟨r, w', Effect.MissedBlockAck psdu :: added, ?_, ?_, ?_, ?_, ?_, ?_, ?_⟩
      · unfold missedBlockAckLoop
        simp only [hg]
        exact hloop
      · rw [heff]
        simp [callParent_effects]
      · intro e he
        rcases List.mem_cons.1 he with rfl | h
        · exact ⟨psdu, rfl⟩
        · exact hadded e h
      · intro hkeep
        rw [hedca hkeep]
        simp only [callParent_fem, applyBase_edca]
        rw [hkeep]
        rfl
      · intro hq
        rw [hquiet hq, hq]
        simp
      · intro hl _
        apply hmono
        rw [hl]
        simp
      · intro hr
        apply hmono
        rw [hr]
        simp

/-- The result of `BlockAcksInTbPpduTimeout` when none of the solicited stations replied
and its assertions hold: `ReportDataFailed`, one `MissedBlockAck` per station, then `ResetCw`
or `UpdateFailedCw` according to the accumulated `resetCw`, then `TransmissionFailed`. -/
theorem BlockAcksInTbPpduTimeout_none_replied (env : ApEnv) (staId : Nat) (psdu0 : TxPsdu)
    (others : List (Nat × TxPsdu)) (missed : List Mac48Address) (w : FemWorld)
    (acknowledgment : WifiAcknowledgment)
    (hack : w.fem.m_txParams.m_acknowledgment = some acknowledgment)
    (hmethod : acknowledgment.method = AckMethod.DL_MU_AGGREGATE_TF
      ∨ acknowledgment.method = AckMethod.DL_MU_TF_MU_BAR)
    (hmissed : missed ≠ []) (hfirst : psdu0.mpdus ≠ [])
    (hpsdu : ∀ sta ∈ missed, (GetPsduTo sta ((staId, psdu0) :: others)).isSome = true)
    (hedca : w.fem.m_edca = true)
    (hkeep : ∀ psdu tv b, ((env.missedBlockAck psdu tv b).2).m_edca = b.m_edca) :
    ∃ w' reports resetCw,
      BlockAcksInTbPpduTimeout env (some ((staId, psdu0) :: others)) missed missed.length w
        = some w'
      ∧ w'.effects = w.effects ++ [Effect.ReportDataFailed psdu0] ++ reports
          ++ [if resetCw = true then Effect.ResetCw else Effect.UpdateFailedCw,
              Effect.TransmissionFailed]
      ∧ (∀ e ∈ reports, ∃ psdu, e = Effect.MissedBlockAck psdu)
      ∧ ((∀ psdu tv b, (env.missedBlockAck psdu tv b).1 = false) → resetCw = false)
      ∧ ((∀ psdu tv b, (env.missedBlockAck psdu tv b).1 = true) → resetCw = true) := by
  have hne : missed.isEmpty = false := by
    cases missed with
    | nil => exact absurd rfl hmissed
    | cons a as => rfl
  have hm : ¬ (acknowledgment.method ≠ AckMethod.DL_MU_AGGREGATE_TF
      ∧ acknowledgment.method ≠ AckMethod.DL_MU_TF_MU_BAR) := by
    intro h
    rcases hmethod with h1 | h1
    · exact h.1 h1
    · exact h.2 h1
  obtain ⟨m0, ms, hms⟩ : ∃ m0 ms, psdu0.mpdus = m0 :: ms := by
    cases h : psdu0.mpdus with
    | nil => exact absurd h hfirst
    | cons a as => exact ⟨a, as, rfl⟩
  obtain ⟨r, w3, added, hloop, heff, hadded, hed, hquiet, hloud, _⟩ :=
    missedBlockAckLoop_spec env ((staId, psdu0) :: others) missed false
      { (w.log (Effect.ReportDataFailed psdu0)) with
        fem := { (w.log (Effect.ReportDataFailed psdu0)).fem with m_triggerFrame := none } }
      hpsdu
  have hed3 : w3.fem.m_edca = true := by
    rw [hed hkeep]
    exact hedca
  refine ⟨{ ((if r = true then w3.log Effect.ResetCw else w3.log Effect.UpdateFailedCw).callParent
        Effect.TransmissionFailed env.transmissionFailed) with
      fem := { ((if r = true then w3.log Effect.ResetCw
        else w3.log Effect.UpdateFailedCw).callParent
          Effect.TransmissionFailed env.transmissionFailed).fem with m_psduMap := [] } },
    added, r, ?_, ?_, hadded, hquiet, fun h => hloud h hmissed⟩
  · unfold BlockAcksInTbPpduTimeout blockAcksTimeoutFirstStep
    simp only [hack, hm, hne, hms, if_true, if_false, Bool.false_eq_true]
    rw [hloop]
    simp only [hed3, Bool.true_eq_false, if_false, if_true]
  · cases r with
    | true => simp [heff, callParent_effects, log_effects]
    | false => simp [heff, callParent_effects, log_effects]

/-! ## Claim on the timeout of the BlockAcks in TB PPDUs -/

/-- C17 (as stated) fails: when `MissedBlockAck` reports that the retry limit was reached
(`resetCw`), `BlockAcksInTbPpduTimeout` calls `ResetCw` and not `UpdateFailedCw`, although
neither of the two solicited stations sent its BlockAck. -/
theorem C17_cw_not_reset_counterexample :
    (BlockAcksInTbPpduTimeout (exApEnv true) (some [(1, exDataPsdu 11), (2, exDataPsdu 12)])
        [11, 12] 2 exBlockAckWorld).map (fun w => w.effects)
      = some [Effect.ReportDataFailed (exDataPsdu 11), Effect.MissedBlockAck (exDataPsdu 11),
          Effect.MissedBlockAck (exDataPsdu 12), Effect.ResetCw, Effect.TransmissionFailed]
    ∧ Effect.ResetCw ∈ [Effect.ReportDataFailed (exDataPsdu 11),
          Effect.MissedBlockAck (exDataPsdu 11), Effect.MissedBlockAck (exDataPsdu 12),
          Effect.ResetCw, Effect.TransmissionFailed]
    ∧ Effect.UpdateFailedCw ∉ [Effect.ReportDataFailed (exDataPsdu 11),
          Effect.MissedBlockAck (exDataPsdu 11), Effect.MissedBlockAck (exDataPsdu 12),
          Effect.ResetCw, Effect.TransmissionFailed] := by
  refine ⟨rfl, ?_, ?_⟩
  · decide
  · decide

/-- C17 (amended): when none of the solicited stations sent its BlockAck and the assertions
of `BlockAcksInTbPpduTimeout` hold, the method returns and calls `TransmissionFailed` (never
`TransmissionSucceeded`); it calls `UpdateFailedCw` and not `ResetCw` when the accumulated
`resetCw` is false, which is the case when no `MissedBlockAck` reports `resetCw`, and it
calls `ResetCw` and not `UpdateFailedCw` otherwise, which is the case when every
`MissedBlockAck` reports `resetCw`. -/
theorem C17_failed_cw_kept_unless_retry_limit (env : ApEnv) (staId : Nat) (psdu0 : TxPsdu)
    (others : List (Nat × TxPsdu)) (missed : List Mac48Address) (w : FemWorld)
    (acknowledgment : WifiAcknowledgment)
    (hack : w.fem.m_txParams.m_acknowledgment = some acknowledgment)
    (hmethod : acknowledgment.method = AckMethod.DL_MU_AGGREGATE_TF
      ∨ acknowledgment.method = AckMethod.DL_MU_TF_MU_BAR)
    (hmissed : missed ≠ []) (hfirst : psdu0.mpdus ≠ [])
    (hpsdu : ∀ sta ∈ missed, (GetPsduTo sta ((staId, psdu0) :: others)).isSome = true)
    (hedca : w.fem.m_edca = true)
    (hkeep : ∀ psdu tv b, ((env.missedBlockAck psdu tv b).2).m_edca = b.m_edca) :
    ∃ w' added resetCw,
      BlockAcksInTbPpduTimeout env (some ((staId, psdu0) :: others)) missed missed.length w
        = some w'
      ∧ w'.effects = w.effects ++ added
      ∧ Effect.TransmissionFailed ∈ added ∧ Effect.TransmissionSucceeded ∉ added
      ∧ (resetCw = false → Effect.UpdateFailedCw ∈ added ∧ Effect.ResetCw ∉ added)
      ∧ (resetCw = true → Effect.ResetCw ∈ added ∧ Effect.UpdateFailedCw ∉ added)
      ∧ ((∀ psdu tv b, (env.missedBlockAck psdu tv b).1 = false) → resetCw = false)
      ∧ ((∀ psdu tv b, (env.missedBlockAck psdu tv b).1 = true) → resetCw = true) := by
  obtain ⟨w', reports, resetCw, hres, heff, hreports, hquiet, hloud⟩ :=
    BlockAcksInTbPpduTimeout_none_replied env staId psdu0 others missed w acknowledgment hack
      hmethod hmissed hfirst hpsdu hedca hkeep
  have hno : ∀ e, (∀ psdu, e ≠ Effect.MissedBlockAck psdu) → e ∉ reports := by
    intro e he hin
    obtain ⟨psdu, hp⟩ := hreports e hin
    exact he psdu hp
  have h1 := hno Effect.ResetCw (by intro psdu h; cases h)
  have h2 := hno Effect.UpdateFailedCw (by intro psdu h; cases h)
  have h3 := hno Effect.TransmissionSucceeded (by intro psdu h; cases h)
  refine ⟨w', [Effect.ReportDataFailed psdu0] ++ reports
      ++ [if resetCw = true then Effect.ResetCw else Effect.UpdateFailedCw,
          Effect.TransmissionFailed], resetCw, hres, ?_, ?_, ?_, ?_, ?_, hquiet, hloud⟩
  · rw [heff]; simp
  · simp
  · cases resetCw <;> simp [h3]
  · intro hr
    subst hr
    simp [h1]
  · intro hr
    subst hr
    simp [h2]

/-- C17 (amended) at the scenario: neither station 11 nor station 12 sent its BlockAck and
`MissedBlockAck` does not report `resetCw`. -/
theorem C17_failed_cw_kept_unless_retry_limit_witness :
    ∃ w' added resetCw,
      BlockAcksInTbPpduTimeout (exApEnv false) (some ((1, exDataPsdu 11) :: [(2, exDataPsdu 12)]))
        [11, 12] [11, 12].length exBlockAckWorld = some w'
      ∧ w'.effects = exBlockAckWorld.effects ++ added
      ∧ Effect.TransmissionFailed ∈ added ∧ Effect.TransmissionSucceeded ∉ added
      ∧ (resetCw = false → Effect.UpdateFailedCw ∈ added ∧ Effect.ResetCw ∉ added)
      ∧ (resetCw = true → Effect.ResetCw ∈ added ∧ Effect.UpdateFailedCw ∉ added)
      ∧ ((∀ psdu tv b, ((exApEnv false).missedBlockAck psdu tv b).1 = false) → resetCw = false)
      ∧ ((∀ psdu tv b, ((exApEnv false).missedBlockAck psdu tv b).1 = true) → resetCw = true) :=
  C17_failed_cw_kept_unless_retry_limit (exApEnv false) 1 (exDataPsdu 11) [(2, exDataPsdu 12)]
    [11, 12] exBlockAckWorld (exAck AckMethod.DL_MU_AGGREGATE_TF) rfl (Or.inl rfl) (by decide)
    (by decide) (by decide) rfl (fun _ _ _ => rfl)

/-! ## Lemmas: reception and the expected set -/

theorem contains_eq_false_of_not_mem (x : Mac48Address) (s : List Mac48Address) (h : x ∉ s) :
    s.contains x = false := by
  simpa using h

theorem contains_eq_true_of_mem (x : Mac48Address) (s : List Mac48Address) (h : x ∈ s) :
    s.contains x = true := by
  simpa using h

/-- The statistics code leaves the object and the call log alone. -/
theorem receiveMpduStats_fem (mpdu : RxMpdu) (txVector : TxVector) (w w0 : FemWorld)
    (h : receiveMpduStats mpdu txVector w = some w0) :
    w0.fem = w.fem ∧ w0.effects = w.effects := by
  unfold receiveMpduStats at h
  split_ifs at h <;> (repeat' split at h) <;>
    first
    | (cases h; exact ⟨rfl, rfl⟩)
    | (simp only [reduceCtorEq] at h)

/-- The statistics code returns when the TX vector names a station and the scheduler is
set. -/
theorem receiveMpduStats_isSome (mpdu : RxMpdu) (txVector : TxVector) (w : FemWorld)
    (huser : txVector.heMuUserInfoMap ≠ []) (hsched : w.fem.m_muScheduler = true) :
    ∃ w0, receiveMpduStats mpdu txVector w = some w0 := by
  obtain ⟨first, others, hfo⟩ : ∃ first others, txVector.heMuUserInfoMap = first :: others := by
    cases h : txVector.heMuUserInfoMap with
    | nil => exact absurd h huser
    | cons a as => exact ⟨a, as, rfl⟩
  unfold receiveMpduStats
  simp only [hfo, List.head?_cons, hsched, Bool.true_eq_false, if_false]
  split_ifs
  · cases mpdu.macType <;> exact ⟨_, rfl⟩
  · exact ⟨_, rfl⟩
  · exact ⟨_, rfl⟩
  · exact ⟨_, rfl⟩

theorem basicTfResponseProcessed_expected (env : ApEnv) (sender : Mac48Address)
    (w w' : FemWorld) (h : basicTfResponseProcessed env sender w = some w') :
    w'.fem.m_staExpectTbPpduFrom = setErase sender w.fem.m_staExpectTbPpduFrom := by
  unfold basicTfResponseProcessed at h
  split at h
  · cases h
  · simp only at h
    split_ifs at h <;> cases h <;> rfl

theorem bsrpTfResponseProcessed_expected (env : ApEnv) (sender : Mac48Address)
    (w w' : FemWorld) (h : bsrpTfResponseProcessed env sender w = some w') :
    w'.fem.m_staExpectTbPpduFrom = setErase sender w.fem.m_staExpectTbPpduFrom := by
  unfold bsrpTfResponseProcessed at h
  simp only at h
  split_ifs at h <;> cases h <;> rfl

theorem subset_of_basicTfResponseProcessed (env : ApEnv) (sender : Mac48Address)
    (w1 w' : FemWorld) (expected : List Mac48Address)
    (h : basicTfResponseProcessed env sender w1 = some w')
    (hw : w1.fem.m_staExpectTbPpduFrom = expected) :
    w'.fem.m_staExpectTbPpduFrom ⊆ expected := by
  rw [basicTfResponseProcessed_expected env sender w1 w' h, hw]
  exact setErase_subset _ _

theorem subset_of_bsrpTfResponseProcessed (env : ApEnv) (sender : Mac48Address)
    (w1 w' : FemWorld) (expected : List Mac48Address)
    (h : bsrpTfResponseProcessed env sender w1 = some w')
    (hw : w1.fem.m_staExpectTbPpduFrom = expected) :
    w'.fem.m_staExpectTbPpduFrom ⊆ expected := by
  rw [bsrpTfResponseProcessed_expected env sender w1 w' h, hw]
  exact setErase_subset _ _

theorem receiveMpduBasicTf_subset (env : ApEnv) (mpdu : RxMpdu) (txVector : TxVector)
    (inAmpdu : Bool) (w w' : FemWorld)
    (h : receiveMpduBasicTf env mpdu txVector inAmpdu w = some w') :
    w'.fem.m_staExpectTbPpduFrom ⊆ w.fem.m_staExpectTbPpduFrom := by
  unfold receiveMpduBasicTf at h
  simp only at h
  (repeat' split at h) <;>
    first
    | (simp only [reduceCtorEq] at h)
    | (cases h; exact List.Subset.refl _)
    | exact subset_of_basicTfResponseProcessed _ _ _ _ _ h rfl

theorem receiveMpduBsrpTf_subset (env : ApEnv) (mpdu : RxMpdu) (w w' : FemWorld)
    (h : receiveMpduBsrpTf env mpdu w = some w') :
    w'.fem.m_staExpectTbPpduFrom ⊆ w.fem.m_staExpectTbPpduFrom := by
  unfold receiveMpduBsrpTf at h
  simp only at h
  (repeat' split at h) <;>
    first
    | (simp only [reduceCtorEq] at h)
    | (cases h; exact List.Subset.refl _)
    | exact subset_of_bsrpTfResponseProcessed _ _ _ _ _ h rfl

theorem multiStaBlockAckNotify_fem (sender : Mac48Address) (staId nIndices : Nat)
    (info : PerAidTidInfo) (w w1 : FemWorld) (tid : Nat)
    (h : multiStaBlockAckNotify sender staId nIndices info w = some (tid, w1)) :
    w1.fem = w.fem ∧ w1.g = w.g ∧ w1.ul = w.ul := by
  unfold multiStaBlockAckNotify at h
  simp only at h
  (repeat' split at h) <;>
    first
    | (simp only [reduceCtorEq] at h)
    | (cases h; exact ⟨rfl, rfl, rfl⟩)

theorem multiStaBlockAckLoop_expected (sender : Mac48Address) (staId nIndices : Nat) :
    ∀ (infos : List PerAidTidInfo) (w w' : FemWorld),
      multiStaBlockAckLoop sender staId nIndices infos w = some w' →
      w'.fem.m_staExpectTbPpduFrom = w.fem.m_staExpectTbPpduFrom := by
  intro infos
  induction infos with
  | nil =>
    intro w w' h
    cases h
    rfl
  | cons info rest ih =>
    intro w w' h
    unfold multiStaBlockAckLoop at h
    split at h
    · simp only [reduceCtorEq] at h
    · rename_i tid w1 hn
      have hfem := (multiStaBlockAckNotify_fem _ _ _ _ _ _ _ hn).1
      (repeat' split at h) <;>
        first
        | (simp only [reduceCtorEq] at h)
        | (rw [ih _ _ h, ← hfem]; try rfl)

theorem receiveMpduCtl_subset (env : ApEnv) (mpdu : RxMpdu) (txVector : TxVector)
    (inAmpdu : Bool) (w w' : FemWorld)
    (h : receiveMpduCtl env mpdu txVector inAmpdu w = some w') :
    w'.fem.m_staExpectTbPpduFrom ⊆ w.fem.m_staExpectTbPpduFrom := by
  unfold receiveMpduCtl at h
  simp only at h
  split_ifs at h <;> (repeat' split at h) <;>
    first
    | (simp only [reduceCtorEq] at h)
    | (cases h
       first
       | exact List.Subset.refl _
       | exact setErase_subset _ _
       | (have hl := multiStaBlockAckLoop_expected _ _ _ _ _ _
            ‹multiStaBlockAckLoop _ _ _ _ _ = some _›
          intro x hx
          show x ∈ w.fem.m_staExpectTbPpduFrom
          rw [← hl]
          exact hx))

/-- After `ReceiveMpdu` the expected set is a subset of the set before. -/
theorem ReceiveMpdu_subset (env : ApEnv) (mpdu : RxMpdu) (txVector : TxVector)
    (inAmpdu : Bool) (w w' : FemWorld)
    (h : ReceiveMpdu env mpdu txVector inAmpdu w = some w') :
    w'.fem.m_staExpectTbPpduFrom ⊆ w.fem.m_staExpectTbPpduFrom := by
  unfold ReceiveMpdu at h
  split at h
  · simp only [reduceCtorEq] at h
  · rename_i w0 hstats
    rw [← (receiveMpduStats_fem _ _ _ _ hstats).1]
    split_ifs at h
    · exact receiveMpduBasicTf_subset _ _ _ _ _ _ h
    · exact receiveMpduBsrpTf_subset _ _ _ _ h
    · exact receiveMpduCtl_subset _ _ _ _ _ _ h
    · cases h; exact List.Subset.refl _

theorem receiveTriggersInAmpdu_subset (env : ApEnv) (txVector : TxVector) :
    ∀ (mpdus : List RxMpdu) (w w' : FemWorld),
      receiveTriggersInAmpdu env txVector mpdus w = some w' →
      w'.fem.m_staExpectTbPpduFrom ⊆ w.fem.m_staExpectTbPpduFrom := by
  intro mpdus
  induction mpdus with
  | nil =>
    intro w w' h
    cases h
    exact List.Subset.refl _
  | cons mpdu rest ih =>
    intro w w' h
    unfold receiveTriggersInAmpdu at h
    split_ifs at h
    · split at h
      · simp only [reduceCtorEq] at h
      · rename_i w1 h1
        exact List.Subset.trans (ih _ _ h) (ReceiveMpdu_subset _ _ _ _ _ _ h1)
    · exact ih _ _ h

/-- After `EndReceiveAmpdu` the expected set is a subset of the set before. -/
theorem EndReceiveAmpdu_subset (env : ApEnv) (psdu : RxPsdu) (snr : Int)
    (txVector : TxVector) (perMpduStatus : List Bool) (w w' : FemWorld)
    (h : EndReceiveAmpdu env psdu snr txVector perMpduStatus w = some w') :
    w'.fem.m_staExpectTbPpduFrom ⊆ w.fem.m_staExpectTbPpduFrom := by
  unfold EndReceiveAmpdu at h
  simp only at h
  split_ifs at h <;> (repeat' split at h) <;>
    first
    | (simp only [reduceCtorEq] at h)
    | exact subset_of_basicTfResponseProcessed _ _ _ _ _ h rfl
    | exact subset_of_bsrpTfResponseProcessed _ _ _ _ _ h rfl
    | (cases h; exact List.Subset.refl _)
    | (have hs := receiveTriggersInAmpdu_subset _ _ _ _ _
         ‹receiveTriggersInAmpdu _ _ _ _ = some _›
       cases h
       exact hs)

/-- After `TbPpduTimeout` the expected set is the set before. -/
theorem TbPpduTimeout_expected (env : ApEnv) (psduMap : Option (List (Nat × TxPsdu)))
    (missed : List Mac48Address) (n : Nat) (w w' : FemWorld)
    (h : TbPpduTimeout env psduMap missed n w = some w') :
    w'.fem.m_staExpectTbPpduFrom = w.fem.m_staExpectTbPpduFrom := by
  unfold TbPpduTimeout at h
  simp only at h
  (repeat' split at h) <;>
    first
    | (simp only [reduceCtorEq] at h)
    | (cases h; rfl)

theorem missedBlockAckLoop_expected (env : ApEnv) (pm : List (Nat × TxPsdu)) :
    ∀ (missed : List Mac48Address) (resetCw r : Bool) (w w' : FemWorld),
      missedBlockAckLoop env pm missed resetCw w = some (r, w') →
      w'.fem.m_staExpectTbPpduFrom = w.fem.m_staExpectTbPpduFrom := by
  intro missed
  induction missed with
  | nil =>
    intro resetCw r w w' h
    cases h
    rfl
  | cons sta rest ih =>
    intro resetCw r w w' h
    unfold missedBlockAckLoop at h
    split at h
    · simp only [reduceCtorEq] at h
    · rw [ih _ _ _ _ h]
      rfl

theorem blockAcksTimeoutFirstStep_fem (pm : List (Nat × TxPsdu)) (missed : List Mac48Address)
    (n : Nat) (w w1 : FemWorld) (r : Bool)
    (h : blockAcksTimeoutFirstStep pm missed n w = some (r, w1)) : w1.fem = w.fem := by
  unfold blockAcksTimeoutFirstStep at h
  split_ifs at h <;> (repeat' split at h) <;>
    first
    | (simp only [reduceCtorEq] at h)
    | (cases h; rfl)

/-- After `BlockAcksInTbPpduTimeout` the expected set is the set before. -/
theorem BlockAcksInTbPpduTimeout_expected (env : ApEnv)
    (psduMap : Option (List (Nat × TxPsdu))) (missed : List Mac48Address) (n : Nat)
    (w w' : FemWorld) (h : BlockAcksInTbPpduTimeout env psduMap missed n w = some w') :
    w'.fem.m_staExpectTbPpduFrom = w.fem.m_staExpectTbPpduFrom := by
  unfold BlockAcksInTbPpduTimeout at h
  simp only at h
  split_ifs at h <;> (repeat' split at h) <;>
    first
    | (simp only [reduceCtorEq] at h)
    | (have hl := missedBlockAckLoop_expected _ _ _ _ _ _ _
         ‹missedBlockAckLoop _ _ _ _ _ = some _›
       have hf := blockAcksTimeoutFirstStep_fem _ _ _ _ _ _
         ‹blockAcksTimeoutFirstStep _ _ _ _ = some _›
       cases h
       show _ = w.fem.m_staExpectTbPpduFrom
       rw [← hf]
       exact hl)

theorem runCall_subset (env : ApEnv) (call : FemCall) (w w' : FemWorld)
    (h : runCall env call w = some w') :
    w'.fem.m_staExpectTbPpduFrom ⊆ w.fem.m_staExpectTbPpduFrom := by
  cases call with
  | ReceiveMpdu mpdu txVector inAmpdu => exact ReceiveMpdu_subset _ _ _ _ _ _ h
  | EndReceiveAmpdu psdu snr txVector perMpduStatus => exact EndReceiveAmpdu_subset _ _ _ _ _ _ _ h
  | TbPpduTimeout psduMap missed n =>
    rw [TbPpduTimeout_expected _ _ _ _ _ _ h]
    exact List.Subset.refl _
  | BlockAcksInTbPpduTimeout psduMap missed n =>
    rw [BlockAcksInTbPpduTimeout_expected _ _ _ _ _ _ h]
    exact List.Subset.refl _

/-! ## Claims on the reception of TB PPDUs -/

/-- C18: while the timer waits for the TB PPDUs solicited by a Basic or BSRP Trigger Frame, a
frame (for a BSRP Trigger Frame: a frame that is not part of an A-MPDU, those being handled
when the A-MPDU ends) or an A-MPDU received in a TB PPDU from a station that is not in the
expected set leaves the exchange unchanged: `ReceiveMpdu` returns a state with the same
object (expected set, timer, acknowledgment bookkeeping, PSDU map, Multi-STA BlockAck event)
and the same call log (nothing scheduled), only statistics may differ; `EndReceiveAmpdu`
returns the state it was given. -/
theorem C18_unexpected_sender_ignored (env : ApEnv) (mpdu : RxMpdu) (txVector : TxVector)
    (inAmpdu : Bool) (psdu : RxPsdu) (snr : Int) (perMpduStatus : List Bool) (w : FemWorld)
    (hul : txVector.isUlMu = true) (hrun : w.fem.m_txTimer.running = true)
    (hreason : w.fem.m_txTimer.reason = TimerReason.WAIT_TB_PPDU_AFTER_BASIC_TF
      ∨ w.fem.m_txTimer.reason = TimerReason.WAIT_QOS_NULL_AFTER_BSRP_TF)
    (hack : w.fem.m_txTimer.reason = TimerReason.WAIT_TB_PPDU_AFTER_BASIC_TF →
      ∃ acknowledgment, w.fem.m_txParams.m_acknowledgment = some acknowledgment
        ∧ acknowledgment.method = AckMethod.UL_MU_MULTI_STA_BA)
    (hsingle : w.fem.m_txTimer.reason = TimerReason.WAIT_QOS_NULL_AFTER_BSRP_TF →
      inAmpdu = false)
    (huser : txVector.heMuUserInfoMap ≠ []) (hsched : w.fem.m_muScheduler = true)
    (haddr : mpdu.addr1IsGroup = true ∨ mpdu.hdr.addr1 = w.fem.sta.m_self)
    (hmpdu : mpdu.hdr.addr2 ∉ w.fem.m_staExpectTbPpduFrom)
    (hpsdu : psdu.addr2 ∉ w.fem.m_staExpectTbPpduFrom) :
    (∃ w', ReceiveMpdu env mpdu txVector inAmpdu w = some w'
        ∧ w'.fem = w.fem ∧ w'.effects = w.effects)
      ∧ EndReceiveAmpdu env psdu snr txVector perMpduStatus w = some w := by
  obtain ⟨w0, hstats⟩ := receiveMpduStats_isSome mpdu txVector w huser hsched
  obtain ⟨hf, he⟩ := receiveMpduStats_fem mpdu txVector w w0 hstats
  have hc1 := contains_eq_false_of_not_mem _ _ hmpdu
  have hc2 := contains_eq_false_of_not_mem _ _ hpsdu
  have haddr' : (mpdu.addr1IsGroup || mpdu.hdr.addr1 == w.fem.sta.m_self) = true := by
    rcases haddr with h | h
    · simp [h]
    · simp [h]
  constructor
  · refine ⟨w0, ?_, hf, he⟩
    unfold ReceiveMpdu
    simp only [hstats, hf, haddr', Bool.not_true, Bool.false_eq_true, if_false, hul, hrun,
      Bool.true_and]
    rcases hreason with hr | hr
    · obtain ⟨acknowledgment, ha, hm⟩ := hack hr
      simp only [hr, beq_self_eq_true, if_true]
      unfold receiveMpduBasicTf
      simp only [hf, ha, hm, ne_eq, not_true_eq_false, if_false, hc1, Bool.not_false, if_true]
    · have hi := hsingle hr
      simp only [hr, hi, Bool.not_false, Bool.and_true, beq_self_eq_true, if_true]
      have hne : (TimerReason.WAIT_QOS_NULL_AFTER_BSRP_TF
          == TimerReason.WAIT_TB_PPDU_AFTER_BASIC_TF) = false := by decide
      simp only [hne, Bool.false_eq_true, if_false]
      unfold receiveMpduBsrpTf
      simp only [hf, hc1, Bool.not_false, if_true]
  · unfold EndReceiveAmpdu
    simp only [hul, hrun, Bool.true_and]
    rcases hreason with hr | hr
    · obtain ⟨acknowledgment, ha, hm⟩ := hack hr
      simp only [hr, beq_self_eq_true, if_true, ha, hm, ne_eq, not_true_eq_false, if_false, hc2,
        Bool.not_false]
    · have hne : (TimerReason.WAIT_QOS_NULL_AFTER_BSRP_TF
          == TimerReason.WAIT_TB_PPDU_AFTER_BASIC_TF) = false := by decide
      simp only [hr, hne, Bool.false_eq_true, if_false, beq_self_eq_true, if_true, hc2,
        Bool.not_false]

/-- C18 at the scenario: the AP waits for the QoS Null frame of station 11 and receives one
from station 14. -/
theorem C18_unexpected_sender_ignored_witness :
    (∃ w', ReceiveMpdu (exApEnv false) (exQosNull 14) (exTbTxVector 4) false (exBsrpWorld [11])
          = some w'
        ∧ w'.fem = (exBsrpWorld [11]).fem ∧ w'.effects = (exBsrpWorld [11]).effects)
      ∧ EndReceiveAmpdu (exApEnv false) ⟨14, [(0, false)], [exQosNull 14]⟩ 20 (exTbTxVector 4)
          [true] (exBsrpWorld [11]) = some (exBsrpWorld [11]) :=
  C18_unexpected_sender_ignored (exApEnv false) (exQosNull 14) (exTbTxVector 4) false
    ⟨14, [(0, false)], [exQosNull 14]⟩ 20 [true] (exBsrpWorld [11]) rfl rfl (Or.inr rfl)
    (by intro h; exact absurd h (by decide)) (fun _ => rfl) (by decide) rfl (Or.inr rfl)
    (by decide) (by decide)

/-- C19: for every sequence of calls of `ReceiveMpdu`, `EndReceiveAmpdu`, `TbPpduTimeout` and
`BlockAcksInTbPpduTimeout` (with any arguments) that runs to its end, the expected set after
the calls is a subset of the expected set before them. -/
theorem C19_expected_set_only_shrinks (env : ApEnv) (calls : List FemCall) (w w' : FemWorld)
    (h : runCalls env calls w = some w') :
    w'.fem.m_staExpectTbPpduFrom ⊆ w.fem.m_staExpectTbPpduFrom := by
  induction calls generalizing w with
  | nil =>
    cases h
    exact List.Subset.refl _
  | cons call rest ih =>
    unfold runCalls at h
    split at h
    · simp only [reduceCtorEq] at h
    · rename_i w1 h1
      exact List.Subset.trans (ih w1 h) (runCall_subset env call w w1 h1)

/-- C19 at the scenario: the AP waits for the QoS Null frames of stations 11, 12 and 13; it
receives one from station 11, one from the unexpected station 14, and then the timer
fires. -/
theorem C19_expected_set_only_shrinks_witness :
    ∃ w', runCalls (exApEnv false)
        [FemCall.ReceiveMpdu (exQosNull 11) (exTbTxVector 1) false,
         FemCall.ReceiveMpdu (exQosNull 14) (exTbTxVector 4) false,
         FemCall.TbPpduTimeout (some [(SU_STA_ID, exTriggerPsdu)]) [12, 13] 3]
        (exBsrpWorld [11, 12, 13]) = some w'
      ∧ w'.fem.m_staExpectTbPpduFrom ⊆ (exBsrpWorld [11, 12, 13]).fem.m_staExpectTbPpduFrom :=
  (Option.isSome_iff_exists.1
    (show (runCalls (exApEnv false)
        [FemCall.ReceiveMpdu (exQosNull 11) (exTbTxVector 1) false,
         FemCall.ReceiveMpdu (exQosNull 14) (exTbTxVector 4) false,
         FemCall.TbPpduTimeout (some [(SU_STA_ID, exTriggerPsdu)]) [12, 13] 3]
        (exBsrpWorld [11, 12, 13])).isSome = true from rfl)).elim
    (fun w' h => ⟨w', h, C19_expected_set_only_shrinks (exApEnv false) _ _ w' h⟩)

/-- C20: while the timer waits for the QoS Null frames solicited by a BSRP Trigger Frame, a
QoS Null frame (not in an A-MPDU) from an expected station makes `ReceiveMpdu` return.  When
no other station remains in the expected set, the expected set is emptied, the timer
cancelled and the PSDU map cleared before `TransmissionSucceeded` runs, and the calls added
are `NotifyAckTimeoutResetNow`, `ResetCw` and `TransmissionSucceeded`.  When other stations
remain, the station is removed from the expected set and nothing else of the object changes
(the timer stays armed) and no call is made. -/
theorem C20_bsrp_response_from_expected_station (env : ApEnv) (mpdu : RxMpdu)
    (txVector : TxVector) (w : FemWorld)
    (hul : txVector.isUlMu = true) (hrun : w.fem.m_txTimer.running = true)
    (hreason : w.fem.m_txTimer.reason = TimerReason.WAIT_QOS_NULL_AFTER_BSRP_TF)
    (huser : txVector.heMuUserInfoMap ≠ []) (hsched : w.fem.m_muScheduler = true)
    (haddr : mpdu.addr1IsGroup = true ∨ mpdu.hdr.addr1 = w.fem.sta.m_self)
    (hqos : mpdu.isQosData = true) (hnull : mpdu.hasData = false)
    (hexpected : mpdu.hdr.addr2 ∈ w.fem.m_staExpectTbPpduFrom)
    (hedca : w.fem.m_edca = true) :
    ∃ w', ReceiveMpdu env mpdu txVector false w = some w'
      ∧ (setErase mpdu.hdr.addr2 w.fem.m_staExpectTbPpduFrom = [] →
          w'.fem = HeFem.applyBase env.transmissionSucceeded
              { w.fem with
                m_staExpectTbPpduFrom := []
                m_txTimer := w.fem.m_txTimer.Cancel
                m_psduMap := [] }
          ∧ w'.fem.m_staExpectTbPpduFrom = [] ∧ w'.fem.m_psduMap = []
          ∧ (w.fem.m_txTimer.Cancel).running = false
          ∧ w'.effects = w.effects ++ [Effect.NotifyAckTimeoutResetNow, Effect.ResetCw,
              Effect.TransmissionSucceeded])
      ∧ (setErase mpdu.hdr.addr2 w.fem.m_staExpectTbPpduFrom ≠ [] →
          w'.fem = { w.fem with
              m_staExpectTbPpduFrom := setErase mpdu.hdr.addr2 w.fem.m_staExpectTbPpduFrom }
          ∧ w'.fem.m_txTimer = w.fem.m_txTimer ∧ w'.fem.m_txTimer.running = true
          ∧ w'.effects = w.effects) := by
  obtain ⟨w0, hstats⟩ := receiveMpduStats_isSome mpdu txVector w huser hsched
  obtain ⟨hf, he⟩ := receiveMpduStats_fem mpdu txVector w w0 hstats
  have hc := contains_eq_true_of_mem _ _ hexpected
  have haddr' : (mpdu.addr1IsGroup || mpdu.hdr.addr1 == w.fem.sta.m_self) = true := by
    rcases haddr with h | h
    · simp [h]
    · simp [h]
  have hne : (TimerReason.WAIT_QOS_NULL_AFTER_BSRP_TF
      == TimerReason.WAIT_TB_PPDU_AFTER_BASIC_TF) = false := by decide
  have hrec : ReceiveMpdu env mpdu txVector false w
      = bsrpTfResponseProcessed env mpdu.hdr.addr2 w0 := by
    unfold ReceiveMpdu
    simp only [hstats, hf, haddr', Bool.not_true, Bool.false_eq_true, if_false, hul, hrun,
      Bool.true_and, hreason, hne, Bool.not_false, Bool.and_true, beq_self_eq_true, if_true]
    unfold receiveMpduBsrpTf
    simp only [hf, hc, Bool.not_true, Bool.false_eq_true, if_false, hqos, hnull, Bool.not_false,
      Bool.and_self]
  rw [hrec]
  unfold bsrpTfResponseProcessed
  simp only [hf, log_fem, log_effects, he]
  by_cases hlast : setErase mpdu.hdr.addr2 w.fem.m_staExpectTbPpduFrom = []
  · simp only [hlast, List.isEmpty_nil, if_true, hedca, Bool.true_eq_false, if_false]
    refine ⟨_, rfl, ?_, ?_⟩
    · intro _
      refine ⟨?_, rfl, rfl, rfl, ?_⟩
      · simp only [callParent_fem, log_fem]
      · simp only [callParent_effects, log_effects, he, List.append_assoc, List.singleton_append,
          List.cons_append, List.nil_append]
    · intro h
      exact absurd rfl h
  · have hemp : (setErase mpdu.hdr.addr2 w.fem.m_staExpectTbPpduFrom).isEmpty = false := by
      cases hs : setErase mpdu.hdr.addr2 w.fem.m_staExpectTbPpduFrom with
      | nil => exact absurd hs hlast
      | cons a as => rfl
    simp only [hemp, Bool.false_eq_true, if_false]
    refine ⟨_, rfl, ?_, ?_⟩
    · intro h
      exact absurd h hlast
    · intro _
      exact ⟨rfl, rfl, hrun, rfl⟩

/-- C20 at the scenario: station 11 is the last station the AP waits for. -/
theorem C20_bsrp_response_from_expected_station_witness :
    ∃ w', ReceiveMpdu (exApEnv false) (exQosNull 11) (exTbTxVector 1) false (exBsrpWorld [11])
        = some w'
      ∧ (setErase (exQosNull 11).hdr.addr2 (exBsrpWorld [11]).fem.m_staExpectTbPpduFrom = [] →
          w'.fem = HeFem.applyBase (exApEnv false).transmissionSucceeded
              { (exBsrpWorld [11]).fem with
                m_staExpectTbPpduFrom := []
                m_txTimer := (exBsrpWorld [11]).fem.m_txTimer.Cancel
                m_psduMap := [] }
          ∧ w'.fem.m_staExpectTbPpduFrom = [] ∧ w'.fem.m_psduMap = []
          ∧ ((exBsrpWorld [11]).fem.m_txTimer.Cancel).running = false
          ∧ w'.effects = (exBsrpWorld [11]).effects ++ [Effect.NotifyAckTimeoutResetNow,
              Effect.ResetCw, Effect.TransmissionSucceeded])
      ∧ (setErase (exQosNull 11).hdr.addr2 (exBsrpWorld [11]).fem.m_staExpectTbPpduFrom ≠ [] →
          w'.fem = { (exBsrpWorld [11]).fem with
              m_staExpectTbPpduFrom :=
                setErase (exQosNull 11).hdr.addr2 (exBsrpWorld [11]).fem.m_staExpectTbPpduFrom }
          ∧ w'.fem.m_txTimer = (exBsrpWorld [11]).fem.m_txTimer
          ∧ w'.fem.m_txTimer.running = true
          ∧ w'.effects = (exBsrpWorld [11]).effects) :=
  C20_bsrp_response_from_expected_station (exApEnv false) (exQosNull 11) (exTbTxVector 1)
    (exBsrpWorld [11]) rfl rfl rfl (by decide) rfl (Or.inr rfl) rfl rfl (by decide) rfl

theorem scheduleBarLoop_fem (stations : List Mac48Address) (psduMap : List (Nat × TxPsdu))
    (w w' : FemWorld) (h : scheduleBarLoop stations psduMap w = some w') : w'.fem = w.fem := by
  induction psduMap generalizing w with
  | nil =>
    simp only [scheduleBarLoop, Option.some.injEq] at h
    rw [← h]
  | cons psdu rest ih =>
    unfold scheduleBarLoop at h
    split_ifs at h <;> (repeat' split at h) <;>
      first
        | (simp only [reduceCtorEq, ite_self] at h)
        | (rw [ih _ h, log_fem])
        | exact ih _ h

theorem ForwardPsduMapDown_fem (psduMap : List (Nat × TxPsdu)) (txVector : TxVector)
    (w : FemWorld) (r : TxVector × FemWorld) (h : ForwardPsduMapDown psduMap txVector w = some r) :
    r.2.fem = w.fem := by
  unfold ForwardPsduMapDown at h
  split at h
  · simp only [reduceCtorEq] at h
  · simp only [Option.some.injEq] at h
    rw [← h, log_fem]

theorem sendPsduMapBranch_txTimer (env : ApEnv) (acknowledgment : WifiAcknowledgment)
    (w w1 : FemWorld) (setup : TimerSetup)
    (h : sendPsduMapBranch env acknowledgment w = some (BranchResult.proceed setup w1)) :
    w1.fem.m_txTimer = w.fem.m_txTimer := by
  unfold sendPsduMapBranch at h
  simp only at h
  split_ifs at h
  · simp only [Option.map_eq_some', BranchResult.proceed.injEq] at h
    obtain ⟨p, hp, rfl, rfl⟩ := h
    unfold sendPsduMapBarBaSequence at hp
    split at hp
    · simp only [reduceCtorEq] at hp
    · have hfem := scheduleBarLoop_fem _ _ _ _ ‹scheduleBarLoop _ _ _ = some _›
      (repeat' (first | split at hp | split_ifs at hp | simp only at hp)) <;>
        first
          | (simp only [reduceCtorEq, ite_self] at hp)
          | (cases hp; rw [hfem])
  · unfold sendPsduMapTfMuBar at h
    (repeat' (first | split at h | split_ifs at h | simp only at h)) <;>
      first
        | (simp only [reduceCtorEq, ite_self] at h)
        | (cases h; rfl)
        | (cases h)
  · simp only [Option.map_eq_some', BranchResult.proceed.injEq] at h
    obtain ⟨p, hp, rfl, rfl⟩ := h
    unfold sendPsduMapAggregateTf at hp
    (repeat' (first | split at hp | split_ifs at hp | simp only at hp)) <;>
      first
        | (simp only [reduceCtorEq, ite_self] at hp)
        | (cases hp; rfl)
  · simp only [Option.map_eq_some', BranchResult.proceed.injEq] at h
    obtain ⟨p, hp, rfl, rfl⟩ := h
    unfold sendPsduMapBasicTf at hp
    (repeat' (first | split at hp | split_ifs at hp | simp only at hp)) <;>
      first
        | (simp only [reduceCtorEq, ite_self] at hp)
        | (cases hp; rfl)
  · simp only [Option.map_eq_some', BranchResult.proceed.injEq] at h
    obtain ⟨p, hp, rfl, rfl⟩ := h
    unfold sendPsduMapBsrpTf at hp
    (repeat' (first | split at hp | split_ifs at hp | simp only at hp)) <;>
      first
        | (simp only [reduceCtorEq, ite_self] at hp)
        | (cases hp; rfl)
  · (repeat' (first | split at h | split_ifs at h | simp only at h)) <;>
      first
        | (simp only [reduceCtorEq, ite_self] at h)
        | (cases h; rfl)
  · cases h; rfl

theorem sendPsduMapArmTimer_spec (env : ApEnv) (setup : TimerSetup) (txDuration : Time)
    (w w2 : FemWorld) (h : sendPsduMapArmTimer env setup txDuration w = some w2) :
    ∃ response, setup.responseTxVector = some response
      ∧ w2.fem.m_txTimer.running = true
      ∧ w2.fem.m_txTimer.reason = setup.timerType
      ∧ w2.fem.m_txTimer.delay
          = txDuration + env.sta.sifs + env.slot
            + env.calculatePhyPreambleAndHeaderDuration response := by
  unfold sendPsduMapArmTimer at h
  split at h
  · simp only [reduceCtorEq] at h
  · rename_i response hresp
    simp only at h
    split at h
    · simp only [reduceCtorEq] at h
    · cases h
      exact ⟨response, hresp, rfl, rfl, rfl⟩

theorem sendPsduMapTail_txTimer (env : ApEnv) (setup : TimerSetup) (w w' : FemWorld)
    (h : sendPsduMapTail env setup w = some w') :
    (setup.timerType = TimerReason.NOT_RUNNING ∧ w'.fem.m_txTimer = w.fem.m_txTimer)
    ∨ (∃ response, setup.responseTxVector = some response
        ∧ w'.fem.m_txTimer.running = true
        ∧ w'.fem.m_txTimer.reason = setup.timerType
        ∧ w'.fem.m_txTimer.delay
            = psduMapTxDuration env w + env.sta.sifs + env.slot
              + env.calculatePhyPreambleAndHeaderDuration response) := by
  unfold sendPsduMapTail at h
  simp only at h
  split at h
  · simp only [reduceCtorEq] at h
  · rename_i w2 harm
    split at h
    · simp only [reduceCtorEq] at h
    · rename_i r hfwd
      have hfem := ForwardPsduMapDown_fem _ _ _ _ hfwd
      simp only at hfem
      have hw' : w'.fem.m_txTimer = w2.fem.m_txTimer := by
        split_ifs at h <;> cases h <;> simp only [log_fem, hfem]
      rw [hw']
      by_cases hnr : setup.timerType = TimerReason.NOT_RUNNING
      · left
        refine ⟨hnr, ?_⟩
        simp only [hnr, if_true] at harm
        split_ifs at harm <;> cases harm <;> simp only [log_fem]
      · right
        simp only [hnr, if_false] at harm
        obtain ⟨response, h1, h2, h3, h4⟩ := sendPsduMapArmTimer_spec _ _ _ _ _ harm
        refine ⟨response, h1, h2, h3, ?_⟩
        rw [h4]
        rfl

theorem sendPsduMapBranch_returned (env : ApEnv) (acknowledgment : WifiAcknowledgment)
    (w w' : FemWorld)
    (h : sendPsduMapBranch env acknowledgment w = some (BranchResult.returned w')) :
    ∃ triggerFrame station, acknowledgment.method = AckMethod.DL_MU_TF_MU_BAR
      ∧ w.fem.m_triggerFrame = some triggerFrame
      ∧ acknowledgment.stationsReplyingWithBlockAck.head? = some station
      ∧ w'.fem.m_txTimer.reason = TimerReason.WAIT_BLOCK_ACKS_IN_TB_PPDU
      ∧ w'.fem.m_txTimer.delay
          = env.calculateTriggerTxDuration triggerFrame acknowledgment.muBarTxVector
            + env.sta.sifs + env.slot
            + env.calculatePhyPreambleAndHeaderDuration station.2 := by
  unfold sendPsduMapBranch at h
  simp only at h
  split_ifs at h
  · simp only [Option.map_eq_some', reduceCtorEq, and_false, exists_false] at h
  · rename_i hmethod
    unfold sendPsduMapTfMuBar at h
    split at h
    · (repeat' (first | split at h | split_ifs at h | simp only at h)) <;>
        first
          | (simp only [reduceCtorEq, ite_self] at h)
          | (cases h)
    · rename_i triggerFrame htf
      simp only at h
      split at h
      · simp only [reduceCtorEq] at h
      · rename_i station hst
        cases h
        exact ⟨triggerFrame, station, hmethod, htf, hst, rfl, rfl⟩
  · simp only [Option.map_eq_some', reduceCtorEq, and_false, exists_false] at h
  · simp only [Option.map_eq_some', reduceCtorEq, and_false, exists_false] at h
  · simp only [Option.map_eq_some', reduceCtorEq, and_false, exists_false] at h
  · (repeat' (first | split at h | split_ifs at h | simp only at h)) <;>
      first
        | (simp only [reduceCtorEq, ite_self] at h)
        | (cases h)
  · cases h

/-! ## C25: the timeout of the response timer -/

/-- C25: whenever `SendPsduMap` returns with the TX timer armed, the timeout is the
transmission duration of the frame sent plus SIFS plus one slot plus the PHY preamble and
header duration of the TX vector of the expected response.  For the MU-BAR sent after a DL
MU PPDU the frame is the stored Trigger Frame and the response TX vector is the BlockAck TX
vector of the first station; for every other variant the frame is the PSDU map (the granted
HE TB PPDU duration when the TX vector is UL MU) and the response TX vector is the one
chosen by the branch of the acknowledgment method. -/
theorem C25_response_timeout (env : ApEnv) (w w' : FemWorld)
    (hsend : SendPsduMap env w = some w') (harmed : w'.fem.m_txTimer.running = true) :
    ∃ acknowledgment, w.fem.m_txParams.m_acknowledgment = some acknowledgment
      ∧ ((∃ triggerFrame station,
            acknowledgment.method = AckMethod.DL_MU_TF_MU_BAR
            ∧ w.fem.m_triggerFrame = some triggerFrame
            ∧ acknowledgment.stationsReplyingWithBlockAck.head? = some station
            ∧ w'.fem.m_txTimer.delay
                = env.calculateTriggerTxDuration triggerFrame acknowledgment.muBarTxVector
                  + env.sta.sifs + env.slot
                  + env.calculatePhyPreambleAndHeaderDuration station.2)
        ∨ (∃ setup w1 response,
            sendPsduMapBranch env acknowledgment w = some (BranchResult.proceed setup w1)
            ∧ setup.responseTxVector = some response
            ∧ w'.fem.m_txTimer.reason = setup.timerType
            ∧ w'.fem.m_txTimer.delay
                = psduMapTxDuration env w1 + env.sta.sifs + env.slot
                  + env.calculatePhyPreambleAndHeaderDuration response)) := by
  unfold SendPsduMap at hsend
  split at hsend
  · simp only [reduceCtorEq] at hsend
  · rename_i acknowledgment hack
    refine ⟨acknowledgment, hack, ?_⟩
    split_ifs at hsend with hrun
    split at hsend
    · simp only [reduceCtorEq] at hsend
    · rename_i w1 hbranch
      cases hsend
      obtain ⟨triggerFrame, station, h1, h2, h3, _, h5⟩ :=
        sendPsduMapBranch_returned _ _ _ _ hbranch
      exact Or.inl ⟨triggerFrame, station, h1, h2, h3, h5⟩
    · rename_i setup w1 hbranch
      have htimer := sendPsduMapBranch_txTimer _ _ _ _ _ hbranch
      rcases sendPsduMapTail_txTimer _ _ _ _ hsend with ⟨_, hkeep⟩ | ⟨response, h1, _, h3, h4⟩
      · rw [hkeep, htimer] at harmed
        exact absurd harmed hrun
      · exact Or.inr ⟨setup, w1, response, hbranch, h1, h3, h4⟩

/-- C25 at a concrete input: the AP of the scenario sends a BSRP Trigger Frame lasting
100000 with SIFS 16000, slot 9000 and a response preamble of 20000, and the timer is armed
with 145000. -/
theorem C25_response_timeout_witness :
    ∃ w', SendPsduMap (exApEnv false) exIdleBsrpWorld = some w'
      ∧ w'.fem.m_txTimer.running = true
      ∧ w'.fem.m_txTimer.delay = 145000
      ∧ ∃ acknowledgment, exIdleBsrpWorld.fem.m_txParams.m_acknowledgment = some acknowledgment
        ∧ ((∃ triggerFrame station,
              acknowledgment.method = AckMethod.DL_MU_TF_MU_BAR
              ∧ exIdleBsrpWorld.fem.m_triggerFrame = some triggerFrame
              ∧ acknowledgment.stationsReplyingWithBlockAck.head? = some station
              ∧ w'.fem.m_txTimer.delay
                  = (exApEnv false).calculateTriggerTxDuration triggerFrame
                      acknowledgment.muBarTxVector
                    + (exApEnv false).sta.sifs + (exApEnv false).slot
                    + (exApEnv false).calculatePhyPreambleAndHeaderDuration station.2)
          ∨ (∃ setup w1 response,
              sendPsduMapBranch (exApEnv false) acknowledgment exIdleBsrpWorld
                = some (BranchResult.proceed setup w1)
              ∧ setup.responseTxVector = some response
              ∧ w'.fem.m_txTimer.reason = setup.timerType
              ∧ w'.fem.m_txTimer.delay
                  = psduMapTxDuration (exApEnv false) w1 + (exApEnv false).sta.sifs
                    + (exApEnv false).slot
                    + (exApEnv false).calculatePhyPreambleAndHeaderDuration response)) :=
  ⟨_, rfl, rfl, rfl, C25_response_timeout (exApEnv false) exIdleBsrpWorld _ rfl rfl⟩

/-! ## C23, C24: the choice of the format -/

/-- C23: when the frame at the head of the queue is addressed to a receiver that does not
support HE, `SelectTxFormat` returns `SU_TX` and leaves the whole state (candidate list,
stored trigger, credits) as it was, whatever the flags and the last format are: none of the
three attempts is made. -/
theorem C23_non_he_receiver_gets_su_tx (env : MuEnv) (w : MuWorld) (mpdu : QueuedMpdu)
    (hhead : env.peekNextMpdu = some mpdu) (hhe : env.getHeSupported mpdu.addr1 = false) :
    SelectTxFormat env w = some (TxFormat.SU_TX, w) := by
  unfold SelectTxFormat
  simp [hhead, hhe]

/-- C23 at a concrete input: the head of the queue is a frame for the legacy station 21. -/
theorem C23_non_he_receiver_gets_su_tx_witness :
    (exMuEnv (some (exQueued 21)) (fun _ => true) (fun _ => 3)).peekNextMpdu
        = some (exQueued 21)
      ∧ (exMuEnv (some (exQueued 21)) (fun _ => true) (fun _ => 3)).getHeSupported
          (exQueued 21).addr1 = false
      ∧ SelectTxFormat (exMuEnv (some (exQueued 21)) (fun _ => true) (fun _ => 3))
          (exMuWorld 600 exTimeMin) = some (TxFormat.SU_TX, exMuWorld 600 exTimeMin) :=
  ⟨rfl, rfl,
    C23_non_he_receiver_gets_su_tx (exMuEnv (some (exQueued 21)) (fun _ => true) (fun _ => 3))
      (exMuWorld 600 exTimeMin) (exQueued 21) rfl rfl⟩

/-- C24: with UL OFDMA enabled, the last format `DL_MU_TX` or an empty queue, and the head
frame (if any) addressed to an HE station, `SelectTxFormat` makes one UL attempt,
`TrySendingBsrpTf` when BSRP is enabled and `TrySendingBasicTf` otherwise, and returns its
result, except that when the attempt reports `DL_MU_TX` the result is that of
`TrySendingDlMuPpdu` run on the state the attempt left. -/
theorem C24_ul_attempt_then_dl (env : MuEnv) (w : MuWorld)
    (hul : w.s.m_enableUlOfdma = true)
    (hdue : w.s.m_lastTxFormat = TxFormat.DL_MU_TX ∨ env.peekNextMpdu = none)
    (hhe : ∀ mpdu, env.peekNextMpdu = some mpdu → env.getHeSupported mpdu.addr1 = true) :
    SelectTxFormat env w
      = match (if w.s.m_enableBsrp then TrySendingBsrpTf env w
               else TrySendingBasicTf env w) with
        | none => none
        | some (txFormat, w1) =>
          if txFormat = TxFormat.DL_MU_TX then TrySendingDlMuPpdu env w1
          else some (txFormat, w1) := by
  have hflip : ∀ (r : Option (TxFormat × MuWorld)),
      (match r with
        | none => none
        | some (txFormat, w1) =>
          if txFormat ≠ TxFormat.DL_MU_TX then some (txFormat, w1)
          else TrySendingDlMuPpdu env w1)
      = (match r with
        | none => none
        | some (txFormat, w1) =>
          if txFormat = TxFormat.DL_MU_TX then TrySendingDlMuPpdu env w1
          else some (txFormat, w1)) := by
    intro r
    cases r with
    | none => rfl
    | some p =>
      obtain ⟨txFormat, w1⟩ := p
      by_cases hf : txFormat = TxFormat.DL_MU_TX <;> simp [hf]
  unfold SelectTxFormat
  simp only [hul, Bool.true_and]
  cases hm : env.peekNextMpdu with
  | none =>
    cases hb : w.s.m_enableBsrp
    · simp only [Option.isNone_none, Bool.or_true, Bool.false_and, Bool.false_eq_true,
        if_false, if_true]
      exact hflip _
    · simp only [Option.isNone_none, Bool.or_true, Bool.and_self, Bool.false_eq_true,
        if_false, if_true]
      exact hflip _
  | some m =>
    have hlast : w.s.m_lastTxFormat = TxFormat.DL_MU_TX := by
      rcases hdue with h | h
      · exact h
      · rw [hm] at h
        cases h
    have hm1 := hhe m hm
    cases hb : w.s.m_enableBsrp
    · simp only [hm1, hlast, Bool.not_true, Bool.false_eq_true, if_false, beq_self_eq_true,
        Bool.true_or, Bool.false_and, if_true]
      exact hflip _
    · simp only [hm1, hlast, Bool.not_true, Bool.false_eq_true, if_false, beq_self_eq_true,
        Bool.true_or, Bool.and_self, if_true]
      exact hflip _

/-- C24 at a concrete input: the queue is empty and BSRP is enabled, so the result is that
of the BSRP attempt, here `UL_MU_TX`. -/
theorem C24_ul_attempt_then_dl_witness :
    (exMuWorld 600 exTimeMin).s.m_enableUlOfdma = true
      ∧ (TrySendingBsrpTf (exMuEnv none (fun _ => true) (fun _ => 3))
          (exMuWorld 600 exTimeMin)).map Prod.fst = some TxFormat.UL_MU_TX
      ∧ SelectTxFormat (exMuEnv none (fun _ => true) (fun _ => 3)) (exMuWorld 600 exTimeMin)
        = match (if (exMuWorld 600 exTimeMin).s.m_enableBsrp then
                  TrySendingBsrpTf (exMuEnv none (fun _ => true) (fun _ => 3))
                    (exMuWorld 600 exTimeMin)
                 else TrySendingBasicTf (exMuEnv none (fun _ => true) (fun _ => 3))
                    (exMuWorld 600 exTimeMin)) with
          | none => none
          | some (txFormat, w1) =>
            if txFormat = TxFormat.DL_MU_TX then
              TrySendingDlMuPpdu (exMuEnv none (fun _ => true) (fun _ => 3)) w1
            else some (txFormat, w1) :=
  ⟨rfl, rfl,
    C24_ul_attempt_then_dl (exMuEnv none (fun _ => true) (fun _ => 3)) (exMuWorld 600 exTimeMin)
      rfl (Or.inl rfl) (fun _ h => by cases h)⟩

/-! ## C26: a zero `UlPsduSize` -/

/-- C26 (counterexample): with `UlPsduSize` 0 the initialisation of the scheduler succeeds
and leaves the value 0 in place; once two stations are associated, the round started by
`SelectTxFormat` reaches `TrySendingBasicTf` and aborts there. -/
theorem C26_zero_size_aborts_round_counterexample :
    ∃ w, DoInitialize (exMuEnv none (fun _ => true) (fun _ => 3)) (exFreshWorld 0) = some w
      ∧ w.s.m_ulPsduSize = 0
      ∧ SelectTxFormat (exMuEnv none (fun _ => true) (fun _ => 3))
          (exAssociate (exMuEnv none (fun _ => true) (fun _ => 3)) w) = none :=
  ⟨_, rfl, rfl, rfl⟩

/-- C26 (amended): `DoInitialize` does not look at `UlPsduSize`: it returns exactly when
`m_apMac` is set, also for the value 0.  The value 0 is rejected by `TrySendingBasicTf`,
during a round: with some station associated the method aborts, and so does the
`SelectTxFormat` that reaches it (UL OFDMA enabled, BSRP disabled, the last format
`DL_MU_TX` or the queue empty, the head frame to an HE station). -/
theorem C26_zero_size_rejected_in_round (env : MuEnv) (w : MuWorld)
    (hzero : w.s.m_ulPsduSize = 0) (hsta : w.s.m_staListUl ≠ [])
    (hul : w.s.m_enableUlOfdma = true) (hbsrp : w.s.m_enableBsrp = false)
    (hdue : w.s.m_lastTxFormat = TxFormat.DL_MU_TX ∨ env.peekNextMpdu = none)
    (hhe : ∀ mpdu, env.peekNextMpdu = some mpdu → env.getHeSupported mpdu.addr1 = true) :
    ((DoInitialize env w).isSome = true ↔ w.s.m_apMac = true)
      ∧ TrySendingBasicTf env w = none
      ∧ SelectTxFormat env w = none := by
  have hbasic : TrySendingBasicTf env w = none := by
    unfold TrySendingBasicTf
    have hne : w.s.m_staListUl.isEmpty = false := by
      cases hl : w.s.m_staListUl with
      | nil => exact absurd hl hsta
      | cons _ _ => rfl
    simp [hne, hzero]
  refine ⟨?_, hbasic, ?_⟩
  · unfold DoInitialize
    cases hap : w.s.m_apMac <;> simp
  · unfold SelectTxFormat
    simp only [hul, hbsrp, Bool.true_and, Bool.false_and, Bool.false_eq_true, if_false, hbasic]
    cases hm : env.peekNextMpdu with
    | none => simp
    | some m =>
      have hlast : w.s.m_lastTxFormat = TxFormat.DL_MU_TX := by
        rcases hdue with h | h
        · exact h
        · rw [hm] at h
          cases h
      simp [hhe m hm, hlast]

/-- C26 (amended) at a concrete input: the scheduler of the scenario with BSRP disabled and
`UlPsduSize` 0. -/
theorem C26_zero_size_rejected_in_round_witness :
    (exAssociate (exMuEnv none (fun _ => true) (fun _ => 3)) (exFreshWorld 0)).s.m_ulPsduSize = 0
      ∧ (exAssociate (exMuEnv none (fun _ => true) (fun _ => 3)) (exFreshWorld 0)).s.m_staListUl
          ≠ []
      ∧ (((DoInitialize (exMuEnv none (fun _ => true) (fun _ => 3))
              (exAssociate (exMuEnv none (fun _ => true) (fun _ => 3)) (exFreshWorld 0))).isSome
            = true
          ↔ (exAssociate (exMuEnv none (fun _ => true) (fun _ => 3))
              (exFreshWorld 0)).s.m_apMac = true)
        ∧ TrySendingBasicTf (exMuEnv none (fun _ => true) (fun _ => 3))
            (exAssociate (exMuEnv none (fun _ => true) (fun _ => 3)) (exFreshWorld 0)) = none
        ∧ SelectTxFormat (exMuEnv none (fun _ => true) (fun _ => 3))
            (exAssociate (exMuEnv none (fun _ => true) (fun _ => 3)) (exFreshWorld 0)) = none) :=
  ⟨rfl, by decide,
    C26_zero_size_rejected_in_round (exMuEnv none (fun _ => true) (fun _ => 3))
      (exAssociate (exMuEnv none (fun _ => true) (fun _ => 3)) (exFreshWorld 0)) rfl
      (by decide) rfl rfl (Or.inl rfl) (fun _ h => by cases h)⟩

/-! ## Lemmas: the BSRP attempt -/

theorem isEmpty_eq_false_of_ne_nil {α : Type} (l : List α) (h : l ≠ []) : l.isEmpty = false := by
  cases l with
  | nil => exact absurd rfl h
  | cons _ _ => rfl

theorem foldl_bsrpListStep_s (l : List Nat) (w : MuWorld) :
    (l.foldl bsrpListStep w).s = w.s := by
  induction l generalizing w with
  | nil => rfl
  | cons i rest ih =>
    rw [List.foldl_cons, ih]
    rfl

theorem bsrpLists_s (w w1 : MuWorld) (h : bsrpLists w = some w1) : w1.s = w.s := by
  unfold bsrpLists at h
  simp only at h
  split_ifs at h
  · split at h
    · simp only [reduceCtorEq] at h
    · rename_i w2 hw2
      simp only [Option.some.injEq] at h
      rw [← h, foldl_bsrpListStep_s]
      unfold UpdateWillBeQosNull at hw2
      split at hw2
      · simp only [reduceCtorEq] at hw2
      · simp only [Option.some.injEq] at hw2
        rw [← hw2]
  · simp only [Option.some.injEq] at h
    rw [← h]

theorem ulCandidateLoop_no_agreement (env : MuEnv) (width : Nat) (p : MasterInfo → Bool)
    (limit : Nat) (l : List MasterInfo)
    (hnone : ∀ sta ∈ l, ∀ tid, tid < 8 → env.baAgreementEstablished sta.address tid = false) :
    ∀ (pos : Nat) (txVector : HeMuUserInfoMap) (candidates : List Candidate),
      ulCandidateLoop env width p limit l pos txVector candidates = (txVector, candidates) := by
  induction l with
  | nil => intro pos txVector candidates; rfl
  | cons sta rest ih =>
    intro pos txVector candidates
    have hrest := ih (fun s hs => hnone s (List.mem_cons_of_mem _ hs))
    have hall : (List.range 8).all (fun tid => !env.baAgreementEstablished sta.address tid)
        = true := by
      rw [List.all_eq_true]
      intro tid htid
      rw [hnone sta (List.mem_cons_self _ _) tid (List.mem_range.1 htid)]
      rfl
    unfold ulCandidateLoop
    simp only [hall, if_true, hrest]
    split_ifs <;> rfl

theorem GetTxVectorForUlMu_no_agreement (env : MuEnv) (p : MasterInfo → Bool) (s : RrScheduler)
    (hcount : 1 ≤ (env.heRu.getEqualSizedRusForStations s.base.m_allowedWidth
      (min s.m_nStations s.m_staListUl.length)).2.1)
    (hap : s.m_apMac = true) (hconf : env.heConfiguration = true)
    (hnone : ∀ sta ∈ s.m_staListUl, ∀ tid, tid < 8 →
      env.baAgreementEstablished sta.address tid = false) :
    GetTxVectorForUlMu env p s
      = some ([], { s with base := { s.base with m_candidates := [] } }) := by
  unfold GetTxVectorForUlMu
  have hc : ¬ (env.heRu.getEqualSizedRusForStations s.base.m_allowedWidth
      (min s.m_nStations s.m_staListUl.length)).2.1 < 1 := by omega
  simp only [hc, if_false, hap, hconf, Bool.true_eq_false, or_self,
    ulCandidateLoop_no_agreement env _ p _ _ hnone, List.isEmpty_nil, if_true]

/-! ## C21, C22: the outcomes of the BSRP attempt -/

/-- C22 (counterexample): four HE stations are associated and none of them has a Block Ack
agreement; `TrySendingBsrpTf` returns `DL_MU_TX`, not `SU_TX`. -/
theorem C22_no_agreement_gives_dl_mu_tx_counterexample :
    (exMuWorld 600 exTimeMin).s.m_staListUl.length = 4
      ∧ (TrySendingBsrpTf (exMuEnv none (fun _ => false) (fun _ => 3))
          (exMuWorld 600 exTimeMin)).map Prod.fst = some TxFormat.DL_MU_TX :=
  ⟨rfl, rfl⟩

/-! ## C27: how long the arbitration entries are kept -/

theorem SetUlSuccesses_staRuInfo (addr : Mac48Address) (g : Globals) :
    (SetUlSuccesses addr g).m_staRuInfo = g.m_staRuInfo := by
  unfold SetUlSuccesses
  split <;> rfl

theorem foldl_SetUlSuccesses_staRuInfo (l : List (Mac48Address × Int)) (g : Globals) :
    (l.foldl (fun acc s => SetUlSuccesses s.1 acc) g).m_staRuInfo = g.m_staRuInfo := by
  induction l generalizing g with
  | nil => rfl
  | cons s rest ih => rw [List.foldl_cons, ih, SetUlSuccesses_staRuInfo]

/-- The entries `StartFrameExchange` leaves: none when the format is `DL_MU_TX`, all of
them otherwise. -/
theorem StartFrameExchange_staRuInfo (txFormat : TxFormat) (dlPsduMapEmpty : Bool)
    (trigger : CtrlTriggerHeader) (macHdr : WifiMacHeader) (g : Globals) (ul : UlStats) :
    (StartFrameExchange txFormat dlPsduMapEmpty trigger macHdr g ul).2.1.m_staRuInfo
      = if txFormat = TxFormat.DL_MU_TX then [] else g.m_staRuInfo := by
  cases txFormat
  · rfl
  · rfl
  · unfold StartFrameExchange
    cases dlPsduMapEmpty <;> simp [foldl_SetUlSuccesses_staRuInfo]
  · rfl

/-- A trigger that solicits the station with arbitration makes `ReceiveMpdu` append an
entry of the station to the round of its RU. -/
theorem ReceiveMpdu_trigger_registers (env : Env) (hdr : WifiMacHeader)
    (trigger : CtrlTriggerHeader) (g : Globals) (self : StaFem) (aid : Nat)
    (u : CtrlTriggerUserInfoField)
    (hsta : self.staMac = some (true, aid))
    (huser : FindUserInfoWithAid trigger aid = some u)
    (hsender : hdr.addr2 ≠ self.m_self)
    (haddr : hdr.addr1 = self.m_self
      ∨ (hdr.addr1IsBroadcast = true ∧ hdr.addr2 = self.m_bssid))
    (hslots : 0 < trigger.arbitrationSlots)
    (htype : (trigger.triggerType = TriggerType.BASIC_TRIGGER ∧ trigger.mbtaIndicator = true)
      ∨ trigger.triggerType = TriggerType.BSRP_TRIGGER) :
    ∃ g' self' num, ReceiveMpdu_trigger env hdr trigger false g self = some (g', self')
      ∧ roundEntries u.ruAllocation g'
          = roundEntries u.ruAllocation g ++ [⟨aid, num, trigger, hdr, false⟩] := by
  have hv : GetHeTbTxVector self trigger hdr.addr2 = some (aid, u.ruAllocation) := by
    simp [GetHeTbTxVector, hsender, hsta, huser]
  have hnot : (hdr.addr1 != self.m_self
        && (!hdr.addr1IsBroadcast || false || hdr.addr2 != self.m_bssid
            || (FindUserInfoWithAid trigger aid).isNone)) = false := by
    rcases haddr with h | ⟨h1, h2⟩
    · simp [h]
    · simp [h1, h2, huser]
  unfold ReceiveMpdu_trigger
  simp only [hsta]
  simp only [hnot, hv, Bool.false_eq_true, if_false, Bool.not_true]
  rcases htype with ⟨ht, hm⟩ | ht
  · simp only [ht, hm, hslots, gt_iff_lt, decide_True, Bool.and_self, if_true]
    refine ⟨_, _, env.randInteger 0 (2 ^ trigger.arbitrationSlots - 1) % 256, rfl, ?_⟩
    apply roundEntries_register
    simp only [SetSuccesses_staRuInfo]
  · simp only [ht, hslots, gt_iff_lt, if_true]
    refine ⟨_, _, env.randInteger 0 (2 ^ trigger.arbitrationSlots - 1) % 256, rfl, ?_⟩
    apply roundEntries_register
    simp only [SetBsrpTfReceive_staRuInfo]

/-- C27 (counterexample): station 1 is solicited twice by BSRP Trigger Frames with no DL MU
PPDU in between.  When it has registered for the second solicitation, the entry list of
its RU still holds the entry of the first one, with its win flag set. -/
theorem C27_entry_left_over_counterexample :
    exTwoSolicitations.map
        (fun g => (roundEntries exRu g).map (fun b => (b.staId, b.arbitrationNum, b.isWin)))
      = some [(1, 0, true), (1, 0, false)] := by
  decide

/-- C27 (amended): the entries of an RU are discarded by `StartFrameExchange` only when the
format is `DL_MU_TX`.  When a station registers for the solicitation that follows a
`StartFrameExchange`, the entry list of its RU is the new entry alone if that exchange was
a DL MU PPDU, and otherwise all entries (and win flags) present before, followed by the new
entry. -/
theorem C27_entries_kept_until_dl_mu_ppdu (txFormat : TxFormat) (dlPsduMapEmpty : Bool)
    (ulTrigger : CtrlTriggerHeader) (macHdr : WifiMacHeader) (g : Globals) (ul : UlStats)
    (env : Env) (hdr : WifiMacHeader) (trigger : CtrlTriggerHeader) (self : StaFem) (aid : Nat)
    (u : CtrlTriggerUserInfoField)
    (hsta : self.staMac = some (true, aid))
    (huser : FindUserInfoWithAid trigger aid = some u)
    (hsender : hdr.addr2 ≠ self.m_self)
    (haddr : hdr.addr1 = self.m_self
      ∨ (hdr.addr1IsBroadcast = true ∧ hdr.addr2 = self.m_bssid))
    (hslots : 0 < trigger.arbitrationSlots)
    (htype : (trigger.triggerType = TriggerType.BASIC_TRIGGER ∧ trigger.mbtaIndicator = true)
      ∨ trigger.triggerType = TriggerType.BSRP_TRIGGER) :
    ∃ g' self' num,
      ReceiveMpdu_trigger env hdr trigger false
          (StartFrameExchange txFormat dlPsduMapEmpty ulTrigger macHdr g ul).2.1 self
        = some (g', self')
      ∧ roundEntries u.ruAllocation g'
          = (if txFormat = TxFormat.DL_MU_TX then [] else roundEntries u.ruAllocation g)
            ++ [⟨aid, num, trigger, hdr, false⟩] := by
  obtain ⟨g', self', num, hrecv, hentries⟩ :=
    ReceiveMpdu_trigger_registers env hdr trigger
      (StartFrameExchange txFormat dlPsduMapEmpty ulTrigger macHdr g ul).2.1 self aid u
      hsta huser hsender haddr hslots htype
  refine ⟨g', self', num, hrecv, ?_⟩
  rw [hentries]
  congr 1
  have hinfo := StartFrameExchange_staRuInfo txFormat dlPsduMapEmpty ulTrigger macHdr g ul
  unfold roundEntries
  rw [hinfo]
  split_ifs
  · rfl
  · rfl

/-- C27 (amended) at a concrete input: station 5 has an entry on the RU, the AP starts an
exchange with the format `UL_MU_TX`, and station 1 registers: two entries. -/
theorem C27_entries_kept_until_dl_mu_ppdu_witness :
    (exSta 1).staMac = some (true, 1)
      ∧ FindUserInfoWithAid exTrigger 1 = some ⟨1, exRu, 0, 0, false⟩
      ∧ 0 < exTrigger.arbitrationSlots
      ∧ ∃ g' self' num,
          ReceiveMpdu_trigger exEnv exHdr exTrigger false
              (StartFrameExchange TxFormat.UL_MU_TX true exTrigger exHdr exGlobals1
                ⟨[], [], 0, 0, [], [], []⟩).2.1 (exSta 1)
            = some (g', self')
          ∧ roundEntries (⟨1, exRu, 0, 0, false⟩ : CtrlTriggerUserInfoField).ruAllocation g'
              = (if TxFormat.UL_MU_TX = TxFormat.DL_MU_TX then []
                 else roundEntries
                  (⟨1, exRu, 0, 0, false⟩ : CtrlTriggerUserInfoField).ruAllocation exGlobals1)
                ++ [⟨1, num, exTrigger, exHdr, false⟩] :=
  ⟨rfl, by decide, by decide,
    C27_entries_kept_until_dl_mu_ppdu TxFormat.UL_MU_TX true exTrigger exHdr exGlobals1
      ⟨[], [], 0, 0, [], [], []⟩ exEnv exHdr exTrigger (exSta 1) 1 ⟨1, exRu, 0, 0, false⟩
      rfl (by decide) (by decide) (Or.inr ⟨rfl, rfl⟩) (by decide) (Or.inr rfl)⟩

/-! ## Lemmas: the candidates of a solicitation -/

theorem ulCandidateLoop_candidates (env : MuEnv) (width : Nat) (p : MasterInfo → Bool)
    (limit : Nat) (full : List MasterInfo) :
    ∀ (l : List MasterInfo) (pos : Nat) (txVector : HeMuUserInfoMap)
      (candidates : List Candidate),
      (∀ i sta, l[i]? = some sta → full[pos + i]? = some sta) →
      ∀ c ∈ (ulCandidateLoop env width p limit l pos txVector candidates).2,
        c ∈ candidates
          ∨ ∃ sta, full[c.first]? = some sta ∧ p sta = true
              ∧ ∃ tid, tid < 8 ∧ env.baAgreementEstablished sta.address tid = true := by
  intro l
  induction l with
  | nil =>
    intro pos txVector candidates _ c hc
    exact Or.inl hc
  | cons sta rest ih =>
    intro pos txVector candidates hpos c hc
    have hrest : ∀ i s, rest[i]? = some s → full[pos + 1 + i]? = some s := by
      intro i s hi
      have := hpos (i + 1) s (by simpa using hi)
      rw [show pos + 1 + i = pos + (i + 1) by omega]
      exact this
    have hsta : full[pos]? = some sta := by simpa using hpos 0 sta (by simp)
    unfold ulCandidateLoop at hc
    split_ifs at hc with hlim hp hall
    · exact ih (pos + 1) _ _ hrest c hc
    · exact ih (pos + 1) _ _ hrest c hc
    · rcases ih (pos + 1) _ _ hrest c hc with h | h
      · rcases List.mem_append.1 h with h | h
        · exact Or.inl h
        · right
          simp only [List.mem_singleton] at h
          subst h
          refine ⟨sta, hsta, by simpa using hp, ?_⟩
          have hex : ¬ ∀ tid ∈ List.range 8,
              (!env.baAgreementEstablished sta.address tid) = true := by
            intro hcon
            exact hall (List.all_eq_true.2 hcon)
          push_neg at hex
          obtain ⟨tid, htid, hba⟩ := hex
          exact ⟨tid, List.mem_range.1 htid, by simpa using hba⟩
      · exact Or.inr h
    · exact Or.inl hc

theorem FinalizeTxVector_candidates (heRu : HeRuModel) (s : RrMultiUserScheduler)
    (staList : List MasterInfo) (txVector : HeMuUserInfoMap)
    (r : HeMuUserInfoMap × List Candidate)
    (h : FinalizeTxVector heRu s staList txVector = some r) :
    ∀ c ∈ r.2, c ∈ s.m_candidates := by
  unfold FinalizeTxVector at h
  simp only at h
  (repeat' (first | split at h | split_ifs at h)) <;>
    first
      | (simp only [Option.some.injEq] at h
         rw [← h]
         intro c hc
         exact List.mem_of_mem_take hc)
      | (cases h)

/-- What `GetTxVectorForUlMu` changes in the object: the candidate list. -/
theorem GetTxVectorForUlMu_s (env : MuEnv) (p : MasterInfo → Bool) (s s1 : RrScheduler)
    (txVector : HeMuUserInfoMap) (h : GetTxVectorForUlMu env p s = some (txVector, s1)) :
    s1 = { s with base := { s.base with m_candidates := s1.base.m_candidates } } := by
  unfold GetTxVectorForUlMu at h
  simp only at h
  (repeat' (first | split at h | split_ifs at h)) <;>
    first
      | (cases h; rfl)
      | (cases h)

theorem GetTxVectorForUlMu_candidates (env : MuEnv) (p : MasterInfo → Bool)
    (s s1 : RrScheduler) (txVector : HeMuUserInfoMap)
    (h : GetTxVectorForUlMu env p s = some (txVector, s1)) :
    ∀ c ∈ s1.base.m_candidates,
      ∃ sta, s.m_staListUl[c.first]? = some sta ∧ p sta = true
        ∧ ∃ tid, tid < 8 ∧ env.baAgreementEstablished sta.address tid = true := by
  have hloop := fun limit => ulCandidateLoop_candidates env s.base.m_allowedWidth p limit
    s.m_staListUl s.m_staListUl 0 [] [] (by intro i sta hi; simpa using hi)
  unfold GetTxVectorForUlMu at h
  simp only at h
  (repeat' (first | split at h | split_ifs at h)) <;>
    first
      | (have hfin := ‹FinalizeTxVector _ _ _ _ = some _›
         cases h
         intro c hc
         have hmem := FinalizeTxVector_candidates _ _ _ _ _ hfin c hc
         rcases hloop _ c hmem with h0 | h0
         · simp at h0
         · exact h0)
      | (cases h
         intro c hc
         rcases hloop _ c hc with h0 | h0
         · simp at h0
         · exact h0)
      | (cases h)

/-! ## C28: who is solicited by a Basic Trigger Frame -/

/-- C28 (counterexample): the station with address 12 (association id 2) reported the
buffer status 255, the others 0.  `TrySendingBasicTf` returns `UL_MU_TX` with a Basic
Trigger Frame soliciting exactly that station, which is the one candidate collected. -/
theorem C28_unknown_status_solicited_counterexample :
    (exMuEnv none (fun _ => true) (fun a => if a = 12 then 255 else 0)).getMaxBufferStatus 12
        = 255
      ∧ (TrySendingBasicTf (exMuEnv none (fun _ => true) (fun a => if a = 12 then 255 else 0))
            (exMuWorld 600 exTimeMin)).map
          (fun r => (r.1, r.2.s.m_trigger.triggerType,
            r.2.s.m_trigger.userInfoFields.map (fun u => u.aid12)))
        = some (TxFormat.UL_MU_TX, TriggerType.BASIC_TRIGGER, [2])
      ∧ (GetTxVectorForUlMu (exMuEnv none (fun _ => true) (fun a => if a = 12 then 255 else 0))
            (basicCanBeSolicited
              (exMuEnv none (fun _ => true) (fun a => if a = 12 then 255 else 0)))
            (exMuWorld 600 exTimeMin).s).map
          (fun r => r.2.base.m_candidates.map
            (fun c => ((exMuWorld 600 exTimeMin).s.m_staListUl[c.first]?).map
              (fun sta => sta.address)))
        = some [some 12] :=
  ⟨rfl, rfl, rfl⟩

/-- C28 (amended): when `TrySendingBasicTf` returns a format other than `SU_TX`, it has
collected the candidates with `GetTxVectorForUlMu`, and every candidate is a station of
`m_staListUl` whose reported buffer status is not zero (255, for unknown, and 254
included) and which has a Block Ack agreement for some TID below 8. -/
theorem C28_candidates_have_nonzero_status (env : MuEnv) (w w' : MuWorld) (txFormat : TxFormat)
    (h : TrySendingBasicTf env w = some (txFormat, w')) (hformat : txFormat ≠ TxFormat.SU_TX) :
    ∃ txVector s1,
      GetTxVectorForUlMu env (basicCanBeSolicited env) w.s = some (txVector, s1)
        ∧ ∀ c ∈ s1.base.m_candidates,
            ∃ sta, w.s.m_staListUl[c.first]? = some sta
              ∧ 0 < env.getMaxBufferStatus sta.address % 256
              ∧ ∃ tid, tid < 8 ∧ env.baAgreementEstablished sta.address tid = true := by
  unfold TrySendingBasicTf at h
  split_ifs at h
  · cases h
    exact absurd rfl hformat
  · split at h
    · simp only [reduceCtorEq] at h
    · rename_i txVector s1 htx
      refine ⟨txVector, s1, htx, ?_⟩
      intro c hc
      obtain ⟨sta, hsta, hp, hba⟩ := GetTxVectorForUlMu_candidates env _ _ _ _ htx c hc
      refine ⟨sta, hsta, ?_, hba⟩
      simpa [basicCanBeSolicited] using hp

/-- C28 (amended) at a concrete input: the round of the counterexample. -/
theorem C28_candidates_have_nonzero_status_witness :
    ∃ w', TrySendingBasicTf (exMuEnv none (fun _ => true) (fun a => if a = 12 then 255 else 0))
          (exMuWorld 600 exTimeMin) = some (TxFormat.UL_MU_TX, w')
      ∧ ∃ txVector s1,
          GetTxVectorForUlMu (exMuEnv none (fun _ => true) (fun a => if a = 12 then 255 else 0))
              (basicCanBeSolicited
                (exMuEnv none (fun _ => true) (fun a => if a = 12 then 255 else 0)))
              (exMuWorld 600 exTimeMin).s = some (txVector, s1)
            ∧ ∀ c ∈ s1.base.m_candidates,
                ∃ sta, (exMuWorld 600 exTimeMin).s.m_staListUl[c.first]? = some sta
                  ∧ 0 < (exMuEnv none (fun _ => true)
                      (fun a => if a = 12 then 255 else 0)).getMaxBufferStatus sta.address % 256
                  ∧ ∃ tid, tid < 8
                    ∧ (exMuEnv none (fun _ => true)
                        (fun a => if a = 12 then 255 else 0)).baAgreementEstablished
                          sta.address tid = true :=
  ⟨_, rfl,
    C28_candidates_have_nonzero_status
      (exMuEnv none (fun _ => true) (fun a => if a = 12 then 255 else 0))
      (exMuWorld 600 exTimeMin) _ TxFormat.UL_MU_TX rfl (by decide)⟩

/-! ## C29: the largest buffer size -/

theorem foldr_max_init (l : List Nat) (acc x : Nat) :
    l.foldr max (max acc x) = max x (l.foldr max acc) := by
  induction l with
  | nil => simp [max_comm]
  | cons y rest ih =>
    simp only [List.foldr_cons, ih]
    rw [max_left_comm]

theorem foldr_max_perm (l l' : List Nat) (h : l'.Perm l) (acc : Nat) :
    l'.foldr max acc = l.foldr max acc := by
  induction h with
  | nil => rfl
  | cons x _ ih => simp only [List.foldr_cons, ih]
  | swap x y l => simp only [List.foldr_cons]; rw [max_left_comm]
  | trans _ _ ih1 ih2 => rw [ih1, ih2]

theorem specBufferSize_le (ulPsduSize queueSize : Nat) (hsize : ulPsduSize < 2 ^ 32)
    (hq : queueSize < 256) : specBufferSize ulPsduSize queueSize ≤ 0xffffffff := by
  unfold specBufferSize
  split_ifs <;> omega

theorem maxBufferSizeStep_spec (env : MuEnv) (ulPsduSize : Nat)
    (acc : Nat) (hacc : acc ≤ 0xffffffff) (c : Nat × HeMuUserInfo)
    (hknown : (mapFind c.1 env.getStaList).isSome = true) :
    maxBufferSizeStep env ulPsduSize acc c
      = some (max acc (specBufferSize ulPsduSize (reportedQueueSize env c.1))) := by
  obtain ⟨address, haddr⟩ := Option.isSome_iff_exists.1 hknown
  unfold maxBufferSizeStep reportedQueueSize specBufferSize
  simp only [haddr]
  split_ifs
  · rfl
  · rw [max_eq_right hacc]
  · rfl

theorem maxBufferSize_foldlM (env : MuEnv) (ulPsduSize : Nat) (hsize : ulPsduSize < 2 ^ 32) :
    ∀ (txVector : HeMuUserInfoMap) (acc : Nat), acc ≤ 0xffffffff →
      (∀ c ∈ txVector, (mapFind c.1 env.getStaList).isSome = true) →
      txVector.foldlM (maxBufferSizeStep env ulPsduSize) acc
        = some ((txVector.map
            (fun c => specBufferSize ulPsduSize (reportedQueueSize env c.1))).foldr max acc) := by
  intro txVector
  induction txVector with
  | nil => intro acc _ _; rfl
  | cons c rest ih =>
    intro acc hacc hknown
    have hq : reportedQueueSize env c.1 < 256 := by
      unfold reportedQueueSize
      split
      · exact Nat.mod_lt _ (by norm_num)
      · norm_num
    rw [List.foldlM_cons,
      maxBufferSizeStep_spec env ulPsduSize acc hacc c (hknown c (List.mem_cons_self _ _))]
    simp only [Option.some_bind, Option.bind_eq_bind]
    rw [ih _ (max_le hacc (specBufferSize_le _ _ hsize hq))
      (fun c' hc' => hknown c' (List.mem_cons_of_mem _ hc'))]
    simp only [List.map_cons, List.foldr_cons, foldr_max_init]

/-- C29: the loop of `TrySendingBasicTf` over the stations of the TX vector (each known to
the station list of the AP, `UlPsduSize` a 32-bit value) ends with `maxBufferSize` equal to
the maximum, over these stations, of `f` of the queue size the station reported, where `f`
is `UlPsduSize` for 255, `2^32 - 1` for 254 and 256 times the queue size otherwise (0 for
no station); the value is the same for every order of the stations. -/
theorem C29_max_buffer_size_is_maximum (env : MuEnv) (ulPsduSize : Nat)
    (txVector txVector' : HeMuUserInfoMap)
    (hsize : ulPsduSize < 2 ^ 32)
    (hknown : ∀ c ∈ txVector, (mapFind c.1 env.getStaList).isSome = true)
    (hperm : txVector'.Perm txVector) :
    txVector.foldlM (maxBufferSizeStep env ulPsduSize) 0
        = some ((txVector.map
            (fun c => specBufferSize ulPsduSize (reportedQueueSize env c.1))).foldr max 0)
      ∧ (∀ c ∈ txVector,
          specBufferSize ulPsduSize (reportedQueueSize env c.1)
            ≤ (txVector.map
                (fun c => specBufferSize ulPsduSize (reportedQueueSize env c.1))).foldr max 0)
      ∧ (txVector ≠ [] →
          ∃ c ∈ txVector,
            (txVector.map
                (fun c => specBufferSize ulPsduSize (reportedQueueSize env c.1))).foldr max 0
              = specBufferSize ulPsduSize (reportedQueueSize env c.1))
      ∧ txVector'.foldlM (maxBufferSizeStep env ulPsduSize) 0
          = txVector.foldlM (maxBufferSizeStep env ulPsduSize) 0 := by
  have hknown' : ∀ c ∈ txVector', (mapFind c.1 env.getStaList).isSome = true :=
    fun c hc => hknown c (hperm.mem_iff.1 hc)
  refine ⟨maxBufferSize_foldlM env ulPsduSize hsize txVector 0 (by norm_num) hknown, ?_, ?_, ?_⟩
  · intro c hc
    clear hknown hknown' hperm
    induction txVector with
    | nil => simp at hc
    | cons d rest ih =>
      simp only [List.map_cons, List.foldr_cons]
      rcases List.mem_cons.1 hc with h | h
      · subst h
        exact le_max_left _ _
      · exact le_trans (ih h) (le_max_right _ _)
  · intro hne
    clear hknown hknown' hperm
    induction txVector with
    | nil => exact absurd rfl hne
    | cons d rest ih =>
      simp only [List.map_cons, List.foldr_cons]
      by_cases hrest : rest = []
      · subst hrest
        exact ⟨d, List.mem_cons_self _ _, by simp⟩
      · obtain ⟨c, hc, heq⟩ := ih hrest
        rcases le_total (specBufferSize ulPsduSize (reportedQueueSize env d.1))
            ((rest.map
              (fun c => specBufferSize ulPsduSize (reportedQueueSize env c.1))).foldr max 0)
          with hle | hle
        · exact ⟨c, List.mem_cons_of_mem _ hc, by rw [max_eq_right hle, heq]⟩
        · exact ⟨d, List.mem_cons_self _ _, by rw [max_eq_left hle]⟩
  · rw [maxBufferSize_foldlM env ulPsduSize hsize txVector' 0 (by norm_num) hknown',
      maxBufferSize_foldlM env ulPsduSize hsize txVector 0 (by norm_num) hknown]
    congr 1
    exact foldr_max_perm _ _ (hperm.map _) 0

/-- C29 at a concrete input: stations 1 to 3 reported 3, 255 and 254 with `UlPsduSize`
600; the loop gives `2^32 - 1` in this order and in the reverse one. -/
theorem C29_max_buffer_size_is_maximum_witness :
    (600 : Nat) < 2 ^ 32
      ∧ ([(3, ⟨exRu, 7, 1⟩), (2, ⟨exRu, 7, 1⟩), (1, ⟨exRu, 7, 1⟩)] : HeMuUserInfoMap).Perm
          [(1, ⟨exRu, 7, 1⟩), (2, ⟨exRu, 7, 1⟩), (3, ⟨exRu, 7, 1⟩)]
      ∧ ([(1, ⟨exRu, 7, 1⟩), (2, ⟨exRu, 7, 1⟩), (3, ⟨exRu, 7, 1⟩)] : HeMuUserInfoMap).foldlM
          (maxBufferSizeStep
            (exMuEnv none (fun _ => true)
              (fun a => if a = 11 then 3 else if a = 12 then 255 else 254)) 600) 0
        = some 4294967295 :=
  ⟨by norm_num, by decide,
    ((C29_max_buffer_size_is_maximum
      (exMuEnv none (fun _ => true) (fun a => if a = 11 then 3 else if a = 12 then 255 else 254))
      600 [(1, ⟨exRu, 7, 1⟩), (2, ⟨exRu, 7, 1⟩), (3, ⟨exRu, 7, 1⟩)]
      [(3, ⟨exRu, 7, 1⟩), (2, ⟨exRu, 7, 1⟩), (1, ⟨exRu, 7, 1⟩)] (by norm_num)
      (by decide) (by decide)).1).trans rfl⟩

/-! ## Lemmas: the duration granted by the Basic attempt -/

theorem foldl_minDuration (d : CtrlTriggerUserInfoField → Time) (t : Time) :
    ∀ (l : List CtrlTriggerUserInfoField) (acc : Time), 0 < acc → (∀ u ∈ l, 0 < d u) →
      (t < l.foldl (fun m u => if m = 0 then d u else min m (d u)) acc
        ↔ t < acc ∧ ∀ u ∈ l, t < d u) := by
  intro l
  induction l with
  | nil => intro acc _ _; simp
  | cons u rest ih =>
    intro acc hacc hpos
    have hu := hpos u (List.mem_cons_self _ _)
    have hne : acc ≠ 0 := ne_of_gt hacc
    rw [List.foldl_cons]
    simp only [hne, if_false]
    rw [ih (min acc (d u)) (lt_min hacc hu) (fun v hv => hpos v (List.mem_cons_of_mem _ hv))]
    simp only [lt_min_iff, List.mem_cons, forall_eq_or_imp]
    tauto

/-- With positive durations and at least one User Info field, `minDuration` is a lower
bound exactly of what lies below the duration of every station. -/
theorem lt_minTxDuration_iff (env : MuEnv) (size : Nat) (txVector : HeMuUserInfoMap)
    (trigger : CtrlTriggerHeader) (t : Time)
    (husers : trigger.userInfoFields ≠ [])
    (hpos : ∀ u ∈ trigger.userInfoFields, 0 < env.calculateTxDuration size txVector u.aid12) :
    t < minTxDuration env size txVector trigger
      ↔ ∀ u ∈ trigger.userInfoFields, t < env.calculateTxDuration size txVector u.aid12 := by
  unfold minTxDuration
  cases hl : trigger.userInfoFields with
  | nil => exact absurd hl husers
  | cons u rest =>
    rw [hl] at hpos
    rw [List.foldl_cons]
    simp only [if_true]
    rw [foldl_minDuration (fun u => env.calculateTxDuration size txVector u.aid12) t rest _
      (hpos u (List.mem_cons_self _ _)) (fun v hv => hpos v (List.mem_cons_of_mem _ hv))]
    simp only [List.mem_cons, forall_eq_or_imp]

theorem addTriggerFrame_congr (env : MuEnv) (triggerType : TriggerType)
    (txVector : HeMuUserInfoMap) (s s' : RrScheduler)
    (h1 : s'.m_txParams = s.m_txParams) (h2 : s'.m_availableTime = s.m_availableTime) :
    addTriggerFrame env triggerType txVector s' = addTriggerFrame env triggerType txVector s := by
  unfold addTriggerFrame
  rw [h1, h2]

theorem findIf_isNone_any_eq_false (n : Nat) (staList : List MasterInfo)
    (h : (aidRange n).all (fun i => staList.any (fun sta => sta.aid == i)) = true) :
    (aidRange n).any (fun i => (findIf (fun sta => sta.aid == i) staList).isNone) = false := by
  rw [List.any_eq_false]
  intro i hi
  rw [List.all_eq_true] at h
  obtain ⟨sta, hsta, hp⟩ := List.any_eq_true.1 (h i hi)
  obtain ⟨r, hr⟩ := findIf_isSome_of_mem (fun sta => sta.aid == i) staList sta hsta hp
  simp [hr]

theorem basicFinish_returns (env : MuEnv) (txVector : HeMuUserInfoMap)
    (trigger : CtrlTriggerHeader) (duration : Time) (w : MuWorld)
    (hvalid : candidatesValid w.s.m_staListUl txVector w.s.base.m_candidates = true) :
    ∃ w', basicFinish env txVector trigger duration w = some (TxFormat.UL_MU_TX, w') := by
  obtain ⟨debited, hcredits, _, _⟩ := UpdateCredits_spec env.heRu w.s.base w.s.m_staListUl
    (env.toDoubleUs (env.convertHeTbPpduDurationToLSigLength duration txVector).2) txVector
    hvalid
  obtain ⟨out, hout, _, _⟩ := debitCandidates_spec env.heRu.getBandwidth
    (env.toDoubleUs (env.convertHeTbPpduDurationToLSigLength duration txVector).2
      / ((accumulateBandwidth env.heRu.getBandwidth (buildRuMap txVector) : Int) : ℚ))
    txVector w.s.base.m_candidates
    (assignCredits
      (env.toDoubleUs (env.convertHeTbPpduDurationToLSigLength duration txVector).2
        / (w.s.m_staListUl.length : ℚ)) w.s.base.m_maxCredits w.s.m_staListUl)
    (candidatesValid_assignCredits _ _ _ _ _ hvalid)
  unfold basicFinish candidatesAfterSort
  simp only [hcredits, hout]
  exact ⟨_, rfl⟩

theorem foldl_max_nonneg (f : CtrlTriggerUserInfoField → Time)
    (l : List CtrlTriggerUserInfoField) (acc : Time) :
    acc ≤ l.foldl (fun a userInfo => max a (f userInfo)) acc := by
  induction l generalizing acc with
  | nil => exact le_refl _
  | cons u rest ih =>
    rw [List.foldl_cons]
    exact le_trans (le_max_left _ _) (ih _)

theorem basicTrigger_outcome (env : MuEnv) (txVector : HeMuUserInfoMap) (maxBufferSize : Nat)
    (w : MuWorld) (maxDuration : Time)
    (hadd : (addTriggerFrame env TriggerType.BASIC_TRIGGER txVector w.s).1 = true)
    (hallowed : allowedDuration env
      (addTriggerFrame env TriggerType.BASIC_TRIGGER txVector w.s).2 w.s.m_availableTime
        = some maxDuration)
    (hvalid : candidatesValid w.s.m_staListUl txVector w.s.base.m_candidates = true) :
    ∃ w', basicTrigger env txVector maxBufferSize w
      = some ((if w.s.m_availableTime ≠ env.timeMin ∧ env.isNegative maxDuration = true then
                TxFormat.NO_TX
              else
                match grantedDuration env w.s.m_ulPsduSize maxBufferSize txVector
                    (env.makeTrigger TriggerType.BASIC_TRIGGER txVector) maxDuration with
                | none => TxFormat.NO_TX
                | some _ => TxFormat.UL_MU_TX), w') := by
  unfold basicTrigger
  simp only [hadd, Bool.true_eq_false, if_false, hallowed]
  by_cases hneg : w.s.m_availableTime ≠ env.timeMin ∧ env.isNegative maxDuration = true
  · simp only [if_pos hneg]
    exact ⟨_, rfl⟩
  · simp only [if_neg hneg]
    cases hg : grantedDuration env w.s.m_ulPsduSize maxBufferSize txVector
        (env.makeTrigger TriggerType.BASIC_TRIGGER txVector) maxDuration with
    | none => exact ⟨_, rfl⟩
    | some duration =>
      obtain ⟨w', hw'⟩ := basicFinish_returns env txVector
        (env.makeTrigger TriggerType.BASIC_TRIGGER txVector) duration
        { w with s :=
          { w.s with
            m_trigger := env.makeTrigger TriggerType.BASIC_TRIGGER txVector
            m_triggerMacHdr :=
              env.getTriggerFrame (env.makeTrigger TriggerType.BASIC_TRIGGER txVector)
            m_txParams := (addTriggerFrame env TriggerType.BASIC_TRIGGER txVector w.s).2 } }
        hvalid
      exact ⟨w', hw'⟩

/-! ## C30: the outcome of the Basic attempt -/

/-- C30: `TrySendingBasicTf` has built a non-empty TX vector with a positive
`maxBufferSize`, `TryAddMpdu` has accepted the Trigger Frame, and the allowed duration
`maxDuration` (the maximum PPDU duration, lowered when there is a time limit to what the
available time leaves after the protection, the Trigger Frame, a SIFS and the
acknowledgment) is not negative.  When the time needed for `maxBufferSize` does not fit,
i.e. is not shorter than `maxDuration`, and `maxDuration` is shorter than the time each
solicited station needs for `UlPsduSize` bytes, the method returns `NO_TX`; in every other
case it returns `UL_MU_TX`.  `Time::IsNegative` is only known to hold of no positive time.
The remaining hypotheses are those under which the method runs to its end: the log loop
finds a station for every association id up to `m_nStations`, every candidate has its entry
in the TX vector, the Trigger Frame has User Info fields, and sending takes a positive
time. -/
theorem C30_basic_attempt_grant_or_no_tx (env : MuEnv) (w : MuWorld)
    (txVector : HeMuUserInfoMap) (s1 : RrScheduler) (maxBufferSize : Nat) (maxDuration : Time)
    (hsta : w.s.m_staListUl ≠ [])
    (hsize : w.s.m_ulPsduSize ≠ 0)
    (hids : (aidRange w.s.m_nStations).all
      (fun i => w.s.m_staListUl.any (fun sta => sta.aid == i)) = true)
    (htx : GetTxVectorForUlMu env (basicCanBeSolicited env) w.s = some (txVector, s1))
    (hne : txVector ≠ [])
    (hbuf : txVector.foldlM (maxBufferSizeStep env w.s.m_ulPsduSize) 0 = some maxBufferSize)
    (hbufpos : maxBufferSize ≠ 0)
    (hadd : (addTriggerFrame env TriggerType.BASIC_TRIGGER txVector w.s).1 = true)
    (hallowed : allowedDuration env
      (addTriggerFrame env TriggerType.BASIC_TRIGGER txVector w.s).2 w.s.m_availableTime
        = some maxDuration)
    (hisneg : ∀ t : Time, env.isNegative t = true → t ≤ 0)
    (hnonneg : w.s.m_availableTime ≠ env.timeMin → 0 ≤ maxDuration)
    (hvalid : candidatesValid w.s.m_staListUl txVector s1.base.m_candidates = true)
    (husers : (env.makeTrigger TriggerType.BASIC_TRIGGER txVector).userInfoFields ≠ [])
    (hpos : ∀ u ∈ (env.makeTrigger TriggerType.BASIC_TRIGGER txVector).userInfoFields,
      0 < env.calculateTxDuration w.s.m_ulPsduSize txVector u.aid12) :
    ((¬ maxTxDuration env maxBufferSize txVector
            (env.makeTrigger TriggerType.BASIC_TRIGGER txVector) < maxDuration
        ∧ ∀ u ∈ (env.makeTrigger TriggerType.BASIC_TRIGGER txVector).userInfoFields,
            maxDuration < env.calculateTxDuration w.s.m_ulPsduSize txVector u.aid12) →
      ∃ w', TrySendingBasicTf env w = some (TxFormat.NO_TX, w'))
    ∧ (¬ (¬ maxTxDuration env maxBufferSize txVector
              (env.makeTrigger TriggerType.BASIC_TRIGGER txVector) < maxDuration
          ∧ ∀ u ∈ (env.makeTrigger TriggerType.BASIC_TRIGGER txVector).userInfoFields,
              maxDuration < env.calculateTxDuration w.s.m_ulPsduSize txVector u.aid12) →
      ∃ w', TrySendingBasicTf env w = some (TxFormat.UL_MU_TX, w')) := by
  have hs1 := GetTxVectorForUlMu_s env _ _ _ _ htx
  have hsize1 : s1.m_ulPsduSize = w.s.m_ulPsduSize := by rw [hs1]
  have hlist1 : s1.m_staListUl = w.s.m_staListUl := by rw [hs1]
  have hparams1 : s1.m_txParams = w.s.m_txParams := by rw [hs1]
  have havail1 : s1.m_availableTime = w.s.m_availableTime := by rw [hs1]
  have hcongr := addTriggerFrame_congr env TriggerType.BASIC_TRIGGER txVector w.s
    { s1 with m_isNotAfterBsrp := true } hparams1 havail1
  obtain ⟨w', hw'⟩ := basicTrigger_outcome env txVector maxBufferSize
    { w with m_bsrpList := [], s := { s1 with m_isNotAfterBsrp := true } } maxDuration
    (by rw [hcongr]; exact hadd)
    (by rw [hcongr]; simp only [havail1]; exact hallowed)
    (by simp only [hlist1]; exact hvalid)
  have hrun : TrySendingBasicTf env w
      = basicTrigger env txVector maxBufferSize
          { w with m_bsrpList := [], s := { s1 with m_isNotAfterBsrp := true } } := by
    unfold TrySendingBasicTf
    simp only [isEmpty_eq_false_of_ne_nil _ hsta, Bool.false_eq_true, if_false, hsize,
      findIf_isNone_any_eq_false _ _ hids, htx, isEmpty_eq_false_of_ne_nil _ hne, hsize1, hbuf,
      hbufpos]
  have hmin := lt_minTxDuration_iff env w.s.m_ulPsduSize txVector
    (env.makeTrigger TriggerType.BASIC_TRIGGER txVector) maxDuration husers hpos
  rw [hrun, hw']
  simp only [hsize1, havail1]
  by_cases hneg : w.s.m_availableTime ≠ env.timeMin ∧ env.isNegative maxDuration = true
  · have hzero : maxDuration = 0 := le_antisymm (hisneg _ hneg.2) (hnonneg hneg.1)
    have hcase : ¬ maxTxDuration env maxBufferSize txVector
            (env.makeTrigger TriggerType.BASIC_TRIGGER txVector) < maxDuration
        ∧ ∀ u ∈ (env.makeTrigger TriggerType.BASIC_TRIGGER txVector).userInfoFields,
            maxDuration < env.calculateTxDuration w.s.m_ulPsduSize txVector u.aid12 := by
      rw [hzero]
      exact ⟨not_lt.2 (foldl_max_nonneg _ _ 0), hpos⟩
    simp only [if_pos hneg]
    exact ⟨fun _ => ⟨w', rfl⟩, fun h => absurd hcase h⟩
  · simp only [if_neg hneg]
    constructor
    · rintro ⟨hnot, hshort⟩
      refine ⟨w', ?_⟩
      unfold grantedDuration
      simp only [hnot, if_false, hmin.2 hshort, if_true]
    · intro hcase
      refine ⟨w', ?_⟩
      unfold grantedDuration
      by_cases hlt : maxTxDuration env maxBufferSize txVector
          (env.makeTrigger TriggerType.BASIC_TRIGGER txVector) < maxDuration
      · simp only [hlt, if_true]
      · have hnshort : ¬ maxDuration < minTxDuration env w.s.m_ulPsduSize txVector
            (env.makeTrigger TriggerType.BASIC_TRIGGER txVector) :=
          fun h => hcase ⟨hlt, hmin.1 h⟩
        simp only [hlt, if_false, hnshort]

/-- C30 at a concrete input: four stations are solicited, the largest buffer (768 bytes)
needs 46144, `UlPsduSize` (600 bytes) needs 44800, and the available time leaves 44799:
the attempt returns `NO_TX`. -/
theorem C30_basic_attempt_grant_or_no_tx_witness :
    (exMuWorld 600 110799).s.m_staListUl ≠ []
      ∧ (exMuWorld 600 110799).s.m_ulPsduSize ≠ 0
      ∧ (∃ txVector s1,
          GetTxVectorForUlMu
              (exMuEnv none (fun _ => true) (fun a => if a = 12 then 255 else 3))
              (basicCanBeSolicited
                (exMuEnv none (fun _ => true) (fun a => if a = 12 then 255 else 3)))
              (exMuWorld 600 110799).s = some (txVector, s1)
            ∧ txVector ≠ []
            ∧ txVector.foldlM
                (maxBufferSizeStep
                  (exMuEnv none (fun _ => true) (fun a => if a = 12 then 255 else 3)) 600) 0
              = some 768
            ∧ allowedDuration
                (exMuEnv none (fun _ => true) (fun a => if a = 12 then 255 else 3))
                (addTriggerFrame
                  (exMuEnv none (fun _ => true) (fun a => if a = 12 then 255 else 3))
                  TriggerType.BASIC_TRIGGER txVector (exMuWorld 600 110799).s).2 110799
              = some 44799)
      ∧ ∃ w', TrySendingBasicTf
            (exMuEnv none (fun _ => true) (fun a => if a = 12 then 255 else 3))
            (exMuWorld 600 110799) = some (TxFormat.NO_TX, w') :=
  ⟨by decide, by decide, ⟨_, _, rfl, by decide, rfl, rfl⟩,
    (C30_basic_attempt_grant_or_no_tx
      (exMuEnv none (fun _ => true) (fun a => if a = 12 then 255 else 3))
      (exMuWorld 600 110799) _ _ 768 44799 (by decide) (by decide) (by decide) rfl (by decide)
      rfl (by decide) rfl rfl (fun t h => of_decide_eq_true h) (fun _ => by decide) (by decide)
      (by decide) (by decide)).1
      ⟨by decide, by decide⟩⟩

/-! ## C21: the BSRP attempt and the available time -/

/-- C21: a BSRP attempt that solicits at least one station (the TX vector built by
`GetTxVectorForUlMu` is not empty) with a finite available time (not `Time::Min ()`)
smaller than the transmission time of the Trigger Frame plus the longest QoS Null response
returns `NO_TX`.  The hypotheses on what `TryAddMpdu` leaves in the TX parameters are the
assertions of the method (a protection time, here not negative, a zero acknowledgment time
and a transmission time are set); SIFS is not negative. -/
theorem C21_poll_returns_no_tx_when_time_is_short (env : MuEnv) (w w1 : MuWorld)
    (txVector : HeMuUserInfoMap) (s1 : RrScheduler)
    (hsta : w.s.m_staListUl ≠ [])
    (hlists : bsrpLists w = some w1)
    (htx : GetTxVectorForUlMu env (fun _ => true) w.s = some (txVector, s1))
    (heligible : txVector ≠ [])
    (hfinite : w.s.m_availableTime ≠ env.timeMin)
    (hasserts : (addTriggerFrame env TriggerType.BSRP_TRIGGER txVector w.s).1 = true →
      ∃ protectionTime,
        (addTriggerFrame env TriggerType.BSRP_TRIGGER txVector w.s).2.m_protection
            = some protectionTime
          ∧ protectionTime ≠ env.timeMin ∧ 0 ≤ protectionTime
          ∧ (addTriggerFrame env TriggerType.BSRP_TRIGGER txVector w.s).2.m_acknowledgment
            = some 0
          ∧ (addTriggerFrame env TriggerType.BSRP_TRIGGER txVector w.s).2.m_txDuration
            ≠ env.timeMin)
    (hsifs : 0 ≤ env.sifs)
    (hshort : w.s.m_availableTime
      < (addTriggerFrame env TriggerType.BSRP_TRIGGER txVector w.s).2.m_txDuration
        + maxTxDuration env
            (env.getMaxSizeOfQosNullAmpdu (env.makeTrigger TriggerType.BSRP_TRIGGER txVector))
            txVector (env.makeTrigger TriggerType.BSRP_TRIGGER txVector)) :
    ∃ w', TrySendingBsrpTf env w = some (TxFormat.NO_TX, w') := by
  have hw1 := bsrpLists_s w w1 hlists
  have hs1 := GetTxVectorForUlMu_s env _ _ _ _ htx
  have hparams1 : s1.m_txParams = w.s.m_txParams := by rw [hs1]
  have havail1 : s1.m_availableTime = w.s.m_availableTime := by rw [hs1]
  have hcongr := addTriggerFrame_congr env TriggerType.BSRP_TRIGGER txVector w.s s1
    hparams1 havail1
  unfold TrySendingBsrpTf
  simp only [isEmpty_eq_false_of_ne_nil _ hsta, Bool.false_eq_true, if_false, hlists, hw1, htx,
    isEmpty_eq_false_of_ne_nil _ heligible]
  unfold bsrpTrigger
  simp only [hcongr, havail1]
  cases hadd : (addTriggerFrame env TriggerType.BSRP_TRIGGER txVector w.s).1
  · simp only [if_true]
    exact ⟨_, rfl⟩
  · obtain ⟨protectionTime, hp, hmin, hp0, hack, hdur⟩ := hasserts hadd
    have hgt : protectionTime
        + (addTriggerFrame env TriggerType.BSRP_TRIGGER txVector w.s).2.m_txDuration + env.sifs
        + maxTxDuration env
            (env.getMaxSizeOfQosNullAmpdu (env.makeTrigger TriggerType.BSRP_TRIGGER txVector))
            txVector (env.makeTrigger TriggerType.BSRP_TRIGGER txVector)
        > w.s.m_availableTime := by
      show (_ : Int) > _
      linarith
    simp only [Bool.true_eq_false, if_false, ne_eq, hfinite, not_false_eq_true, if_true, hp,
      hack, hmin, hdur, not_true_eq_false, or_self, hgt, decide_True]
    exact ⟨_, rfl⟩

/-- C21 at a concrete input: four stations are solicited, the Trigger Frame takes 50000
and the longest QoS Null response 40240, and the available time is 90000. -/
theorem C21_poll_returns_no_tx_when_time_is_short_witness :
    (exMuWorld 600 90000).s.m_staListUl ≠ []
      ∧ (exMuWorld 600 90000).s.m_availableTime
          ≠ (exMuEnv none (fun _ => true) (fun _ => 3)).timeMin
      ∧ (∃ txVector s1,
          GetTxVectorForUlMu (exMuEnv none (fun _ => true) (fun _ => 3)) (fun _ => true)
              (exMuWorld 600 90000).s = some (txVector, s1)
            ∧ txVector ≠ []
            ∧ (addTriggerFrame (exMuEnv none (fun _ => true) (fun _ => 3))
                TriggerType.BSRP_TRIGGER txVector (exMuWorld 600 90000).s).2.m_txDuration = 50000
            ∧ maxTxDuration (exMuEnv none (fun _ => true) (fun _ => 3))
                ((exMuEnv none (fun _ => true) (fun _ => 3)).getMaxSizeOfQosNullAmpdu
                  ((exMuEnv none (fun _ => true) (fun _ => 3)).makeTrigger
                    TriggerType.BSRP_TRIGGER txVector))
                txVector
                ((exMuEnv none (fun _ => true) (fun _ => 3)).makeTrigger
                  TriggerType.BSRP_TRIGGER txVector) = 40240)
      ∧ ∃ w', TrySendingBsrpTf (exMuEnv none (fun _ => true) (fun _ => 3))
          (exMuWorld 600 90000) = some (TxFormat.NO_TX, w') :=
  ⟨by decide, by decide, ⟨_, _, rfl, by decide, rfl, rfl⟩,
    C21_poll_returns_no_tx_when_time_is_short (exMuEnv none (fun _ => true) (fun _ => 3))
      (exMuWorld 600 90000) _ _ _ (by decide) rfl rfl (by decide) (by decide)
      (fun _ => ⟨0, rfl, by decide, le_refl _, rfl, by decide⟩) (by decide) (by decide)⟩

/-! ## C22: the outcomes of the BSRP attempt -/

/-- The outcomes of the part of `TrySendingBsrpTf` that builds the Trigger Frame: never
`SU_TX` or `DL_MU_TX`, and `NO_TX` only when `TryAddMpdu` rejects the Trigger Frame for the
available time or when the exchange does not fit into a finite available time. -/
theorem bsrpTrigger_outcome (env : MuEnv) (txVector : HeMuUserInfoMap) (w w' : MuWorld)
    (format : TxFormat) (h : bsrpTrigger env txVector w = some (format, w')) :
    (format = TxFormat.NO_TX ∨ format = TxFormat.UL_MU_TX)
      ∧ (format = TxFormat.NO_TX →
          (addTriggerFrame env TriggerType.BSRP_TRIGGER txVector w.s).1 = false
            ∨ (w.s.m_availableTime ≠ env.timeMin
                ∧ ∃ protectionTime,
                  (addTriggerFrame env TriggerType.BSRP_TRIGGER txVector w.s).2.m_protection
                      = some protectionTime
                    ∧ protectionTime
                        + (addTriggerFrame env TriggerType.BSRP_TRIGGER txVector w.s).2.m_txDuration
                        + env.sifs
                        + maxTxDuration env
                            (env.getMaxSizeOfQosNullAmpdu
                              (env.makeTrigger TriggerType.BSRP_TRIGGER txVector))
                            txVector (env.makeTrigger TriggerType.BSRP_TRIGGER txVector)
                      > w.s.m_availableTime)) := by
  unfold bsrpTrigger at h
  simp only at h
  by_cases hadd : (addTriggerFrame env TriggerType.BSRP_TRIGGER txVector w.s).1 = false
  · rw [if_pos hadd] at h
    cases h
    exact ⟨Or.inl rfl, fun _ => Or.inl hadd⟩
  · rw [if_neg hadd] at h
    by_cases hfin : w.s.m_availableTime = env.timeMin
    · have hne : ¬ (w.s.m_availableTime ≠ env.timeMin) := fun hc => hc hfin
      rw [if_neg hne] at h
      simp only at h
      cases hhead : (env.makeTrigger TriggerType.BSRP_TRIGGER txVector).userInfoFields.head? with
      | none => simp only [hhead] at h; cases h
      | some firstUser =>
        simp only [hhead] at h
        cases h
        exact ⟨Or.inr rfl, fun hno => by cases hno⟩
    · have hne : w.s.m_availableTime ≠ env.timeMin := hfin
      rw [if_pos hne] at h
      cases hp : (addTriggerFrame env TriggerType.BSRP_TRIGGER txVector w.s).2.m_protection with
      | none => simp only [hp] at h; cases h
      | some protectionTime =>
        cases hack : (addTriggerFrame env TriggerType.BSRP_TRIGGER txVector
            w.s).2.m_acknowledgment with
        | none => simp only [hp, hack] at h; cases h
        | some acknowledgmentTime =>
          simp only [hp, hack] at h
          by_cases hassert : protectionTime = env.timeMin ∨ acknowledgmentTime ≠ 0
              ∨ (addTriggerFrame env TriggerType.BSRP_TRIGGER txVector w.s).2.m_txDuration
                = env.timeMin
          · rw [if_pos hassert] at h
            cases h
          · rw [if_neg hassert] at h
            by_cases hgt : protectionTime
                + (addTriggerFrame env TriggerType.BSRP_TRIGGER txVector w.s).2.m_txDuration
                + env.sifs
                + maxTxDuration env
                    (env.getMaxSizeOfQosNullAmpdu
                      (env.makeTrigger TriggerType.BSRP_TRIGGER txVector))
                    txVector (env.makeTrigger TriggerType.BSRP_TRIGGER txVector)
                > w.s.m_availableTime
            · simp only [hgt, decide_True] at h
              cases h
              exact ⟨Or.inl rfl, fun _ => Or.inr ⟨hne, protectionTime, rfl, hgt⟩⟩
            · simp only [hgt, decide_False] at h
              cases hhead :
                  (env.makeTrigger TriggerType.BSRP_TRIGGER txVector).userInfoFields.head? with
              | none => simp only [hhead] at h; cases h
              | some firstUser =>
                simp only [hhead] at h
                cases h
                exact ⟨Or.inr rfl, fun hno => by cases hno⟩

/-- The outcomes of `TrySendingBsrpTf`: the format it returns and the state it returns it
from.  `SU_TX` comes from the test of the empty station list only, `DL_MU_TX` from the test
of the empty TX vector only, and `NO_TX` or `UL_MU_TX` from the Trigger Frame part. -/
theorem TrySendingBsrpTf_outcome (env : MuEnv) (w w' : MuWorld) (format : TxFormat)
    (h : TrySendingBsrpTf env w = some (format, w')) :
    (w.s.m_staListUl = [] ∧ format = TxFormat.SU_TX ∧ w' = w)
      ∨ (w.s.m_staListUl ≠ []
          ∧ ∃ w1 txVector s1, bsrpLists w = some w1
            ∧ GetTxVectorForUlMu env (fun _ => true) w.s = some (txVector, s1)
            ∧ ((txVector = [] ∧ format = TxFormat.DL_MU_TX ∧ w' = { w1 with s := s1 })
                ∨ (txVector ≠ []
                    ∧ bsrpTrigger env txVector { w1 with s := s1 } = some (format, w')))) := by
  unfold TrySendingBsrpTf at h
  by_cases hempty : w.s.m_staListUl = []
  · simp only [hempty, List.isEmpty_nil, if_true, Option.some.injEq, Prod.mk.injEq] at h
    exact Or.inl ⟨hempty, h.1.symm, h.2.symm⟩
  · right
    refine ⟨hempty, ?_⟩
    simp only [isEmpty_eq_false_of_ne_nil _ hempty, Bool.false_eq_true, if_false] at h
    cases hl : bsrpLists w with
    | none => simp [hl] at h
    | some w1 =>
      have hs := bsrpLists_s w w1 hl
      simp only [hl, hs] at h
      cases hg : GetTxVectorForUlMu env (fun _ => true) w.s with
      | none => simp [hg] at h
      | some r =>
        obtain ⟨txVector, s1⟩ := r
        simp only [hg] at h
        refine ⟨w1, txVector, s1, rfl, rfl, ?_⟩
        by_cases htx : txVector = []
        · simp only [htx, List.isEmpty_nil, if_true, Option.some.injEq, Prod.mk.injEq] at h
          exact Or.inl ⟨htx, h.1.symm, h.2.symm⟩
        · simp only [isEmpty_eq_false_of_ne_nil _ htx, Bool.false_eq_true, if_false] at h
          exact Or.inr ⟨htx, h⟩

/-- C22 (amended): `TrySendingBsrpTf` returns `SU_TX` (state unchanged) when `m_staListUl`
is empty, i.e. when no HE station is associated, and in no other case.  When stations are
associated but none of them has a Block Ack agreement for a TID below 8, it returns
`DL_MU_TX`: the candidate list is then empty and the stored trigger is the old one (the
conditions listed with this case are those under which the method reaches the decision: the
lists of the previous round can be updated, `HeRu` gives at least one RU, and the AP has its
HE configuration).  It returns `NO_TX` only for an insufficient time budget: some station is
solicited and either `TryAddMpdu` rejects the Trigger Frame for the available time, or the
available time is finite and smaller than protection time plus Trigger Frame plus SIFS plus
the longest QoS Null response. -/
theorem C22_poll_outcomes (env : MuEnv) (w : MuWorld) :
    (w.s.m_staListUl = [] → TrySendingBsrpTf env w = some (TxFormat.SU_TX, w))
      ∧ (∀ w', TrySendingBsrpTf env w = some (TxFormat.SU_TX, w') → w.s.m_staListUl = [])
      ∧ (w.s.m_staListUl ≠ [] →
          (bsrpLists w).isSome = true →
          1 ≤ (env.heRu.getEqualSizedRusForStations w.s.base.m_allowedWidth
            (min w.s.m_nStations w.s.m_staListUl.length)).2.1 →
          w.s.m_apMac = true → env.heConfiguration = true →
          (∀ sta ∈ w.s.m_staListUl, ∀ tid, tid < 8 →
            env.baAgreementEstablished sta.address tid = false) →
          ∃ w', TrySendingBsrpTf env w = some (TxFormat.DL_MU_TX, w')
            ∧ w'.s.base.m_candidates = [] ∧ w'.s.m_trigger = w.s.m_trigger
            ∧ w'.s.m_staListUl = w.s.m_staListUl)
      ∧ (∀ w', TrySendingBsrpTf env w = some (TxFormat.NO_TX, w') →
          ∃ txVector s1,
            GetTxVectorForUlMu env (fun _ => true) w.s = some (txVector, s1)
              ∧ txVector ≠ []
              ∧ ((addTriggerFrame env TriggerType.BSRP_TRIGGER txVector w.s).1 = false
                  ∨ (w.s.m_availableTime ≠ env.timeMin
                      ∧ ∃ protectionTime,
                        (addTriggerFrame env TriggerType.BSRP_TRIGGER txVector
                            w.s).2.m_protection = some protectionTime
                          ∧ protectionTime
                              + (addTriggerFrame env TriggerType.BSRP_TRIGGER txVector
                                  w.s).2.m_txDuration
                              + env.sifs
                              + maxTxDuration env
                                  (env.getMaxSizeOfQosNullAmpdu
                                    (env.makeTrigger TriggerType.BSRP_TRIGGER txVector))
                                  txVector (env.makeTrigger TriggerType.BSRP_TRIGGER txVector)
                            > w.s.m_availableTime))) := by
  refine ⟨?_, ?_, ?_, ?_⟩
  · intro hempty
    unfold TrySendingBsrpTf
    simp [hempty]
  · intro w' h
    rcases TrySendingBsrpTf_outcome env w w' _ h with
      ⟨hempty, _, _⟩ | ⟨_, w1, txVector, s1, _, _, hcase⟩
    · exact hempty
    · rcases hcase with ⟨_, hformat, _⟩ | ⟨_, htrigger⟩
      · cases hformat
      · rcases (bsrpTrigger_outcome env txVector _ w' _ htrigger).1 with hformat | hformat
        · cases hformat
        · cases hformat
  · intro hsta hlists hcount hap hconf hnone
    obtain ⟨w1, hw1⟩ := Option.isSome_iff_exists.1 hlists
    have hs := bsrpLists_s w w1 hw1
    have htx := GetTxVectorForUlMu_no_agreement env (fun _ => true) w1.s
      (by rw [hs]; exact hcount) (by rw [hs]; exact hap) hconf (by rw [hs]; exact hnone)
    refine ⟨{ w1 with s := { w1.s with base := { w1.s.base with m_candidates := [] } } },
      ?_, rfl, ?_, ?_⟩
    · unfold TrySendingBsrpTf
      simp only [isEmpty_eq_false_of_ne_nil _ hsta, Bool.false_eq_true, if_false, hw1, htx,
        List.isEmpty_nil, if_true]
    · simp only [hs]
    · simp only [hs]
  · intro w' h
    rcases TrySendingBsrpTf_outcome env w w' _ h with
      ⟨_, hformat, _⟩ | ⟨_, w1, txVector, s1, _, htx, hcase⟩
    · cases hformat
    · rcases hcase with ⟨_, hformat, _⟩ | ⟨hne, htrigger⟩
      · cases hformat
      · have hs1 := GetTxVectorForUlMu_s env _ _ _ _ htx
        have hparams1 : s1.m_txParams = w.s.m_txParams := by rw [hs1]
        have havail1 : s1.m_availableTime = w.s.m_availableTime := by rw [hs1]
        have hcongr := addTriggerFrame_congr env TriggerType.BSRP_TRIGGER txVector w.s s1
          hparams1 havail1
        have hout := (bsrpTrigger_outcome env txVector _ w' _ htrigger).2 rfl
        simp only [hcongr, havail1] at hout
        exact ⟨txVector, s1, htx, hne, hout⟩

/-- C22 (amended) at concrete inputs: four associated stations without agreement give
`DL_MU_TX`; four solicited stations and an available time of 90000, with a Trigger Frame of
50000 and a longest QoS Null response of 40240, give `NO_TX` for the time budget. -/
theorem C22_poll_outcomes_witness :
    ((exMuWorld 600 exTimeMin).s.m_staListUl ≠ []
        ∧ ∃ w', TrySendingBsrpTf (exMuEnv none (fun _ => false) (fun _ => 3))
              (exMuWorld 600 exTimeMin) = some (TxFormat.DL_MU_TX, w')
          ∧ w'.s.base.m_candidates = []
          ∧ w'.s.m_trigger = (exMuWorld 600 exTimeMin).s.m_trigger
          ∧ w'.s.m_staListUl = (exMuWorld 600 exTimeMin).s.m_staListUl)
      ∧ (TrySendingBsrpTf (exMuEnv none (fun _ => true) (fun _ => 3))
            (exMuWorld 600 90000)).map Prod.fst = some TxFormat.NO_TX
      ∧ ∃ txVector s1,
          GetTxVectorForUlMu (exMuEnv none (fun _ => true) (fun _ => 3)) (fun _ => true)
              (exMuWorld 600 90000).s = some (txVector, s1)
            ∧ txVector ≠ []
            ∧ ((addTriggerFrame (exMuEnv none (fun _ => true) (fun _ => 3))
                  TriggerType.BSRP_TRIGGER txVector (exMuWorld 600 90000).s).1 = false
                ∨ ((exMuWorld 600 90000).s.m_availableTime
                      ≠ (exMuEnv none (fun _ => true) (fun _ => 3)).timeMin
                    ∧ ∃ protectionTime,
                      (addTriggerFrame (exMuEnv none (fun _ => true) (fun _ => 3))
                          TriggerType.BSRP_TRIGGER txVector
                          (exMuWorld 600 90000).s).2.m_protection = some protectionTime
                        ∧ protectionTime
                            + (addTriggerFrame (exMuEnv none (fun _ => true) (fun _ => 3))
                                TriggerType.BSRP_TRIGGER txVector
                                (exMuWorld 600 90000).s).2.m_txDuration
                            + (exMuEnv none (fun _ => true) (fun _ => 3)).sifs
                            + maxTxDuration (exMuEnv none (fun _ => true) (fun _ => 3))
                                ((exMuEnv none (fun _ => true)
                                    (fun _ => 3)).getMaxSizeOfQosNullAmpdu
                                  ((exMuEnv none (fun _ => true) (fun _ => 3)).makeTrigger
                                    TriggerType.BSRP_TRIGGER txVector))
                                txVector
                                ((exMuEnv none (fun _ => true) (fun _ => 3)).makeTrigger
                                  TriggerType.BSRP_TRIGGER txVector)
                          > (exMuWorld 600 90000).s.m_availableTime)) :=
  ⟨⟨by decide,
      (C22_poll_outcomes (exMuEnv none (fun _ => false) (fun _ => 3))
        (exMuWorld 600 exTimeMin)).2.2.1 (by decide) rfl (by decide) rfl rfl
        (fun _ _ _ _ => rfl)⟩,
    rfl,
    (C22_poll_outcomes (exMuEnv none (fun _ => true) (fun _ => 3))
      (exMuWorld 600 90000)).2.2.2 _ rfl⟩

/-! ## C31: the stations selected by `GetTxVectorForUlMu` -/

theorem ulCandidateLoop_sublist (env : MuEnv) (width : Nat) (p : MasterInfo → Bool)
    (limit : Nat) (full : List MasterInfo) :
    ∀ (l : List MasterInfo) (pos : Nat) (txVector : HeMuUserInfoMap)
      (candidates : List Candidate),
      (∀ i sta, l[i]? = some sta → full[pos + i]? = some sta) →
      ∃ added, (ulCandidateLoop env width p limit l pos txVector candidates).2
          = candidates ++ added
        ∧ (∀ c ∈ added, pos ≤ c.first)
        ∧ (added.map (fun c => c.first)).Pairwise (fun a b => a < b)
        ∧ (added.filterMap (fun c => full[c.first]?)).Sublist l := by
  intro l
  induction l with
  | nil =>
    intro pos txVector candidates _
    exact ⟨[], by simp [ulCandidateLoop], by simp, by simp, by simp⟩
  | cons sta rest ih =>
    intro pos txVector candidates hpos
    have hrest : ∀ i s, rest[i]? = some s → full[pos + 1 + i]? = some s := by
      intro i s hi
      have := hpos (i + 1) s (by simpa using hi)
      rw [show pos + 1 + i = pos + (i + 1) by omega]
      exact this
    have hsta : full[pos]? = some sta := by simpa using hpos 0 sta (by simp)
    unfold ulCandidateLoop
    split_ifs with hlim hp hall
    · obtain ⟨added, h1, h2, h3, h4⟩ := ih (pos + 1) txVector candidates hrest
      exact ⟨added, h1, fun c hc => by have := h2 c hc; omega, h3, h4.cons _⟩
    · obtain ⟨added, h1, h2, h3, h4⟩ := ih (pos + 1) txVector candidates hrest
      exact ⟨added, h1, fun c hc => by have := h2 c hc; omega, h3, h4.cons _⟩
    · obtain ⟨added, h1, h2, h3, h4⟩ := ih (pos + 1)
        (mapSet sta.aid ⟨env.undefinedRu, (env.getDataTxVector sta.address width).1,
          (env.getDataTxVector sta.address width).2⟩ txVector)
        (candidates ++ [⟨pos, none⟩]) hrest
      refine ⟨⟨pos, none⟩ :: added, ?_, ?_, ?_, ?_⟩
      · rw [h1, List.append_assoc]
        rfl
      · intro c hc
        rcases List.mem_cons.1 hc with h | h
        · subst h
          exact le_refl _
        · have := h2 c h
          omega
      · rw [List.map_cons, List.pairwise_cons]
        refine ⟨?_, h3⟩
        intro a ha
        obtain ⟨c, hc, rfl⟩ := List.mem_map.1 ha
        have := h2 c hc
        show pos < c.first
        omega
      · rw [List.filterMap_cons]
        simp only [hsta]
        exact h4.cons₂ _
    · exact ⟨[], by simp, by simp, by simp, by simp⟩

theorem FinalizeTxVector_take (heRu : HeRuModel) (s : RrMultiUserScheduler)
    (staList : List MasterInfo) (txVector : HeMuUserInfoMap)
    (r : HeMuUserInfoMap × List Candidate)
    (h : FinalizeTxVector heRu s staList txVector = some r) :
    ∃ n, r.2 = s.m_candidates.take n := by
  unfold FinalizeTxVector at h
  simp only at h
  (repeat' (first | split at h | split_ifs at h)) <;>
    first
      | (simp only [Option.some.injEq] at h
         rw [← h]
         exact ⟨_, rfl⟩)
      | (cases h)

theorem GetTxVectorForUlMu_candidates_take (env : MuEnv) (p : MasterInfo → Bool)
    (s s1 : RrScheduler) (txVector : HeMuUserInfoMap)
    (h : GetTxVectorForUlMu env p s = some (txVector, s1)) :
    ∃ limit n, s1.base.m_candidates
      = (ulCandidateLoop env s.base.m_allowedWidth p limit s.m_staListUl 0 [] []).2.take n := by
  unfold GetTxVectorForUlMu at h
  simp only at h
  (repeat' (first | split at h | split_ifs at h)) <;>
    first
      | (have hfin := ‹FinalizeTxVector _ _ _ _ = some _›
         cases h
         obtain ⟨n, hn⟩ := FinalizeTxVector_take _ _ _ _ _ hfin
         exact ⟨_, n, hn⟩)
      | (cases h
         exact ⟨_, _, (List.take_length _).symm⟩)
      | (cases h)

/-- The candidates of `GetTxVectorForUlMu` stand at increasing positions of `m_staListUl`
and their stations form a sublist of it. -/
theorem GetTxVectorForUlMu_sublist (env : MuEnv) (p : MasterInfo → Bool)
    (s s1 : RrScheduler) (txVector : HeMuUserInfoMap)
    (h : GetTxVectorForUlMu env p s = some (txVector, s1)) :
    (s1.base.m_candidates.map (fun c => c.first)).Pairwise (fun a b => a < b)
      ∧ (s1.base.m_candidates.filterMap (fun c => s.m_staListUl[c.first]?)).Sublist
          s.m_staListUl := by
  obtain ⟨limit, n, hc⟩ := GetTxVectorForUlMu_candidates_take env p s s1 txVector h
  obtain ⟨added, h1, _, h3, h4⟩ := ulCandidateLoop_sublist env s.base.m_allowedWidth p limit
    s.m_staListUl s.m_staListUl 0 [] [] (by intro i sta hi; simpa using hi)
  rw [hc, h1, List.nil_append]
  constructor
  · exact h3.sublist ((List.take_sublist n added).map _)
  · exact ((List.take_sublist n added).filterMap _).trans h4

/-- C31: every candidate `GetTxVectorForUlMu` returns is a station of `m_staListUl` that
satisfies the function object of the caller and has a Block Ack agreement for some TID
from 0 to 7; the candidates stand at strictly increasing positions of the list, so the
stations of the candidate list are a subsequence of `m_staListUl` in list order. -/
theorem C31_selected_stations_eligible_in_list_order (env : MuEnv) (p : MasterInfo → Bool)
    (s s1 : RrScheduler) (txVector : HeMuUserInfoMap)
    (h : GetTxVectorForUlMu env p s = some (txVector, s1)) :
    (∀ c ∈ s1.base.m_candidates,
        ∃ sta, s.m_staListUl[c.first]? = some sta ∧ p sta = true
          ∧ ∃ tid, tid < 8 ∧ env.baAgreementEstablished sta.address tid = true)
      ∧ (s1.base.m_candidates.map (fun c => c.first)).Pairwise (fun a b => a < b)
      ∧ (s1.base.m_candidates.filterMap (fun c => s.m_staListUl[c.first]?)).Sublist
          s.m_staListUl :=
  ⟨GetTxVectorForUlMu_candidates env p s s1 txVector h,
    GetTxVectorForUlMu_sublist env p s s1 txVector h⟩

/-- C31 at a concrete input: of the four stations of the scenario only those with the
addresses 12 and 14 reported a buffer status, and they are the candidates, in list order. -/
theorem C31_selected_stations_eligible_in_list_order_witness :
    ∃ txVector s1,
      GetTxVectorForUlMu
          (exMuEnv none (fun _ => true) (fun a => if a = 12 ∨ a = 14 then 5 else 0))
          (basicCanBeSolicited
            (exMuEnv none (fun _ => true) (fun a => if a = 12 ∨ a = 14 then 5 else 0)))
          (exMuWorld 600 exTimeMin).s = some (txVector, s1)
        ∧ s1.base.m_candidates.map (fun c => c.first) = [1, 3]
        ∧ (∀ c ∈ s1.base.m_candidates,
            ∃ sta, (exMuWorld 600 exTimeMin).s.m_staListUl[c.first]? = some sta
              ∧ basicCanBeSolicited
                  (exMuEnv none (fun _ => true) (fun a => if a = 12 ∨ a = 14 then 5 else 0))
                  sta = true
              ∧ ∃ tid, tid < 8
                ∧ (exMuEnv none (fun _ => true)
                    (fun a => if a = 12 ∨ a = 14 then 5 else 0)).baAgreementEstablished
                      sta.address tid = true)
        ∧ (s1.base.m_candidates.map (fun c => c.first)).Pairwise (fun a b => a < b)
        ∧ (s1.base.m_candidates.filterMap
            (fun c => (exMuWorld 600 exTimeMin).s.m_staListUl[c.first]?)).Sublist
              (exMuWorld 600 exTimeMin).s.m_staListUl :=
  ⟨_, _, rfl, rfl,
    C31_selected_stations_eligible_in_list_order
      (exMuEnv none (fun _ => true) (fun a => if a = 12 ∨ a = 14 then 5 else 0)) _
      (exMuWorld 600 exTimeMin).s _ _ rfl⟩

/-! ## C32: the order of the candidate list -/

theorem NotifyStationDeassociated_sublist (env : MuEnv) (aid : Nat) (address : Mac48Address)
    (s : RrScheduler) :
    (NotifyStationDeassociated env aid address s).m_staListUl.Sublist s.m_staListUl := by
  unfold NotifyStationDeassociated
  split_ifs
  · exact List.filter_sublist _
  · exact List.Sublist.refl _

theorem runSchedulerEvents_deassociated_sublist (env : MuEnv)
    (removed : List (Nat × Mac48Address)) :
    ∀ (s s1 : RrScheduler),
      runSchedulerEvents env
          (removed.map (fun x => SchedulerEvent.deassociated x.1 x.2)) s = some s1 →
      s1.m_staListUl.Sublist s.m_staListUl := by
  induction removed with
  | nil =>
    intro s s1 h
    simp only [List.map_nil, runSchedulerEvents, Option.some.injEq] at h
    rw [← h]
  | cons x rest ih =>
    intro s s1 h
    simp only [List.map_cons, runSchedulerEvents, runSchedulerEvent] at h
    exact (ih _ _ h).trans (NotifyStationDeassociated_sublist env x.1 x.2 s)

theorem UpdateCredits_sorted (heRu : HeRuModel) (s : RrMultiUserScheduler)
    (staList out : List MasterInfo) (d : ℚ) (txVector : HeMuUserInfoMap)
    (h : UpdateCredits heRu s staList d txVector = some out) :
    out.Pairwise (fun a b => b.credits ≤ a.credits) := by
  unfold UpdateCredits at h
  simp only at h
  split at h
  · cases h
  · simp only [Option.some.injEq] at h
    rw [← h]
    exact listSort_sorted (fun m : MasterInfo => m.credits) _

theorem candidateCredits_eq_map (staList : List MasterInfo) (candidates : List Candidate) :
    candidateCredits staList candidates
      = (candidates.filterMap (fun c => staList[c.first]?)).map (fun sta => sta.credits) := by
  unfold candidateCredits
  rw [List.map_filterMap]

/-- C32 (counterexample): two stations associate, a round serves the second of them, which
leaves it a negative credit, and a third station associates with credit 0 behind it.  The
candidate list built next holds the three stations in list order, with the credits 50, -50
and 0: not in non-increasing order. -/
theorem C32_candidates_not_ordered_counterexample :
    creditsOfCandidatesAfter (exMuEnv none (fun _ => true) (fun _ => 3)) (fun _ => true)
        exEvents (exFreshWorld 600).s = some [50, -50, 0]
      ∧ ((exFreshWorld 600).s.m_staListUl = [] ∧ (exFreshWorld 600).s.m_staListDl = []) := by
  decide!

/-- C32 (amended): the candidate list built right after an `UpdateCredits` round on the UL
station list, with any deassociations in between, is ordered by non-increasing credit.
(An association appends the new station with credit 0 at the end of the list, behind
stations whose credit may be negative.) -/
theorem C32_candidates_ordered_after_round (env : MuEnv) (canbeSolicited : MasterInfo → Bool)
    (s : RrScheduler) (r : CreditRound) (removed : List (Nat × Mac48Address))
    (credits : List ℚ)
    (hrun : creditsOfCandidatesAfter env canbeSolicited
      (SchedulerEvent.round r :: removed.map (fun x => SchedulerEvent.deassociated x.1 x.2)) s
        = some credits) :
    credits.Pairwise (fun a b => b ≤ a) := by
  unfold creditsOfCandidatesAfter at hrun
  simp only [runSchedulerEvents, runSchedulerEvent] at hrun
  cases hupd : UpdateCredits env.heRu { s.base with m_candidates := r.candidates }
      s.m_staListUl r.txDuration r.txVector with
  | none => simp [hupd] at hrun
  | some sorted =>
    simp only [hupd, Option.map_some'] at hrun
    cases hev : runSchedulerEvents env
        (removed.map (fun x => SchedulerEvent.deassociated x.1 x.2))
        { s with m_staListUl := sorted } with
    | none => simp [hev] at hrun
    | some s1 =>
      simp only [hev, Option.some_bind] at hrun
      cases htx : GetTxVectorForUlMu env canbeSolicited s1 with
      | none => simp [htx] at hrun
      | some x =>
        obtain ⟨txVector, s2⟩ := x
        simp only [htx, Option.map_some', Option.some.injEq] at hrun
        rw [← hrun, candidateCredits_eq_map]
        have hsorted := UpdateCredits_sorted _ _ _ _ _ _ hupd
        have hsub := runSchedulerEvents_deassociated_sublist env removed _ _ hev
        have hcand := (GetTxVectorForUlMu_sublist env canbeSolicited s1 s2 txVector htx).2
        have hpw := (hsorted.sublist hsub).sublist hcand
        exact List.Pairwise.map (fun sta : MasterInfo => sta.credits) (fun a b hab => hab) hpw

/-- C32 (amended) at a concrete input: a round of 100 microseconds serves the first and the
third of four stations, the second station leaves, and three candidates are found. -/
theorem C32_candidates_ordered_after_round_witness :
    creditsOfCandidatesAfter (exMuEnv none (fun _ => true) (fun _ => 3)) (fun _ => true)
        (SchedulerEvent.round exRound
          :: [((2 : Nat), (12 : Mac48Address))].map
              (fun x => SchedulerEvent.deassociated x.1 x.2))
        (exMuWorld 600 exTimeMin).s = some [25, -25, -25]
      ∧ ([25, -25, -25] : List ℚ).Pairwise (fun a b => b ≤ a) :=
  ⟨by decide!,
    C32_candidates_ordered_after_round (exMuEnv none (fun _ => true) (fun _ => 3))
      (fun _ => true) (exMuWorld 600 exTimeMin).s exRound [(2, 12)] [25, -25, -25]
      (by decide!)⟩

/-! ## C33: the QoS Null response after the arbitration -/

theorem qosNullLoopAfterA_eq (env : Env) (hdr : WifiMacHeader)
    (hall : ∀ tid, tid < 8 → env.baAgreementEstablished hdr.addr2 tid = true) :
    ∀ (fuel tid : Nat) (txParams : WifiTxParameters) (mpduList : List Nat),
      qosNullLoopAfterA env fuel tid txParams mpduList
        = qosNullLoop env hdr fuel tid txParams mpduList := by
  intro fuel
  induction fuel with
  | zero => intro tid txParams mpduList; rfl
  | succ n ih =>
    intro tid txParams mpduList
    unfold qosNullLoopAfterA qosNullLoop
    by_cases htid : tid < 8
    · simp only [hall tid htid, Bool.not_true, Bool.false_eq_true, if_false, ih]
    · simp [htid]

/-- For a declared winner whose station id argument is its association id and which has a
Block Ack agreement with the sender of the trigger for every TID below 8, the routine run
after the arbitration does what the normal routine does. -/
theorem SendQosNullFramesInTbPpduAfterA_eq_of_agreements (env : Env)
    (trigger : CtrlTriggerHeader) (hdr : WifiMacHeader) (ru : RuSpec) (g : Globals)
    (self : StaFem) (aid : Nat) (ru_ptr : Nat × HeRuMap) (my_ptr : Nat × BusyTone)
    (hsta : self.staMac = some (true, aid))
    (hru : findIf (fun i => i.ru == ru) g.m_staRuInfo = some ru_ptr)
    (hmy : findIf (fun i => i.staId == aid) ru_ptr.2.bt = some my_ptr)
    (hwin : my_ptr.2.isWin = true)
    (hall : ∀ tid, tid < 8 → env.baAgreementEstablished hdr.addr2 tid = true) :
    SendQosNullFramesInTbPpduAfterA env trigger hdr aid ru g self
      = SendQosNullFramesInTbPpdu env trigger hdr self := by
  unfold SendQosNullFramesInTbPpduAfterA SendQosNullFramesInTbPpdu
  simp only [hru, hmy, hwin, Bool.not_true, Bool.false_eq_true, if_false,
    qosNullLoopAfterA_eq env hdr hall]
  split_ifs
  · rfl
  · rfl
  · rfl
  · cases htx : GetHeTbTxVector self trigger hdr.addr2 with
    | none => rfl
    | some txVector =>
      have hid : txVector.1 = aid := by
        unfold GetHeTbTxVector at htx
        simp only [hsta] at htx
        (repeat' (first | split at htx | split_ifs at htx)) <;>
          first
            | (cases htx; rfl)
            | (cases htx)
      simp only [hid]

/-- C33: station 1, declared winner on its RU, has a Block Ack agreement with the AP for
TID 0 only.  For the same trigger, header and station state the normal routine sends a
PSDU with one QoS Null frame (TID 0), and the routine run after the arbitration sends a
PSDU with eight QoS Null frames (TIDs 0 to 7). -/
theorem C33_null_response_after_arbitration_differs :
    (SendQosNullFramesInTbPpdu exEnvOneAgreement exTrigger exHdr (exSta 1)).map
        (fun self => self.m_psduMap)
      = some [(1, WifiPsdu.qosNull 100 1 384000 [0])]
    ∧ (SendQosNullFramesInTbPpduAfterA exEnvOneAgreement exTrigger exHdr 1 exRu
          exWinnerGlobals (exSta 1)).map (fun self => self.m_psduMap)
      = some [(1, WifiPsdu.qosNull 100 1 384000 [0, 1, 2, 3, 4, 5, 6, 7])] := by
  decide

/-! ## C34: statistics and an unexpected sender -/

/-- While the timer waits for the TB PPDUs solicited by a Basic Trigger Frame, `ReceiveMpdu`
does for a frame of an unexpected sender what its statistics code does, and nothing else. -/
theorem ReceiveMpdu_unexpected_basic (env : ApEnv) (mpdu : RxMpdu) (txVector : TxVector)
    (inAmpdu : Bool) (w : FemWorld) (acknowledgment : WifiAcknowledgment)
    (hul : txVector.isUlMu = true) (hrun : w.fem.m_txTimer.running = true)
    (hreason : w.fem.m_txTimer.reason = TimerReason.WAIT_TB_PPDU_AFTER_BASIC_TF)
    (hack : w.fem.m_txParams.m_acknowledgment = some acknowledgment)
    (hmethod : acknowledgment.method = AckMethod.UL_MU_MULTI_STA_BA)
    (huser : txVector.heMuUserInfoMap ≠ []) (hsched : w.fem.m_muScheduler = true)
    (haddr : mpdu.addr1IsGroup = true ∨ mpdu.hdr.addr1 = w.fem.sta.m_self)
    (hmpdu : mpdu.hdr.addr2 ∉ w.fem.m_staExpectTbPpduFrom) :
    ReceiveMpdu env mpdu txVector inAmpdu w = receiveMpduStats mpdu txVector w := by
  obtain ⟨w0, hstats⟩ := receiveMpduStats_isSome mpdu txVector w huser hsched
  obtain ⟨hf, _⟩ := receiveMpduStats_fem mpdu txVector w w0 hstats
  have hc1 := contains_eq_false_of_not_mem _ _ hmpdu
  have haddr' : (mpdu.addr1IsGroup || mpdu.hdr.addr1 == w.fem.sta.m_self) = true := by
    rcases haddr with h | h
    · simp [h]
    · simp [h]
  unfold ReceiveMpdu
  simp only [hstats, hf, haddr', Bool.not_true, Bool.false_eq_true, if_false, hul, hrun,
    Bool.true_and, hreason, beq_self_eq_true, if_true]
  unfold receiveMpduBasicTf
  simp only [hf, hack, hmethod, ne_eq, not_true_eq_false, if_false, hc1, Bool.not_false,
    if_true]

/-- C34 (counterexample): the AP waits for the TB PPDUs of the stations 11 and 12 after a
Basic Trigger Frame and receives a QoS Null frame, then a QoS data frame of 600 bytes, from
station 13.  The expected set is unchanged, but station 13 is entered in the list of
stations that answered with QoS Null and in the uplink-success list with 600 bytes, the
buffer-status estimate of station id 3 is set, and `SetIsDoneUl (true)` is called. -/
theorem C34_statistics_changed_counterexample :
    (13 : Mac48Address) ∉ (exBasicWorld [11, 12]).fem.m_staExpectTbPpduFrom
      ∧ (ReceiveMpdu (exApEnv false) (exQosNull 13) (exTbTxVector 3) false
            (exBasicWorld [11, 12])).map
          (fun w => (w.ul.m_qosNullStas, w.ul.m_bsr, w.fem.m_staExpectTbPpduFrom))
        = some ([13], [(3, 4)], [11, 12])
      ∧ (ReceiveMpdu (exApEnv false)
            { exQosNull 13 with
              macType := WifiMacType.WIFI_MAC_QOSDATA, hasData := true, packetSize := 600 }
            (exTbTxVector 3) false (exBasicWorld [11, 12])).map
          (fun w => (w.ul.m_UlSuccessStas, w.ul.setIsDoneUl, w.fem.m_staExpectTbPpduFrom))
        = some ([(13, 600)], [true], [11, 12])
      ∧ (exBasicWorld [11, 12]).ul = ⟨[], [], 0, 0, [], [], []⟩ := by
  decide

/-- C34 (amended): while the AP waits for TB PPDUs after a Basic Trigger Frame, a frame
from a station that is not in the expected set leaves the object and the call log
unchanged, but the statistics code at the head of `ReceiveMpdu` has run for it: for a QoS
data frame the sender is credited in `m_successes` and in the uplink-success list with the
packet size, `SetIsDoneUl (true)` is called and the buffer-status estimate of the station
id of the TX vector is lowered by the size in units of 256 bytes; for a QoS Null frame the
sender is appended to `m_qosNullStas` and the estimate is set to the reported queue size;
for any other frame `m_BARu` is incremented. -/
theorem C34_unexpected_sender_changes_statistics_only (env : ApEnv) (mpdu : RxMpdu)
    (txVector : TxVector) (inAmpdu : Bool) (w : FemWorld)
    (acknowledgment : WifiAcknowledgment) (first : Nat × HeMuUserInfo)
    (hul : txVector.isUlMu = true) (hrun : w.fem.m_txTimer.running = true)
    (hreason : w.fem.m_txTimer.reason = TimerReason.WAIT_TB_PPDU_AFTER_BASIC_TF)
    (hack : w.fem.m_txParams.m_acknowledgment = some acknowledgment)
    (hmethod : acknowledgment.method = AckMethod.UL_MU_MULTI_STA_BA)
    (hfirst : txVector.heMuUserInfoMap.head? = some first)
    (hsched : w.fem.m_muScheduler = true)
    (haddr : mpdu.addr1IsGroup = true ∨ mpdu.hdr.addr1 = w.fem.sta.m_self)
    (hmpdu : mpdu.hdr.addr2 ∉ w.fem.m_staExpectTbPpduFrom) :
    ReceiveMpdu env mpdu txVector inAmpdu w
      = some
        (match mpdu.macType with
         | WifiMacType.WIFI_MAC_QOSDATA =>
           { w with
             g := UpdateSuccesses mpdu.hdr.addr2 (toInt32 mpdu.packetSize) w.g
             ul :=
               UpdateBsr first.1 (-1 * (((mpdu.packetSize + 255) / 256 : Nat) : Int))
                 { AddUlSuccessStaSize mpdu.hdr.addr2 (toInt32 mpdu.packetSize)
                     (SearchUlSuccessSta mpdu.hdr.addr2 w.ul) with
                   setIsDoneUl :=
                     (AddUlSuccessStaSize mpdu.hdr.addr2 (toInt32 mpdu.packetSize)
                       (SearchUlSuccessSta mpdu.hdr.addr2 w.ul)).setIsDoneUl ++ [true] } }
         | WifiMacType.WIFI_MAC_QOSDATA_NULL =>
           { w with
             ul :=
               UpdateBsr first.1 (mpdu.qosQueueSize : Nat)
                 { w.ul with m_qosNullStas := w.ul.m_qosNullStas ++ [mpdu.hdr.addr2] } }
         | WifiMacType.WIFI_MAC_OTHER =>
           { w with ul := { w.ul with m_BARu := w.ul.m_BARu + 1 } }) := by
  have huser : txVector.heMuUserInfoMap ≠ [] := by
    intro h
    rw [h] at hfirst
    cases hfirst
  rw [ReceiveMpdu_unexpected_basic env mpdu txVector inAmpdu w acknowledgment hul hrun
    hreason hack hmethod huser hsched haddr hmpdu]
  unfold receiveMpduStats
  simp only [hrun, hreason, if_true, hfirst, hsched, Bool.true_eq_false, if_false]
  cases mpdu.macType <;> rfl

/-- C34 (amended) at a concrete input: the QoS Null frame of station 13. -/
theorem C34_unexpected_sender_changes_statistics_only_witness :
    (exTbTxVector 3).isUlMu = true
      ∧ (exBasicWorld [11, 12]).fem.m_txTimer.running = true
      ∧ (13 : Mac48Address) ∉ (exBasicWorld [11, 12]).fem.m_staExpectTbPpduFrom
      ∧ ReceiveMpdu (exApEnv false) (exQosNull 13) (exTbTxVector 3) false
          (exBasicWorld [11, 12])
        = some
          (match (exQosNull 13).macType with
           | WifiMacType.WIFI_MAC_QOSDATA =>
             { exBasicWorld [11, 12] with
               g := UpdateSuccesses (exQosNull 13).hdr.addr2
                 (toInt32 (exQosNull 13).packetSize) (exBasicWorld [11, 12]).g
               ul :=
                 UpdateBsr (3, (⟨exRu, 7, 1⟩ : HeMuUserInfo)).1
                   (-1 * ((((exQosNull 13).packetSize + 255) / 256 : Nat) : Int))
                   { AddUlSuccessStaSize (exQosNull 13).hdr.addr2
                       (toInt32 (exQosNull 13).packetSize)
                       (SearchUlSuccessSta (exQosNull 13).hdr.addr2
                         (exBasicWorld [11, 12]).ul) with
                     setIsDoneUl :=
                       (AddUlSuccessStaSize (exQosNull 13).hdr.addr2
                         (toInt32 (exQosNull 13).packetSize)
                         (SearchUlSuccessSta (exQosNull 13).hdr.addr2
                           (exBasicWorld [11, 12]).ul)).setIsDoneUl ++ [true] } }
           | WifiMacType.WIFI_MAC_QOSDATA_NULL =>
             { exBasicWorld [11, 12] with
               ul :=
                 UpdateBsr (3, (⟨exRu, 7, 1⟩ : HeMuUserInfo)).1
                   ((exQosNull 13).qosQueueSize : Nat)
                   { (exBasicWorld [11, 12]).ul with
                     m_qosNullStas :=
                       (exBasicWorld [11, 12]).ul.m_qosNullStas ++ [(exQosNull 13).hdr.addr2] } }
           | WifiMacType.WIFI_MAC_OTHER =>
             { exBasicWorld [11, 12] with
               ul :=
                 { (exBasicWorld [11, 12]).ul with
                   m_BARu := (exBasicWorld [11, 12]).ul.m_BARu + 1 } }) :=
  ⟨rfl, rfl, by decide,
    C34_unexpected_sender_changes_statistics_only (exApEnv false) (exQosNull 13)
      (exTbTxVector 3) false (exBasicWorld [11, 12]) (exAck AckMethod.UL_MU_MULTI_STA_BA)
      (3, ⟨exRu, 7, 1⟩) rfl rfl rfl rfl rfl rfl rfl (Or.inr rfl) (by decide)⟩

/-! ## C35: a BlockAck of an unexpected sender -/

/-- C35 (counterexample): the AP waits for the BlockAcks of the stations 11 and 12 in TB
PPDUs and receives a BlockAck from station 13.  The expected set and the timer are
unchanged, but the block-ack manager and the remote-station manager have been notified of
the BlockAck of station 13. -/
theorem C35_unexpected_block_ack_notified_counterexample :
    (13 : Mac48Address) ∉ exBlockAckWorld.fem.m_staExpectTbPpduFrom
      ∧ exBlockAckWorld.fem.m_txTimer.running = true
      ∧ exBlockAckWorld.fem.m_txTimer.reason = TimerReason.WAIT_BLOCK_ACKS_IN_TB_PPDU
      ∧ exBlockAckWorld.effects = []
      ∧ (ReceiveMpdu (exApEnv false) (exBlockAck 13) (exTbTxVector 3) false
            exBlockAckWorld).map
          (fun w => (w.effects, w.fem.m_staExpectTbPpduFrom, w.fem.m_txTimer))
        = some ([Effect.NotifyGotBlockAck 13 0, Effect.ReportAmpduTxStatus 13], [11, 12],
            exBlockAckWorld.fem.m_txTimer) := by
  decide

/-- C35 (amended): while the AP waits for BlockAcks in TB PPDUs, a BlockAck received in a
TB PPDU from a station that is not in the expected-response set is first reported to the
block-ack manager (`NotifyGotBlockAck`) and to the remote-station manager
(`ReportAmpduTxStatus`); nothing else happens: the expected set, the timer and the rest of
the state are unchanged. -/
theorem C35_unexpected_block_ack_keeps_set_and_timer (env : ApEnv) (mpdu : RxMpdu)
    (txVector : TxVector) (inAmpdu : Bool) (w : FemWorld)
    (hctl : mpdu.isCtl = true) (hba : mpdu.isBlockAck = true)
    (hul : txVector.isUlMu = true) (hrun : w.fem.m_txTimer.running = true)
    (hreason : w.fem.m_txTimer.reason = TimerReason.WAIT_BLOCK_ACKS_IN_TB_PPDU)
    (haddr : mpdu.addr1IsGroup = true ∨ mpdu.hdr.addr1 = w.fem.sta.m_self)
    (hmpdu : mpdu.hdr.addr2 ∉ w.fem.m_staExpectTbPpduFrom) :
    ReceiveMpdu env mpdu txVector inAmpdu w
      = some
        { w with
          effects :=
            w.effects ++ [Effect.NotifyGotBlockAck mpdu.hdr.addr2 mpdu.baTidInfo,
              Effect.ReportAmpduTxStatus mpdu.hdr.addr2] } := by
  have hc1 := contains_eq_false_of_not_mem _ _ hmpdu
  have haddr' : (mpdu.addr1IsGroup || mpdu.hdr.addr1 == w.fem.sta.m_self) = true := by
    rcases haddr with h | h
    · simp [h]
    · simp [h]
  have hstats : receiveMpduStats mpdu txVector w = some w := by
    unfold receiveMpduStats
    simp [hrun, hreason]
  unfold ReceiveMpdu
  simp only [hstats, haddr', Bool.not_true, Bool.false_eq_true, if_false, hul, hrun,
    Bool.true_and, hreason, hctl, if_true]
  unfold receiveMpduCtl
  simp [hba, hul, hrun, hreason, FemWorld.log]
  intro hmem
  exact absurd hmem hmpdu

/-- C35 (amended) at a concrete input: the BlockAck of station 13. -/
theorem C35_unexpected_block_ack_keeps_set_and_timer_witness :
    (13 : Mac48Address) ∉ exBlockAckWorld.fem.m_staExpectTbPpduFrom
      ∧ ReceiveMpdu (exApEnv false) (exBlockAck 13) (exTbTxVector 3) false exBlockAckWorld
        = some
          { exBlockAckWorld with
            effects :=
              exBlockAckWorld.effects
                ++ [Effect.NotifyGotBlockAck (exBlockAck 13).hdr.addr2
                      (exBlockAck 13).baTidInfo,
                    Effect.ReportAmpduTxStatus (exBlockAck 13).hdr.addr2] } :=
  ⟨by decide,
    C35_unexpected_block_ack_keeps_set_and_timer (exApEnv false) (exBlockAck 13)
      (exTbTxVector 3) false exBlockAckWorld rfl rfl rfl rfl rfl (Or.inr rfl) (by decide)⟩

/-! ## Lemmas: the indices recorded for the Multi-STA BlockAck -/

theorem emplaceMultiStaBa_mem (key : Mac48Address × Nat) (index : Nat) :
    ∀ (m : List ((Mac48Address × Nat) × Nat)) (x : (Mac48Address × Nat) × Nat),
      x ∈ emplaceMultiStaBa key index m → x ∈ m ∨ x = (key, index) := by
  intro m
  induction m with
  | nil =>
    intro x hx
    unfold emplaceMultiStaBa at hx
    exact Or.inr (List.mem_singleton.1 hx)
  | cons p ps ih =>
    intro x hx
    obtain ⟨k, v⟩ := p
    unfold emplaceMultiStaBa at hx
    split_ifs at hx
    · rcases List.mem_cons.1 hx with h | h
      · exact Or.inr h
      · exact Or.inl h
    · exact Or.inl hx
    · rcases List.mem_cons.1 hx with h | h
      · exact Or.inl (h ▸ List.mem_cons_self _ _)
      · rcases ih x h with h1 | h1
        · exact Or.inl (List.mem_cons_of_mem _ h1)
        · exact Or.inr h1

theorem emplaceMultiStaBa_nodup (key : Mac48Address × Nat) (index : Nat) :
    ∀ (m : List ((Mac48Address × Nat) × Nat)),
      (m.map (fun staInfo => staInfo.2)).Nodup →
      index ∉ m.map (fun staInfo => staInfo.2) →
      ((emplaceMultiStaBa key index m).map (fun staInfo => staInfo.2)).Nodup := by
  intro m
  induction m with
  | nil =>
    intro _ _
    unfold emplaceMultiStaBa
    exact List.nodup_singleton _
  | cons p ps ih =>
    intro hnodup hnot
    obtain ⟨k, v⟩ := p
    unfold emplaceMultiStaBa
    split_ifs
    · rw [List.map_cons]
      exact List.nodup_cons.2 ⟨hnot, hnodup⟩
    · exact hnodup
    · rw [List.map_cons] at hnodup hnot ⊢
      obtain ⟨hv, hps⟩ := List.nodup_cons.1 hnodup
      have hnot' : index ∉ ps.map (fun staInfo => staInfo.2) :=
        fun hin => hnot (List.mem_cons_of_mem _ hin)
      refine List.nodup_cons.2 ⟨?_, ih hps hnot'⟩
      intro hin
      obtain ⟨x, hx, hxv⟩ := List.mem_map.1 hin
      rcases emplaceMultiStaBa_mem key index ps x hx with h1 | h1
      · exact hv (hxv ▸ List.mem_map_of_mem _ h1)
      · rw [h1] at hxv
        exact hnot (hxv ▸ List.mem_cons_self _ _)

/-- Recording a recipient at the index `m_bitmapLen.size ()` and appending a bitmap length
keeps the recorded indices distinct and in range. -/
theorem multiStaBaIndicesValid_emplace (acknowledgment : WifiAcknowledgment)
    (key : Mac48Address × Nat) (bitmapLen : Nat)
    (h : multiStaBaIndicesValid acknowledgment) :
    multiStaBaIndicesValid
      { acknowledgment with
        stationsReceivingMultiStaBa :=
          emplaceMultiStaBa key acknowledgment.baTypeBitmapLen.length
            acknowledgment.stationsReceivingMultiStaBa
        baTypeBitmapLen := acknowledgment.baTypeBitmapLen ++ [bitmapLen] } := by
  obtain ⟨hnodup, hlt⟩ := h
  have hnot : acknowledgment.baTypeBitmapLen.length
      ∉ acknowledgment.stationsReceivingMultiStaBa.map (fun staInfo => staInfo.2) := by
    intro hin
    obtain ⟨x, hx, hxv⟩ := List.mem_map.1 hin
    have := hlt x hx
    omega
  refine ⟨emplaceMultiStaBa_nodup _ _ _ hnodup hnot, ?_⟩
  intro x hx
  simp only [List.length_append, List.length_singleton]
  rcases emplaceMultiStaBa_mem _ _ _ x hx with h1 | h1
  · have := hlt x h1
    omega
  · rw [h1]
    show acknowledgment.baTypeBitmapLen.length < _
    omega

theorem recordBlockAckTids_valid (env : ApEnv) (sender : Mac48Address) (index : Nat) :
    ∀ (tids : List (Nat × Bool)) (i : Nat) (acknowledgment recorded : WifiAcknowledgment),
      recordBlockAckTids env sender index tids i acknowledgment = some recorded →
      index + i = acknowledgment.baTypeBitmapLen.length →
      multiStaBaIndicesValid acknowledgment →
      multiStaBaIndicesValid recorded ∧ recorded.method = acknowledgment.method := by
  intro tids
  induction tids with
  | nil =>
    intro i acknowledgment recorded h _ hv
    unfold recordBlockAckTids at h
    cases h
    exact ⟨hv, rfl⟩
  | cons tid rest ih =>
    intro i acknowledgment recorded h hi hv
    unfold recordBlockAckTids at h
    split at h
    · cases h
    · rename_i bitmapLen _
      rw [hi] at h
      have hv1 := multiStaBaIndicesValid_emplace acknowledgment (sender, tid.1) bitmapLen hv
      have := ih (i + 1) _ recorded h
        (by simp only [List.length_append, List.length_singleton]; omega) hv1
      exact this

theorem basicTfResponseProcessed_txParams (env : ApEnv) (sender : Mac48Address)
    (w w' : FemWorld) (h : basicTfResponseProcessed env sender w = some w') :
    w'.fem.m_txParams = w.fem.m_txParams := by
  unfold basicTfResponseProcessed at h
  split at h
  · cases h
  · simp only at h
    split_ifs at h <;> cases h <;> rfl

theorem bsrpTfResponseProcessed_txParams (env : ApEnv) (sender : Mac48Address)
    (w w' : FemWorld) (h : bsrpTfResponseProcessed env sender w = some w') :
    w'.fem.m_txParams = w.fem.m_txParams := by
  unfold bsrpTfResponseProcessed at h
  simp only at h
  split_ifs at h <;> cases h <;> rfl

/-- The Basic Trigger Frame branch of `ReceiveMpdu` keeps the recorded indices distinct and
in range. -/
theorem receiveMpduBasicTf_valid (env : ApEnv) (mpdu : RxMpdu) (txVector : TxVector)
    (inAmpdu : Bool) (w w' : FemWorld)
    (h : receiveMpduBasicTf env mpdu txVector inAmpdu w = some w')
    (hv : ∀ a, w.fem.m_txParams.m_acknowledgment = some a → multiStaBaIndicesValid a) :
    ∀ a, w'.fem.m_txParams.m_acknowledgment = some a → multiStaBaIndicesValid a := by
  unfold receiveMpduBasicTf at h
  simp only at h
  split at h
  · cases h
  · rename_i acknowledgment hack
    have hva := hv acknowledgment hack
    (repeat' (first | split at h | split_ifs at h)) <;>
      first
      | (cases h; done)
      | (cases h; exact hv)
      | (intro a ha
         rw [basicTfResponseProcessed_txParams _ _ _ _ h] at ha
         first
         | exact hv a ha
         | (cases ha
            exact multiStaBaIndicesValid_emplace acknowledgment _ _ hva))

theorem receiveMpduBsrpTf_txParams (env : ApEnv) (mpdu : RxMpdu) (w w' : FemWorld)
    (h : receiveMpduBsrpTf env mpdu w = some w') :
    w'.fem.m_txParams = w.fem.m_txParams := by
  unfold receiveMpduBsrpTf at h
  simp only at h
  (repeat' split at h) <;>
    first
    | (cases h; done)
    | (cases h; rfl)
    | exact bsrpTfResponseProcessed_txParams _ _ _ _ h

theorem multiStaBlockAckLoop_txParams (sender : Mac48Address) (staId nIndices : Nat) :
    ∀ (infos : List PerAidTidInfo) (w w' : FemWorld),
      multiStaBlockAckLoop sender staId nIndices infos w = some w' →
      w'.fem.m_txParams = w.fem.m_txParams := by
  intro infos
  induction infos with
  | nil =>
    intro w w' h
    cases h
    rfl
  | cons info rest ih =>
    intro w w' h
    unfold multiStaBlockAckLoop at h
    split at h
    · simp only [reduceCtorEq] at h
    · rename_i tid w1 hn
      have hfem := (multiStaBlockAckNotify_fem _ _ _ _ _ _ _ hn).1
      (repeat' split at h) <;>
        first
        | (simp only [reduceCtorEq] at h)
        | (rw [ih _ _ h, ← hfem]; try rfl)

theorem receiveMpduCtl_txParams (env : ApEnv) (mpdu : RxMpdu) (txVector : TxVector)
    (inAmpdu : Bool) (w w' : FemWorld)
    (h : receiveMpduCtl env mpdu txVector inAmpdu w = some w') :
    w'.fem.m_txParams = w.fem.m_txParams := by
  unfold receiveMpduCtl at h
  simp only at h
  split_ifs at h <;> (repeat' split at h) <;>
    first
    | (cases h; done)
    | (cases h; rfl)
    | (have hl := multiStaBlockAckLoop_txParams _ _ _ _ _ _
         ‹multiStaBlockAckLoop _ _ _ _ _ = some _›
       cases h
       exact hl)

/-- `ReceiveMpdu` keeps the recorded indices distinct and in range. -/
theorem ReceiveMpdu_valid (env : ApEnv) (mpdu : RxMpdu) (txVector : TxVector)
    (inAmpdu : Bool) (w w' : FemWorld)
    (h : ReceiveMpdu env mpdu txVector inAmpdu w = some w')
    (hv : ∀ a, w.fem.m_txParams.m_acknowledgment = some a → multiStaBaIndicesValid a) :
    ∀ a, w'.fem.m_txParams.m_acknowledgment = some a → multiStaBaIndicesValid a := by
  unfold ReceiveMpdu at h
  split at h
  · simp only [reduceCtorEq] at h
  · rename_i w0 hstats
    have hf := (receiveMpduStats_fem _ _ _ _ hstats).1
    have hv0 : ∀ a, w0.fem.m_txParams.m_acknowledgment = some a →
        multiStaBaIndicesValid a := by
      rw [hf]
      exact hv
    split_ifs at h
    · exact receiveMpduBasicTf_valid _ _ _ _ _ _ h hv0
    · rw [receiveMpduBsrpTf_txParams _ _ _ _ h]
      exact hv0
    · rw [receiveMpduCtl_txParams _ _ _ _ _ _ h]
      exact hv0
    · cases h
      exact hv0

theorem receiveTriggersInAmpdu_valid (env : ApEnv) (txVector : TxVector) :
    ∀ (mpdus : List RxMpdu) (w w' : FemWorld),
      receiveTriggersInAmpdu env txVector mpdus w = some w' →
      (∀ a, w.fem.m_txParams.m_acknowledgment = some a → multiStaBaIndicesValid a) →
      ∀ a, w'.fem.m_txParams.m_acknowledgment = some a → multiStaBaIndicesValid a := by
  intro mpdus
  induction mpdus with
  | nil =>
    intro w w' h hv
    cases h
    exact hv
  | cons mpdu rest ih =>
    intro w w' h hv
    unfold receiveTriggersInAmpdu at h
    split_ifs at h
    · split at h
      · simp only [reduceCtorEq] at h
      · rename_i w1 h1
        exact ih _ _ h (ReceiveMpdu_valid _ _ _ _ _ _ h1 hv)
    · exact ih _ _ h hv

/-- `EndReceiveAmpdu` keeps the recorded indices distinct and in range. -/
theorem EndReceiveAmpdu_valid (env : ApEnv) (psdu : RxPsdu) (snr : Int)
    (txVector : TxVector) (perMpduStatus : List Bool) (w w' : FemWorld)
    (h : EndReceiveAmpdu env psdu snr txVector perMpduStatus w = some w')
    (hv : ∀ a, w.fem.m_txParams.m_acknowledgment = some a → multiStaBaIndicesValid a) :
    ∀ a, w'.fem.m_txParams.m_acknowledgment = some a → multiStaBaIndicesValid a := by
  unfold EndReceiveAmpdu at h
  simp only at h
  split_ifs at h <;> (repeat' split at h) <;>
    first
    | (cases h; done)
    | (cases h; exact hv)
    | (rw [bsrpTfResponseProcessed_txParams _ _ _ _ h]; exact hv)
    | (have hs := receiveTriggersInAmpdu_valid _ _ _ _ _
         ‹receiveTriggersInAmpdu _ _ _ _ = some _› hv
       cases h
       exact hs)
    | (intro a ha
       rw [basicTfResponseProcessed_txParams _ _ _ _ h] at ha
       first
       | exact hv a ha
       | (cases ha
          have hva := hv _ ‹w.fem.m_txParams.m_acknowledgment = some _›
          first
          | exact (recordBlockAckTids_valid _ _ _ _ _ _ _
              ‹recordBlockAckTids _ _ _ _ _ _ = some _› rfl hva).1
          | (cases ‹some _ = some _›
             exact multiStaBaIndicesValid_emplace _ _ _ hva)))

theorem TbPpduTimeout_txParams (env : ApEnv) (psduMap : Option (List (Nat × TxPsdu)))
    (missed : List Mac48Address) (n : Nat) (w w' : FemWorld)
    (h : TbPpduTimeout env psduMap missed n w = some w') :
    w'.fem.m_txParams = w.fem.m_txParams := by
  unfold TbPpduTimeout at h
  simp only at h
  (repeat' split at h) <;>
    first
    | (simp only [reduceCtorEq] at h)
    | (cases h; rfl)

theorem missedBlockAckLoop_txParams (env : ApEnv) (pm : List (Nat × TxPsdu)) :
    ∀ (missed : List Mac48Address) (resetCw r : Bool) (w w' : FemWorld),
      missedBlockAckLoop env pm missed resetCw w = some (r, w') →
      w'.fem.m_txParams = w.fem.m_txParams := by
  intro missed
  induction missed with
  | nil =>
    intro resetCw r w w' h
    cases h
    rfl
  | cons sta rest ih =>
    intro resetCw r w w' h
    unfold missedBlockAckLoop at h
    split at h
    · simp only [reduceCtorEq] at h
    · rw [ih _ _ _ _ h]
      rfl

theorem BlockAcksInTbPpduTimeout_txParams (env : ApEnv)
    (psduMap : Option (List (Nat × TxPsdu))) (missed : List Mac48Address) (n : Nat)
    (w w' : FemWorld) (h : BlockAcksInTbPpduTimeout env psduMap missed n w = some w') :
    w'.fem.m_txParams = w.fem.m_txParams := by
  unfold BlockAcksInTbPpduTimeout at h
  simp only at h
  split_ifs at h <;> (repeat' split at h) <;>
    first
    | (simp only [reduceCtorEq] at h)
    | (have hl := missedBlockAckLoop_txParams _ _ _ _ _ _ _
         ‹missedBlockAckLoop _ _ _ _ _ = some _›
       have hf := blockAcksTimeoutFirstStep_fem _ _ _ _ _ _
         ‹blockAcksTimeoutFirstStep _ _ _ _ = some _›
       cases h
       show _ = w.fem.m_txParams
       rw [← hf]
       exact hl)

theorem runCall_valid (env : ApEnv) (call : FemCall) (w w' : FemWorld)
    (h : runCall env call w = some w')
    (hv : ∀ a, w.fem.m_txParams.m_acknowledgment = some a → multiStaBaIndicesValid a) :
    ∀ a, w'.fem.m_txParams.m_acknowledgment = some a → multiStaBaIndicesValid a := by
  cases call with
  | ReceiveMpdu mpdu txVector inAmpdu => exact ReceiveMpdu_valid _ _ _ _ _ _ h hv
  | EndReceiveAmpdu psdu snr txVector perMpduStatus =>
    exact EndReceiveAmpdu_valid _ _ _ _ _ _ _ h hv
  | TbPpduTimeout psduMap missed n =>
    rw [TbPpduTimeout_txParams _ _ _ _ _ _ h]
    exact hv
  | BlockAcksInTbPpduTimeout psduMap missed n =>
    rw [BlockAcksInTbPpduTimeout_txParams _ _ _ _ _ _ h]
    exact hv

/-- Every sequence of calls keeps the recorded indices distinct and in range. -/
theorem runCalls_valid (env : ApEnv) :
    ∀ (calls : List FemCall) (w w' : FemWorld), runCalls env calls w = some w' →
      (∀ a, w.fem.m_txParams.m_acknowledgment = some a → multiStaBaIndicesValid a) →
      ∀ a, w'.fem.m_txParams.m_acknowledgment = some a → multiStaBaIndicesValid a := by
  intro calls
  induction calls with
  | nil =>
    intro w w' h hv
    cases h
    exact hv
  | cons call rest ih =>
    intro w w' h hv
    unfold runCalls at h
    split at h
    · cases h
    · rename_i w1 h1
      exact ih _ _ h (runCall_valid _ _ _ _ h1 hv)

theorem sendPsduMapArmTimer_txParams (env : ApEnv) (setup : TimerSetup) (txDuration : Time)
    (w w' : FemWorld) (h : sendPsduMapArmTimer env setup txDuration w = some w') :
    w'.fem.m_txParams = w.fem.m_txParams := by
  unfold sendPsduMapArmTimer at h
  simp only at h
  (repeat' split at h) <;>
    first
    | (cases h; done)
    | (cases h; rfl)

theorem sendPsduMapTail_acknowledgment (env : ApEnv) (setup : TimerSetup) (w w' : FemWorld)
    (h : sendPsduMapTail env setup w = some w') :
    w'.fem.m_txParams.m_acknowledgment = w.fem.m_txParams.m_acknowledgment := by
  unfold sendPsduMapTail at h
  simp only at h
  split at h
  · simp only [reduceCtorEq] at h
  · rename_i w2 harm
    split at h
    · simp only [reduceCtorEq] at h
    · rename_i r hfwd
      have hfem := ForwardPsduMapDown_fem _ _ _ _ hfwd
      simp only at hfem
      have hw' : w'.fem.m_txParams.m_acknowledgment = w2.fem.m_txParams.m_acknowledgment := by
        split_ifs at h <;> cases h <;> simp only [log_fem, hfem]
      rw [hw']
      split_ifs at harm <;>
        first
        | (cases harm; rfl)
        | (rw [sendPsduMapArmTimer_txParams _ _ _ _ _ harm])

/-- `SendPsduMap` for a Basic Trigger Frame empties the recorded recipients and the list of
bitmap lengths. -/
theorem SendPsduMap_basic_empties (env : ApEnv) (w w1 : FemWorld)
    (acknowledgment : WifiAcknowledgment)
    (hack : w.fem.m_txParams.m_acknowledgment = some acknowledgment)
    (hmethod : acknowledgment.method = AckMethod.UL_MU_MULTI_STA_BA)
    (h : SendPsduMap env w = some w1) :
    ∃ a, w1.fem.m_txParams.m_acknowledgment = some a
      ∧ a.stationsReceivingMultiStaBa = [] ∧ a.baTypeBitmapLen = [] := by
  unfold SendPsduMap at h
  simp only [hack] at h
  split_ifs at h
  unfold sendPsduMapBranch at h
  simp only [hmethod, reduceCtorEq, if_false, if_true] at h
  cases hb : sendPsduMapBasicTf env acknowledgment w with
  | none => simp [hb] at h
  | some p =>
    simp only [hb, Option.map_some'] at h
    rw [sendPsduMapTail_acknowledgment _ _ _ _ h]
    unfold sendPsduMapBasicTf at hb
    (repeat' (first | split at hb | split_ifs at hb | simp only at hb)) <;>
      first
      | (cases hb; done)
      | (cases hb; exact ⟨_, rfl, rfl, rfl⟩)

/-! ## Lemmas: the entries of the Multi-STA BlockAck -/

theorem mapFind_setBaEntry (f : MultiStaBaEntry → MultiStaBaEntry) (k index : Nat)
    (blockAck : List (Nat × MultiStaBaEntry)) :
    mapFind k (setBaEntry f index blockAck)
      = if k = index then some (f ((mapFind index blockAck).getD ⟨0, 0, false, false⟩))
        else mapFind k blockAck := by
  unfold setBaEntry
  rw [mapFind_mapSet]

/-- The loop of `SendMultiStaBlockAck` leaves the entries at the indices it does not visit
as they were. -/
theorem multiStaBaLoop_other (env : ApEnv) (acknowledgment : WifiAcknowledgment) (k : Nat) :
    ∀ (stations : List ((Mac48Address × Nat) × Nat)) (blockAck : List (Nat × MultiStaBaEntry))
      (receiver : Mac48Address) (r : List (Nat × MultiStaBaEntry) × Mac48Address),
      multiStaBaLoop env acknowledgment stations blockAck receiver = some r →
      k ∉ stations.map (fun staInfo => staInfo.2) →
      mapFind k r.1 = mapFind k blockAck := by
  intro stations
  induction stations with
  | nil =>
    intro blockAck receiver r h _
    unfold multiStaBaLoop at h
    cases h
    rfl
  | cons s rest ih =>
    intro blockAck receiver r h hk
    obtain ⟨⟨addr, tid⟩, index⟩ := s
    simp only [List.map_cons, List.mem_cons, not_or] at hk
    obtain ⟨hne, hrest⟩ := hk
    unfold multiStaBaLoop at h
    simp only at h
    (repeat' (first | split at h | split_ifs at h | simp only at h)) <;>
      first
      | (cases h)
      | (rw [ih _ _ _ h hrest]
         simp only [mapFind_setBaEntry, if_neg hne])

/-- The entry that the loop of `SendMultiStaBlockAck` writes at the index of a recipient
whose index is not used by a later recipient. -/
theorem multiStaBaLoop_entries (env : ApEnv) (acknowledgment : WifiAcknowledgment) :
    ∀ (stations : List ((Mac48Address × Nat) × Nat)) (blockAck : List (Nat × MultiStaBaEntry))
      (receiver : Mac48Address) (r : List (Nat × MultiStaBaEntry) × Mac48Address),
      multiStaBaLoop env acknowledgment stations blockAck receiver = some r →
      (stations.map (fun staInfo => staInfo.2)).Nodup →
      ∀ staInfo ∈ stations, ∃ e, mapFind staInfo.2 r.1 = some e
        ∧ e.aid11 = env.getAssociationId staInfo.1.1 ∧ e.tidInfo = staInfo.1.2
        ∧ (e.ackType = true
            ↔ staInfo.1.2 = 14 ∨ acknowledgment.baTypeBitmapLen[staInfo.2]? = some 0)
        ∧ (e.ackType = false → e.bitmapFilled = true) := by
  intro stations
  induction stations with
  | nil =>
    intro blockAck receiver r _ _ staInfo hmem
    cases hmem
  | cons s rest ih =>
    intro blockAck receiver r h hnodup staInfo hmem
    obtain ⟨⟨addr, tid⟩, index⟩ := s
    simp only [List.map_cons, List.nodup_cons] at hnodup
    obtain ⟨hnot, hrest⟩ := hnodup
    rcases List.mem_cons.1 hmem with heq | hin
    · subst heq
      unfold multiStaBaLoop at h
      simp only at h
      (repeat' (first | split at h | split_ifs at h | simp only at h)) <;>
        first
        | (cases h)
        | (rw [multiStaBaLoop_other env acknowledgment index _ _ _ _ h hnot]
           simp only [mapFind_setBaEntry, if_true]
           refine ⟨_, rfl, rfl, rfl, ?_, ?_⟩ <;> simp_all)
    · unfold multiStaBaLoop at h
      simp only at h
      (repeat' (first | split at h | split_ifs at h | simp only at h)) <;>
        first
        | (cases h)
        | (exact ih _ _ _ h hrest staInfo hin)

/-! ## C36: the entries of the Multi-STA BlockAck -/

/-- The entries of the Multi-STA BlockAck that `SendMultiStaBlockAck` forwards, for an
acknowledgment object whose recorded indices are pairwise distinct and in range. -/
theorem SendMultiStaBlockAck_entries (env : ApEnv) (txVector : TxVector)
    (acknowledgment : WifiAcknowledgment) (w : FemWorld)
    (hap : w.fem.m_apMac = true) (hedca : w.fem.m_edca = true)
    (hmethod : acknowledgment.method = AckMethod.UL_MU_MULTI_STA_BA)
    (hne : acknowledgment.stationsReceivingMultiStaBa ≠ [])
    (hvalid : multiStaBaIndicesValid acknowledgment)
    (hagreement : ∀ staInfo ∈ acknowledgment.stationsReceivingMultiStaBa,
      staInfo.1.2 ≠ 14 → acknowledgment.baTypeBitmapLen[staInfo.2]? ≠ some 0 →
      env.sta.hasAgreement staInfo.1.1 staInfo.1.2 = true) :
    ∃ w' addr1 blockAck duration,
      SendMultiStaBlockAck env ⟨txVector, some acknowledgment⟩ w = some w'
        ∧ w'.effects = w.effects ++ [Effect.ForwardMultiStaBlockAck addr1 blockAck duration
            w.fem.m_muSnrTag acknowledgment.multiStaBaTxVector, Effect.ResetCw,
            Effect.Schedule (env.calculateBlockAckTxDuration acknowledgment.baTypeBitmapLen
              acknowledgment.multiStaBaTxVector) ApScheduled.TransmissionSucceeded]
        ∧ ∀ staInfo ∈ acknowledgment.stationsReceivingMultiStaBa,
            ∃ e, mapFind staInfo.2 blockAck = some e
              ∧ e.aid11 = env.getAssociationId staInfo.1.1 ∧ e.tidInfo = staInfo.1.2
              ∧ (e.ackType = true
                  ↔ staInfo.1.2 = 14 ∨ acknowledgment.baTypeBitmapLen[staInfo.2]? = some 0)
              ∧ (e.ackType = false → e.bitmapFilled = true) := by
  obtain ⟨hnodup, hlt⟩ := hvalid
  have hwf : (acknowledgment.stationsReceivingMultiStaBa.all (fun staInfo =>
      staInfo.1.2 == 14 ||
        match acknowledgment.baTypeBitmapLen[staInfo.2]? with
        | none => false
        | some bitmapLen =>
          bitmapLen == 0 || env.sta.hasAgreement staInfo.1.1 staInfo.1.2)) = true := by
    rw [List.all_eq_true]
    intro staInfo hmem
    by_cases h14 : staInfo.1.2 = 14
    · simp [h14]
    · obtain ⟨len, hget⟩ : ∃ len, acknowledgment.baTypeBitmapLen[staInfo.2]? = some len :=
        ⟨_, List.getElem?_eq_getElem (hlt staInfo hmem)⟩
      rw [hget]
      by_cases hz : len = 0
      · simp [hz]
      · have := hagreement staInfo hmem h14 (by rw [hget]; simpa using hz)
        simp [this]
  obtain ⟨r, hr⟩ := multiStaBaLoop_isSome env acknowledgment
    acknowledgment.stationsReceivingMultiStaBa [] 0 hwf
  have hentries := multiStaBaLoop_entries env acknowledgment _ _ _ _ hr hnodup
  have hemp : acknowledgment.stationsReceivingMultiStaBa.isEmpty = false := by
    cases hs : acknowledgment.stationsReceivingMultiStaBa with
    | nil => exact absurd hs hne
    | cons a as => rfl
  unfold SendMultiStaBlockAck
  simp only [hap, hmethod, hemp, hr, hedca, ne_eq, not_true_eq_false, if_false,
    Bool.false_eq_true, Bool.true_eq_false, log_fem]
  refine ⟨_, (if acknowledgment.stationsReceivingMultiStaBa.length = 1 then some r.2 else none),
    r.1, (env.getPsduDurationId (env.calculateBlockAckTxDuration acknowledgment.baTypeBitmapLen
      acknowledgment.multiStaBaTxVector) noAckParams), rfl, ?_, hentries⟩
  simp [FemWorld.log]

/-- C36: in an uplink exchange started by a Basic Trigger Frame (`SendPsduMap`, then any
sequence of receptions and timeouts), `SendMultiStaBlockAck` called on `m_txParams` forwards
a Multi-STA BlockAck in which, for every recorded recipient ((station, tid) mapped to
index i), the entry at index i carries the association id of the station and the tid; its
ack-type flag is set if and only if tid is 14 or the bitmap length recorded at index i is 0,
and otherwise the entry is a bitmap entry (filled from the Block Ack agreement). -/
theorem C36_multi_sta_block_ack_entries (env : ApEnv) (w w1 w2 : FemWorld)
    (initial acknowledgment : WifiAcknowledgment) (calls : List FemCall)
    (hinitial : w.fem.m_txParams.m_acknowledgment = some initial)
    (hbasic : initial.method = AckMethod.UL_MU_MULTI_STA_BA)
    (hsend : SendPsduMap env w = some w1)
    (hcalls : runCalls env calls w1 = some w2)
    (hack : w2.fem.m_txParams.m_acknowledgment = some acknowledgment)
    (hap : w2.fem.m_apMac = true) (hedca : w2.fem.m_edca = true)
    (hmethod : acknowledgment.method = AckMethod.UL_MU_MULTI_STA_BA)
    (hne : acknowledgment.stationsReceivingMultiStaBa ≠ [])
    (hagreement : ∀ staInfo ∈ acknowledgment.stationsReceivingMultiStaBa,
      staInfo.1.2 ≠ 14 → acknowledgment.baTypeBitmapLen[staInfo.2]? ≠ some 0 →
      env.sta.hasAgreement staInfo.1.1 staInfo.1.2 = true) :
    ∃ w' addr1 blockAck duration,
      SendMultiStaBlockAck env w2.fem.m_txParams w2 = some w'
        ∧ w'.effects = w2.effects ++ [Effect.ForwardMultiStaBlockAck addr1 blockAck duration
            w2.fem.m_muSnrTag acknowledgment.multiStaBaTxVector, Effect.ResetCw,
            Effect.Schedule (env.calculateBlockAckTxDuration acknowledgment.baTypeBitmapLen
              acknowledgment.multiStaBaTxVector) ApScheduled.TransmissionSucceeded]
        ∧ ∀ staInfo ∈ acknowledgment.stationsReceivingMultiStaBa,
            ∃ e, mapFind staInfo.2 blockAck = some e
              ∧ e.aid11 = env.getAssociationId staInfo.1.1 ∧ e.tidInfo = staInfo.1.2
              ∧ (e.ackType = true
                  ↔ staInfo.1.2 = 14 ∨ acknowledgment.baTypeBitmapLen[staInfo.2]? = some 0)
              ∧ (e.ackType = false → e.bitmapFilled = true) := by
  obtain ⟨a1, ha1, hs1, hb1⟩ := SendPsduMap_basic_empties env w w1 initial hinitial hbasic hsend
  have hv1 : ∀ a, w1.fem.m_txParams.m_acknowledgment = some a → multiStaBaIndicesValid a := by
    intro a ha
    rw [ha1] at ha
    cases ha
    refine ⟨?_, ?_⟩
    · rw [hs1]
      exact List.nodup_nil
    · intro x hx
      rw [hs1] at hx
      cases hx
  have hvalid := runCalls_valid env calls w1 w2 hcalls hv1 acknowledgment hack
  have htx : w2.fem.m_txParams = ⟨w2.fem.m_txParams.m_txVector, some acknowledgment⟩ := by
    rw [← hack]
  rw [htx]
  exact SendMultiStaBlockAck_entries env _ acknowledgment w2 hap hedca hmethod hne hvalid
    hagreement

/-- C36 at a concrete input: the Multi-STA BlockAck sent after the S-MPDU of station 11 and
the A-MPDU of station 12. -/
theorem C36_multi_sta_block_ack_entries_witness :
    ∃ w1 w2 acknowledgment,
      SendPsduMap (exApEnv false) exIdleBasicWorld = some w1
        ∧ runCalls (exApEnv false) exResponses w1 = some w2
        ∧ w2.fem.m_txParams.m_acknowledgment = some acknowledgment
        ∧ acknowledgment.stationsReceivingMultiStaBa
            = [((11, 0), 0), ((12, 0), 1), ((12, 1), 2)]
        ∧ ∃ w' addr1 blockAck duration,
          SendMultiStaBlockAck (exApEnv false) w2.fem.m_txParams w2 = some w'
            ∧ w'.effects = w2.effects ++ [Effect.ForwardMultiStaBlockAck addr1 blockAck duration
                w2.fem.m_muSnrTag acknowledgment.multiStaBaTxVector, Effect.ResetCw,
                Effect.Schedule
                  ((exApEnv false).calculateBlockAckTxDuration acknowledgment.baTypeBitmapLen
                    acknowledgment.multiStaBaTxVector) ApScheduled.TransmissionSucceeded]
            ∧ ∀ staInfo ∈ acknowledgment.stationsReceivingMultiStaBa,
                ∃ e, mapFind staInfo.2 blockAck = some e
                  ∧ e.aid11 = (exApEnv false).getAssociationId staInfo.1.1
                  ∧ e.tidInfo = staInfo.1.2
                  ∧ (e.ackType = true
                      ↔ staInfo.1.2 = 14
                        ∨ acknowledgment.baTypeBitmapLen[staInfo.2]? = some 0)
                  ∧ (e.ackType = false → e.bitmapFilled = true) :=
  ⟨_, _, _, rfl, rfl, rfl, rfl,
    C36_multi_sta_block_ack_entries (exApEnv false) exIdleBasicWorld _ _ _ _ exResponses
      rfl rfl rfl rfl rfl rfl rfl rfl (by decide) (fun _ _ _ _ => rfl)⟩

/-! ## C37: the UL target RSSI -/

theorem toInt8_range (x : Int) : -128 ≤ toInt8 x ∧ toInt8 x ≤ 127 := by
  unfold toInt8
  omega

theorem toInt8_of_range (x : Int) (h1 : -128 ≤ x) (h2 : x ≤ 127) : toInt8 x = x := by
  unfold toInt8
  omega

theorem targetRssiLoop_spec (env : ApEnv) (power : PowerEnv) :
    ∀ (fields : List CtrlTriggerUserInfoField),
      (∀ userInfo ∈ fields, (mapFind userInfo.aid12 env.staList).isSome = true) →
      ∃ targets, targetRssiLoop env power fields = some targets
        ∧ List.Forall₂
            (fun (userInfo : CtrlTriggerUserInfoField) (target : Int) =>
              ∃ addr r, mapFind userInfo.aid12 env.staList = some addr
                ∧ r = toInt8 (power.getMostRecentRssi addr)
                ∧ (r ≥ -20 → target = -20) ∧ (r ≤ -110 → target = -110)
                ∧ (-110 < r → r < -20 → target = r)
                ∧ -110 ≤ target ∧ target ≤ -20)
            fields targets := by
  intro fields
  induction fields with
  | nil =>
    intro _
    exact ⟨[], rfl, List.Forall₂.nil⟩
  | cons userInfo rest ih =>
    intro hsta
    obtain ⟨addr, haddr⟩ := Option.isSome_iff_exists.1 (hsta userInfo (List.mem_cons_self _ _))
    obtain ⟨targets, hrest, hall⟩ := ih (fun u hu => hsta u (List.mem_cons_of_mem _ hu))
    unfold targetRssiLoop
    simp only [haddr, hrest]
    refine ⟨_, rfl, List.Forall₂.cons ⟨addr, _, haddr, rfl, ?_⟩ hall⟩
    split_ifs <;> refine ⟨?_, ?_, ?_, ?_, ?_⟩ <;> omega

/-- C37: for a trigger frame whose users are all in the station list, `SetTargetRssi`
returns, and for every User Info field, with r the most recent RSSI of the station as a
signed 8-bit integer, the UL Target RSSI is -20 if r ≥ -20, -110 if r ≤ -110 and r
otherwise; it always lies in [-110, -20] dBm. -/
theorem C37_target_rssi_capped (env : ApEnv) (power : PowerEnv) (fem : HeFem)
    (trigger : CtrlTriggerHeader) (hap : fem.m_apMac = true)
    (hsta : ∀ userInfo ∈ trigger.userInfoFields,
      (mapFind userInfo.aid12 env.staList).isSome = true) :
    ∃ result, SetTargetRssi env power fem trigger = some result
      ∧ List.Forall₂
          (fun (userInfo : CtrlTriggerUserInfoField) (target : Int) =>
            ∃ addr r, mapFind userInfo.aid12 env.staList = some addr
              ∧ r = toInt8 (power.getMostRecentRssi addr)
              ∧ -128 ≤ r ∧ r ≤ 127
              ∧ (r ≥ -20 → target = -20) ∧ (r ≤ -110 → target = -110)
              ∧ (-110 < r → r < -20 → target = r)
              ∧ -110 ≤ target ∧ target ≤ -20)
          trigger.userInfoFields result.ulTargetRssi := by
  obtain ⟨targets, hloop, hall⟩ := targetRssiLoop_spec env power trigger.userInfoFields hsta
  unfold SetTargetRssi
  simp only [hap, Bool.true_eq_false, if_false, hloop]
  refine ⟨_, rfl, ?_⟩
  refine List.Forall₂.imp ?_ hall
  rintro userInfo target ⟨addr, r, h1, h2, h3⟩
  refine ⟨addr, r, h1, h2, ?_, ?_, h3⟩
  · rw [h2]
    exact (toInt8_range _).1
  · rw [h2]
    exact (toInt8_range _).2

/-- C37 at a concrete input: the trigger of the scenario for the stations 1, 2 and 3, heard
at -10, -60 and -120 dBm: the targets are -20, -60 and -110. -/
theorem C37_target_rssi_capped_witness :
    SetTargetRssi (exApEnv false) exPowerEnv (exBasicWorld []).fem
        (exApEnv false).ulMuInfoTrigger = some ⟨20, [-20, -60, -110]⟩
      ∧ ∃ result,
        SetTargetRssi (exApEnv false) exPowerEnv (exBasicWorld []).fem
            (exApEnv false).ulMuInfoTrigger = some result
          ∧ List.Forall₂
              (fun (userInfo : CtrlTriggerUserInfoField) (target : Int) =>
                ∃ addr r, mapFind userInfo.aid12 (exApEnv false).staList = some addr
                  ∧ r = toInt8 (exPowerEnv.getMostRecentRssi addr)
                  ∧ -128 ≤ r ∧ r ≤ 127
                  ∧ (r ≥ -20 → target = -20) ∧ (r ≤ -110 → target = -110)
                  ∧ (-110 < r → r < -20 → target = r)
                  ∧ -110 ≤ target ∧ target ≤ -20)
              (exApEnv false).ulMuInfoTrigger.userInfoFields result.ulTargetRssi :=
  ⟨by decide,
    C37_target_rssi_capped (exApEnv false) exPowerEnv (exBasicWorld []).fem
      (exApEnv false).ulMuInfoTrigger rfl (by decide)⟩

/-! ## C38: a round that serves exactly the stations of the TX vector -/

theorem mapFind_of_mem_nodup {β : Type} :
    ∀ (m : List (Nat × β)) (k : Nat) (v : β),
      (m.map (fun p => p.1)).Nodup → (k, v) ∈ m → mapFind k m = some v := by
  intro m
  induction m with
  | nil =>
    intro k v _ hmem
    cases hmem
  | cons p ps ih =>
    intro k v hnodup hmem
    obtain ⟨k1, v1⟩ := p
    rw [List.map_cons, List.nodup_cons] at hnodup
    obtain ⟨hnot, hps⟩ := hnodup
    unfold mapFind
    rcases List.mem_cons.1 hmem with heq | hin
    · cases heq
      simp
    · have hne : k1 ≠ k := by
        intro he
        apply hnot
        rw [he]
        exact List.mem_map.2 ⟨(k, v), hin, rfl⟩
      simp only [if_neg hne]
      exact ih k v hps hin

/-- The debit of the station with association id `aid`, for a price `debitsPerMhz`. -/
theorem debitOf_map_eq (gb : Nat → Nat) (dpm : ℚ) (txVector : HeMuUserInfoMap)
    (staList : List MasterInfo) :
    ∀ (candidates : List Candidate),
      candidatesValid staList txVector candidates = true →
      candidates.map (debitOf gb dpm txVector staList)
        = (candidates.filterMap
            (fun c => (staList[c.first]?).map (fun sta : MasterInfo => sta.aid))).map
          (fun aid =>
            match mapFind aid txVector with
            | none => 0
            | some info => dpm * (gb info.ru.ruType : ℚ)) := by
  intro candidates
  induction candidates with
  | nil => intro _; rfl
  | cons c rest ih =>
    intro hvalid
    unfold candidatesValid at hvalid
    rw [List.all_cons, Bool.and_eq_true] at hvalid
    obtain ⟨hc, hrest⟩ := hvalid
    have ih' := ih (by unfold candidatesValid; exact hrest)
    cases hs : staList[c.first]? with
    | none => simp [hs] at hc
    | some sta =>
      rw [List.map_cons, ih', List.filterMap_cons]
      simp only [hs, Option.map_some', List.map_cons]
      congr 1
      unfold debitOf
      simp only [hs]

theorem sum_bandwidth_price (gb : Nat → Nat) (dpm : ℚ) (txVector : HeMuUserInfoMap) :
    (txVector.map (fun u => dpm * (gb u.2.ru.ruType : ℚ))).sum
      = dpm * (((txVector.map (fun u => gb u.2.ru.ruType)).sum : Nat) : ℚ) := by
  induction txVector with
  | nil => simp
  | cons u us ih =>
    simp only [List.map_cons, List.sum_cons, ih]
    push_cast
    ring

/-- When the served candidates are exactly the stations of the TX vector, the debits
charged at a price `debitsPerMhz` sum to the price times the total bandwidth. -/
theorem debits_sum_exact (heRu : HeRuModel) (dpm : ℚ) (txVector : HeMuUserInfoMap)
    (staList : List MasterInfo) (candidates : List Candidate)
    (hvalid : candidatesValid staList txVector candidates = true)
    (hkeys : (txVector.map (fun u => u.1)).Nodup)
    (hexact : (candidates.filterMap
        (fun c => (staList[c.first]?).map (fun sta : MasterInfo => sta.aid))).Perm
      (txVector.map (fun u => u.1))) :
    (candidates.map (debitOf heRu.getBandwidth dpm txVector staList)).sum
      = dpm * (totalBandwidth heRu txVector : ℚ) := by
  rw [debitOf_map_eq _ _ _ _ _ hvalid, (hexact.map _).sum_eq, List.map_map]
  unfold totalBandwidth
  rw [← sum_bandwidth_price]
  apply congrArg List.sum
  apply List.map_congr_left
  intro u hu
  simp only [Function.comp]
  rw [mapFind_of_mem_nodup txVector u.1 u.2 hkeys hu]

/-- C38: in one `UpdateCredits` round (exact arithmetic) in which no credit reaches the
`MaxCredits` ceiling, the served candidates are exactly the stations of the TX vector and all
belong to the updated list, and the RUs of the TX vector have a positive total bandwidth
(below 2^16 MHz, the width of the accumulator), the round returns, the debits charged sum
to the round duration and the total credit of the list after the round is the total credit
before it. -/
theorem C38_round_conserves_total_credit (heRu : HeRuModel) (s : RrMultiUserScheduler)
    (r : CreditRound) (staList : List MasterInfo)
    (hvalid : candidatesValid staList r.txVector r.candidates = true)
    (hkeys : (r.txVector.map (fun u => u.1)).Nodup)
    (hexact : (r.candidates.filterMap
        (fun c => (staList[c.first]?).map (fun sta : MasterInfo => sta.aid))).Perm
      (r.txVector.map (fun u => u.1)))
    (hpos : 0 < totalBandwidth heRu r.txVector)
    (hwidth : totalBandwidth heRu r.txVector < 65536)
    (hunclamped : ∀ sta ∈ staList,
      sta.credits + r.txDuration / (staList.length : ℚ) ≤ s.m_maxCredits) :
    ∃ next, UpdateCredits heRu { s with m_candidates := r.candidates } staList r.txDuration
        r.txVector = some next
      ∧ chargedDebits heRu r staList = r.txDuration
      ∧ sumCredits next = sumCredits staList := by
  obtain ⟨next, hupd, _, hsum⟩ := UpdateCredits_sum heRu s r staList hvalid hunclamped
  have hacc : ((accumulateBandwidth heRu.getBandwidth (buildRuMap r.txVector) : Int) : ℚ)
      = (totalBandwidth heRu r.txVector : ℚ) := by
    rw [accumulateBandwidth_exact _ _ (by rw [buildRuMap_sum]; exact hwidth), buildRuMap_sum]
    push_cast
    rfl
  have htotal : (totalBandwidth heRu r.txVector : ℚ) ≠ 0 := by
    have : (0 : ℚ) < (totalBandwidth heRu r.txVector : ℚ) := by exact_mod_cast hpos
    exact ne_of_gt this
  have hdebits : chargedDebits heRu r staList = r.txDuration := by
    unfold chargedDebits
    rw [debits_sum_exact heRu _ r.txVector staList r.candidates hvalid hkeys hexact, hacc]
    field_simp
  have hlen : (staList.length : ℚ) ≠ 0 := by
    have hne : staList ≠ [] := by
      intro hnil
      have htx : r.txVector ≠ [] := by
        intro h
        rw [h] at hpos
        simp [totalBandwidth] at hpos
      have hcand : r.candidates.filterMap
          (fun c => (staList[c.first]?).map (fun sta : MasterInfo => sta.aid)) = [] := by
        rw [hnil]
        simp
      rw [hcand] at hexact
      have := hexact.length_eq
      simp only [List.length_nil, List.length_map] at this
      exact htx (List.length_eq_zero.1 this.symm)
    have : staList.length ≠ 0 := fun h => hne (List.length_eq_zero.1 h)
    exact_mod_cast this
  refine ⟨next, hupd, hdebits, ?_⟩
  rw [hsum, hdebits]
  field_simp

/-- C38 at a concrete input: the round of 100 microseconds serving the first and third
station of the list of four on two 52-tone RUs. -/
theorem C38_round_conserves_total_credit_witness :
    candidatesValid exStaList exRound.txVector exRound.candidates = true
      ∧ 0 < totalBandwidth exHeRu exRound.txVector
      ∧ ∃ next, UpdateCredits exHeRu { exSched [] with m_candidates := exRound.candidates }
            exStaList exRound.txDuration exRound.txVector = some next
          ∧ chargedDebits exHeRu exRound exStaList = exRound.txDuration
          ∧ sumCredits next = sumCredits exStaList :=
  ⟨by decide, by decide,
    C38_round_conserves_total_credit exHeRu (exSched []) exRound exStaList (by decide)
      (by decide) (by decide) (by decide) (by decide) (by decide!)⟩

/-! ## C39: the lookup of the own entry in `SendBusyTone` -/

/-- C39: `SendBusyTone` takes the station id as `uint8_t` while the entries hold it as
`uint16_t`.  The stations with association ids 300 and 301 registered on one RU; the
evaluation invoked for station 300 looks for the id 44, finds no entry and dereferences the
end iterator.  When the stations 44 and 300 registered on one RU, the evaluation invoked
for station 300 (number 1) finds the entry of station 44 (number 3), declares it the winner
and station 300 answers under the id 44. -/
theorem C39_busy_tone_lookup_misses_wide_id :
    (findIf (fun i => i.ru == exRu) exGlobalsWide.m_staRuInfo).map
        (fun m => m.2.bt.map (fun b => (b.staId, b.arbitrationNum))) = some [(300, 1), (301, 3)]
      ∧ SendBusyTone exEnv exTriggerWide exHdr 300 exRu false exGlobalsWide (exSta 300) = none
      ∧ (findIf (fun i => i.ru == exRu) exGlobalsAlias.m_staRuInfo).map
          (fun m => m.2.bt.map (fun b => (b.staId, b.arbitrationNum))) = some [(44, 3), (300, 1)]
      ∧ (SendBusyTone exEnv exTriggerWide exHdr 300 exRu false exGlobalsAlias (exSta 300)).map
          (fun r =>
            (r.1.m_staRuInfo.map (fun m => m.bt.map (fun b => (b.staId, b.isWin))),
              r.2.m_psduMap.map (fun psdu => psdu.1)))
        = some ([[(44, true), (300, false)]], [44]) := by
  decide

/-! ## C40: the recorded indices throughout an uplink exchange -/

/-- C40: throughout an uplink exchange started by a Basic Trigger Frame, that is after
`SendPsduMap` for the acknowledgment method `UL_MU_MULTI_STA_BA` (which empties the
bookkeeping) followed by any sequence of calls of `ReceiveMpdu`, `EndReceiveAmpdu` and the
timeout handlers, the indices recorded in `stationsReceivingMultiStaBa` are pairwise
distinct and each is smaller than the length of `baType.m_bitmapLen`, so that the lookup
`m_bitmapLen.at (index)` of `SendMultiStaBlockAck` is in range. -/
theorem C40_recorded_indices_distinct_and_in_range (env : ApEnv) (w w1 w2 : FemWorld)
    (initial : WifiAcknowledgment) (calls : List FemCall)
    (hack : w.fem.m_txParams.m_acknowledgment = some initial)
    (hmethod : initial.method = AckMethod.UL_MU_MULTI_STA_BA)
    (hsend : SendPsduMap env w = some w1)
    (hcalls : runCalls env calls w1 = some w2) :
    ∀ acknowledgment, w2.fem.m_txParams.m_acknowledgment = some acknowledgment →
      (acknowledgment.stationsReceivingMultiStaBa.map (fun staInfo => staInfo.2)).Nodup
        ∧ ∀ staInfo ∈ acknowledgment.stationsReceivingMultiStaBa,
            staInfo.2 < acknowledgment.baTypeBitmapLen.length
              ∧ ∃ bitmapLen, acknowledgment.baTypeBitmapLen[staInfo.2]? = some bitmapLen := by
  obtain ⟨a1, ha1, hs1, hb1⟩ := SendPsduMap_basic_empties env w w1 initial hack hmethod hsend
  have hv1 : ∀ a, w1.fem.m_txParams.m_acknowledgment = some a → multiStaBaIndicesValid a := by
    intro a ha
    rw [ha1] at ha
    cases ha
    refine ⟨?_, ?_⟩
    · rw [hs1]
      exact List.nodup_nil
    · intro x hx
      rw [hs1] at hx
      cases hx
  intro acknowledgment ha
  obtain ⟨hnodup, hlt⟩ := runCalls_valid env calls w1 w2 hcalls hv1 acknowledgment ha
  refine ⟨hnodup, fun staInfo hmem => ⟨hlt staInfo hmem, ?_⟩⟩
  exact ⟨_, List.getElem?_eq_getElem (hlt staInfo hmem)⟩

/-- C40 at a concrete input: the Basic Trigger Frame soliciting the stations 11 and 12,
answered by an S-MPDU of station 11 and an A-MPDU of two TIDs of station 12. -/
theorem C40_recorded_indices_distinct_and_in_range_witness :
    ∃ w1 w2 acknowledgment,
      SendPsduMap (exApEnv false) exIdleBasicWorld = some w1
        ∧ runCalls (exApEnv false) exResponses w1 = some w2
        ∧ w2.fem.m_txParams.m_acknowledgment = some acknowledgment
        ∧ acknowledgment.stationsReceivingMultiStaBa
            = [((11, 0), 0), ((12, 0), 1), ((12, 1), 2)]
        ∧ acknowledgment.baTypeBitmapLen = [0, 32, 32]
        ∧ (acknowledgment.stationsReceivingMultiStaBa.map (fun staInfo => staInfo.2)).Nodup
        ∧ ∀ staInfo ∈ acknowledgment.stationsReceivingMultiStaBa,
            staInfo.2 < acknowledgment.baTypeBitmapLen.length
              ∧ ∃ bitmapLen, acknowledgment.baTypeBitmapLen[staInfo.2]? = some bitmapLen :=
  ⟨_, _, _, rfl, rfl, rfl, rfl, rfl,
    C40_recorded_indices_distinct_and_in_range (exApEnv false) exIdleBasicWorld _ _ _
      exResponses rfl rfl rfl rfl _ rfl⟩
